import Mathlib

/-!
A shallow embedding of descumm6, the SCUMM v6/v7/v8 script disassembler.

The definitions below follow `descumm6.cpp` function by function and keep its names.
Conventions of the embedding:

* bytes, offsets and table indices are `Nat`; C `int`/`long` values are `Int`.  The source
  declares `typedef unsigned long uint32`, so `long` is taken to be 32 bits wide, like `int`;
  conversions between `unsigned` and `int` are the explicit `toU32` / `toInt32`.
* the build is little endian (`TO_LE_16(a)` is `(a)`).
* the globals of the program are the fields of `State`; text written with `printf` is appended,
  one line per entry, to `State.stdout`.
* `exit(n)` is the error value `Fault.exit n out` of `Except`, carrying everything printed.
  Places where the C program reads outside an object (past the terminating NUL of a format
  string, outside a stack list, a field that was never written) yield `Fault.undefined`.
* loops whose bound is not syntactic carry a fuel argument; the callers pass a fuel that
  covers every iteration they can make.
-/

namespace Descumm6

/-! Machine integers and `printf` conversions -/

/-- Conversion to `unsigned int`. -/
def toU32 (i : Int) : Nat := (i % 4294967296).toNat

/-- Conversion of an `unsigned int` to `int` / 32-bit `long`. -/
def toInt32 (n : Nat) : Int :=
  if n % 4294967296 < 2147483648 then (n % 4294967296 : Nat) else (n % 4294967296 : Nat) - 4294967296

/-- Conversion of the low 16 bits to `int16` / `short`. -/
def toInt16 (n : Nat) : Int :=
  if n % 65536 < 32768 then (n % 65536 : Nat) else (n % 65536 : Nat) - 65536

/-- The conversion `%d` / `%ld`. -/
def fmt_d (i : Int) : String := toString i

/-- The conversion `%x` of an `unsigned int`. -/
def fmt_x (n : Nat) : String := String.mk (Nat.toDigits 16 n)

/-- The conversions `%.2X` and `%.4X`: upper-case hexadecimal with at least `prec` digits. -/
def fmt_X (prec n : Nat) : String :=
  let ds := (Nat.toDigits 16 n).map Char.toUpper
  String.mk (List.replicate (prec - ds.length) (Char.ofNat 48) ++ ds)

/-- The conversion `%2X`: upper-case hexadecimal, blank padded to width 2. -/
def fmt_2X (n : Nat) : String :=
  let ds := (Nat.toDigits 16 n).map Char.toUpper
  String.mk (List.replicate (2 - ds.length) (Char.ofNat 32) ++ ds)

/-- A C string literal as the bytes stored for it, the terminating NUL included. -/
def cstr (s : String) : List Nat := s.toList.map Char.toNat ++ [0]

/-- The text made of the given bytes (one `char` each). -/
def bytesToString (bs : List Nat) : String := String.mk (bs.map Char.ofNat)

/-! Data model -/

/-- Expression node (`struct StackEnt`); the constructor is the `type` tag and carries the
fields that the program writes for that tag. -/
inductive StackEnt where
  | seInt (data : Int)
  | seVar (data : Int)
  | seArray (data : Int) (left : Option StackEnt) (right : StackEnt)
  | seBinary (data : Int) (left right : StackEnt)
  | seUnary (data : Int) (left : StackEnt)
  | seComplex (str : String)
  | seStackList (data : Int) (list : List StackEnt)
  | seDup (data : Int)
  | seNeg (left : StackEnt)

/-- Block-stack frame (`struct BlockStack`); `from_` and `to_` are the C fields `from` and `to`. -/
structure BlockStack where
  isWhile : Bool
  from_ : Nat
  to_ : Nat
deriving DecidableEq, Repr

def isZero : Int := 0
def isEqual : Int := 1
def isNotEqual : Int := 2
def isGreater : Int := 3
def isLess : Int := 4
def isLessEqual : Int := 5
def isGreaterEqual : Int := 6
def operAdd : Int := 7
def operSub : Int := 8
def operMul : Int := 9
def operDiv : Int := 10
def operLand : Int := 11
def operLor : Int := 12
def operBand : Int := 13
def operBor : Int := 14
def operMod : Int := 15

def oper_list : List String :=
  ["0==", "==", "!=", ">", "<", "<=", ">=", "+", "-", "*", "/", "&&", "||", "&", "|", "%"]

/-- Outcome of a run that does not return normally. -/
inductive Fault where
  /-- The call `exit(code)`; `out` is everything written to standard output before it. -/
  | exit (code : Nat) (out : List String)
  /-- The C program reads outside an object here; the embedding assigns no behaviour. -/
  | undefined (what : String)
  /-- A fuel-bounded loop of the embedding ran out of fuel. -/
  | outOfFuel
deriving DecidableEq, Repr

abbrev Result (α : Type) := Except Fault α

/-- An order in which a compiled binary evaluates the arguments `dim2`, `dim1` and `value`
of a call `writeArray(i, dim2, dim1, value)`; the constructor names the arguments in the
order of their evaluation.  C++ leaves the order to the compiler; `dim2Dim1Value` is left
to right and `valueDim1Dim2` is right to left. -/
inductive ArgOrder where
  | valueDim1Dim2
  | valueDim2Dim1
  | dim1ValueDim2
  | dim1Dim2Value
  | dim2ValueDim1
  | dim2Dim1Value
deriving DecidableEq, Repr

/-- The argument `value` of a call whose arguments `dim2`, `dim1`, `value` are three
`pop()` calls that return `first`, `second` and `third` in the order of their evaluation. -/
def ArgOrder.value (o : ArgOrder) (first second third : StackEnt) : StackEnt :=
  match o with
  | .valueDim1Dim2 => first
  | .valueDim2Dim1 => first
  | .dim1ValueDim2 => second
  | .dim1Dim2Value => third
  | .dim2ValueDim1 => second
  | .dim2Dim1Value => third

/-- The argument `dim1` of that call. -/
def ArgOrder.dim1 (o : ArgOrder) (first second third : StackEnt) : StackEnt :=
  match o with
  | .valueDim1Dim2 => second
  | .valueDim2Dim1 => third
  | .dim1ValueDim2 => first
  | .dim1Dim2Value => first
  | .dim2ValueDim1 => third
  | .dim2Dim1Value => second

/-- The argument `dim2` of that call. -/
def ArgOrder.dim2 (o : ArgOrder) (first second third : StackEnt) : StackEnt :=
  match o with
  | .valueDim1Dim2 => third
  | .valueDim2Dim1 => second
  | .dim1ValueDim2 => third
  | .dim1Dim2Value => second
  | .dim2ValueDim1 => first
  | .dim2Dim1Value => first

/-- Whether the order evaluates the argument `value` before the argument `dim1`; this is
all that matters to a call whose argument `dim2` is `NULL`. -/
def ArgOrder.valueFirst : ArgOrder → Bool
  | .valueDim1Dim2 => true
  | .valueDim2Dim1 => true
  | .dim1ValueDim2 => false
  | .dim1Dim2Value => false
  | .dim2ValueDim1 => true
  | .dim2Dim1Value => false

/-- The argument `value` of a call whose arguments `dim1`, `value` are two `pop()` calls
that return `first` and `second` in the order of their evaluation. -/
def ArgOrder.value2 (o : ArgOrder) (first second : StackEnt) : StackEnt :=
  if o.valueFirst then first else second

/-- The argument `dim1` of that call. -/
def ArgOrder.dim1of2 (o : ArgOrder) (first second : StackEnt) : StackEnt :=
  if o.valueFirst then second else first

/-- The global variables of the program, and with them one parameter of the compiled
binary (`argOrder`). -/
structure State where
  g_jump_opcode : Nat := 0x66
  /-- The array `StackEnt *stack[128]` with `num_stack`: the entries in use, top of stack
  first.  The source stores into it without a bound check; the list is not bounded. -/
  stack : List StackEnt := []
  /-- The buffer the file was read into (`memorg`), as far as its contents matter;
  bytes beyond the end of the list read as 0. -/
  mem : List Nat := []
  /-- The pointers `cur_pos` and `org_pos` as indices into `mem`. -/
  cur_pos : Nat := 0
  org_pos : Nat := 0
  /-- The string held by the line buffer `output`. -/
  output : String := ""
  pendingElse : Bool := false
  haveElse : Bool := false
  pendingElseTo : Int := 0
  pendingElseOffs : Int := 0
  pendingElseOpcode : Int := 0
  pendingElseIndent : Int := 0
  offs_of_line : Int := 0
  alwaysShowOffs : Bool := false
  dontOutputIfs : Bool := false
  dontOutputElse : Bool := false
  dontOutputElseif : Bool := false
  dontOutputWhile : Bool := false
  dontShowOpcode : Bool := false
  dontShowOffsets : Bool := false
  haltOnError : Bool := false
  scriptVersion : Nat := 6
  /-- The array `block_stack` with `num_block_stack`: the frames in use, top frame first. -/
  block_stack : List BlockStack := []
  dupindex : Int := 0
  /-- Lines written to standard output so far. -/
  stdout : List String := []
  /-- Not a variable of the program: the order in which the binary evaluates the `pop()`
  arguments of the `writeArray` call in the handler of the given opcode (0x46, 0x47, 0x4A,
  0x4B of `next_line`).  The source does not determine it; no function writes it.  The
  value of a state that does not name one is right to left. -/
  argOrder : Nat → ArgOrder := fun _ => .valueDim1Dim2

def num_stack (s : State) : Nat := s.stack.length

def num_block_stack (s : State) : Nat := s.block_stack.length

def get_curoffs (s : State) : Int := (s.cur_pos : Int) - (s.org_pos : Int)

/-- One `printf` of a whole line. -/
def printLine (line : String) (s : State) : State := { s with stdout := s.stdout ++ [line] }

def var_names6 : List (Option String) := [
  /- 0 -/ none, some "g_ego", some "g_camera_cur_pos", some "g_have_msg",
  /- 4 -/ some "g_room", some "g_override", none, none,
  /- 8 -/ some "g_num_actor", none, some "g_drive_number", some "g_timer_1",
  /- 12 -/ some "g_timer_2", some "g_timer_3", none, none,
  /- 16 -/ none, some "g_camera_min", some "g_camera_max", some "g_timer_next",
  /- 20 -/ some "g_virtual_mouse_x", some "g_virtual_mouse_y", some "g_room_resource", some "g_last_sound",
  /- 24 -/ some "g_cutsceneexit_key", some "g_talk_actor", some "g_camera_fast", some "g_scroll_script",
  /- 28 -/ some "g_entry_script", some "g_entry_script_2", some "g_exit_script", some "g_exit_script_2",
  /- 32 -/ some "g_verb_script", some "g_sentence_script", some "g_hook_script", some "g_begin_cutscene_script",
  /- 36 -/ some "g_end_cutscene_script", some "g_char_inc", some "g_walkto_obj", some "g_debug_mode",
  /- 40 -/ some "g_heap_space", some "g_scr_width", some "g_restart_key", some "g_pause_key",
  /- 44 -/ some "g_mouse_x", some "g_mouse_y", some "g_timer", some "g_timer_4",
  /- 48 -/ none, some "g_video_mode", some "g_save_load_key", some "g_fixed_disk",
  /- 52 -/ some "g_cursor_state", some "g_user_put", some "g_scr_height", none,
  /- 56 -/ some "g_sound_thing", some "g_talkstop_key", none, none,
  /- 60 -/ none, none, none, none,
  /- 64 -/ some "g_sound_param", some "g_sound_param_2", some "g_sound_param_3", some "g_mouse_present",
  /- 68 -/ some "g_performance_1", some "g_performance_2", none, some "g_save_load_thing",
  /- 72 -/ some "g_new_room", none, none, none,
  /- 76 -/ some "g_ems_space"
]

def var_names7 : List (Option String) := [
  /- 0 -/ none, some "VAR_MOUSE_X", some "VAR_MOUSE_Y", some "VAR_VIRT_MOUSE_X",
  /- 4 -/ some "VAR_VIRT_MOUSE_Y", some "VAR_V6_SCREEN_WIDTH", some "VAR_V6_SCREEN_HEIGHT", some "VAR_CAMERA_POS_X",
  /- 8 -/ some "VAR_CAMERA_POS_Y", some "VAR_OVERRIDE", some "VAR_ROOM", some "VAR_ROOM_RESOURCE",
  /- 12 -/ some "VAR_TALK_ACTOR", some "VAR_HAVE_MSG", some "VAR_TIMER", some "VAR_TMR_4",
  /- 16 -/ none, none, none, none,
  /- 20 -/ none, none, some "VAR_LEFTBTN_DOWN", some "VAR_RIGHTBTN_DOWN",
  /- 24 -/ some "VAR_LEFTBTN_HOLD", some "VAR_RIGHTBTN_HOLD", some "VAR_PERFORMANCE_1", some "VAR_PERFORMANCE_2",
  /- 28 -/ none, none, none, none,
  /- 32 -/ some "VAR_V6_EMSSPACE", none, some "VAR_V6_RANDOM_NR", some "VAR_NEW_ROOM",
  /- 36 -/ some "VAR_WALKTO_OBJ", none, some "VAR_CAMERA_DEST_X", some "VAR_CAMERA_DEST_>",
  /- 40 -/ some "VAR_CAMERA_FOLLOWED_ACTOR", none, none, none,
  /- 44 -/ none, none, none, none,
  /- 48 -/ none, none, some "VAR_SCROLL_SCRIPT", some "VAR_ENTRY_SCRIPT",
  /- 52 -/ some "VAR_ENTRY_SCRIPT2", some "VAR_EXIT_SCRIPT", some "VAR_EXIT_SCRIPT2", some "VAR_VERB_SCRIPT",
  /- 56 -/ some "VAR_SENTENCE_SCRIPT", some "VAR_HOOK_SCRIPT", some "VAR_CUTSCENE_START_SCRIPT", some "VAR_CUTSCENE_END_SCRIPT",
  /- 60 -/ some "VAR_UNK_SCRIPT", some "VAR_UNK_SCRIPT2", some "VAR_CUTSCENEEXIT_KEY", some "VAR_RESTART_KEY",
  /- 64 -/ some "VAR_PAUSE_KEY", some "VAR_SAVELOADDIALOG_KEY", some "VAR_TALKSTOP_KEY", none,
  /- 68 -/ none, none, none, none,
  /- 72 -/ none, none, none, none,
  /- 76 -/ none, none, none, none,
  /- 80 -/ none, none, none, none,
  /- 84 -/ none, none, none, none,
  /- 88 -/ none, none, none, none,
  /- 92 -/ none, none, none, none,
  /- 96 -/ none, some "VAR_TIMER_NEXT", some "VAR_TMR_1", some "VAR_TMR_2",
  /- 100 -/ some "VAR_TMR_3", some "VAR_CAMERA_MIN_X", some "VAR_CAMERA_MAX_X", some "VAR_CAMERA_MIN_Y",
  /- 104 -/ some "VAR_CAMERA_MAX_Y", some "VAR_CAMERA_THRESHOLD_X", some "VAR_CAMERA_THRESHOLD_Y", some "VAR_CAMERA_SPEED_X",
  /- 108 -/ some "VAR_CAMERA_SPEED_Y", some "VAR_CAMERA_ACCEL_X", some "VAR_CAMERA_ACCEL_Y", some "VAR_EGO",
  /- 112 -/ some "VAR_CURSORSTATE", some "VAR_USERPUT", some "VAR_DEFAULT_TALK_DELAY", some "VAR_CHARINC",
  /- 116 -/ some "VAR_DEBUGMODE", none, none, some "VAR_CHARSET_MASK",
  /- 120 -/ none, none, none, some "VAR_VIDEONAME",
  /- 124 -/ none, none, none, none,
  /- 128 -/ none, none, some "VAR_STRING2DRAW", some "VAR_CUSTOMSCALETABLE"
]

def var_names8 : List (Option String) := [
  /- 0 -/ none, some "room_width?", some "room_height?", some "cursor_screen_x",
  /- 4 -/ some "cursor_screen_y", some "cursor_x", some "cursor_y", some "cursor_state?",
  /- 8 -/ some "userface_state?", some "camera_x", some "camera_y", some "camera_dest_x",
  /- 12 -/ some "camera_dest_y", none, none, some "message_stuff?",
  /- 16 -/ none, none, none, none,
  /- 20 -/ none, none, none, none,
  /- 24 -/ some "timedate_year?", some "timedate_month?", some "timedate_day?", some "timedate_hour?",
  /- 28 -/ some "timedate_minute?", some "timedate_second?", some "override_hit", some "current_room",
  /- 32 -/ none, none, none, none,
  /- 36 -/ none, none, none, some "voice_text_mode",
  /- 40 -/ none, none, some "current_disk_number", none,
  /- 44 -/ none, none, none, none,
  /- 48 -/ none, none, none, some "script_before_roomentry",
  /- 52 -/ some "script_after_roomentry", some "script_before_roomexit", some "script_after_roomexit", none,
  /- 56 -/ some "sentence_script", some "pickup_script", some "cutscene_script", some "endcutscene_script",
  /- 60 -/ none, none, none, none,
  /- 64 -/ some "pause_key?", some "saveload_key?", none, none,
  /- 68 -/ none, none, none, none,
  /- 72 -/ none, none, none, none,
  /- 76 -/ none, none, none, none,
  /- 80 -/ none, none, none, none,
  /- 84 -/ none, none, none, none,
  /- 88 -/ none, none, none, none,
  /- 92 -/ none, none, none, none,
  /- 96 -/ none, none, none, none,
  /- 100 -/ none, none, none, none,
  /- 104 -/ none, none, none, none,
  /- 108 -/ none, none, none, none,
  /- 112 -/ none, none, none, none,
  /- 116 -/ none, none, none, none,
  /- 120 -/ none, none, none, none,
  /- 124 -/ none, none, some "default_actor", none,
  /- 128 -/ none, some "text_delay?", some "sputm_debug", none
]

def getVarName (scriptVersion : Nat) (var : Nat) : Option String :=
  if scriptVersion = 8 then
    if var ≥ var_names8.length then none else (var_names8.getD var none)
  else if scriptVersion = 7 then
    if var ≥ var_names7.length then none else (var_names7.getD var none)
  else
    if var ≥ var_names6.length then none else (var_names6.getD var none)

def push (se : StackEnt) (s : State) : State := { s with stack := se :: s.stack }

def invalidop {α : Type} (cmd : Option String) (op : Nat) (s : State) : Result α :=
  match cmd with
  | some c =>
    .error (.exit 1 (s.stdout ++
      ["invalid opcode " ++ c ++ ":0x" ++ fmt_x op ++ " (stack count " ++ fmt_d (num_stack s) ++ ")"]))
  | none =>
    .error (.exit 1 (s.stdout ++
      ["invalid opcode 0x" ++ fmt_x op ++ " (stack count " ++ fmt_d (num_stack s) ++ ")"]))

/-- The byte at index `i` of the buffer. -/
def byteAt (s : State) (i : Nat) : Nat := s.mem.getD i 0

/-- The byte at a computed address `org_pos + k`; addresses in front of the buffer read as 0
(they are not formed when `org_pos ≥ 5`, as it is after any header). -/
def byteAtInt (s : State) (i : Int) : Nat := if i < 0 then 0 else s.mem.getD i.toNat 0

def get_byte (s : State) : Nat × State :=
  (byteAt s s.cur_pos, { s with cur_pos := s.cur_pos + 1 })

/-- Result as `uint`: the 16-bit read is made through `int16` and so is sign extended. -/
def get_word (s : State) : Nat × State :=
  if s.scriptVersion = 8 then
    (byteAt s s.cur_pos + 256 * byteAt s (s.cur_pos + 1) + 65536 * byteAt s (s.cur_pos + 2)
      + 16777216 * byteAt s (s.cur_pos + 3), { s with cur_pos := s.cur_pos + 4 })
  else
    (toU32 (toInt16 (byteAt s s.cur_pos + 256 * byteAt s (s.cur_pos + 1))),
      { s with cur_pos := s.cur_pos + 2 })

def get_signed_word (s : State) : Int × State :=
  let (i, s) := get_word s
  if s.scriptVersion = 8 then (toInt32 i, s) else (toInt16 i, s)

def se_neg (se : StackEnt) : StackEnt := .seNeg se

def se_int (i : Int) : StackEnt := .seInt i

def se_var (i : Int) : StackEnt := .seVar i

def se_array (i : Int) (dim2 : Option StackEnt) (dim1 : StackEnt) : StackEnt := .seArray i dim2 dim1

def se_oper (a : StackEnt) (op : Int) : StackEnt := .seUnary op a

def se_oper2 (a : StackEnt) (op : Int) (b : StackEnt) : StackEnt := .seBinary op a b

def se_complex (str : String) : StackEnt := .seComplex str

/-- The bits of a `long` selected by an unsigned mask (`se->data & mask`). -/
def maskOf (data : Int) (mask : Nat) : Nat := toU32 data &&& mask

/-- The loops `for (i = n; --i >= 0;) { text of item i; if (i) ',' }` of `se_astext` and `ext`,
over the texts of the items. -/
def joinDown (items : List String) : Nat → String
  | 0 => ""
  | i + 1 => items.getD i "" ++ (if i ≠ 0 then "," else "") ++ joinDown items i

/-- Text of a variable (`case seVar` of `se_astext`). -/
def varText (scriptVersion : Nat) (data : Int) : String :=
  if scriptVersion = 8 then
    if maskOf data 0xF0000000 = 0 then
      match getVarName scriptVersion (maskOf data 0xFFFFFFF) with
      | some s => s
      | none => "var" ++ fmt_d (maskOf data 0xFFFFFFF)
    else if maskOf data 0x80000000 ≠ 0 then
      "bitvar" ++ fmt_d (maskOf data 0x7FFFFFFF)
    else if maskOf data 0x40000000 ≠ 0 then
      "localvar" ++ fmt_d (maskOf data 0xFFFFFFF)
    else
      "?var?" ++ fmt_d data
  else
    if maskOf data 0xF000 = 0 then
      match getVarName scriptVersion (maskOf data 0xFFF) with
      | some s => s
      | none => "var" ++ fmt_d (maskOf data 0xFFF)
    else if maskOf data 0x8000 ≠ 0 then
      "bitvar" ++ fmt_d (maskOf data 0x7FFF)
    else if maskOf data 0x4000 ≠ 0 then
      "localvar" ++ fmt_d (maskOf data 0xFFF)
    else
      "?var?" ++ fmt_d data

mutual
/-- The text `se_astext(se, where, wantparens)` appends at `where`. -/
def se_astext (scriptVersion : Nat) : StackEnt → Bool → String
  | .seInt data, _ => fmt_d data
  | .seVar data, _ => varText scriptVersion data
  | .seArray data (some left) right, _ =>
    "array-" ++ fmt_d data ++ "[" ++ se_astext scriptVersion left true ++ "]["
      ++ se_astext scriptVersion right true ++ "]"
  | .seArray data none right, _ =>
    "array-" ++ fmt_d data ++ "[" ++ se_astext scriptVersion right true ++ "]"
  | .seUnary data left, _ =>
    oper_list.getD data.toNat "" ++ " " ++ se_astext scriptVersion left true
  | .seBinary data left right, wantparens =>
    (if wantparens then "(" else "") ++ se_astext scriptVersion left true
      ++ " " ++ oper_list.getD data.toNat "" ++ " " ++ se_astext scriptVersion right true
      ++ (if wantparens then ")" else "")
  | .seComplex str, _ => str
  | .seStackList data list, _ =>
    "[" ++ joinDown (se_astext_list scriptVersion list) data.toNat ++ "]"
  | .seDup data, _ => "dup[" ++ fmt_d data ++ "]"
  | .seNeg left, _ => "!" ++ se_astext scriptVersion left true
/-- The texts of the entries of `se->list`, by index. -/
def se_astext_list (scriptVersion : Nat) : List StackEnt → List String
  | [] => []
  | se :: rest => se_astext scriptVersion se true :: se_astext_list scriptVersion rest
end

/-- The function `pop()`.  On an empty stack the diagnostic is printed first. -/
def pop (s : State) : Result (StackEnt × State) :=
  match s.stack with
  | [] =>
    let s := printLine "No items on stack to pop!" s
    if !s.haltOnError then .ok (se_complex "**** INVALID DATA ****", s)
    else .error (.exit 1 s.stdout)
  | se :: rest => .ok (se, { s with stack := rest })

def kill (se : StackEnt) (s : State) : State :=
  match se with
  | .seDup _ => push se s
  | _ => { s with output := "pop(" ++ se_astext s.scriptVersion se true ++ ")" }

/-- The function `doAssign(dst, src)`; the first component is `dst` after the call (its `data` is
overwritten when both nodes are `seDup`). -/
def doAssign (dst src : StackEnt) (s : State) : StackEnt × State :=
  match src, dst with
  | .seDup data, .seDup _ => (.seDup data, s)
  | _, _ =>
    let text := se_astext s.scriptVersion dst true ++ " = " ++ se_astext s.scriptVersion src true
    (dst, { s with output := text })

def doAdd (se : StackEnt) (val : Int) (s : State) : State :=
  { s with output := se_astext s.scriptVersion se true ++ " += " ++ fmt_d val }

def dup (se : StackEnt) (s : State) : StackEnt × State :=
  match se with
  | .seInt _ => (se, s)
  | _ =>
    let s := { s with dupindex := s.dupindex + 1 }
    doAssign (.seDup s.dupindex) se s

def writeArray (i : Int) (dim2 : Option StackEnt) (dim1 value : StackEnt) (s : State) : State :=
  (doAssign (se_array i dim2 dim1) value s).2

def writeVar (i : Int) (value : StackEnt) (s : State) : State :=
  (doAssign (se_var i) value s).2

def addArray (i : Int) (dim1 : StackEnt) (val : Int) (s : State) : State :=
  doAdd (se_array i none dim1) val s

def addVar (i : Int) (val : Int) (s : State) : State :=
  doAdd (se_var i) val s

/-- The double quote character as a string. -/
def dquote : String := String.singleton (Char.ofNat 34)

/-- The `switch (i)` of `se_get_string`: the text written for the escape code `i`. -/
def se_get_string_escape (i : Nat) (s : State) : String × State :=
  if i = 1 then (":newline:", s)
  else if i = 2 then (":keeptext:", s)
  else if i = 3 then (":wait:", s)
  else if i = 4 then
    let (w, s) := get_word s
    (":" ++ se_astext s.scriptVersion (.seVar (toInt32 w)) true ++ ":", s)
  else if i = 9 then
    let (w, s) := get_word s
    (":startanim=" ++ fmt_d (toInt32 w) ++ ":", s)
  else if i = 10 then
    (":sound:", { s with cur_pos := s.cur_pos + 14 })
  else if i = 14 then
    let (w, s) := get_word s
    (":setfont=" ++ fmt_d (toInt32 w) ++ ":", s)
  else if i = 12 then
    let (w, s) := get_word s
    (":setcolor=" ++ fmt_d (toInt32 w) ++ ":", s)
  else if i = 13 then
    let (w, s) := get_word s
    (":unk2=" ++ fmt_d (toInt32 w) ++ ":", s)
  else
    let (w, s) := get_word s
    (":unk" ++ fmt_d i ++ "=" ++ fmt_d (toInt32 w) ++ ":", s)

/-- The `while` loop of `se_get_string`: `e` is the text written to `buf` so far, `inq` the
flag `in`.  Every iteration reads at least one byte. -/
def se_get_string_loop : Nat → String → Bool → State → Result (String × State)
  | 0, _, _, _ => .error .outOfFuel
  | fuel + 1, e, inq, s =>
    let (cmd, s) := get_byte s
    if cmd = 0 then
      .ok (if inq then e ++ dquote else e, s)
    else if cmd = 0xFF ∨ cmd = 0xFE then
      let e := if inq then e ++ dquote else e
      let (i, s) := get_byte s
      let (text, s) := se_get_string_escape i s
      se_get_string_loop fuel (e ++ text) false s
    else
      let e := if !inq then e ++ dquote else e
      se_get_string_loop fuel (e ++ String.singleton (Char.ofNat cmd)) true s

/-- The function `se_get_string()`; bytes beyond the buffer read as 0, so the loop ends within the fuel. -/
def se_get_string (s : State) : Result (StackEnt × State) :=
  match se_get_string_loop (s.mem.length - s.cur_pos + 1) "" false s with
  | .ok (buf, s) => .ok (se_complex buf, s)
  | .error f => .error f

/-- The loop `for (i = 0; i < num; i++) se->list[i] = pop();`. -/
def popList : Nat → State → Result (List StackEnt × State)
  | 0, s => .ok ([], s)
  | num + 1, s =>
    match pop s with
    | .error f => .error f
    | .ok (se, s) =>
      match popList num s with
      | .error f => .error f
      | .ok (list, s) => .ok (se :: list, s)

def se_get_list (s : State) : Result (StackEnt × State) :=
  match pop s with
  | .error f => .error f
  | .ok (senum, s) =>
    match senum with
    | .seInt num =>
      match popList num.toNat s with
      | .error f => .error f
      | .ok (list, s) => .ok (.seStackList num list, s)
    | _ =>
      .error (.exit 1
        (s.stdout ++ ["stackList with variable number of arguments, cannot disassemble"]))

/-- What follows the NUL-terminated string at `fmt` (`fmt += strlen(fmt) + 1`). -/
def skipString : List Nat → Option (List Nat)
  | [] => none
  | c :: rest => if c = 0 then some rest else skipString rest

/-- The NUL-terminated string at `fmt`, without its NUL. -/
def stringAt (fmt : List Nat) : List Nat := fmt.takeWhile (fun c => c ≠ 0)

/-- The loops that locate the entry of a sub-opcode menu.  `findSubOp` is at the leading byte
of an entry (`while ((cmd = *fmt++) != extcmd)`), `skipSubOp` scans to the next comma.  The
result is `fmt` just behind the leading byte that was found. -/
def scanSubOp (extstr : List Nat) (extcmd : Nat) (s : State) : Bool → List Nat → Result (List Nat)
  | _, [] => .error (.undefined "format string read past its terminating NUL")
  | true, cmd :: fmt =>
    if cmd = extcmd then .ok fmt else scanSubOp extstr extcmd s false fmt
  | false, cmd :: fmt =>
    if cmd = 44 then scanSubOp extstr extcmd s true fmt
    else if cmd = 0 then invalidop (some (bytesToString extstr)) extcmd s
    else scanSubOp extstr extcmd s false fmt

/-- The field `data` of a node, when the program has written it for that tag. -/
def StackEnt.dataField : StackEnt → Option Int
  | .seInt data => some data
  | .seVar data => some data
  | .seArray data _ _ => some data
  | .seBinary data _ _ => some data
  | .seUnary data _ => some data
  | .seStackList data _ => some data
  | .seDup data => some data
  | .seComplex _ => none
  | .seNeg _ => none

/-- The locals `extstr`, `prep`, `args` and `numArgs` of `ext`; `args` holds
`args[0] … args[numArgs-1]` in that order. -/
structure ExtLocals where
  extstr : Option (List Nat) := none
  prep : Option (List Nat) := none
  args : List StackEnt := []

/-- The argument loop `while ((cmd = *fmt++) != '|')` of `ext`.  Returns `fmt` just behind
the bar.  Byte values: 124 bar, 120 x, 121 y, 109 m, 112 p, 122 z, 115 s, 119 w, 108 l, 106 j. -/
def extArgs : Nat → List Nat → ExtLocals → State → Result (List Nat × ExtLocals × State)
  | 0, _, _, _ => .error .outOfFuel
  | _ + 1, [], _, _ => .error (.undefined "format string read past its terminating NUL")
  | fuel + 1, cmd :: fmt, l, s =>
    if cmd = 124 then .ok (fmt, l, s)
    else if cmd = 120 ∧ l.extstr = none then
      match skipString fmt with
      | none => .error (.undefined "format string read past its terminating NUL")
      | some fmt2 =>
        let (extcmd, s) := get_byte s
        match scanSubOp (stringAt fmt) extcmd s true fmt2 with
        | .error f => .error f
        | .ok fmt3 => extArgs fuel fmt3 { l with extstr := some (stringAt fmt) } s
    else if cmd = 121 ∧ l.extstr = none then
      match skipString fmt with
      | none => .error (.undefined "format string read past its terminating NUL")
      | some fmt2 =>
        match se_get_list s with
        | .error f => .error f
        | .ok (.seStackList data list, s) =>
          if data - 1 < 0 ∨ (data - 1).toNat ≥ list.length then
            .error (.undefined "stack list indexed outside its entries")
          else
            match (list.get? (data - 1).toNat).bind StackEnt.dataField with
            | none => .error (.undefined "data field of the selector was never written")
            | some d =>
              match scanSubOp (stringAt fmt) (toU32 d % 256) s true fmt2 with
              | .error f => .error f
              | .ok fmt3 =>
                extArgs fuel fmt3
                  { l with extstr := some (stringAt fmt),
                           args := l.args ++ [.seStackList (data - 1) list] } s
        | .ok (_, _) => .error (.undefined "se_get_list returns a stack list")
    else if cmd = 109 ∧ l.prep = none then
      match skipString fmt with
      | none => .error (.undefined "format string read past its terminating NUL")
      | some fmt2 => extArgs fuel fmt2 { l with prep := some (stringAt fmt) } s
    else if cmd = 112 then
      match pop s with
      | .error f => .error f
      | .ok (a, s) => extArgs fuel fmt { l with args := l.args ++ [a] } s
    else if cmd = 122 then
      match pop s with
      | .error f => .error f
      | .ok (a, s) =>
        if s.scriptVersion < 7 then
          match pop s with
          | .error f => .error f
          | .ok (b, s) => extArgs fuel fmt { l with args := l.args ++ [a, b] } s
        else extArgs fuel fmt { l with args := l.args ++ [a] } s
    else if cmd = 115 then
      match se_get_string s with
      | .error f => .error f
      | .ok (a, s) => extArgs fuel fmt { l with args := l.args ++ [a] } s
    else if cmd = 119 then
      let (w, s) := get_word s
      extArgs fuel fmt { l with args := l.args ++ [se_int (toInt32 w)] } s
    else if cmd = 108 then
      match se_get_list s with
      | .error f => .error f
      | .ok (a, s) => extArgs fuel fmt { l with args := l.args ++ [a] } s
    else if cmd = 106 then
      let (w, s) := get_word s
      extArgs fuel fmt { l with args := l.args ++ [se_int (toInt32 w)] } s
    else
      extArgs fuel fmt l
        (printLine ("error in argument string \x27" ++ bytesToString (stringAt fmt)
          ++ "\x27, character \x27" ++ String.singleton (Char.ofNat cmd) ++ "\x27 unknown") s)

/-- The label copied by `while ((cmd = *fmt++) != 0 && cmd != ',') *e++ = cmd;`. -/
def readLabel : List Nat → Option (List Nat)
  | [] => none
  | cmd :: fmt =>
    if cmd = 0 ∨ cmd = 44 then some []
    else match readLabel fmt with
      | none => none
      | some label => some (cmd :: label)

/-- The string `ext` builds from the arguments: prefix, label, and the arguments from
`args[numArgs-1]` down to `args[0]`. -/
def extText (scriptVersion : Nat) (l : ExtLocals) (label : List Nat) : String :=
  (match l.prep with
    | some prep => bytesToString prep
    | none => "")
  ++ bytesToString label ++ "("
  ++ joinDown (l.args.map (fun a => se_astext scriptVersion a true)) l.args.length ++ ")"

/-- The function `ext(fmt)` on the bytes of the format string (terminating NUL included); `args` is not
bounded here (the C array has 10 slots, the longest descriptor of the program fills 6). -/
def extBytes (fmt : List Nat) (s : State) : Result State :=
  let wantresult := decide (fmt.head? = some 114)
  let fmt := if wantresult then fmt.tail else fmt
  match extArgs (fmt.length + 1) fmt {} s with
  | .error f => .error f
  | .ok (fmt, l, s) =>
    match readLabel fmt with
    | none => .error (.undefined "format string read past its terminating NUL")
    | some label =>
      let s := { s with output := extText s.scriptVersion l label }
      if wantresult then .ok { push (se_complex s.output) s with output := "" }
      else .ok s

def ext (fmt : String) (s : State) : Result State := extBytes (cstr fmt) s

/-- The function `pushBlockStackItem()` together with the stores the caller makes into the new slot. -/
def pushBlockStackItem (item : BlockStack) (s : State) : Result State :=
  if num_block_stack s ≥ 256 then
    .error (.exit 0 (s.stdout ++ ["BlockStack full!"]))
  else
    .ok { s with block_stack := item :: s.block_stack }

/-- The read `TO_LE_16(*(int16*)(org_pos + k))`. -/
def int16At (s : State) (k : Int) : Int :=
  toInt16 (byteAtInt s ((s.org_pos : Int) + k) + 256 * byteAtInt s ((s.org_pos : Int) + k + 1))

/-- The read `TO_LE_32(*(int32*)(org_pos + k))`. -/
def int32At (s : State) (k : Int) : Int :=
  toInt32 (byteAtInt s ((s.org_pos : Int) + k) + 256 * byteAtInt s ((s.org_pos : Int) + k + 1)
    + 65536 * byteAtInt s ((s.org_pos : Int) + k + 2)
    + 16777216 * byteAtInt s ((s.org_pos : Int) + k + 3))

def maybeAddIf (cur to_ : Nat) (s : State) : Result (Bool × State) :=
  if (to_ ||| cur) >>> 16 ≠ 0 ∨ to_ ≤ cur then .ok (false, s)
  else if s.block_stack.any (fun p => decide (to_ > p.to_)) then .ok (false, s)
  else
    let isWhile :=
      if s.scriptVersion = 8 then decide (byteAtInt s ((s.org_pos : Int) + to_ - 5) = 0x66)
      else decide (byteAtInt s ((s.org_pos : Int) + to_ - 3) = 0x73)
    let i : Int :=
      if s.scriptVersion = 8 then int32At s ((to_ : Int) - 4) else int16At s ((to_ : Int) - 2)
    match pushBlockStackItem
        { isWhile := isWhile && decide (s.offs_of_line = toInt32 to_ + i),
          from_ := cur % 65536, to_ := to_ % 65536 } s with
    | .error f => .error f
    | .ok s => .ok (true, s)

/-- Returns whether it is ok to add an else. -/
def maybeAddElse (cur to_ : Nat) (s : State) : Result (Bool × State) :=
  if (to_ ||| cur) >>> 16 ≠ 0 ∨ to_ ≤ cur then .ok (false, s)
  else
    match s.block_stack with
    | [] => .ok (false, s)
    | p :: rest =>
      if cur ≠ p.to_ then .ok (false, s)
      else
        match maybeAddIf cur to_ { s with block_stack := rest } with
        | .error f => .error f
        | .ok (true, s) => .ok (true, s)
        | .ok (false, s) => .ok (false, { s with block_stack := p :: s.block_stack })

def maybeAddElseIf (cur elseto to_ : Nat) (s : State) : Bool × State :=
  if (to_ ||| cur ||| elseto) >>> 16 ≠ 0 ∨ elseto < to_ ∨ to_ ≤ cur then (false, s)
  else
    match s.block_stack with
    | [] => (false, s)
    | p :: rest =>
      if p.isWhile then (false, s)
      else
        let k : Int := if s.scriptVersion = 8 then (to_ : Int) - 5 else (to_ : Int) - 3
        if byteAtInt s ((s.org_pos : Int) + k) ≠ s.g_jump_opcode then (false, s)
        else
          let k2 : Nat :=
            if s.scriptVersion = 8 then toU32 ((to_ : Int) + int32At s (k + 1))
            else toU32 ((to_ : Int) + int16At s (k + 1))
          if k2 ≠ elseto then (false, s)
          else (true, { s with block_stack :=
                  { p with from_ := cur % 65536, to_ := to_ % 65536 } :: rest })

def jump (s : State) : Result State :=
  let (offset, s) := get_signed_word s
  let cur := get_curoffs s
  let to_ := cur + offset
  match (if !s.dontOutputElse then maybeAddElse (toU32 cur) (toU32 to_) s
         else .ok (false, s)) with
  | .error f => .error f
  | .ok (true, s) =>
    .ok { s with pendingElse := true, pendingElseTo := to_, pendingElseOffs := cur - 1,
                 pendingElseOpcode := s.g_jump_opcode,
                 pendingElseIndent := num_block_stack s }
  | .ok (false, s) =>
    match s.block_stack with
    | p :: _ =>
      if !s.dontOutputWhile ∧ p.isWhile ∧ cur = p.to_ then .ok s
      else .ok { s with output := "jump " ++ fmt_x (toU32 to_) }
    | [] => .ok { s with output := "jump " ++ fmt_x (toU32 to_) }

/-- The tail `") /*%.4X*/ {"` or `") {"` of a block header. -/
def headerTail (s : State) (to_ : Int) : String :=
  if s.alwaysShowOffs then ") /*" ++ fmt_X 4 (toU32 to_) ++ "*/ \x7b" else ") \x7b"

def jumpif (se : StackEnt) (when : Bool) (s : State) : Result State :=
  let (offset, s) := get_signed_word s
  let cur := get_curoffs s
  let to_ := cur + offset
  let tryElseIf : Bool × State :=
    if !s.dontOutputElseif ∧ s.pendingElse then
      maybeAddElseIf (toU32 cur) (toU32 s.pendingElseTo) (toU32 to_) s
    else (false, s)
  match tryElseIf with
  | (true, s) =>
    let se := if when then se_neg se else se
    .ok { s with pendingElse := false, haveElse := true,
                 output := "\x7d else if (" ++ se_astext s.scriptVersion se false
                   ++ headerTail s to_ }
  | (false, s) =>
    match (if !s.dontOutputIfs then maybeAddIf (toU32 cur) (toU32 to_) s
           else .ok (false, s)) with
    | .error f => .error f
    | .ok (true, s) =>
      let opener :=
        match s.block_stack with
        | p :: _ => if !s.dontOutputWhile ∧ p.isWhile then "while (" else "if ("
        | [] => "if ("
      let se := if when then se_neg se else se
      .ok { s with output := opener ++ se_astext s.scriptVersion se false ++ headerTail s to_ }
    | .ok (false, s) =>
      .ok { s with output := (if when then "if (" else "if (!")
              ++ se_astext s.scriptVersion se true ++ ") goto " ++ fmt_x (toU32 to_) }

/-- The `switch (code)` of `next_line_V8`. -/
def next_line_V8_switch (code : Nat) (s : State) : Result State :=
  match code with
  | 0x1 =>
    let (w, s) := get_word s
    .ok (push (se_int (toInt32 w)) s)
  | 0x2 =>
    let (w, s) := get_word s
    .ok (push (se_var (toInt32 w)) s)
  | 0x3 =>
    let (w, s) := get_word s
    match pop s with
    | .error f => .error f
    | .ok (se_a, s) => .ok (push (se_array (toInt32 w) none se_a) s)
  | 0x4 =>
    match pop s with
    | .error f => .error f
    | .ok (se_a, s) =>
      let (w, s) := get_word s
      match pop s with
      | .error f => .error f
      | .ok (se_b, s) => .ok (push (se_array (toInt32 w) (some se_b) se_a) s)
  | 0x5 =>
    match pop s with
    | .error f => .error f
    | .ok (se, s) =>
      let (se_a, s) := dup se s
      .ok (push se_a (push se_a s))
  | 0x6 =>
    match pop s with
    | .error f => .error f
    | .ok (se, s) => .ok (kill se s)
  | 0x7 =>
    match pop s with
    | .error f => .error f
    | .ok (se, s) => .ok (push (se_oper se isZero) s)
  | 0x8 | 0x9 | 0xA | 0xB | 0xC | 0xD | 0xE | 0xF | 0x10 | 0x11 | 0x12 | 0x13 | 0x14 | 0x15 | 0x16 =>
    match pop s with
    | .error f => .error f
    | .ok (se_a, s) =>
      match pop s with
      | .error f => .error f
      | .ok (se_b, s) => .ok (push (se_oper2 se_b (((code : Int) - 0x8) + isEqual) se_a) s)
  | 0x64 =>
    match pop s with
    | .error f => .error f
    | .ok (se, s) => jumpif se true s
  | 0x65 =>
    match pop s with
    | .error f => .error f
    | .ok (se, s) => jumpif se false s
  | 0x66 =>
    jump s
  | 0x67 => ext "|break" s
  | 0x6A => ext "p|delay" s
  | 0x6B => ext "p|delayLonger" s
  | 0x6C => ext "p|delayVeryLong" s
  | 0x6D =>
    let (w, s) := get_word s
    match pop s with
    | .error f => .error f
    | .ok (se, s) => .ok (writeVar (toInt32 w) se s)
  | 0x6E =>
    let (w, s) := get_word s
    .ok (addVar (toInt32 w) 1 s)
  | 0x6F =>
    let (w, s) := get_word s
    .ok (addVar (toInt32 w) (-1) s)
  | 0x70 => ext "xdim\x00\x0Apw|dim-scummvar,\x0Bpw|dim-string,\xCAw|undim" s
  | 0x71 =>
    match pop s with
    | .error f => .error f
    | .ok (se_a, s) =>
      let (w, s) := get_word s
      match pop s with
      | .error f => .error f
      | .ok (dim1, s) => .ok (writeArray (toInt32 w) none dim1 se_a s)
  | 0x74 => ext "xdim2\x00\x0Appw|dim2-scummvar,\x0Bppw|dim2-string,\xCAw|undim2" s
  | 0x75 =>
    match pop s with
    | .error f => .error f
    | .ok (se_a, s) =>
      match pop s with
      | .error f => .error f
      | .ok (se_b, s) =>
        let (w, s) := get_word s
        match pop s with
        | .error f => .error f
        | .ok (dim2, s) => .ok (writeArray (toInt32 w) (some dim2) se_b se_a s)
  | 0x76 =>
    let (sub, s) := get_byte s
    match sub with
    | 0x14 =>
      let (array, s) := get_word s
      match se_get_string s with
      | .error f => .error f
      | .ok (value, s) =>
        match pop s with
        | .error f => .error f
        | .ok (dim1, s) => .ok (writeArray (toInt32 array) none dim1 value s)
    | 0x15 =>
      match pop s with
      | .error f => .error f
      | .ok (se_a, s) =>
        match se_get_list s with
        | .error f => .error f
        | .ok (se_b, s) =>
          let (w, s) := get_word s
          .ok (writeArray (toInt32 w) none se_a se_b s)
    | 0x16 =>
      match pop s with
      | .error f => .error f
      | .ok (se_a, s) =>
        match se_get_list s with
        | .error f => .error f
        | .ok (se_b, s) =>
          let (w, s) := get_word s
          match pop s with
          | .error f => .error f
          | .ok (dim2, s) => .ok (writeArray (toInt32 w) (some dim2) se_a se_b s)
    | _ => .ok s
  | 0x79 => ext "lpp|startScript" s
  | 0x7A => ext "lp|startScriptQuick" s
  | 0x7B => ext "|stopObjectCode" s
  | 0x7C => ext "p|stopScript" s
  | 0x7D => ext "lpp|jumpToScript" s
  | 0x7F => ext "lppp|startObject" s
  | 0x89 => ext "lp|setClassOf?" s
  | 0x93 => ext ("mprintLine_\x00xprintLine\x00\xC8|baseop,\xC9|end,\xCApp|XY,\xCBp|color," ++
      "\xCC|center,\xCD|charset,\xCE|left,\xCF|overhead,\xD0|mumble,\xD1s|msg,\xD2|wrap") s
  | 0x94 => ext ("mprintCursor_\x00xprintCursor\x00\xC8|baseop,\xC9|end,\xCApp|XY,\xCBp|color," ++
      "\xCC|center,\xCD|charset,\xCE|left,\xCF|overhead,\xD0|mumble,\xD1s|msg,\xD2|wrap") s
  | 0x95 => ext ("mprintDebug_\x00xprintDebug\x00\xC8|baseop,\xC9|end,\xCApp|XY,\xCBp|color," ++
      "\xCC|center,\xCD|charset,\xCE|left,\xCF|overhead,\xD0|mumble,\xD1s|msg,\xD2|wrap") s
  | 0x96 => ext ("mprintSystem_\x00xprintSystem\x00\xC8|baseop,\xC9|end,\xCApp|XY,\xCBp|color," ++
      "\xCC|center,\xCD|charset,\xCE|left,\xCF|overhead,\xD0|mumble,\xD1s|msg,\xD2|wrap") s
  | 0x9C => ext ("xcursorCommand\x00\xDC|cursorOn,\xDD|cursorOff,\xDE|userPutOn,\xDF|userPutOff," ++
      "\xE0|softCursorOn,\xE1|softCursorOff,\xE2|softUserputOn,\xE3|softUserputOff," ++
      "\xE4pp|setCursorImg,\xE5pp|setCursorHotspot,\xE6p|makeCursorColorTransparent," ++
      "\xE7p|initCharset,\xE8l|charsetColors") s
  | 0x9D => ext "p|loadRoom" s
  | 0x9E => ext "ppzp|loadRoomWithEgo" s
  | 0x9F => ext "ppp|walkActorToObj" s
  | 0xA0 => ext "ppp|walkActorTo" s
  | 0xA1 => ext "pppp|putActorInRoom" s
  | 0xA2 => ext "ppp|putActorAtObject" s
  | 0xA3 => ext "pp|faceActor" s
  | 0xA4 => ext "pp|animateActor" s
  | 0xA5 => ext "pppp|doSentence" s
  | 0xA6 => ext "z|pickupObject" s
  | 0xAA => ext ("xresourceRoutines\x00\x3Cp|loadCharset,\x3Dp|loadCostume,\x3Ep|loadObject," ++
      "\x3Fp|loadRoom,\x40p|loadScript,\x41p|loadSound,\x42p|lockCostume,\x43p|lockRoom," ++
      "\x44p|lockScript,\x45p|lockSound,\x46p|unlockCostume,\x47p|unlockRoom," ++
      "\x48p|unlockScript,\x49p|unlockSound,\x4Ap|nukeCostume,\x4Bp|nukeRoom," ++
      "\x4Cp|nukeScript,\x4Dp|nukeSound") s
  | 0xAB => ext ("xroomOps\x00\x52|setRoomPalette,\x55|setRoomIntensity,\x57p|fade," ++
      "\x58|setRoomColor,\x59|transformRoom,\x5A|colorCycleDelay,\x5B|copyPalette," ++
      "\x5C|newPalette,\x5D|saveGame,\x5E|LoadGame,\x5F|setRoomSaturation") s
  | 0xAC => ext ("xactorOps\x00\x64p|setActorCostume,\x65pp|setActorWalkSpeed,\x67|setActorDefAnim," ++
      "\x68p|setActorInitFrame,\x69pp|setActorTalkFrame,\x6Ap|setActorWalkFrame," ++
      "\x6Bp|setActorStandFrame,\x6C|setActorAnimSpeed,\x6D|setActorDefault," ++
      "\x6E|setActorElevation,\x6Fpp|setActorPalette,\x70p|setActorTalkColor," ++
      "\x71s|setActorName,\x72p|setActorWidth,\x73p|setActorScale," ++
      "\x74|setActorNeverZClip?,\x75p|setActorAlwayZClip?,\x76|setActorIgnoreBoxes," ++
      "\x77|setActorFollowBoxes,\x78p|actorSpecialDraw,\x79pp|setActorTalkPos," ++
      "\x7Ap|initActor,\x7Bpp|setActorAnimVar,\x7C|setActorIgnoreTurnsOn," ++
      "\x7D|setActorIgnoreTurnsOff,\x7E|newActor,\x7Fp|setActorLayer," ++
      "\x80|setActorStanding,\x81p|setActorDirection,\x82p|actorTurnToDirection," ++
      "\x83p|setActorWalkScript,\x84p|setTalkScript,\x85|freezeActor,\x86|unfreezeActor," ++
      "\x87p|setActorVolume,\x88p|setActorFrequency,\x89p|setActorPan") s
  | 0xAD => ext "xcameraOps\x00\x32|freezeCamera,\x33|unfreezeCamera" s
  | 0xAE => ext ("xverbOps\x00\x96p|verbInit,\x97|verbNew,\x98|verbDelete,\x99s|verbLoadString," ++
      "\x9App|verbSetXY,\x9B|verbOn,\x9C|verbOff,\x9Dp|verbSetColor,\x9Ep|verbSetHiColor," ++
      "\xA0p|verbSetDimColor,\xA1|verbSetDim,\xA2p|verbSetKey,\xA3p|verbLoadImg," ++
      "\xA4p|verbSetToString,\xA5|verbSetCenter,\xA6p|verbSetCharset," ++
      "\xA7p|verbSetLineSpacing") s
  | 0xB1 => ext "p|stopSound" s
  | 0xB2 => ext "l|soundKludge" s
  | 0xB3 => ext "xsystem\x00\x28|restart,\x29|quit" s
  | 0xBA => ext ("ykludge\x00\x0B|lockObject,\x0C|unlockObject,\x0D|remapCostume," ++
      "\x0E|remapCostumeInsert,\x0F|setVideoFrameRate,\x16|setBannerColors," ++
      "\x1D|setKeyScript,\x1E|killAllScriptsButMe,\x1F|stopAllVideo," ++
      "\x20|writeRegistryValue,\x6C|buildPaletteShadow") s
  | 0xCD => ext "rlp|isAnyOf" s
  | 0xCE => ext "rp|getRandomNumber" s
  | 0xCF => ext "rpp|getRandomNumberRange" s
  | 0xD0 => ext "rlp|ifClassOfIs" s
  | 0xD1 => ext "rp|getState" s
  | 0xD2 => ext "rp|getOwner" s
  | 0xD3 => ext "rp|isScriptRunning" s
  | 0xD5 => ext "rp|isSoundRunning" s
  | 0xD6 => ext "rp|abs" s
  | 0xD8 => ext "ryf-kludge\x00\xE0|readRegistryValue" s
  | 0xDB => ext "rpp|getActorFromXY" s
  | 0xDC => ext "rpp|findObject" s
  | 0xE1 => ext "rpp|getAnimateVariable" s
  | 0xE2 => ext "rp|getActorRoom" s
  | 0xE3 => ext "rp|getActorWalkBox" s
  | 0xE4 => ext "rp|getActorMoving" s
  | 0xE5 => ext "rp|getActorCostume" s
  | 0xE6 => ext "rp|getActorScaleX" s
  | 0xE7 => ext "rp|getActorLayer" s
  | 0xE8 => ext "rp|getActorElevation" s
  | 0xE9 => ext "rp|getActorWidth" s
  | 0xEA => ext "rp|getObjectDir" s
  | 0xEB => ext "rp|getObjectX" s
  | 0xEC => ext "rp|getObjectY" s
  | _ =>
    invalidop none code s

/-- The v8 dispatcher: `byte code = get_byte(); switch (code) …`. -/
def next_line_V8 (s : State) : Result State :=
  let (code, s) := get_byte s
  next_line_V8_switch code s

/-- The `switch (code)` of `next_line`.  Four handlers pass several `pop()` calls as
arguments of one call (`writeArray(get_word(), NULL, pop(), pop())` and
`writeArray(get_word(), pop(), pop(), pop())`, likewise with `get_byte()`); C++ does not
say in which order they are evaluated, so the entries come off the stack one after the
other and `argOrder` of the state says which argument each of them is.  The read of the
array id moves the cursor only and the `pop()` calls do not look at the cursor, so its
place among them makes no difference. -/
def next_line_switch (code : Nat) (s : State) : Result State :=
  match code with
  | 0x0 =>
    let (b, s) := get_byte s
    .ok (push (se_int b) s)
  | 0x1 =>
    let (w, s) := get_word s
    .ok (push (se_int (toInt32 w)) s)
  | 0x2 =>
    let (b, s) := get_byte s
    .ok (push (se_var b) s)
  | 0x3 =>
    let (w, s) := get_word s
    .ok (push (se_var (toInt32 w)) s)
  | 0x6 =>
    let (b, s) := get_byte s
    match pop s with
    | .error f => .error f
    | .ok (se_a, s) => .ok (push (se_array b none se_a) s)
  | 0x7 =>
    let (w, s) := get_word s
    match pop s with
    | .error f => .error f
    | .ok (se_a, s) => .ok (push (se_array (toInt32 w) none se_a) s)
  | 0xA =>
    match pop s with
    | .error f => .error f
    | .ok (se_a, s) =>
      let (b, s) := get_byte s
      match pop s with
      | .error f => .error f
      | .ok (se_b, s) => .ok (push (se_array b (some se_b) se_a) s)
  | 0xB =>
    match pop s with
    | .error f => .error f
    | .ok (se_a, s) =>
      let (w, s) := get_word s
      match pop s with
      | .error f => .error f
      | .ok (se_b, s) => .ok (push (se_array (toInt32 w) (some se_b) se_a) s)
  | 0xC =>
    match pop s with
    | .error f => .error f
    | .ok (se, s) =>
      let (se_a, s) := dup se s
      .ok (push se_a (push se_a s))
  | 0xD =>
    match pop s with
    | .error f => .error f
    | .ok (se, s) => .ok (push (se_oper se isZero) s)
  | 0xE | 0xF | 0x10 | 0x11 | 0x12 | 0x13 | 0x14 | 0x15 | 0x16 | 0x17 | 0x18 | 0x19 =>
    match pop s with
    | .error f => .error f
    | .ok (se_a, s) =>
      match pop s with
      | .error f => .error f
      | .ok (se_b, s) => .ok (push (se_oper2 se_b (((code : Int) - 0xE) + isEqual) se_a) s)
  | 0x1A =>
    match pop s with
    | .error f => .error f
    | .ok (se, s) => .ok (kill se s)
  | 0x42 =>
    let (b, s) := get_byte s
    match pop s with
    | .error f => .error f
    | .ok (se, s) => .ok (writeVar b se s)
  | 0x43 =>
    let (w, s) := get_word s
    match pop s with
    | .error f => .error f
    | .ok (se, s) => .ok (writeVar (toInt32 w) se s)
  | 0x46 =>
    match pop s with
    | .error f => .error f
    | .ok (first, s1) =>
      match pop s1 with
      | .error f => .error f
      | .ok (second, s2) =>
        let (b, s3) := get_byte s2
        .ok (writeArray b none ((s.argOrder 0x46).dim1of2 first second)
          ((s.argOrder 0x46).value2 first second) s3)
  | 0x47 =>
    match pop s with
    | .error f => .error f
    | .ok (first, s1) =>
      match pop s1 with
      | .error f => .error f
      | .ok (second, s2) =>
        let (w, s3) := get_word s2
        .ok (writeArray (toInt32 w) none ((s.argOrder 0x47).dim1of2 first second)
          ((s.argOrder 0x47).value2 first second) s3)
  | 0x4A =>
    match pop s with
    | .error f => .error f
    | .ok (first, s1) =>
      match pop s1 with
      | .error f => .error f
      | .ok (second, s2) =>
        match pop s2 with
        | .error f => .error f
        | .ok (third, s3) =>
          let (b, s4) := get_byte s3
          .ok (writeArray b (some ((s.argOrder 0x4A).dim2 first second third))
            ((s.argOrder 0x4A).dim1 first second third)
            ((s.argOrder 0x4A).value first second third) s4)
  | 0x4B =>
    match pop s with
    | .error f => .error f
    | .ok (first, s1) =>
      match pop s1 with
      | .error f => .error f
      | .ok (second, s2) =>
        match pop s2 with
        | .error f => .error f
        | .ok (third, s3) =>
          let (w, s4) := get_word s3
          .ok (writeArray (toInt32 w) (some ((s.argOrder 0x4B).dim2 first second third))
            ((s.argOrder 0x4B).dim1 first second third)
            ((s.argOrder 0x4B).value first second third) s4)
  | 0x4E =>
    let (b, s) := get_byte s
    .ok (addVar b 1 s)
  | 0x4F =>
    let (w, s) := get_word s
    .ok (addVar (toInt32 w) 1 s)
  | 0x52 =>
    let (b, s) := get_byte s
    match pop s with
    | .error f => .error f
    | .ok (se, s) => .ok (addArray b se 1 s)
  | 0x53 =>
    let (w, s) := get_word s
    match pop s with
    | .error f => .error f
    | .ok (se, s) => .ok (addArray (toInt32 w) se 1 s)
  | 0x56 =>
    let (b, s) := get_byte s
    .ok (addVar b (-1) s)
  | 0x57 =>
    let (w, s) := get_word s
    .ok (addVar (toInt32 w) (-1) s)
  | 0x5A =>
    let (b, s) := get_byte s
    match pop s with
    | .error f => .error f
    | .ok (se, s) => .ok (addArray b se (-1) s)
  | 0x5B =>
    let (w, s) := get_word s
    match pop s with
    | .error f => .error f
    | .ok (se, s) => .ok (addArray (toInt32 w) se (-1) s)
  | 0x5C =>
    match pop s with
    | .error f => .error f
    | .ok (se, s) => jumpif se true s
  | 0x5D =>
    match pop s with
    | .error f => .error f
    | .ok (se, s) => jumpif se false s
  | 0x5E => ext "lpp|startScriptEx" s
  | 0x5F => ext "lp|startScript" s
  | 0x60 => ext "lppp|startObject" s
  | 0x61 => ext "pp|setObjectState" s
  | 0x62 => ext "ppp|setObjectXY" s
  | 0x65 => ext "|stopObjectCodeA" s
  | 0x66 => ext "|stopObjectCodeB" s
  | 0x67 => ext "|endCutscene" s
  | 0x68 => ext "l|beginCutscene" s
  | 0x69 => ext "|stopMusic" s
  | 0x6A => ext "p|freezeUnfreeze" s
  | 0x6B => ext ("xcursorCommand\x00\x90|cursorOn,\x91|cursorOff,\x92|userPutOn,\x93|userPutOff," ++
      "\x94|softCursorOn,\x95|softCursorOff,\x96|softUserputOn,\x97|softUserputOff," ++
      "\x99pp|setCursorImg,\x9App|setCursorHotspot,\x9Cp|initCharset,\x9Dl|charsetColors," ++
      "\xD6p|makeCursorColorTransparent") s
  | 0x6C => ext "|break" s
  | 0x6D => ext "rlp|ifClassOfIs" s
  | 0x6E => ext "lp|setClass" s
  | 0x6F => ext "rp|getState" s
  | 0x70 => ext "pp|setState" s
  | 0x71 => ext "pp|setOwner" s
  | 0x72 => ext "rp|getOwner" s
  | 0x73 =>
    jump s
  | 0x74 => ext "p|startSound" s
  | 0x75 => ext "p|stopSound" s
  | 0x76 => ext "p|startMusic" s
  | 0x77 => ext "p|stopObjectScript" s
  | 0x78 =>
    if s.scriptVersion < 7 then ext "p|panCameraTo" s
    else ext "pp|panCameraTo" s
  | 0x79 => ext "p|actorFollowCamera" s
  | 0x7A =>
    if s.scriptVersion < 7 then ext "p|setCameraAt" s
    else ext "pp|setCameraAt" s
  | 0x7B => ext "p|loadRoom" s
  | 0x7C => ext "p|stopScript" s
  | 0x7D => ext "ppp|walkActorToObj" s
  | 0x7E => ext "ppp|walkActorTo" s
  | 0x7F => ext "pppp|putActorInRoom" s
  | 0x80 => ext "zp|putActorAtObject" s
  | 0x81 => ext "pp|faceActor" s
  | 0x82 => ext "pp|animateActor" s
  | 0x83 => ext "pppp|doSentence" s
  | 0x84 => ext "z|pickupObject" s
  | 0x85 => ext "ppzp|loadRoomWithEgo" s
  | 0x87 => ext "rp|getRandomNumber" s
  | 0x88 => ext "rpp|getRandomNumberRange" s
  | 0x8A => ext "rp|getActorMoving" s
  | 0x8B => ext "rp|isScriptRunning" s
  | 0x8C => ext "rp|getActorRoom" s
  | 0x8D => ext "rp|getObjectX" s
  | 0x8E => ext "rp|getObjectY" s
  | 0x8F => ext "rp|getObjectDir" s
  | 0x90 => ext "rp|getActorWalkBox" s
  | 0x91 => ext "rp|getActorCostume" s
  | 0x92 => ext "rpp|findInventory" s
  | 0x93 => ext "rp|getInventoryCount" s
  | 0x94 => ext "rpp|getVerbFromXY" s
  | 0x95 => ext "|beginOverride" s
  | 0x96 => ext "|endOverride" s
  | 0x97 => ext "ps|setObjectName" s
  | 0x98 => ext "rp|isSoundRunning" s
  | 0x99 => ext "pl|setBoxFlags" s
  | 0x9A => ext "|createBoxMatrix" s
  | 0x9B => ext ("xresourceRoutines\x00\x64p|loadScript,\x65p|loadSound,\x66p|loadCostume," ++
      "\x67p|loadRoom,\x68p|nukeScript,\x69p|nukeSound,\x6Ap|nukeCostume,\x6Bp|nukeRoom," ++
      "\x6Cp|lockScript,\x6Dp|lockSound,\x6Ep|lockCostume,\x6Fp|lockRoom," ++
      "\x70p|unlockScript,\x71p|unlockSound,\x72p|unlockCostume,\x73p|unlockRoom," ++
      "\x75p|loadCharset,\x76p|nukeCharset,\x77z|loadFlObject") s
  | 0x9C => ext ("xroomOps\x00\xACpp|roomScroll,\xAEpp|setScreen,\xAFpppp|setPalColor,\xB0|shakeOn," ++
      "\xB1|shakeOff,\xB3ppp|unkRoomFunc2,\xB4pp|saveLoadThing,\xB5p|screenEffect," ++
      "\xB6ppppp|unkRoomFunc2,\xB7ppppp|unkRoomFunc3,\xBApppp|palManipulate," ++
      "\xBBpp|colorCycleDelay,\xD5p|setPalette") s
  | 0x9D => ext ("xactorSet\x00\xC5p|setCurActor,\x4Cp|setActorCostume,\x4Dpp|setActorWalkSpeed," ++
      "\x4El|setActorSound,\x4Fp|setActorWalkFrame,\x50pp|setActorTalkFrame," ++
      "\x51p|setActorStandFrame,\x52ppp|actorSet:82:??,\x53|initActor," ++
      "\x54|setActorElevation,\x55|setActorDefAnim,\x56pp|setActorPalette," ++
      "\x57p|setActorTalkColor,\x58s|setActorName,\x59p|setActorInitFrame," ++
      "\x5Bp|setActorWidth,\x5Cp|setActorScale,\x5D|setActorNeverZClip," ++
      "\x5Ep|setActorNeverZClip,\xE1p|setActorNeverZClip,\x5F|setActorIgnoreBoxes," ++
      "\x60|setActorFollowBoxes,\x61|setActorAnimSpeed,\x62|setActorShadowMode," ++
      "\x63pp|setActorTalkPos,\xC6p|setActorAnimVar,\xD7|setActorIgnoreTurnsOn," ++
      "\xD8|setActorIgnoreTurnsOff,\xD9|initActorLittle,\xE3p|setActorLayer," ++
      "\xE4p|setActorWalkScript,\xE5|setActorStanding,\xE6p|setActorDirection," ++
      "\xE7p|actorTurnToDirection,\xE9|freezeActor,\xEA|unfreezeActor,\xEBp|setTalkScript") s
  | 0x9E => ext ("xverbOps\x00\xC4p|setCurVerb,\x7Cp|verbLoadImg,\x7Ds|verbLoadString," ++
      "\x7Ep|verbSetColor,\x7Fp|verbSetHiColor,\x80pp|verbSetXY,\x81|verbSetCurmode1," ++
      "\x82|verbSetCurmode0,\x83|verbKill,\x84|verbInit,\x85p|verbSetDimColor," ++
      "\x86|verbSetCurmode2,\x87p|verbSetKey,\x88|verbSetCenter,\x89p|verbSetToString," ++
      "\x8Bpp|verbSetToObject,\x8Cp|verbSetBkColor,\xFF|verbRedraw") s
  | 0x9F => ext "rpp|getActorFromXY" s
  | 0xA0 => ext "rpp|findObject" s
  | 0xA1 => ext "lp|pseudoRoom" s
  | 0xA2 => ext "rp|getActorElevation" s
  | 0xA3 => ext "rpp|getVerbEntrypoint" s
  | 0xA4 => ext "xarrayOps\x00\xCDwps|arrayOps205,\xD0wpl|arrayOps208,\xD4wplp|arrayOps212" s
  | 0xA5 => ext "xsaveRestoreVerbs\x00\x8Dppp|saveRestoreA,\x8Eppp|saveRestoreB,\x8Fppp|saveRestoreC" s
  | 0xA6 => ext "ppppp|drawBox" s
  | 0xA8 => ext "rp|getActorWidth" s
  | 0xA9 => ext ("xwait\x00\xA8pj|waitForActor,\xA9|waitForMessage,\xAA|waitForCamera," ++
      "\xAB|waitForSentence,\xE2pj|waitUntilActorDrawn,\xE8pj|waitUntilActorTurned,") s
  | 0xAA => ext "rp|getActorScaleX" s
  | 0xAB => ext "rp|getActorAnimCounter1" s
  | 0xAC => ext "l|soundKludge" s
  | 0xAD => ext "rlp|isAnyOf" s
  | 0xAE => ext "xquitPauseRestart\x00\x9E|pauseGame,\xA0|shutDown" s
  | 0xAF => ext "rp|isActorInBox" s
  | 0xB0 => ext "p|delay" s
  | 0xB1 => ext "p|delayLonger" s
  | 0xB2 => ext "p|delayVeryLong" s
  | 0xB3 => ext "|stopSentence" s
  | 0xB4 => ext ("mprint_0_\x00xprint_0\x00\x41pp|XY,\x42p|color,\x43p|right,\x45|center,\x47|left," ++
      "\x48|overhead,\x4A|new3,\x4Bs|msg,\xFE|begin,\xFF|end") s
  | 0xB5 => ext ("mprint_1_\x00xprint_1\x00\x41pp|XY,\x42p|color,\x43p|right,\x45|center,\x47|left," ++
      "\x48|overhead,\x4A|new3,\x4Bs|msg,\xFE|begin,\xFF|end") s
  | 0xB6 => ext ("mprint_2_\x00xprint_2\x00\x41pp|XY,\x42p|color,\x43p|right,\x45|center,\x47|left," ++
      "\x48|overhead,\x4A|new3,\x4Bs|msg,\xFE|begin,\xFF|end") s
  | 0xB7 => ext ("mprint_3_\x00xprint_3\x00\x41pp|XY,\x42p|color,\x43p|right,\x45|center,\x47|left," ++
      "\x48|overhead,\x4A|new3,\x4Bs|msg,\xFE|begin,\xFF|end") s
  | 0xB8 => ext ("mprint_actor_\x00xprint_actor\x00\x41pp|XY,\x42p|color,\x43p|right,\x45|center," ++
      "\x47|left,\x48|overhead,\x4A|new3,\x4Bs|msg,\xFEp|begin,\xFF|end") s
  | 0xB9 => ext ("mprint_ego_\x00xprint_ego\x00\x41pp|XY,\x42p|color,\x43p|right,\x45|center," ++
      "\x47|left,\x48|overhead,\x4A|new3,\x4Bs|msg,\xFE|begin,\xFF|end") s
  | 0xBA => ext "ps|talkActor" s
  | 0xBB => ext "s|talkEgo" s
  | 0xBC => ext ("xdim\x00\xC7pw|dimType5,\xC8pw|dimType1,\xC9pw|dimType2,\xCApw|dimType3," ++
      "\xCBpw|dimType4,\xCCw|nukeArray") s
  | 0xBE => ext "lpp|startObjectQuick" s
  | 0xBF => ext "lp|startScriptQuick" s
  | 0xC0 => ext ("xdim2\x00\xC7ppw|dim2Type5,\xC8ppw|dim2Type1,\xC9ppw|dim2Type2,\xCAppw|dim2Type3," ++
      "\xCBppw|dim2Type4") s
  | 0xC4 => ext "rp|abs" s
  | 0xC5 => ext "rpp|getDistObjObj" s
  | 0xC6 => ext "rppp|getDistObjPt" s
  | 0xC7 => ext "rpppp|getDistPtPt" s
  | 0xC8 => ext "rl|kernelFunction" s
  | 0xC9 => ext "l|miscOps" s
  | 0xCA => ext "p|breakXTimes" s
  | 0xCB => ext "lp|pickOneOf" s
  | 0xCC => ext "plp|pickOneOfDefault" s
  | 0xCD => ext "pppp|o6_unknownCD" s
  | 0xD2 => ext "rpp|getAnimateVariable" s
  | 0xD5 => ext "lpp|jumpToScript" s
  | 0xD6 =>
    match pop s with
    | .error f => .error f
    | .ok (se_a, s) =>
      match pop s with
      | .error f => .error f
      | .ok (se_b, s) => .ok (push (se_oper2 se_b operBand se_a) s)
  | 0xD7 =>
    match pop s with
    | .error f => .error f
    | .ok (se_a, s) =>
      match pop s with
      | .error f => .error f
      | .ok (se_b, s) => .ok (push (se_oper2 se_b operBor se_a) s)
  | 0xD8 => ext "rp|isRoomScriptRunning" s
  | 0xEC => ext "rp|getActorLayer" s
  | 0xED => ext "rp|getObjectNewDir" s
  | _ =>
    invalidop none code s

/-- The v6/v7 dispatcher: `byte code = get_byte(); switch (code) …`. -/
def next_line (s : State) : Result State :=
  let (code, s) := get_byte s
  next_line_switch code s

def INDENT_SIZE : Int := 2

def getIndentString (i : Int) : String :=
  let i := i + i
  let i := if i ≥ 127 * INDENT_SIZE then 127 * INDENT_SIZE else i
  let i := if i < 0 then 0 else i
  String.mk (List.replicate i.toNat (Char.ofNat 32))

/-- The function `outputLine(buf, curoffs, opcode, indent)`; `-1` selects the defaults. -/
def outputLine (buf : String) (curoffs opcode indent : Int) (s : State) : State :=
  if buf ≠ "" then
    let indent := if indent = -1 then (num_block_stack s : Int) else indent
    let curoffs := if curoffs = -1 then get_curoffs s else curoffs
    let ind := getIndentString indent
    if s.dontShowOpcode then
      if s.dontShowOffsets then printLine (ind ++ buf) s
      else printLine ("[" ++ fmt_X 4 (toU32 curoffs) ++ "] " ++ ind ++ buf) s
    else
      let buf2 := if opcode ≠ -1 then fmt_X 2 (toU32 opcode) else "**"
      if s.dontShowOffsets then printLine ("(" ++ buf2 ++ ") " ++ ind ++ buf) s
      else printLine ("[" ++ fmt_X 4 (toU32 curoffs) ++ "] (" ++ buf2 ++ ") " ++ ind ++ buf) s
  else s

def writePendingElse (s : State) : State :=
  if s.pendingElse then
    let buf :=
      if s.alwaysShowOffs then "\x7d else /*" ++ fmt_X 4 (toU32 s.pendingElseTo) ++ "*/ \x7b"
      else "\x7d else \x7b"
    let s := outputLine buf s.pendingElseOffs s.pendingElseOpcode (s.pendingElseIndent - 1) s
    { s with pendingElse := false }
  else s

def indentBlock (cur : Nat) (s : State) : Bool × State :=
  match s.block_stack with
  | [] => (false, s)
  | p :: rest =>
    if cur < p.to_ then (false, s)
    else (true, { s with block_stack := rest })

/-- The loop `while (indentBlock(get_curoffs())) outputLine("}", -1, -1, -1);` of `main`.
Every iteration removes a frame; the fuel passed is the number of frames plus one. -/
def closeBlocks : Nat → State → State
  | 0, s => s
  | fuel + 1, s =>
    match indentBlock (toU32 (get_curoffs s)) s with
    | (true, s) => closeBlocks fuel (outputLine "\x7d" (-1) (-1) (-1) s)
    | (false, s) => s

/-- One pass through the body of the `do … while` loop of `main`. -/
def mainStep (s : State) : Result State :=
  let opcode := byteAt s s.cur_pos
  let j : Int := num_block_stack s
  let s := { s with output := "" }
  match (if s.scriptVersion = 8 then next_line_V8 s else next_line s) with
  | .error f => .error f
  | .ok s =>
    let s :=
      if s.output ≠ "" then
        let s := writePendingElse s
        let j := if s.haveElse then j - 1 else j
        let s := { s with haveElse := false }
        let s := outputLine s.output s.offs_of_line opcode j s
        { s with offs_of_line := get_curoffs s }
      else s
    .ok (closeBlocks (num_block_stack s + 1) s)

/-- The loop `do … while (cur_pos < mem + len)`; `endPos` is `mem + len` as an index. -/
def mainLoop (endPos : Nat) : Nat → State → Result State
  | 0, _ => .error .outOfFuel
  | fuel + 1, s =>
    match mainStep s with
    | .error f => .error f
    | .ok s => if s.cur_pos < endPos then mainLoop endPos fuel s else .ok s

/-- The dump `while (num_stack) { … se_astext(pop(), buf); printf("%s\n", buf); }`. -/
def dumpStack (s : State) : State :=
  { s with stack := [],
           stdout := s.stdout ++ s.stack.map (fun se => se_astext s.scriptVersion se true) }

/-- The statements of `main` behind the loop. -/
def printEnd (s : State) : State :=
  let s := printLine "END" s
  let s := printLine ("Stack count: " ++ fmt_d (num_stack s)) s
  if num_stack s > 0 then dumpStack (printLine "Stack contents:" s) else s

/-- First loop of `skipVerbHeader`: the index behind the terminating 0 code. -/
def verbHeaderEnd (s : State) : Nat → Nat → Nat
  | 0, p2 => p2
  | fuel + 1, p2 => if byteAt s p2 ≠ 0 then verbHeaderEnd s fuel (p2 + 1 + 2) else p2 + 1

/-- Second loop of `skipVerbHeader`. -/
def verbHeaderPrint (hdrlen : Int) : Nat → Nat → State → Nat × State
  | 0, p, s => (p, s)
  | fuel + 1, p, s =>
    if byteAt s p ≠ 0 then
      let offs : Int := (byteAt s (p + 1) + 256 * byteAt s (p + 2) : Nat) - hdrlen
      verbHeaderPrint hdrlen fuel (p + 1 + 2)
        (printLine ("  " ++ fmt_2X (byteAt s p) ++ " - " ++ fmt_X 4 (toU32 offs)) s)
    else (p + 1, s)

/-- The function `skipVerbHeader(p)`; the loops stop at the first 0 code, at the latest behind the
buffer, so the fuel `mem.length + 1` covers them. -/
def skipVerbHeader (p : Nat) (s : State) : Nat × State :=
  let p2 := verbHeaderEnd s (s.mem.length + 1) p
  let s := printLine "Events:" s
  let hdrlen : Int := (p2 : Int) - p + 8
  verbHeaderPrint hdrlen (s.mem.length + 1) p s

def helpText : List String :=
  ["DOTT Script discompiler", "Syntax:", "\tdottdis [-o] filename", "Flags:",
   "\t-o\tAlways Show offsets", "\t-i\tDon\x27t output ifs", "\t-e\tDon\x27t output else",
   "\t-f\tDon\x27t output else-if", "\t-c\tDon\x27t show opcode", "\t-x\tDon\x27t show offsets",
   "\t-h\tHalt on error", "\t-7\tAssume V7 scripts"]

def ShowHelpAndExit {α : Type} (s : State) : Result α :=
  .error (.exit 0 (s.stdout ++ helpText))

/-- One flag character (`switch (tolower(*s))` of `main`). -/
def applyFlag (c : Char) (s : State) : Result State :=
  let c := c.toLower
  if c = Char.ofNat 111 then .ok { s with alwaysShowOffs := true }
  else if c = Char.ofNat 105 then .ok { s with dontOutputIfs := true }
  else if c = Char.ofNat 101 then .ok { s with dontOutputElse := true }
  else if c = Char.ofNat 102 then .ok { s with dontOutputElseif := true }
  else if c = Char.ofNat 119 then .ok { s with dontOutputWhile := true }
  else if c = Char.ofNat 99 then .ok { s with dontShowOpcode := true }
  else if c = Char.ofNat 120 then .ok { s with dontShowOffsets := true }
  else if c = Char.ofNat 104 then .ok { s with haltOnError := true }
  else if c = Char.ofNat 54 then .ok { s with scriptVersion := 6, g_jump_opcode := 0x73 }
  else if c = Char.ofNat 55 then .ok { s with scriptVersion := 7, g_jump_opcode := 0x73 }
  else if c = Char.ofNat 56 then .ok { s with scriptVersion := 8, g_jump_opcode := 0x66 }
  else ShowHelpAndExit s

def applyFlags : List Char → State → Result State
  | [], s => .ok s
  | c :: cs, s =>
    match applyFlag c s with
    | .error f => .error f
    | .ok s => applyFlags cs s

/-- The argument loop of `main` over `argv[1] …`; the second component is `filename`. -/
def parseArgs : List String → Option String → State → Result (Option String × State)
  | [], filename, s => .ok (filename, s)
  | a :: rest, filename, s =>
    match a.toList with
    | c :: cs =>
      if c = Char.ofNat 45 then
        match applyFlags cs s with
        | .error f => .error f
        | .ok s => parseArgs rest filename s
      else if filename ≠ none then ShowHelpAndExit s
      else parseArgs rest (some a) s
    | [] =>
      if filename ≠ none then ShowHelpAndExit s
      else parseArgs rest (some a) s

/-- The four bytes at the start of the buffer, as read by `TO_BE_32(*((long *)mem))`. -/
def tagOf (mem : List Nat) : List Nat := [mem.getD 0 0, mem.getD 1 0, mem.getD 2 0, mem.getD 3 0]

/-- The part of `main` behind `fclose`: `file` is the contents of the input file, `junk`
what the 65536-byte buffer holds behind the bytes read; `s` carries the flags. -/
def decompile (file junk : List Nat) (s : State) : Result State :=
  let len := (file.take 65536).length
  let s := { s with mem := file.take 65536 ++ junk }
  let tag := tagOf s.mem
  let hdr : Result (Nat × State) :=
    if tag = [76, 83, 67, 82] then
      if s.scriptVersion = 7 then
        .ok (10, printLine ("Script# " ++ fmt_d (byteAt s 8 + 256 * byteAt s 9 : Nat)) s)
      else
        .ok (9, printLine ("Script# " ++ fmt_d (byteAt s 8 : Nat)) s)
    else if tag = [83, 67, 82, 80] then .ok (8, s)
    else if tag = [69, 78, 67, 68] then .ok (8, s)
    else if tag = [69, 88, 68, 69] then .ok (8, s)
    else if tag = [86, 69, 82, 66] then .ok (skipVerbHeader 8 s)
    else .error (.exit 0 (s.stdout ++ ["Unknown script type!"]))
  match hdr with
  | .error f => .error f
  | .ok (mem, s) =>
    let s := { s with cur_pos := mem, org_pos := mem, offs_of_line := 0 }
    match mainLoop len (len - mem + 1) s with
    | .error f => .error f
    | .ok s => .ok (printEnd s)

/-- The program: `argv` without the program name, `files` the file system, `junk` as in
`decompile`.  Returns the exit status and the lines written to standard output. -/
def main (argv : List String) (files : String → Option (List Nat)) (junk : List Nat) :
    Result (Nat × List String) :=
  match parseArgs argv none {} with
  | .error f => .error f
  | .ok (none, s) => ShowHelpAndExit s
  | .ok (some filename, s) =>
    match files filename with
    | none => .ok (1, s.stdout ++ ["Unable to open " ++ filename])
    | some file =>
      match decompile file junk s with
      | .error f => .error f
      | .ok s => .ok (0, s.stdout)


/-! Notions of the specification used to state the claims -/

/-- The index width W of a variable id: 28 on v8, 12 on v6 and v7. -/
def varWidth (scriptVersion : Nat) : Nat := if scriptVersion = 8 then 28 else 12

/-- The name table the dialect selects. -/
def varNamesOf (scriptVersion : Nat) : List (Option String) :=
  if scriptVersion = 8 then var_names8 else if scriptVersion = 7 then var_names7 else var_names6

/-- The texts separated by commas, in the order given. -/
def commaSep : List String → String
  | [] => ""
  | [a] => a
  | a :: b :: rest => a ++ "," ++ commaSep (b :: rest)

/-- The number of stack entries an argument atom pops from the stack it meets: `p` 1;
`z` 2 before v7 and 1 from v7 on; `l` 1 plus the literal count on top; `s`, `w`, `j` 0.
Bytes that are no argument atom, and `l` on a top entry that is no literal, have none. -/
def atomPops (scriptVersion : Nat) (stack : List StackEnt) (atom : Nat) : Option Nat :=
  if atom = 112 then some 1
  else if atom = 122 then some (if scriptVersion < 7 then 2 else 1)
  else if atom = 108 then
    match stack with
    | .seInt num :: _ => some (1 + num.toNat)
    | _ => none
  else if atom = 115 ∨ atom = 119 ∨ atom = 106 then some 0
  else none

/-- The number of entries the atoms of a descriptor pop off a stack that is deep enough to
supply every pop (none when it is not). -/
def descPops (scriptVersion : Nat) : List Nat → List StackEnt → Option Nat
  | [], _ => some 0
  | atom :: atoms, stack =>
    match atomPops scriptVersion stack atom with
    | none => none
    | some n =>
      if n ≤ stack.length then
        match descPops scriptVersion atoms (stack.drop n) with
        | none => none
        | some m => some (n + m)
      else none

/-- The text of a named call as the specification gives it: optional prefix, label, and in
parentheses the arguments in the reverse of the order in which they were consumed
(`args` lists them in consumption order). -/
def callText (scriptVersion : Nat) (prep : Option (List Nat)) (label : List Nat)
    (args : List StackEnt) : String :=
  (match prep with
    | some p => bytesToString p
    | none => "")
  ++ bytesToString label ++ "("
  ++ commaSep (args.reverse.map (fun a => se_astext scriptVersion a true)) ++ ")"

/-- A script file of type `SCRP` with the given body: the tag, four bytes of size (which the
program does not read, here 0) and the bytecode. -/
def scrpFile (body : List Nat) : List Nat := [83, 67, 82, 80, 0, 0, 0, 0] ++ body

/-- The flags `-c -x`: lines are printed without the opcode and offset prefixes. -/
def plainFlags : State := { dontShowOpcode := true, dontShowOffsets := true }

/-- The offset and opcode prefixes `outputLine` prints in front of a line. -/
def linePrefix (s : State) (curoffs opcode : Int) : String :=
  if s.dontShowOpcode then
    if s.dontShowOffsets then "" else "[" ++ fmt_X 4 (toU32 curoffs) ++ "] "
  else
    if s.dontShowOffsets then
      "(" ++ (if opcode ≠ -1 then fmt_X 2 (toU32 opcode) else "**") ++ ") "
    else
      "[" ++ fmt_X 4 (toU32 curoffs) ++ "] ("
        ++ (if opcode ≠ -1 then fmt_X 2 (toU32 opcode) else "**") ++ ") "

/-- The test by which `maybeAddIf` marks a new frame that ends at `to_` as a `while`: the
instruction in front of `to_` is the unconditional jump of the dialect and it targets the
start of the current line. -/
def whileShape (s : State) (to_ : Nat) : Bool :=
  (if s.scriptVersion = 8 then decide (byteAtInt s ((s.org_pos : Int) + to_ - 5) = 0x66)
    else decide (byteAtInt s ((s.org_pos : Int) + to_ - 3) = 0x73))
  && decide (s.offs_of_line = toInt32 to_
      + (if s.scriptVersion = 8 then int32At s ((to_ : Int) - 4) else int16At s ((to_ : Int) - 2)))


/-- The body of scenario D: `if (1) { var0 = 9 } else { var0 = 10 }`. -/
def ifElseBody : List Nat :=
  [0x00, 0x01, 0x5D, 0x08, 0x00, 0x00, 0x09, 0x43, 0x00, 0x00, 0x73, 0x05, 0x00,
   0x00, 0x0A, 0x43, 0x00, 0x00]

/-- The body of scenario E: `while (1) { var0 = 9 }`. -/
def whileBody : List Nat :=
  [0x00, 0x01, 0x5D, 0x08, 0x00, 0x00, 0x09, 0x43, 0x00, 0x00, 0x73, 0xF3, 0xFF]

/-- The state a dispatch ends in (the state given when it fails). -/
def resultState (r : Result State) (dflt : State) : State :=
  match r with
  | .ok s => s
  | .error _ => dflt


/-! Notions used for the claims on menus, diagnostics and whole runs -/

/-- The entries of a sub-opcode menu: the bytes up to the terminating NUL, split at the
commas. -/
def menuEntries : List Nat → List (List Nat)
  | [] => [[]]
  | c :: rest =>
    if c = 0 then [[]]
    else if c = 44 then [] :: menuEntries rest
    else
      match menuEntries rest with
      | e :: es => (c :: e) :: es
      | [] => [[c]]

/-- The leading bytes of the entries of a menu. -/
def menuLeads (menu : List Nat) : List Nat := (menuEntries menu).filterMap List.head?

/-- The name and the menu of a descriptor that consists of an `x` menu, with or without an
`m` prefix in front of it. -/
def xMenu (fmt : List Nat) : Option (List Nat × List Nat) :=
  match fmt with
  | 120 :: rest => (skipString rest).map (fun menu => (stringAt rest, menu))
  | 109 :: rest =>
    match skipString rest with
    | some (120 :: rest2) => (skipString rest2).map (fun menu => (stringAt rest2, menu))
    | _ => none
  | _ => none

/-- The `x` menus of `next_line`: opcode, menu name and the leading bytes of the entries.
The menu of opcode 0xA9 (`wait`) is listed apart, its last entry ends with a comma. -/
def xMenus6 : List (Nat × String × List Nat) := [
  (0x6B, "cursorCommand",
    [0x90, 0x91, 0x92, 0x93, 0x94, 0x95, 0x96, 0x97, 0x99, 0x9A, 0x9C, 0x9D, 0xD6]),
  (0x9B, "resourceRoutines",
    [0x64, 0x65, 0x66, 0x67, 0x68, 0x69, 0x6A, 0x6B, 0x6C, 0x6D, 0x6E, 0x6F, 0x70, 0x71,
     0x72, 0x73, 0x75, 0x76, 0x77]),
  (0x9C, "roomOps",
    [0xAC, 0xAE, 0xAF, 0xB0, 0xB1, 0xB3, 0xB4, 0xB5, 0xB6, 0xB7, 0xBA, 0xBB, 0xD5]),
  (0x9D, "actorSet",
    [0xC5, 0x4C, 0x4D, 0x4E, 0x4F, 0x50, 0x51, 0x52, 0x53, 0x54, 0x55, 0x56, 0x57, 0x58,
     0x59, 0x5B, 0x5C, 0x5D, 0x5E, 0xE1, 0x5F, 0x60, 0x61, 0x62, 0x63, 0xC6, 0xD7, 0xD8,
     0xD9, 0xE3, 0xE4, 0xE5, 0xE6, 0xE7, 0xE9, 0xEA, 0xEB]),
  (0x9E, "verbOps",
    [0xC4, 0x7C, 0x7D, 0x7E, 0x7F, 0x80, 0x81, 0x82, 0x83, 0x84, 0x85, 0x86, 0x87, 0x88,
     0x89, 0x8B, 0x8C, 0xFF]),
  (0xA4, "arrayOps", [0xCD, 0xD0, 0xD4]),
  (0xA5, "saveRestoreVerbs", [0x8D, 0x8E, 0x8F]),
  (0xAE, "quitPauseRestart", [0x9E, 0xA0]),
  (0xB4, "print_0", [0x41, 0x42, 0x43, 0x45, 0x47, 0x48, 0x4A, 0x4B, 0xFE, 0xFF]),
  (0xB5, "print_1", [0x41, 0x42, 0x43, 0x45, 0x47, 0x48, 0x4A, 0x4B, 0xFE, 0xFF]),
  (0xB6, "print_2", [0x41, 0x42, 0x43, 0x45, 0x47, 0x48, 0x4A, 0x4B, 0xFE, 0xFF]),
  (0xB7, "print_3", [0x41, 0x42, 0x43, 0x45, 0x47, 0x48, 0x4A, 0x4B, 0xFE, 0xFF]),
  (0xB8, "print_actor", [0x41, 0x42, 0x43, 0x45, 0x47, 0x48, 0x4A, 0x4B, 0xFE, 0xFF]),
  (0xB9, "print_ego", [0x41, 0x42, 0x43, 0x45, 0x47, 0x48, 0x4A, 0x4B, 0xFE, 0xFF]),
  (0xBC, "dim", [0xC7, 0xC8, 0xC9, 0xCA, 0xCB, 0xCC]),
  (0xC0, "dim2", [0xC7, 0xC8, 0xC9, 0xCA, 0xCB])]

/-- The `x` menus of `next_line_V8`: opcode, menu name and the leading bytes of the entries. -/
def xMenus8 : List (Nat × String × List Nat) := [
  (0x70, "dim", [0x0A, 0x0B, 0xCA]),
  (0x74, "dim2", [0x0A, 0x0B, 0xCA]),
  (0x93, "printLine", [0xC8, 0xC9, 0xCA, 0xCB, 0xCC, 0xCD, 0xCE, 0xCF, 0xD0, 0xD1, 0xD2]),
  (0x94, "printCursor", [0xC8, 0xC9, 0xCA, 0xCB, 0xCC, 0xCD, 0xCE, 0xCF, 0xD0, 0xD1, 0xD2]),
  (0x95, "printDebug", [0xC8, 0xC9, 0xCA, 0xCB, 0xCC, 0xCD, 0xCE, 0xCF, 0xD0, 0xD1, 0xD2]),
  (0x96, "printSystem", [0xC8, 0xC9, 0xCA, 0xCB, 0xCC, 0xCD, 0xCE, 0xCF, 0xD0, 0xD1, 0xD2]),
  (0x9C, "cursorCommand",
    [0xDC, 0xDD, 0xDE, 0xDF, 0xE0, 0xE1, 0xE2, 0xE3, 0xE4, 0xE5, 0xE6, 0xE7, 0xE8]),
  (0xAA, "resourceRoutines",
    [0x3C, 0x3D, 0x3E, 0x3F, 0x40, 0x41, 0x42, 0x43, 0x44, 0x45, 0x46, 0x47, 0x48, 0x49,
     0x4A, 0x4B, 0x4C, 0x4D]),
  (0xAB, "roomOps", [0x52, 0x55, 0x57, 0x58, 0x59, 0x5A, 0x5B, 0x5C, 0x5D, 0x5E, 0x5F]),
  (0xAC, "actorOps",
    [0x64, 0x65, 0x67, 0x68, 0x69, 0x6A, 0x6B, 0x6C, 0x6D, 0x6E, 0x6F, 0x70, 0x71, 0x72,
     0x73, 0x74, 0x75, 0x76, 0x77, 0x78, 0x79, 0x7A, 0x7B, 0x7C, 0x7D, 0x7E, 0x7F, 0x80,
     0x81, 0x82, 0x83, 0x84, 0x85, 0x86, 0x87, 0x88, 0x89]),
  (0xAD, "cameraOps", [0x32, 0x33]),
  (0xAE, "verbOps",
    [0x96, 0x97, 0x98, 0x99, 0x9A, 0x9B, 0x9C, 0x9D, 0x9E, 0xA0, 0xA1, 0xA2, 0xA3, 0xA4,
     0xA5, 0xA6, 0xA7]),
  (0xB3, "system", [0x28, 0x29])]

/-- Whether a descriptor consists of an `x` menu (with or without `m` prefix) of the given
name whose entries all have a leading byte, these being `leads`. -/
def xMenuCheck (fmt : List Nat) (name : String) (leads : List Nat) : Bool :=
  match xMenu fmt with
  | some (n, menu) =>
    decide (bytesToString n = name) && decide (0 ∈ menu) && decide ([] ∉ menuEntries menu)
      && decide (menuLeads menu = leads)
  | none => false

/-- The exit status of a run that ends in a call of `exit`. -/
def exitCode {α : Type} : Result α → Option Nat
  | .error (.exit code _) => some code
  | _ => none

/-- A v6 state with 256 frames open and a conditional jump over 5 bytes at the cursor. -/
def fullBlockStack : State :=
  { mem := [0x5D, 0x05, 0x00], stack := [.seInt 1],
    block_stack := List.replicate 256 { isWhile := false, from_ := 0, to_ := 100 } }

/-- The flags `-c -x -8`: plain lines, dialect 8. -/
def plainFlags8 : State := { plainFlags with scriptVersion := 8, g_jump_opcode := 0x66 }

/-- The unconditional-jump opcode of a dialect: 0x66 on v8, 0x73 on v6 and v7. -/
def jumpOpcodeOf (scriptVersion : Nat) : Nat := if scriptVersion = 8 then 0x66 else 0x73

/-- Whether a flag character is one of the dialect flags `6`, `7`, `8`. -/
def isDialectFlag (c : Char) : Bool :=
  c.toLower = Char.ofNat 54 || c.toLower = Char.ofNat 55 || c.toLower = Char.ofNat 56

/-- The v6 body `if (1) { var0 = 9 } else if (1) { var0 = 10 } else { var0 = 11 }`. -/
def elseIfBody : List Nat :=
  [0x00, 0x01, 0x5D, 0x08, 0x00, 0x00, 0x09, 0x43, 0x00, 0x00, 0x73, 0x12, 0x00,
   0x00, 0x01, 0x5D, 0x08, 0x00, 0x00, 0x0A, 0x43, 0x00, 0x00, 0x73, 0x05, 0x00,
   0x00, 0x0B, 0x43, 0x00, 0x00]

/-- The globals that no opcode handler writes: the configuration, the buffer and the offset
of the line start. -/
def State.fixed (s : State) :=
  (s.g_jump_opcode, s.mem, s.org_pos, s.offs_of_line, s.alwaysShowOffs, s.dontOutputIfs,
   s.dontOutputElse, s.dontOutputElseif, s.dontOutputWhile, s.dontShowOpcode,
   s.dontShowOffsets, s.haltOnError, s.scriptVersion)

/-- The globals of the block reconstruction: the block stack, the pending else and the
else-if flag. -/
def State.blocks (s : State) :=
  (s.block_stack, s.pendingElse, s.haveElse, s.pendingElseTo, s.pendingElseOffs,
   s.pendingElseOpcode, s.pendingElseIndent)

/-- The state `s1` comes from `s` by moving the cursor forward (or not at all), printing
lines, and writing globals other than those of `State.fixed`. -/
def Advances (s s1 : State) : Prop :=
  s1.fixed = s.fixed ∧ s.cur_pos ≤ s1.cur_pos ∧ ∃ extra, s1.stdout = s.stdout ++ extra

/-- As `Advances`, with the globals of the block reconstruction untouched as well. -/
def Upd (s s1 : State) : Prop := Advances s s1 ∧ s1.blocks = s.blocks

/-- The dispatch of `main`: `next_line_V8()` for dialect 8 and `next_line()` otherwise. -/
def dispatch (s : State) : Result State :=
  if s.scriptVersion = 8 then next_line_V8 s else next_line s

/-- What a call of the dispatcher does to the globals of the block reconstruction: nothing;
or `jump` opens an else (the top frame is replaced, the else is left pending and the line
buffer is not written); or `jumpif` pushes a frame and writes a line; or `jumpif` replaces
the top frame for an else-if and writes a line. -/
def BlockChange (s d : State) : Prop :=
  d.blocks = s.blocks
  ∨ (d.output = s.output ∧ d.pendingElse = true ∧ d.pendingElseOffs + 1 = get_curoffs d
      ∧ s.cur_pos + 2 ≤ d.cur_pos
      ∧ ∃ p rest new, s.block_stack = p :: rest ∧ d.block_stack = new :: rest
          ∧ new.to_ = toU32 d.pendingElseTo ∧ ∀ q ∈ rest, new.to_ ≤ q.to_)
  ∨ (d.output ≠ "" ∧ d.pendingElse = s.pendingElse ∧ d.pendingElseTo = s.pendingElseTo
      ∧ d.pendingElseOffs = s.pendingElseOffs ∧ d.pendingElseOpcode = s.pendingElseOpcode
      ∧ ∃ new, d.block_stack = new :: s.block_stack ∧ ∀ q ∈ s.block_stack, new.to_ ≤ q.to_)
  ∨ (d.output ≠ "" ∧ s.pendingElse = true ∧ d.pendingElse = false
      ∧ ∃ p rest t, s.block_stack = p :: rest ∧ d.block_stack = t :: rest
          ∧ t.to_ ≤ toU32 s.pendingElseTo)

/-- The order of the offsets the driver keeps between two passes of its loop: the offset of
the line start is not negative and not beyond the cursor, and the offset kept for a pending
else lies between the two. -/
def OffsetsOrdered (s : State) : Prop :=
  0 ≤ s.offs_of_line ∧ s.offs_of_line ≤ get_curoffs s
  ∧ (s.pendingElse = true →
      s.offs_of_line < s.pendingElseOffs ∧ s.pendingElseOffs < get_curoffs s)

/-- The frames are nested: no frame has a target beyond that of a frame beneath it, and
the target of a pending else is not beyond the target of any frame. -/
def BlocksNested (s : State) : Prop :=
  s.block_stack.Pairwise (fun a b => a.to_ ≤ b.to_)
  ∧ (s.pendingElse = true → ∀ p ∈ s.block_stack, toU32 s.pendingElseTo ≤ p.to_)

/-- Every frame has its target beyond the cursor. -/
def BlocksOpen (s : State) : Prop :=
  ∀ p ∈ s.block_stack, toU32 (get_curoffs s) < p.to_

/-- The length `L` of the unconditional jump instruction of a dialect: opcode and 16-bit
displacement (3) on v6 and v7, opcode and 32-bit displacement (5) on v8. -/
def jumpLength (scriptVersion : Nat) : Nat := if scriptVersion = 8 then 5 else 3

/-- The signed little-endian displacement of the jump instruction that ends at body offset
`to_`: the 16-bit word at `to_ - 2` on v6 and v7, the 32-bit word at `to_ - 4` on v8. -/
def jumpDisplacementBefore (s : State) (to_ : Nat) : Int :=
  if s.scriptVersion = 8 then int32At s ((to_ : Int) - 4) else int16At s ((to_ : Int) - 2)

/-- The states reached from one with an empty block stack through `maybeAddIf`,
`maybeAddElse` and the closing of a block (`indentBlock`). -/
inductive BlockReach : State → Prop
  | start (s : State) : s.block_stack = [] → BlockReach s
  | addIf (cur to_ : Nat) (s s1 : State) (b : Bool) :
      BlockReach s → maybeAddIf cur to_ s = .ok (b, s1) → BlockReach s1
  | addElse (cur to_ : Nat) (s s1 : State) (b : Bool) :
      BlockReach s → maybeAddElse cur to_ s = .ok (b, s1) → BlockReach s1
  | close (cur : Nat) (s : State) : BlockReach s → BlockReach (indentBlock cur s).2

/-- A v6 state for `maybeAddElseIf`: one `if` frame that ends at 20 is open, and the three
bytes in front of body offset 10 are the jump `73 00 00` with displacement 0. -/
def elseIfEqualTargets : State :=
  { g_jump_opcode := 0x73, mem := [0, 0, 0, 0, 0, 0, 0, 0x73, 0, 0, 0, 0],
    block_stack := [{ isWhile := false, from_ := 2, to_ := 20 }] }

/-- Whether a node is neither an Int literal nor a Dup node. -/
def StackEnt.isFresh : StackEnt → Bool
  | .seInt _ => false
  | .seDup _ => false
  | _ => true

/-- A token of an inline string: a plain byte, or an escape (the byte 0xFF or 0xFE, a code
byte and what the code consumes) with the text it is rendered as. -/
inductive StrToken where
  | plain (c : Nat)
  | escape (text : String)

/-- The tokens of the inline string at the cursor, up to the terminating 0, and the state
behind that 0.  The fuel bounds the number of tokens. -/
def strTokens : Nat → State → List StrToken × State
  | 0, s => ([], s)
  | fuel + 1, s =>
    let (cmd, s) := get_byte s
    if cmd = 0 then ([], s)
    else if cmd = 0xFF ∨ cmd = 0xFE then
      let (i, s) := get_byte s
      let (text, s) := se_get_string_escape i s
      let (toks, s) := strTokens fuel s
      (.escape text :: toks, s)
    else
      let (toks, s) := strTokens fuel s
      (.plain cmd :: toks, s)

/-- A segment of the rendered string: a maximal run of plain bytes, or an escape. -/
inductive StrSegment where
  | run (bytes : List Nat)
  | escape (text : String)

/-- The tokens grouped into segments: neighbouring plain bytes form one run. -/
def strSegments : List StrToken → List StrSegment
  | [] => []
  | .escape t :: rest => .escape t :: strSegments rest
  | .plain c :: rest =>
    match strSegments rest with
    | .run bs :: segs => .run (c :: bs) :: segs
    | segs => .run [c] :: segs

/-- The text of the segments as the specification gives it: every run between one pair of
double quotes, every escape as its text outside the quotes. -/
def renderSegments : List StrSegment → String
  | [] => ""
  | .run bs :: rest => dquote ++ bytesToString bs ++ dquote ++ renderSegments rest
  | .escape t :: rest => t ++ renderSegments rest

/-- The text of the segments when they follow plain bytes, whose run is still open: a run
in front continues it. -/
def renderOpen : List StrSegment → String
  | .run bs :: rest => bytesToString bs ++ dquote ++ renderSegments rest
  | segs => dquote ++ renderSegments segs

/-- The statements of the loop body of `main` between the dispatch and the closing loop:
when the opcode left text in the output buffer, a pending else is written, then the line,
at the depth `j` the pass started with (one less after an else-if), under the offset of
the line start; the next line starts at the cursor. -/
def emitLine (opcode : Nat) (j : Int) (s : State) : State :=
  if s.output ≠ "" then
    let s := writePendingElse s
    let j := if s.haveElse then j - 1 else j
    let s := { s with haveElse := false }
    let s := outputLine s.output s.offs_of_line opcode j s
    { s with offs_of_line := get_curoffs s }
  else s

/-- The conditional-jump opcodes of a dialect: 0x5C and 0x5D on v6 and v7, 0x64 and 0x65
on v8. -/
def condJumps (scriptVersion : Nat) : List Nat :=
  if scriptVersion = 8 then [0x64, 0x65] else [0x5C, 0x5D]

/-- A v6 state in front of the store `43 00 00` with the literal 9 on the stack. -/
def storePass : State := { mem := [0x43, 0x00, 0x00], stack := [.seInt 9] }

/-- A v6 state in front of the displacement of a conditional jump, with an else pending
whose target is 9: the jump leads to 7, and the three bytes in front of 7 are the jump
`73 02 00` to 9, so the conditional jump is taken for an else-if. -/
def elseIfPending : State :=
  { g_jump_opcode := 0x73, mem := [5, 0, 0, 0, 0x73, 2, 0, 0, 0, 0],
    pendingElse := true, pendingElseTo := 9,
    block_stack := [{ isWhile := false, from_ := 0, to_ := 9 }] }


/-- What the walk through a dispatcher shows of the result `r` of the opcode `code` in the
state `s`: a returning opcode other than the jumps `jumps` moves the cursor forward (or not
at all), prints diagnostics at most and leaves the block reconstruction alone; the result
is not the fault of a loop of the embedding that ran out of fuel; and an opcode that is not
among the case labels `ops` ends in `invalidop`. -/
@[reducible] def WalkOk (jumps ops : List Nat) (code : Nat) (s : State) (r : Result State) :
    Prop :=
  (∀ s1, code ∉ jumps → r = .ok s1 → Upd s s1)
  ∧ r ≠ .error .outOfFuel
  ∧ (code ∉ ops → r = invalidop none code s)

/-- The case labels of the `switch` of `next_line`, in the order of the source. -/
def opcodes6 : List Nat := [0x0, 0x1, 0x2, 0x3, 0x6, 0x7, 0xA, 0xB, 0xC, 0xD, 0xE, 0xF, 0x10,
  0x11, 0x12, 0x13, 0x14, 0x15, 0x16, 0x17, 0x18, 0x19, 0x1A, 0x42, 0x43, 0x46, 0x47, 0x4A, 0x4B,
  0x4E, 0x4F, 0x52, 0x53, 0x56, 0x57, 0x5A, 0x5B, 0x5C, 0x5D, 0x5E, 0x5F, 0x60, 0x61, 0x62, 0x65,
  0x66, 0x67, 0x68, 0x69, 0x6A, 0x6B, 0x6C, 0x6D, 0x6E, 0x6F, 0x70, 0x71, 0x72, 0x73, 0x74, 0x75,
  0x76, 0x77, 0x78, 0x79, 0x7A, 0x7B, 0x7C, 0x7D, 0x7E, 0x7F, 0x80, 0x81, 0x82, 0x83, 0x84, 0x85,
  0x87, 0x88, 0x8A, 0x8B, 0x8C, 0x8D, 0x8E, 0x8F, 0x90, 0x91, 0x92, 0x93, 0x94, 0x95, 0x96, 0x97,
  0x98, 0x99, 0x9A, 0x9B, 0x9C, 0x9D, 0x9E, 0x9F, 0xA0, 0xA1, 0xA2, 0xA3, 0xA4, 0xA5, 0xA6, 0xA8,
  0xA9, 0xAA, 0xAB, 0xAC, 0xAD, 0xAE, 0xAF, 0xB0, 0xB1, 0xB2, 0xB3, 0xB4, 0xB5, 0xB6, 0xB7, 0xB8,
  0xB9, 0xBA, 0xBB, 0xBC, 0xBE, 0xBF, 0xC0, 0xC4, 0xC5, 0xC6, 0xC7, 0xC8, 0xC9, 0xCA, 0xCB, 0xCC,
  0xCD, 0xD2, 0xD5, 0xD6, 0xD7, 0xD8, 0xEC, 0xED]


/-- The case labels of the `switch` of `next_line_V8`, in the order of the source. -/
def opcodes8 : List Nat := [0x1, 0x2, 0x3, 0x4, 0x5, 0x6, 0x7, 0x8, 0x9, 0xA, 0xB, 0xC, 0xD, 0xE,
  0xF, 0x10, 0x11, 0x12, 0x13, 0x14, 0x15, 0x16, 0x64, 0x65, 0x66, 0x67, 0x6A, 0x6B, 0x6C, 0x6D,
  0x6E, 0x6F, 0x70, 0x71, 0x74, 0x75, 0x76, 0x79, 0x7A, 0x7B, 0x7C, 0x7D, 0x7F, 0x89, 0x93, 0x94,
  0x95, 0x96, 0x9C, 0x9D, 0x9E, 0x9F, 0xA0, 0xA1, 0xA2, 0xA3, 0xA4, 0xA5, 0xA6, 0xAA, 0xAB, 0xAC,
  0xAD, 0xAE, 0xB1, 0xB2, 0xB3, 0xBA, 0xCD, 0xCE, 0xCF, 0xD0, 0xD1, 0xD2, 0xD3, 0xD5, 0xD6, 0xD8,
  0xDB, 0xDC, 0xE1, 0xE2, 0xE3, 0xE4, 0xE5, 0xE6, 0xE7, 0xE8, 0xE9, 0xEA, 0xEB, 0xEC]

/-- The number of passes that the loop of `main` makes from the state `s`: `mainLoop` with
a counter in the place of the result.  The pass that aborts and the pass after which the
loop ends are counted. -/
def mainLoopPasses (endPos : Nat) : Nat → State → Nat
  | 0, _ => 0
  | fuel + 1, s =>
    match mainStep s with
    | .error _ => 1
    | .ok s => if s.cur_pos < endPos then mainLoopPasses endPos fuel s + 1 else 1

/-- A state with two open frames, the inner one ending at offset 5 and the outer one at
offset 10, and the cursor at offset 7. -/
def twoFramesAtSeven : State :=
  { dontShowOpcode := true, dontShowOffsets := true, cur_pos := 7,
    block_stack := [{ isWhile := false, from_ := 1, to_ := 5 },
      { isWhile := false, from_ := 0, to_ := 10 }] }

/-- The driver state at the start of the v6 body 00 07 43 00 00 (push 7, store into
variable 0) of a `SCRP` file, with the flags that leave opcodes and offsets out. -/
def pushStoreRun : State :=
  { dontShowOpcode := true, dontShowOffsets := true,
    mem := scrpFile [0x00, 0x07, 0x43, 0x00, 0x00], cur_pos := 8, org_pos := 8 }

/-! Notions used for the claims on the loop of `main` between its passes -/

/-- The states at the head of the loop of `main`: the state in which `main` enters the loop
(the cursor at the start of the bytecode, the line start at offset 0, no frame open, no
else pending), and every state that a pass of the loop ends with. -/
inductive DriverState : State → Prop
  | start (s : State) : s.cur_pos = s.org_pos → s.offs_of_line = 0 → s.block_stack = [] →
      s.pendingElse = false → s.haveElse = false → DriverState s
  | pass (s s1 : State) : DriverState s → mainStep s = .ok s1 → DriverState s1

/-- Zero or more passes of the loop of `main` lead from the state `s` to the state `t`. -/
inductive Passes : State → State → Prop
  | refl (s : State) : Passes s s
  | step (s s1 t : State) : mainStep s = .ok s1 → Passes s1 t → Passes s t

/-- Zero or more passes of the loop of `main` lead from the state `s` to the state `t`, and
the opcode of none of them left text in the line buffer. -/
inductive QuietPasses : State → State → Prop
  | refl (s : State) : QuietPasses s s
  | step (s d s1 t : State) : dispatch { s with output := "" } = .ok d → d.output = "" →
      mainStep s = .ok s1 → QuietPasses s1 t → QuietPasses s t

/-- The displacement of the jump instruction at the cursor, conditional or not: the signed
word behind the opcode byte (`offset` of `jump` and `jumpif`). -/
def jumpDisplacement (s : State) : Int :=
  (get_signed_word { s with cur_pos := s.cur_pos + 1 }).1

/-- The offset behind the jump instruction at the cursor (`cur` of `jump` and `jumpif`). -/
def jumpEnd (s : State) : Int :=
  get_curoffs (get_signed_word { s with cur_pos := s.cur_pos + 1 }).2

/-- The target of the jump instruction at the cursor (`to` of `jump` and `jumpif`). -/
def jumpTarget (s : State) : Int := jumpEnd s + jumpDisplacement s

/-- The text of the else line that `writePendingElse` prints. -/
def elseText (s : State) : String :=
  if s.alwaysShowOffs then "\x7d else /*" ++ fmt_X 4 (toU32 s.pendingElseTo) ++ "*/ \x7b"
  else "\x7d else \x7b"

/-- The globals that a pass of the loop of `main` does not write: the flags, the dialect
with its jump opcode, the buffer and the start of the bytecode. -/
def State.config (s : State) :=
  (s.g_jump_opcode, s.mem, s.org_pos, s.alwaysShowOffs, s.dontOutputIfs, s.dontOutputElse,
   s.dontOutputElseif, s.dontOutputWhile, s.dontShowOpcode, s.dontShowOffsets, s.haltOnError,
   s.scriptVersion)

/-- The state after `n` passes of the loop of `main` from the state `s`, when none of them
aborts. -/
def passesFrom : Nat → State → Option State
  | 0, s => some s
  | n + 1, s =>
    match mainStep s with
    | .ok s1 => passesFrom n s1
    | .error _ => none

/-- Scenario D when `main` enters its loop (flags `c` and `x`: no opcode and no offset in
front of the lines). -/
def ifElseStart : State :=
  { plainFlags with mem := scrpFile ifElseBody, org_pos := 8, cur_pos := 8 }

/-- Scenario D after four passes, in front of the unconditional jump at body offset 10. -/
def ifElseAtJump : State :=
  { plainFlags with
    mem := scrpFile ifElseBody, org_pos := 8, cur_pos := 18, offs_of_line := 10,
    output := "var0 = 9",
    block_stack := [{ isWhile := false, from_ := 5, to_ := 13 }],
    stdout := ["if (1) \x7b", "  var0 = 9"] }

/-- Scenario D behind the jump: the frame reaches to 18 and the else is pending. -/
def ifElseArmed : State :=
  { plainFlags with
    mem := scrpFile ifElseBody, org_pos := 8, cur_pos := 21, offs_of_line := 10,
    block_stack := [{ isWhile := false, from_ := 13, to_ := 18 }],
    pendingElse := true, pendingElseTo := 18, pendingElseOffs := 12,
    pendingElseOpcode := 0x66, pendingElseIndent := 1,
    stdout := ["if (1) \x7b", "  var0 = 9"] }

/-- Scenario D in front of the store at body offset 15, the literal 10 on the stack. -/
def ifElseAtStore : State :=
  { plainFlags with
    mem := scrpFile ifElseBody, org_pos := 8, cur_pos := 23, offs_of_line := 10,
    stack := [.seInt 10],
    block_stack := [{ isWhile := false, from_ := 13, to_ := 18 }],
    pendingElse := true, pendingElseTo := 18, pendingElseOffs := 12,
    pendingElseOpcode := 0x66, pendingElseIndent := 1,
    stdout := ["if (1) \x7b", "  var0 = 9"] }

/-- Scenario D behind the dispatch of the store at body offset 15: the line is in the
buffer, the else still pending. -/
def ifElseStored : State :=
  { plainFlags with
    mem := scrpFile ifElseBody, org_pos := 8, cur_pos := 26, offs_of_line := 10,
    output := "var0 = 10",
    block_stack := [{ isWhile := false, from_ := 13, to_ := 18 }],
    pendingElse := true, pendingElseTo := 18, pendingElseOffs := 12,
    pendingElseOpcode := 0x66, pendingElseIndent := 1,
    stdout := ["if (1) \x7b", "  var0 = 9"] }

/-- Scenario D behind the pass over the store: the else line, the statement and the
closing brace are printed, no frame is open. -/
def ifElseDone : State :=
  { plainFlags with
    mem := scrpFile ifElseBody, org_pos := 8, cur_pos := 26, offs_of_line := 18,
    output := "var0 = 10",
    pendingElseTo := 18, pendingElseOffs := 12, pendingElseOpcode := 0x66,
    pendingElseIndent := 1,
    stdout := ["if (1) \x7b", "  var0 = 9", "\x7d else \x7b", "  var0 = 10", "\x7d"] }

/-- Scenario E when `main` enters its loop (flags `c` and `x`). -/
def whileStart : State :=
  { plainFlags with mem := scrpFile whileBody, org_pos := 8, cur_pos := 8 }

/-- Scenario E after the push of the predicate, in front of the conditional jump at body
offset 2. -/
def whileAtJumpif : State :=
  { plainFlags with
    mem := scrpFile whileBody, org_pos := 8, cur_pos := 10, offs_of_line := 0,
    stack := [.seInt 1] }

/-- Scenario E behind the conditional jump: the header is printed, the frame is open. -/
def whileOpened : State :=
  { plainFlags with
    mem := scrpFile whileBody, org_pos := 8, cur_pos := 13, offs_of_line := 5,
    output := "while (1) \x7b",
    block_stack := [{ isWhile := true, from_ := 5, to_ := 13 }],
    stdout := ["while (1) \x7b"] }

/-- Scenario E after the body, in front of the back-edge jump at body offset 10. -/
def whileAtJump : State :=
  { plainFlags with
    mem := scrpFile whileBody, org_pos := 8, cur_pos := 18, offs_of_line := 10,
    output := "var0 = 9",
    block_stack := [{ isWhile := true, from_ := 5, to_ := 13 }],
    stdout := ["while (1) \x7b", "  var0 = 9"] }

/-- Scenario E behind the back-edge jump: the frame is closed. -/
def whileClosed : State :=
  { plainFlags with
    mem := scrpFile whileBody, org_pos := 8, cur_pos := 21, offs_of_line := 10,
    stdout := ["while (1) \x7b", "  var0 = 9", "\x7d"] }

/-- A v6 body in which the jump at the end of an inner if-body leads beyond the end of the
enclosing if: the outer conditional jump at offset 2 leads to 20, the inner one at offset 7
to 18, and the jump at offset 15, which ends at 18, leads to 25. -/
def elseBeyondBody : List Nat :=
  [0x00, 0x01, 0x5D, 0x0F, 0x00, 0x00, 0x01, 0x5D, 0x08, 0x00, 0x00, 0x09, 0x43, 0x00, 0x00,
   0x73, 0x07, 0x00, 0x00, 0x0A, 0x43, 0x00, 0x00, 0x00, 0x0B, 0x43, 0x00, 0x00]

/-- A v6 body in which the block that the jump at the end of the if-body leads over holds a
push only: the conditional jump at offset 2 leads to 13, the jump at offset 10, which ends
at 13, leads to 15, and the store of the pushed value follows at 15. -/
def elseOverPushBody : List Nat :=
  [0x00, 0x01, 0x5D, 0x08, 0x00, 0x00, 0x09, 0x43, 0x00, 0x00, 0x73, 0x02, 0x00,
   0x00, 0x0A, 0x43, 0x00, 0x00]

/-- A v8 body in which the jump at the end of the if-body leads to offset 65561: the
conditional jump at offset 5 leads to 25, and the jump at offset 20, which ends at 25, has
the displacement 65536. -/
def elseFarBody8 : List Nat :=
  [0x01, 0x01, 0x00, 0x00, 0x00, 0x65, 0x0F, 0x00, 0x00, 0x00, 0x01, 0x09, 0x00, 0x00, 0x00,
   0x6D, 0x00, 0x00, 0x00, 0x00, 0x66, 0x00, 0x00, 0x01, 0x00, 0x01, 0x0A, 0x00, 0x00, 0x00,
   0x6D, 0x00, 0x00, 0x00, 0x00]

/-- A v6 body with a loop inside an `if` that ends in front of the end of the loop: the
conditional jump at offset 2 leads to 13, the one at offset 7 leads to 18, and the jump at
offset 15, which ends at 18, leads back to 5, where the line of the second predicate
starts. -/
def whileAcrossIfBody : List Nat :=
  [0x00, 0x01, 0x5D, 0x08, 0x00, 0x00, 0x01, 0x5D, 0x08, 0x00, 0x00, 0x09, 0x43, 0x00, 0x00,
   0x73, 0xF3, 0xFF]

/-- A v6 body with a loop whose body holds a conditional jump to the end of the loop: the
conditional jumps at offsets 2 and 7 both lead to 18, and the jump at offset 15, which ends
at 18, leads back to 0. -/
def whileWithBreakBody : List Nat :=
  [0x00, 0x01, 0x5D, 0x0D, 0x00, 0x00, 0x01, 0x5D, 0x08, 0x00, 0x00, 0x09, 0x43, 0x00, 0x00,
   0x73, 0xEE, 0xFF]

/-- A v6 body with 256 conditional jumps nested into each other in front of scenario E:
for every i below 256 the push of 1 at offset 5 i and the conditional jump at offset
5 i + 2, which ends at 5 i + 5 and leads to 1293; then, at offset 1280, the 13 bytes of
scenario E, whose conditional jump at offset 1282 leads to 1293 and whose jump at offset
1290, which ends at 1293, leads back to 1280. -/
def whileDeepBody : List Nat :=
  (List.range 256).flatMap
      (fun i => [0x00, 0x01, 0x5D, (1288 - 5 * i) % 256, (1288 - 5 * i) / 256])
    ++ whileBody

/-- The state in which `main` enters its loop on `whileDeepBody` (flags `c` and `x`). -/
def whileDeepStart : State :=
  { plainFlags with mem := scrpFile whileDeepBody, org_pos := 8, cur_pos := 8 }

/-- A v6 body of the shape of scenario E without the push of the predicate: the conditional
jump at offset 0 leads to 11, and the jump at offset 8, which ends at 11, leads back to 0. -/
def whileNoPredicateBody : List Nat :=
  [0x5D, 0x08, 0x00, 0x00, 0x09, 0x43, 0x00, 0x00, 0x73, 0xF5, 0xFF]


/-! Theorems -/

/-! Auxiliary facts on bit masks and integer conversions -/

theorem or_eq_zero_iff_both (a b : Nat) : a ||| b = 0 ↔ a = 0 ∧ b = 0 := by
  constructor
  · intro h
    have hb : ∀ i, (a.testBit i || b.testBit i) = false := fun i => by
      rw [← Nat.testBit_or, h]; simp
    constructor <;> apply Nat.eq_of_testBit_eq <;> intro i <;> have := hb i <;> simp_all
  · rintro ⟨rfl, rfl⟩; rfl

theorem and_two_pow_eq (n i : Nat) : n &&& 2 ^ i = if n.testBit i then 2 ^ i else 0 := by
  rw [Nat.and_two_pow]
  cases n.testBit i <;> simp

theorem and_two_pow_eq_zero (n i : Nat) : n &&& 2 ^ i = 0 ↔ n.testBit i = false := by
  rw [and_two_pow_eq]
  cases n.testBit i <;> simp

/-- A mask of four adjacent bits selects nothing exactly when the four bits are clear. -/
theorem and_nibble_eq_zero (n w : Nat) :
    n &&& (2 ^ (w + 3) ||| (2 ^ (w + 2) ||| (2 ^ (w + 1) ||| 2 ^ w))) = 0 ↔
      n.testBit (w + 3) = false ∧ n.testBit (w + 2) = false ∧ n.testBit (w + 1) = false
        ∧ n.testBit w = false := by
  rw [Nat.and_or_distrib_left, Nat.and_or_distrib_left, Nat.and_or_distrib_left]
  simp only [or_eq_zero_iff_both, and_two_pow_eq_zero]

theorem testBit_false_of_lt {n i : Nat} (h : n < 2 ^ i) (j : Nat) (hj : i ≤ j) :
    n.testBit j = false :=
  Nat.testBit_lt_two_pow (Nat.lt_of_lt_of_le h (Nat.pow_le_pow_right (by decide) hj))

theorem toU32_natCast_of_lt {n : Nat} (h : n < 4294967296) : toU32 (n : Int) = n := by
  unfold toU32
  have : ((n : Int) % 4294967296) = (n : Int) := Int.emod_eq_of_lt (by omega) (by omega)
  rw [this]; rfl

theorem toInt16_of_lt {n : Nat} (h : n < 32768) : toInt16 n = (n : Int) := by
  unfold toInt16
  have h1 : n % 65536 = n := Nat.mod_eq_of_lt (by omega)
  rw [h1, if_pos h]

theorem toInt32_of_lt {n : Nat} (h : n < 2147483648) : toInt32 n = (n : Int) := by
  unfold toInt32
  have h1 : n % 4294967296 = n := Nat.mod_eq_of_lt (by omega)
  rw [h1, if_pos h]

/-! The masks of `se_astext` on v6/v7 ids, read as bit tests -/

theorem maskOf_F000 (d : Int) : maskOf d 0xF000 = 0 ↔
    (toU32 d).testBit 15 = false ∧ (toU32 d).testBit 14 = false
      ∧ (toU32 d).testBit 13 = false ∧ (toU32 d).testBit 12 = false :=
  and_nibble_eq_zero (toU32 d) 12

theorem maskOf_8000 (d : Int) : maskOf d 0x8000 = 0 ↔ (toU32 d).testBit 15 = false :=
  and_two_pow_eq_zero (toU32 d) 15

theorem maskOf_4000 (d : Int) : maskOf d 0x4000 = 0 ↔ (toU32 d).testBit 14 = false :=
  and_two_pow_eq_zero (toU32 d) 14

theorem maskOf_7FFF (d : Int) : maskOf d 0x7FFF = toU32 d % 2 ^ 15 :=
  Nat.and_pow_two_sub_one_eq_mod (toU32 d) 15

theorem maskOf_FFF (d : Int) : maskOf d 0xFFF = toU32 d % 2 ^ 12 :=
  Nat.and_pow_two_sub_one_eq_mod (toU32 d) 12

/-! The masks of `se_astext` on v8 ids -/

theorem maskOf_F0000000 (d : Int) : maskOf d 0xF0000000 = 0 ↔
    (toU32 d).testBit 31 = false ∧ (toU32 d).testBit 30 = false
      ∧ (toU32 d).testBit 29 = false ∧ (toU32 d).testBit 28 = false :=
  and_nibble_eq_zero (toU32 d) 28

theorem maskOf_80000000 (d : Int) : maskOf d 0x80000000 = 0 ↔ (toU32 d).testBit 31 = false :=
  and_two_pow_eq_zero (toU32 d) 31

theorem maskOf_40000000 (d : Int) : maskOf d 0x40000000 = 0 ↔ (toU32 d).testBit 30 = false :=
  and_two_pow_eq_zero (toU32 d) 30

theorem maskOf_7FFFFFFF (d : Int) : maskOf d 0x7FFFFFFF = toU32 d % 2 ^ 31 :=
  Nat.and_pow_two_sub_one_eq_mod (toU32 d) 31

theorem maskOf_FFFFFFF (d : Int) : maskOf d 0xFFFFFFF = toU32 d % 2 ^ 28 :=
  Nat.and_pow_two_sub_one_eq_mod (toU32 d) 28

theorem se_astext_seVar (ver : Nat) (d : Int) (wp : Bool) :
    se_astext ver (.seVar d) wp = varText ver d := by
  cases wp <;> simp [se_astext]

/-- The text of a variable, by the bits of its id above the index width. -/
theorem varText_by_bits (ver : Nat) (d : Int) :
    ((toU32 d).testBit (varWidth ver + 3) = true →
        varText ver d = "bitvar" ++ fmt_d ((toU32 d % 2 ^ (varWidth ver + 3) : Nat) : Int))
    ∧ ((toU32 d).testBit (varWidth ver + 3) = false →
        (toU32 d).testBit (varWidth ver + 2) = true →
        varText ver d = "localvar" ++ fmt_d ((toU32 d % 2 ^ varWidth ver : Nat) : Int))
    ∧ ((toU32 d).testBit (varWidth ver + 3) = false →
        (toU32 d).testBit (varWidth ver + 2) = false →
        ((toU32 d).testBit (varWidth ver + 1) = true ∨ (toU32 d).testBit (varWidth ver) = true) →
        varText ver d = "?var?" ++ fmt_d d)
    ∧ ((toU32 d).testBit (varWidth ver + 3) = false →
        (toU32 d).testBit (varWidth ver + 2) = false →
        (toU32 d).testBit (varWidth ver + 1) = false →
        (toU32 d).testBit (varWidth ver) = false →
        varText ver d =
          match getVarName ver (toU32 d % 2 ^ varWidth ver) with
          | some name => name
          | none => "var" ++ fmt_d ((toU32 d % 2 ^ varWidth ver : Nat) : Int)) := by
  by_cases hv : ver = 8
  · subst hv
    have hW : varWidth 8 = 28 := rfl
    simp only [hW]
    refine ⟨fun h3 => ?_, fun h3 h2 => ?_, fun h3 h2 h10 => ?_, fun h3 h2 h1 h0 => ?_⟩
    · have hF : ¬ maskOf d 0xF0000000 = 0 := by
        rw [maskOf_F0000000]; intro h; rw [h.1] at h3; exact Bool.noConfusion h3
      have h8 : ¬ maskOf d 0x80000000 = 0 := by
        rw [maskOf_80000000]; intro h; rw [h] at h3; exact Bool.noConfusion h3
      simp only [varText, if_true, if_neg hF, ne_eq, h8, not_false_eq_true, if_pos, maskOf_7FFFFFFF]
    · have hF : ¬ maskOf d 0xF0000000 = 0 := by
        rw [maskOf_F0000000]; intro h; rw [h.2.1] at h2; exact Bool.noConfusion h2
      have h8 : maskOf d 0x80000000 = 0 := (maskOf_80000000 d).2 h3
      have h4 : ¬ maskOf d 0x40000000 = 0 := by
        rw [maskOf_40000000]; intro h; rw [h] at h2; exact Bool.noConfusion h2
      simp only [varText, if_true, if_neg hF, ne_eq, h8, not_true_eq_false, if_false, h4,
        not_false_eq_true, if_pos, maskOf_FFFFFFF]
    · have hF : ¬ maskOf d 0xF0000000 = 0 := by
        rw [maskOf_F0000000]; intro h
        rcases h10 with h1 | h0
        · rw [h.2.2.1] at h1; exact Bool.noConfusion h1
        · rw [h.2.2.2] at h0; exact Bool.noConfusion h0
      have h8 : maskOf d 0x80000000 = 0 := (maskOf_80000000 d).2 h3
      have h4 : maskOf d 0x40000000 = 0 := (maskOf_40000000 d).2 h2
      simp only [varText, if_true, if_neg hF, ne_eq, h8, not_true_eq_false, if_false, h4]
    · have hF : maskOf d 0xF0000000 = 0 := (maskOf_F0000000 d).2 ⟨h3, h2, h1, h0⟩
      simp only [varText, if_true, hF, maskOf_FFFFFFF]
  · have hW : varWidth ver = 12 := by simp [varWidth, hv]
    simp only [hW]
    refine ⟨fun h3 => ?_, fun h3 h2 => ?_, fun h3 h2 h10 => ?_, fun h3 h2 h1 h0 => ?_⟩
    · have hF : ¬ maskOf d 0xF000 = 0 := by
        rw [maskOf_F000]; intro h; rw [h.1] at h3; exact Bool.noConfusion h3
      have h8 : ¬ maskOf d 0x8000 = 0 := by
        rw [maskOf_8000]; intro h; rw [h] at h3; exact Bool.noConfusion h3
      simp only [varText, if_neg hv, if_neg hF, ne_eq, h8, not_false_eq_true, if_pos, maskOf_7FFF]
    · have hF : ¬ maskOf d 0xF000 = 0 := by
        rw [maskOf_F000]; intro h; rw [h.2.1] at h2; exact Bool.noConfusion h2
      have h8 : maskOf d 0x8000 = 0 := (maskOf_8000 d).2 h3
      have h4 : ¬ maskOf d 0x4000 = 0 := by
        rw [maskOf_4000]; intro h; rw [h] at h2; exact Bool.noConfusion h2
      simp only [varText, if_neg hv, if_neg hF, ne_eq, h8, not_true_eq_false, if_false, h4,
        not_false_eq_true, if_pos, maskOf_FFF]
    · have hF : ¬ maskOf d 0xF000 = 0 := by
        rw [maskOf_F000]; intro h
        rcases h10 with h1 | h0
        · rw [h.2.2.1] at h1; exact Bool.noConfusion h1
        · rw [h.2.2.2] at h0; exact Bool.noConfusion h0
      have h8 : maskOf d 0x8000 = 0 := (maskOf_8000 d).2 h3
      have h4 : maskOf d 0x4000 = 0 := (maskOf_4000 d).2 h2
      simp only [varText, if_neg hv, if_neg hF, ne_eq, h8, not_true_eq_false, if_false, h4]
    · have hF : maskOf d 0xF000 = 0 := (maskOf_F000 d).2 ⟨h3, h2, h1, h0⟩
      simp only [varText, if_neg hv, hF, if_true, maskOf_FFF]

/-- C7 (as amended): with W = 12 on v6/v7 and W = 28 on v8, and reading the id as the low 32
bits of the node data, a variable renders as a global (its name, or `varN`) when none of
the four bits W..W+3 is set; as `bitvarN`, N the bits below the flag, whenever bit W+3 (0x8000,
0x8000_0000) is set, whatever the other high bits; as `localvarN`, N the low W bits, when
bit W+3 is clear and bit W+2 (0x4000, 0x4000_0000) is set, whatever bits W and W+1 are; and as
`?var?N`, N the whole id, only when both flags are clear and bit W or W+1 is set. -/
theorem C7_variable_classes (ver : Nat) (d : Int) (wp : Bool) :
    ((toU32 d).testBit (varWidth ver + 3) = true →
        se_astext ver (se_var d) wp
          = "bitvar" ++ fmt_d ((toU32 d % 2 ^ (varWidth ver + 3) : Nat) : Int))
    ∧ ((toU32 d).testBit (varWidth ver + 3) = false →
        (toU32 d).testBit (varWidth ver + 2) = true →
        se_astext ver (se_var d) wp
          = "localvar" ++ fmt_d ((toU32 d % 2 ^ varWidth ver : Nat) : Int))
    ∧ ((toU32 d).testBit (varWidth ver + 3) = false →
        (toU32 d).testBit (varWidth ver + 2) = false →
        ((toU32 d).testBit (varWidth ver + 1) = true ∨ (toU32 d).testBit (varWidth ver) = true) →
        se_astext ver (se_var d) wp = "?var?" ++ fmt_d d)
    ∧ ((toU32 d).testBit (varWidth ver + 3) = false →
        (toU32 d).testBit (varWidth ver + 2) = false →
        (toU32 d).testBit (varWidth ver + 1) = false →
        (toU32 d).testBit (varWidth ver) = false →
        se_astext ver (se_var d) wp =
          match getVarName ver (toU32 d % 2 ^ varWidth ver) with
          | some name => name
          | none => "var" ++ fmt_d ((toU32 d % 2 ^ varWidth ver : Nat) : Int)) := by
  have h : se_astext ver (se_var d) wp = varText ver d := se_astext_seVar ver d wp
  rw [h]
  exact varText_by_bits ver d

/-- C7, instances: on v6 the id 0x6000 (local flag with 0x2000) is a local variable, the id
0xC000 read from the stream (both flags) a bit variable, 0x2005 is unknown; on v8 the id
0xC0000001 is a bit variable. -/
theorem C7_variable_classes_witness :
    se_astext 6 (se_var 0x6000) true = "localvar0"
    ∧ se_astext 6 (se_var (toInt32 (toU32 (toInt16 0xC000)))) true = "bitvar16384"
    ∧ se_astext 6 (se_var 0x2005) true = "?var?8197"
    ∧ se_astext 8 (se_var (toInt32 0xC0000001)) true = "bitvar1073741825" := by
  refine ⟨?_, ?_, ?_, ?_⟩
  · exact ((C7_variable_classes 6 0x6000 true).2.1 (by decide) (by decide)).trans (by decide)
  · exact ((C7_variable_classes 6 (toInt32 (toU32 (toInt16 0xC000))) true).1 (by decide)).trans
      (by decide)
  · exact ((C7_variable_classes 6 0x2005 true).2.2.1 (by decide) (by decide)
      (Or.inl (by decide))).trans (by decide)
  · exact ((C7_variable_classes 8 (toInt32 0xC0000001) true).1 (by decide)).trans (by decide)

/-- C7 as stated fails: the claim renders an id with the local flag together with 0x2000, and
an id with both the bit flag and the local flag, as `?var?N`; the code renders the first as
a local variable and the second as a bit variable. -/
theorem C7_counterexample :
    se_astext 6 (se_var 0x6000) true = "localvar0"
    ∧ se_astext 6 (se_var 0x6000) true ≠ "?var?24576"
    ∧ se_astext 6 (se_var (toInt32 (toU32 (toInt16 0xC000)))) true = "bitvar16384"
    ∧ se_astext 6 (se_var (toInt32 (toU32 (toInt16 0xC000)))) true ≠ "?var?49152"
    ∧ se_astext 8 (se_var (toInt32 0xC0000000)) true = "bitvar1073741824" := by
  decide


theorem varText_global (ver id : Nat) (hid : id < 2 ^ varWidth ver) :
    varText ver (id : Int) =
      match getVarName ver id with
      | some name => name
      | none => "var" ++ fmt_d (id : Int) := by
  have hW : varWidth ver ≤ 28 := by unfold varWidth; split <;> omega
  have h32 : id < 4294967296 :=
    Nat.lt_of_lt_of_le hid (Nat.pow_le_pow_right (by decide) (by omega : varWidth ver ≤ 32))
  have hu : toU32 (id : Int) = id := toU32_natCast_of_lt h32
  have hb : ∀ j, varWidth ver ≤ j → (toU32 (id : Int)).testBit j = false := fun j hj => by
    rw [hu]; exact testBit_false_of_lt hid j hj
  have h := (varText_by_bits ver (id : Int)).2.2.2 (hb _ (by omega)) (hb _ (by omega))
    (hb _ (by omega)) (hb _ (by omega))
  rw [hu, Nat.mod_eq_of_lt hid] at h
  exact h

/-- C8: in every dialect `getVarName id` is a name exactly when `id` is below the length of
the dialect's table and the entry at `id` is that name (so it is absent when the entry is
null or `id` is out of range); a global id (no bit at or above W set) renders as its name when
it has one and as `varN`, N the id in decimal, when it has none. -/
theorem C8_global_naming (ver id : Nat) :
    (∀ name, getVarName ver id = some name ↔
        id < (varNamesOf ver).length ∧ (varNamesOf ver).getD id none = some name)
    ∧ (id < 2 ^ varWidth ver → ∀ wp, se_astext ver (se_var (id : Int)) wp =
        match getVarName ver id with
        | some name => name
        | none => "var" ++ fmt_d (id : Int)) := by
  constructor
  · intro name
    unfold getVarName varNamesOf
    by_cases h8 : ver = 8
    · simp only [h8, if_true]
      by_cases hlen : id ≥ var_names8.length
      · simp only [hlen, if_true]
        constructor
        · intro h; exact absurd h (by simp)
        · intro h; exact absurd h.1 (by omega)
      · simp only [hlen, if_false]
        constructor
        · intro h; exact ⟨by omega, h⟩
        · intro h; exact h.2
    · by_cases h7 : ver = 7
      · simp only [h7, if_true, show ¬ (7 = 8) by decide, if_false]
        by_cases hlen : id ≥ var_names7.length
        · simp only [hlen, if_true]
          constructor
          · intro h; exact absurd h (by simp)
          · intro h; exact absurd h.1 (by omega)
        · simp only [hlen, if_false]
          constructor
          · intro h; exact ⟨by omega, h⟩
          · intro h; exact h.2
      · simp only [h8, h7, if_false]
        by_cases hlen : id ≥ var_names6.length
        · simp only [hlen, if_true]
          constructor
          · intro h; exact absurd h (by simp)
          · intro h; exact absurd h.1 (by omega)
        · simp only [hlen, if_false]
          constructor
          · intro h; exact ⟨by omega, h⟩
          · intro h; exact h.2
  · intro hid wp
    rw [show se_var (id : Int) = .seVar (id : Int) from rfl, se_astext_seVar]
    exact varText_global ver id hid

set_option maxRecDepth 8192 in
/-- C8, instances: v6 id 1 renders `g_ego`, v7 id 1 renders `VAR_MOUSE_X`, v6 ids 0 (null
entry) and 77 (behind the 77 entries of the table) render `var0` and `var77`. -/
theorem C8_global_naming_witness :
    se_astext 6 (se_var 1) true = "g_ego"
    ∧ se_astext 7 (se_var 1) true = "VAR_MOUSE_X"
    ∧ se_astext 6 (se_var 0) true = "var0"
    ∧ se_astext 6 (se_var 77) true = "var77"
    ∧ getVarName 6 77 = none ∧ getVarName 6 0 = none ∧ getVarName 6 1 = some "g_ego" := by
  refine ⟨?_, ?_, ?_, ?_, ?_, ?_, ?_⟩
  · exact ((C8_global_naming 6 1).2 (by decide) true).trans (by decide)
  · exact ((C8_global_naming 7 1).2 (by decide) true).trans (by decide)
  · exact ((C8_global_naming 6 0).2 (by decide) true).trans (by decide)
  · exact ((C8_global_naming 6 77).2 (by decide) true).trans (by decide)
  · decide
  · decide
  · exact ((C8_global_naming 6 1).1 "g_ego").2 (by decide)


/-! The binary operator opcodes -/

theorem next_line_switch_binop (k : Nat) (hk : k < 12) (s : State) :
    next_line_switch (0xE + k) s =
      match pop s with
      | .error f => .error f
      | .ok (se_a, s1) =>
        match pop s1 with
        | .error f => .error f
        | .ok (se_b, s2) => .ok (push (.seBinary ((k : Int) + 1) se_b se_a) s2) := by
  interval_cases k <;> rfl

theorem next_line_V8_switch_binop (k : Nat) (hk : k < 15) (s : State) :
    next_line_V8_switch (0x8 + k) s =
      match pop s with
      | .error f => .error f
      | .ok (se_a, s1) =>
        match pop s1 with
        | .error f => .error f
        | .ok (se_b, s2) => .ok (push (.seBinary ((k : Int) + 1) se_b se_a) s2) := by
  interval_cases k <;> rfl

theorem se_astext_seBinary_parens (ver : Nat) (op : Int) (a b : StackEnt) :
    se_astext ver (.seBinary op a b) true =
      "(" ++ se_astext ver a true ++ " " ++ oper_list.getD op.toNat "" ++ " "
        ++ se_astext ver b true ++ ")" := by
  simp [se_astext]

/-- C6: on v6/v7 the opcode 0xE+k (k < 12) and on v8 the opcode 0x8+k (k < 15), dispatched
with b on top of a on the stack, consume the opcode byte and replace the two entries by the
one node `seBinary (k+1) a b`, the same node in both dispatchers; that node renders as
`(A op B)` with op the entry k+1 of the operator table, which reads `==`, `!=`, `>`, `<`,
`<=`, `>=`, `+`, `-`, `*`, `/`, `&&`, `||`, `&`, `|`, `%` from index 1 on. -/
theorem C6_binary_operators (s : State) (a b : StackEnt) (rest : List StackEnt) (k : Nat)
    (hstack : s.stack = b :: a :: rest) :
    (s.scriptVersion ≠ 8 → k < 12 → byteAt s s.cur_pos = 0xE + k →
      next_line s = .ok { s with cur_pos := s.cur_pos + 1,
                                 stack := .seBinary ((k : Int) + 1) a b :: rest })
    ∧ (s.scriptVersion = 8 → k < 15 → byteAt s s.cur_pos = 0x8 + k →
      next_line_V8 s = .ok { s with cur_pos := s.cur_pos + 1,
                                    stack := .seBinary ((k : Int) + 1) a b :: rest })
    ∧ (k < 15 → ∀ ver,
      se_astext ver (.seBinary ((k : Int) + 1) a b) true =
        "(" ++ se_astext ver a true ++ " "
          ++ ["==", "!=", ">", "<", "<=", ">=", "+", "-", "*", "/", "&&", "||", "&", "|",
              "%"].getD k ""
          ++ " " ++ se_astext ver b true ++ ")"
      ∧ oper_list.getD (k + 1) "" =
          ["==", "!=", ">", "<", "<=", ">=", "+", "-", "*", "/", "&&", "||", "&", "|",
            "%"].getD k "") := by
  refine ⟨fun _ hk hcode => ?_, fun _ hk hcode => ?_, fun hk ver => ?_⟩
  · unfold next_line get_byte
    simp only [hcode]
    rw [next_line_switch_binop k hk]
    simp [pop, push, hstack]
  · unfold next_line_V8 get_byte
    simp only [hcode]
    rw [next_line_V8_switch_binop k hk]
    simp [pop, push, hstack]
  · have hop : oper_list.getD (k + 1) "" =
        ["==", "!=", ">", "<", "<=", ">=", "+", "-", "*", "/", "&&", "||", "&", "|",
          "%"].getD k "" := by
      interval_cases k <;> rfl
    refine ⟨?_, hop⟩
    rw [se_astext_seBinary_parens, ← hop]
    have : ((k : Int) + 1).toNat = k + 1 := by omega
    rw [this]

/-- C6, instance: `+` is opcode 0x14 on v6 (k = 6) and 0x0E on v8; with 3 on top of 2 both
dispatchers leave the node that renders `(2 + 3)`. -/
theorem C6_binary_operators_witness :
    next_line { mem := [0x14], stack := [.seInt 3, .seInt 2] }
      = .ok { mem := [0x14], cur_pos := 1, stack := [.seBinary 7 (.seInt 2) (.seInt 3)] }
    ∧ next_line_V8 { scriptVersion := 8, mem := [0x0E], stack := [.seInt 3, .seInt 2] }
      = .ok { scriptVersion := 8, mem := [0x0E], cur_pos := 1,
              stack := [.seBinary 7 (.seInt 2) (.seInt 3)] }
    ∧ se_astext 6 (.seBinary 7 (.seInt 2) (.seInt 3)) true = "(2 + 3)" := by
  refine ⟨?_, ?_, ?_⟩
  · exact (C6_binary_operators { mem := [0x14], stack := [.seInt 3, .seInt 2] }
      (.seInt 2) (.seInt 3) [] 6 rfl).1 (by decide) (by decide) (by decide)
  · exact (C6_binary_operators { scriptVersion := 8, mem := [0x0E], stack := [.seInt 3, .seInt 2] }
      (.seInt 2) (.seInt 3) [] 6 rfl).2.1 (by decide) (by decide) (by decide)
  · exact (((C6_binary_operators { mem := [0x14], stack := [.seInt 3, .seInt 2] }
      (.seInt 2) (.seInt 3) [] 6 rfl).2.2 (by decide) 6).1).trans (by decide)


/-! Named calls: the argument loop and the emitted text -/

theorem joinDown_append (xs ys : List String) (n : Nat) (hn : n ≤ xs.length) :
    joinDown (xs ++ ys) n = joinDown xs n := by
  induction n with
  | zero => rfl
  | succ i ih =>
    have hi : i < xs.length := hn
    simp only [joinDown]
    rw [ih (Nat.le_of_lt hi)]
    congr 2
    simp [List.getD_eq_getElem?_getD, List.getElem?_append_left hi]

theorem commaSep_cons (a : String) (l : List String) :
    commaSep (a :: l) = a ++ (if l.length ≠ 0 then "," else "") ++ commaSep l := by
  cases l with
  | nil => simp [commaSep]
  | cons b rest => simp [commaSep]

/-- The countdown loop writes the items last to first, separated by commas. -/
theorem joinDown_eq_commaSep (xs : List String) :
    joinDown xs xs.length = commaSep xs.reverse := by
  induction xs using List.reverseRecOn with
  | nil => rfl
  | append_singleton xs x ih =>
    rw [List.length_append, List.length_singleton, List.reverse_append, List.reverse_singleton,
      List.singleton_append, commaSep_cons, List.length_reverse, ← ih]
    simp only [joinDown]
    rw [joinDown_append xs [x] xs.length (Nat.le_refl _)]
    congr 2
    simp [List.getD_eq_getElem?_getD]

theorem readLabel_plain (label tail : List Nat) (c : Nat) (hc : c = 0 ∨ c = 44)
    (hl : ∀ x ∈ label, x ≠ 0 ∧ x ≠ 44) :
    readLabel (label ++ c :: tail) = some label := by
  induction label with
  | nil => simp [readLabel, hc]
  | cons x xs ih =>
    have hx := hl x (List.mem_cons_self x xs)
    have ih2 := ih (fun y hy => hl y (List.mem_cons_of_mem x hy))
    simp [readLabel, hx.1, hx.2, ih2]

/-- The argument loop on a run of `p` atoms pops one entry per atom. -/
theorem extArgs_pops (stk : List StackEnt) :
    ∀ (fuel : Nat) (tail : List Nat) (l : ExtLocals) (s : State) (rest : List StackEnt),
      stk.length < fuel → s.stack = stk ++ rest →
      extArgs fuel (List.replicate stk.length 112 ++ 124 :: tail) l s =
        .ok (tail, { l with args := l.args ++ stk }, { s with stack := rest }) := by
  induction stk with
  | nil =>
    intro fuel tail l s rest hf hs
    obtain ⟨f, rfl⟩ : ∃ f, fuel = f + 1 := ⟨fuel - 1, by simp at hf; omega⟩
    simp only [List.length_nil, List.replicate_zero, List.nil_append, extArgs, if_true,
      List.append_nil]
    simp only [List.nil_append] at hs
    rw [← hs]
  | cons e es ih =>
    intro fuel tail l s rest hf hs
    obtain ⟨f, rfl⟩ : ∃ f, fuel = f + 1 := ⟨fuel - 1, by simp at hf; omega⟩
    have hf2 : es.length < f := by simp at hf; omega
    simp only [List.length_cons, List.replicate_succ, List.cons_append, extArgs]
    simp only [show ¬ ((112 : Nat) = 124) by decide, show ¬ ((112 : Nat) = 120) by decide,
      show ¬ ((112 : Nat) = 121) by decide, show ¬ ((112 : Nat) = 109) by decide,
      if_false, false_and, if_true]
    simp only [pop, hs, List.cons_append]
    have h := ih f tail { l with args := l.args ++ [e] } { s with stack := es ++ rest } rest
      hf2 rfl
    simpa [List.append_assoc] using h


/-! Reading from the byte stream leaves everything but the cursor alone -/

theorem byteAt_ne_zero_lt (s : State) (i : Nat) (h : byteAt s i ≠ 0) : i < s.mem.length := by
  unfold byteAt at h
  by_contra hc
  apply h
  simp [List.getD_eq_getElem?_getD, List.getElem?_eq_none (Nat.le_of_not_lt hc)]

theorem get_word_eq (s : State) :
    ∃ w k, get_word s = (w, { s with cur_pos := s.cur_pos + k }) := by
  unfold get_word
  split
  · exact ⟨_, 4, rfl⟩
  · exact ⟨_, 2, rfl⟩

theorem se_get_string_escape_eq (i : Nat) (s : State) :
    ∃ text k, se_get_string_escape i s = (text, { s with cur_pos := s.cur_pos + k }) := by
  obtain ⟨w, k, hw⟩ := get_word_eq s
  unfold se_get_string_escape
  rw [hw]
  by_cases h1 : i = 1
  · rw [if_pos h1]; exact ⟨_, 0, rfl⟩
  rw [if_neg h1]
  by_cases h2 : i = 2
  · rw [if_pos h2]; exact ⟨_, 0, rfl⟩
  rw [if_neg h2]
  by_cases h3 : i = 3
  · rw [if_pos h3]; exact ⟨_, 0, rfl⟩
  rw [if_neg h3]
  by_cases h4 : i = 4
  · rw [if_pos h4]; exact ⟨_, k, rfl⟩
  rw [if_neg h4]
  by_cases h9 : i = 9
  · rw [if_pos h9]; exact ⟨_, k, rfl⟩
  rw [if_neg h9]
  by_cases h10 : i = 10
  · rw [if_pos h10]; exact ⟨_, 14, rfl⟩
  rw [if_neg h10]
  by_cases h14 : i = 14
  · rw [if_pos h14]; exact ⟨_, k, rfl⟩
  rw [if_neg h14]
  by_cases h12 : i = 12
  · rw [if_pos h12]; exact ⟨_, k, rfl⟩
  rw [if_neg h12]
  by_cases h13 : i = 13
  · rw [if_pos h13]; exact ⟨_, k, rfl⟩
  rw [if_neg h13]
  exact ⟨_, k, rfl⟩

/-- The string decoder returns within its fuel and moves only the cursor. -/
theorem se_get_string_loop_ok : ∀ (fuel : Nat) (e : String) (inq : Bool) (s : State),
    s.mem.length - s.cur_pos < fuel →
    ∃ buf c, se_get_string_loop fuel e inq s = .ok (buf, { s with cur_pos := c }) := by
  intro fuel
  induction fuel with
  | zero => intro e inq s h; omega
  | succ f ih =>
    intro e inq s h
    rw [se_get_string_loop]
    simp only [get_byte]
    by_cases h0 : byteAt s s.cur_pos = 0
    · rw [if_pos h0]
      exact ⟨_, _, rfl⟩
    · have hlt := byteAt_ne_zero_lt s _ h0
      rw [if_neg h0]
      by_cases hesc : byteAt s s.cur_pos = 255 ∨ byteAt s s.cur_pos = 254
      · rw [if_pos hesc]
        obtain ⟨text, k, hk⟩ := se_get_string_escape_eq
          (byteAt { s with cur_pos := s.cur_pos + 1 } (s.cur_pos + 1))
          { s with cur_pos := s.cur_pos + 1 + 1 }
        rw [hk]
        obtain ⟨buf, c, hh⟩ := ih ((if inq = true then e ++ dquote else e) ++ text) false
          { s with cur_pos := s.cur_pos + 1 + 1 + k }
          (by show s.mem.length - (s.cur_pos + 1 + 1 + k) < f; omega)
        exact ⟨buf, c, hh⟩
      · rw [if_neg hesc]
        obtain ⟨buf, c, hh⟩ := ih
          ((if (!inq) = true then e ++ dquote else e)
            ++ String.singleton (Char.ofNat (byteAt s s.cur_pos))) true
          { s with cur_pos := s.cur_pos + 1 }
          (by show s.mem.length - (s.cur_pos + 1) < f; omega)
        exact ⟨buf, c, hh⟩

theorem se_get_string_ok (s : State) :
    ∃ buf c, se_get_string s = .ok (se_complex buf, { s with cur_pos := c }) := by
  obtain ⟨buf, c, h⟩ := se_get_string_loop_ok (s.mem.length - s.cur_pos + 1) "" false s
    (Nat.lt_succ_self _)
  exact ⟨buf, c, by simp [se_get_string, h]⟩

theorem popList_take (n : Nat) : ∀ (s : State), n ≤ s.stack.length →
    popList n s = .ok (s.stack.take n, { s with stack := s.stack.drop n }) := by
  induction n with
  | zero => intro s _; simp [popList]
  | succ m ih =>
    intro s h
    cases hs : s.stack with
    | nil => rw [hs] at h; simp at h
    | cons e es =>
      rw [hs] at h
      have hm : m ≤ es.length := by simpa using h
      simp only [popList, pop, hs]
      rw [ih { s with stack := es } hm]
      simp


/-- One pass of the argument loop over an argument atom: it appends the arguments it
consumed, drops what it popped and moves the cursor. -/
theorem extArgs_atom (f : Nat) (a : Nat) (s : State) (n : Nat)
    (ha : atomPops s.scriptVersion s.stack a = some n) (hn : n ≤ s.stack.length) :
    ∃ newargs c, ∀ (fmt : List Nat) (l : ExtLocals),
      extArgs (f + 1) (a :: fmt) l s =
        extArgs f fmt { l with args := l.args ++ newargs }
          { s with stack := s.stack.drop n, cur_pos := c } := by
  unfold atomPops at ha
  by_cases hp : a = 112
  · subst hp
    simp only [if_true, Option.some.injEq] at ha
    subst ha
    cases hs : s.stack with
    | nil => rw [hs] at hn; simp at hn
    | cons e es =>
      refine ⟨[e], s.cur_pos, fun fmt l => ?_⟩
      simp [extArgs, pop, hs]
  rw [if_neg hp] at ha
  by_cases hz : a = 122
  · subst hz
    simp only [if_true, Option.some.injEq] at ha
    by_cases hv : s.scriptVersion < 7
    · rw [if_pos hv] at ha
      subst ha
      cases hs : s.stack with
      | nil => rw [hs] at hn; simp at hn
      | cons e es =>
        cases es with
        | nil => rw [hs] at hn; simp at hn
        | cons e2 es2 =>
          refine ⟨[e, e2], s.cur_pos, fun fmt l => ?_⟩
          simp [extArgs, pop, hs, hv]
    · rw [if_neg hv] at ha
      subst ha
      cases hs : s.stack with
      | nil => rw [hs] at hn; simp at hn
      | cons e es =>
        refine ⟨[e], s.cur_pos, fun fmt l => ?_⟩
        simp [extArgs, pop, hs, hv]
  rw [if_neg hz] at ha
  by_cases hl : a = 108
  · subst hl
    simp only [if_true] at ha
    cases hs : s.stack with
    | nil => rw [hs] at ha; simp at ha
    | cons e es =>
      rw [hs] at ha hn
      cases e with
      | seInt num =>
        simp only [Option.some.injEq] at ha
        subst ha
        have hes : num.toNat ≤ es.length := by simp at hn; omega
        refine ⟨[.seStackList num (es.take num.toNat)], s.cur_pos, fun fmt l => ?_⟩
        have hpl := popList_take num.toNat { s with stack := es } hes
        simp [extArgs, se_get_list, pop, hs, hpl, Nat.add_comm 1 num.toNat]
      | _ => simp at ha
  rw [if_neg hl] at ha
  by_cases hr : a = 115 ∨ a = 119 ∨ a = 106
  · rw [if_pos hr] at ha
    simp only [Option.some.injEq] at ha
    subst ha
    rcases hr with h | h | h
    · subst h
      obtain ⟨buf, c, hb⟩ := se_get_string_ok s
      refine ⟨[se_complex buf], c, fun fmt l => ?_⟩
      simp [extArgs, hb]
    · subst h
      obtain ⟨w, k, hw⟩ := get_word_eq s
      refine ⟨[se_int (toInt32 w)], s.cur_pos + k, fun fmt l => ?_⟩
      simp [extArgs, hw]
    · subst h
      obtain ⟨w, k, hw⟩ := get_word_eq s
      refine ⟨[se_int (toInt32 w)], s.cur_pos + k, fun fmt l => ?_⟩
      simp [extArgs, hw]
  · rw [if_neg hr] at ha
    exact absurd ha (by simp)

/-- The argument loop over the atoms of a descriptor on a stack deep enough for them. -/
theorem extArgs_atoms (atoms : List Nat) :
    ∀ (fuel : Nat) (tail : List Nat) (l : ExtLocals) (s : State) (n : Nat),
      atoms.length < fuel → descPops s.scriptVersion atoms s.stack = some n →
      ∃ args c, extArgs fuel (atoms ++ 124 :: tail) l s =
        .ok (tail, { l with args := l.args ++ args },
          { s with stack := s.stack.drop n, cur_pos := c }) := by
  induction atoms with
  | nil =>
    intro fuel tail l s n hf hd
    obtain ⟨f, rfl⟩ : ∃ f, fuel = f + 1 := ⟨fuel - 1, by simp at hf; omega⟩
    simp only [descPops, Option.some.injEq] at hd
    subst hd
    exact ⟨[], s.cur_pos, by simp [extArgs]⟩
  | cons a atoms ih =>
    intro fuel tail l s n hf hd
    obtain ⟨f, rfl⟩ : ∃ f, fuel = f + 1 := ⟨fuel - 1, by simp at hf; omega⟩
    have hf2 : atoms.length < f := by simp at hf; omega
    simp only [descPops] at hd
    cases ha : atomPops s.scriptVersion s.stack a with
    | none => rw [ha] at hd; simp at hd
    | some n1 =>
      rw [ha] at hd
      simp only at hd
      by_cases hn1 : n1 ≤ s.stack.length
      · rw [if_pos hn1] at hd
        cases hm : descPops s.scriptVersion atoms (s.stack.drop n1) with
        | none => rw [hm] at hd; simp at hd
        | some m =>
          rw [hm] at hd
          simp only [Option.some.injEq] at hd
          subst hd
          obtain ⟨newargs, c1, hstep⟩ := extArgs_atom f a s n1 ha hn1
          obtain ⟨args, c, hrest⟩ := ih f tail { l with args := l.args ++ newargs }
            { s with stack := s.stack.drop n1, cur_pos := c1 } m hf2 hm
          refine ⟨newargs ++ args, c, ?_⟩
          rw [List.cons_append, hstep, hrest]
          simp [List.append_assoc, Nat.add_comm n1 m]
      · rw [if_neg hn1] at hd
        simp at hd


theorem extText_eq_callText (ver : Nat) (l : ExtLocals) (label : List Nat) :
    extText ver l label = callText ver l.prep label l.args := by
  unfold extText callText
  have h := joinDown_eq_commaSep (l.args.map (fun a => se_astext ver a true))
  rw [List.length_map] at h
  rw [h, List.map_reverse]

/-- C9: whenever `ext` returns, the text it built is the optional `m` prefix, the label, and
in parentheses the arguments in the reverse of the order in which the argument loop
consumed them, separated by commas (the text is left in the output buffer, or pushed as a
Complex node for an `r` descriptor); and for a descriptor of k `p` atoms (k at most the 10
slots of `args`) run after pushing e1 … ek in that order, the text is `label(E1,…,Ek)`. -/
theorem C9_named_call_text :
    (∀ (fmt : List Nat) (s s' : State), extBytes fmt s = .ok s' →
      ∃ (fmt1 fmt2 label : List Nat) (l : ExtLocals) (s1 : State),
        extArgs (fmt1.length + 1) fmt1 {} s = .ok (fmt2, l, s1)
        ∧ readLabel fmt2 = some label
        ∧ ((fmt.head? = some 114 ∧ fmt1 = fmt.tail ∧ s'.output = ""
              ∧ s'.stack = .seComplex (callText s1.scriptVersion l.prep label l.args) :: s1.stack)
           ∨ (fmt.head? ≠ some 114 ∧ fmt1 = fmt
              ∧ s'.output = callText s1.scriptVersion l.prep label l.args
              ∧ s'.stack = s1.stack)))
    ∧ (∀ (es : List StackEnt) (label : List Nat) (rest : List StackEnt) (s : State),
      es.length ≤ 10 → (∀ x ∈ label, x ≠ 0 ∧ x ≠ 44) → s.stack = es.reverse ++ rest →
      extBytes (List.replicate es.length 112 ++ 124 :: (label ++ [0])) s =
        .ok { s with stack := rest,
                     output := bytesToString label ++ "("
                       ++ commaSep (es.map (fun e => se_astext s.scriptVersion e true))
                       ++ ")" }) := by
  constructor
  · intro fmt s s' h
    unfold extBytes at h
    by_cases hr : fmt.head? = some 114
    · simp only [hr, decide_True, if_true] at h
      cases ha : extArgs (fmt.tail.length + 1) fmt.tail {} s with
      | error f => rw [ha] at h; simp at h
      | ok r =>
        obtain ⟨fmt2, l, s1⟩ := r
        rw [ha] at h
        simp only at h
        cases hl : readLabel fmt2 with
        | none => rw [hl] at h; simp at h
        | some label =>
          rw [hl] at h
          simp only [Except.ok.injEq] at h
          subst h
          exact ⟨fmt.tail, fmt2, label, l, s1, ha, hl, Or.inl ⟨hr, rfl, rfl, by
            simp [push, se_complex, extText_eq_callText]⟩⟩
    · simp only [hr, decide_False, Bool.false_eq_true, if_false] at h
      cases ha : extArgs (fmt.length + 1) fmt {} s with
      | error f => rw [ha] at h; simp at h
      | ok r =>
        obtain ⟨fmt2, l, s1⟩ := r
        rw [ha] at h
        simp only at h
        cases hl : readLabel fmt2 with
        | none => rw [hl] at h; simp at h
        | some label =>
          rw [hl] at h
          simp only [Bool.false_eq_true, if_false, Except.ok.injEq] at h
          subst h
          exact ⟨fmt, fmt2, label, l, s1, ha, hl, Or.inr ⟨hr, rfl, by
            simp [extText_eq_callText], rfl⟩⟩
  · intro es label rest s _ hlabel hstack
    have hhead : (List.replicate es.length 112 ++ 124 :: (label ++ [0])).head? ≠ some 114 := by
      cases es with
      | nil => simp
      | cons e es2 => simp [List.replicate_succ]
    have hargs := extArgs_pops es.reverse
      ((List.replicate es.length 112 ++ 124 :: (label ++ [0])).length + 1) (label ++ [0]) {} s rest
      (by simp; omega) hstack
    rw [List.length_reverse] at hargs
    unfold extBytes
    simp only [hhead, decide_False, Bool.false_eq_true, if_false]
    rw [hargs]
    simp only [readLabel_plain label [] 0 (Or.inl rfl) hlabel, extText_eq_callText]
    simp [callText]

/-- C9, instance: v6 opcode 0x81 (`pp|faceActor`) after pushing 1 then 2 leaves
`faceActor(1,2)` in the output buffer. -/
theorem C9_named_call_text_witness :
    next_line { mem := [0x81], stack := [.seInt 2, .seInt 1] }
      = .ok { mem := [0x81], cur_pos := 1, stack := [], output := "faceActor(1,2)" } := by
  have h := C9_named_call_text.2 [.seInt 1, .seInt 2] [102, 97, 99, 101, 65, 99, 116, 111, 114] []
    { mem := [0x81], cur_pos := 1, stack := [.seInt 2, .seInt 1] } (by decide) (by decide) rfl
  have hfmt : cstr "pp|faceActor"
      = List.replicate 2 112 ++ 124 :: ([102, 97, 99, 101, 65, 99, 116, 111, 114] ++ [0]) := by
    decide
  have hstep : next_line { mem := [0x81], stack := [.seInt 2, .seInt 1] }
      = extBytes (cstr "pp|faceActor")
          { mem := [0x81], cur_pos := 1, stack := [.seInt 2, .seInt 1] } := rfl
  rw [hstep, hfmt]
  exact h.trans rfl


theorem descPops_le (ver : Nat) (atoms : List Nat) :
    ∀ (stack : List StackEnt) (n : Nat), descPops ver atoms stack = some n → n ≤ stack.length := by
  induction atoms with
  | nil => intro stack n h; simp only [descPops, Option.some.injEq] at h; omega
  | cons a atoms ih =>
    intro stack n h
    simp only [descPops] at h
    cases ha : atomPops ver stack a with
    | none => rw [ha] at h; simp at h
    | some n1 =>
      rw [ha] at h
      simp only at h
      by_cases hn1 : n1 ≤ stack.length
      · rw [if_pos hn1] at h
        cases hm : descPops ver atoms (stack.drop n1) with
        | none => rw [hm] at h; simp at h
        | some m =>
          rw [hm] at h
          simp only [Option.some.injEq] at h
          have := ih (stack.drop n1) m hm
          rw [List.length_drop] at this
          omega
      · rw [if_neg hn1] at h; simp at h

theorem descPops_head_ne_r (ver : Nat) (atoms : List Nat) (stack : List StackEnt) (n : Nat)
    (h : descPops ver atoms stack = some n) (tail : List Nat) :
    (atoms ++ 124 :: tail).head? ≠ some 114 := by
  cases atoms with
  | nil => simp
  | cons a atoms =>
    simp only [List.cons_append, List.head?_cons, ne_eq, Option.some.injEq]
    intro ha
    subst ha
    simp [descPops, atomPops] at h

/-- C10: for a descriptor made of argument atoms only (no `x`/`y` menu; at most 5 atoms, the
longest in the program, so that `args` stays within its 10 slots), run on a stack that is
deep enough to supply every pop: as a statement descriptor `ext` returns with the stack
lowered by exactly the number of entries its atoms pop (`p` 1, `z` 2 on v6 and 1 on v7/v8,
`l` 1 plus the literal count, `s`/`w`/`j` 0), the rendered call in the output buffer and
only the cursor changed besides; with a leading `r` it returns with a Complex node holding
the rendered call pushed on that lowered stack (depth minus pops plus one) and the output
buffer empty. -/
theorem C10_named_call_stack_effect (atoms label : List Nat) (s : State) (n : Nat)
    (_hatoms : atoms.length ≤ 5)
    (hd : descPops s.scriptVersion atoms s.stack = some n)
    (hlabel : ∀ x ∈ label, x ≠ 0 ∧ x ≠ 44) :
    n ≤ s.stack.length
    ∧ (∃ args c, extBytes (atoms ++ 124 :: (label ++ [0])) s =
        .ok { s with stack := s.stack.drop n, cur_pos := c,
                     output := callText s.scriptVersion none label args }
        ∧ (s.stack.drop n).length = s.stack.length - n)
    ∧ (∃ args c, extBytes (114 :: (atoms ++ 124 :: (label ++ [0]))) s =
        .ok { s with stack := .seComplex (callText s.scriptVersion none label args)
                                :: s.stack.drop n,
                     cur_pos := c, output := "" }
        ∧ (StackEnt.seComplex (callText s.scriptVersion none label args)
            :: s.stack.drop n).length = s.stack.length - n + 1) := by
  have hle := descPops_le s.scriptVersion atoms s.stack n hd
  refine ⟨hle, ?_, ?_⟩
  · obtain ⟨args, c, hargs⟩ := extArgs_atoms atoms
      ((atoms ++ 124 :: (label ++ [0])).length + 1) (label ++ [0]) {} s n (by simp; omega) hd
    refine ⟨args, c, ?_, by rw [List.length_drop]⟩
    have hhead := descPops_head_ne_r s.scriptVersion atoms s.stack n hd (label ++ [0])
    unfold extBytes
    simp only [hhead, decide_False, Bool.false_eq_true, if_false]
    rw [hargs]
    simp only [readLabel_plain label [] 0 (Or.inl rfl) hlabel, extText_eq_callText]
    simp
  · obtain ⟨args, c, hargs⟩ := extArgs_atoms atoms
      ((atoms ++ 124 :: (label ++ [0])).length + 1) (label ++ [0]) {} s n (by simp; omega) hd
    refine ⟨args, c, ?_, by rw [List.length_cons, List.length_drop]⟩
    unfold extBytes
    simp only [List.head?_cons, decide_True, if_true, List.tail_cons]
    rw [hargs]
    simp only [readLabel_plain label [] 0 (Or.inl rfl) hlabel, extText_eq_callText]
    simp [push, se_complex]

/-- C10, instances: on v6 `zp|putActorAtObject` takes three entries off the stack 3, 2, 1, 0
and leaves `putActorAtObject(1,2,3)` in the buffer; `rp|getRandomNumber` on the stack 5, 0
leaves the Complex node `getRandomNumber(5)` on top of 0 and an empty buffer. -/
theorem C10_named_call_stack_effect_witness :
    (∃ args c, ext "zp|putActorAtObject"
        { stack := [.seInt 3, .seInt 2, .seInt 1, .seInt 0] } =
        .ok { stack := [.seInt 0], cur_pos := c,
              output := callText 6 none (stringAt (cstr "putActorAtObject")) args })
    ∧ (∃ args c, ext "rp|getRandomNumber" { stack := [.seInt 5, .seInt 0] } =
        .ok { stack := [.seComplex (callText 6 none (stringAt (cstr "getRandomNumber")) args),
                        .seInt 0],
              cur_pos := c, output := "" })
    ∧ ext "rp|getRandomNumber" { stack := [.seInt 5, .seInt 0] } =
        .ok { stack := [.seComplex "getRandomNumber(5)", .seInt 0] } := by
  have h1 := (C10_named_call_stack_effect [122, 112] (stringAt (cstr "putActorAtObject"))
    { stack := [.seInt 3, .seInt 2, .seInt 1, .seInt 0] } 3 (by decide) (by decide)
    (by decide)).2.1
  have h2 := (C10_named_call_stack_effect [112] (stringAt (cstr "getRandomNumber"))
    { stack := [.seInt 5, .seInt 0] } 1 (by decide) (by decide) (by decide)).2.2
  refine ⟨?_, ?_, rfl⟩
  · obtain ⟨args, c, h, _⟩ := h1
    exact ⟨args, c, h⟩
  · obtain ⟨args, c, h, _⟩ := h2
    exact ⟨args, c, h⟩


/-! The block recoverer on forward jumps -/

theorem shiftRight16_eq_zero (a : Nat) : a >>> 16 = 0 ↔ a < 65536 := by
  rw [Nat.shiftRight_eq_div_pow]
  constructor
  · intro h
    by_contra hc
    have : 1 ≤ a / 2 ^ 16 := (Nat.le_div_iff_mul_le (by decide)).2 (by omega)
    omega
  · intro h; exact Nat.div_eq_of_lt h

theorem or_lt_two_pow_iff (a b n : Nat) : a ||| b < 2 ^ n ↔ a < 2 ^ n ∧ b < 2 ^ n := by
  constructor
  · intro h
    have hb : ∀ i, i ≥ n → (a.testBit i || b.testBit i) = false := fun i hi => by
      rw [← Nat.testBit_or]; exact testBit_false_of_lt h i hi
    constructor
    · apply Nat.lt_pow_two_of_testBit
      intro i hi
      have := hb i hi
      simp only [Bool.or_eq_false_iff] at this
      exact this.1
    · apply Nat.lt_pow_two_of_testBit
      intro i hi
      have := hb i hi
      simp only [Bool.or_eq_false_iff] at this
      exact this.2
  · intro h; exact Nat.or_lt_two_pow h.1 h.2

/-- The test `(to | cur) >> 16` of the block recoverer is a 16-bit range check. -/
theorem or_shiftRight16 (a b : Nat) : (a ||| b) >>> 16 ≠ 0 ↔ ¬ (a < 65536 ∧ b < 65536) := by
  rw [ne_eq, shiftRight16_eq_zero]
  exact not_congr (or_lt_two_pow_iff a b 16)

theorem toU32_of_nonneg_lt {x : Int} (h0 : 0 ≤ x) (h1 : x < 4294967296) :
    toU32 x = x.toNat := by
  unfold toU32
  rw [Int.emod_eq_of_lt h0 h1]

theorem toU32_neg_ge {x : Int} (h0 : x < 0) (h1 : -2147483648 ≤ x) : 65536 ≤ toU32 x := by
  unfold toU32
  omega

theorem toInt16_range (n : Nat) : -2147483648 ≤ toInt16 n ∧ toInt16 n < 2147483648 := by
  unfold toInt16
  have := Nat.mod_lt n (show 65536 > 0 by decide)
  split <;> omega

theorem toInt32_range (n : Nat) : -2147483648 ≤ toInt32 n ∧ toInt32 n < 2147483648 := by
  unfold toInt32
  have := Nat.mod_lt n (show 4294967296 > 0 by decide)
  split <;> omega

theorem get_signed_word_range (s s1 : State) (d : Int) (h : get_signed_word s = (d, s1)) :
    -2147483648 ≤ d ∧ d < 2147483648 := by
  obtain ⟨w, k, hw⟩ := get_word_eq s
  unfold get_signed_word at h
  rw [hw] at h
  simp only at h
  split at h
  · simp only [Prod.mk.injEq] at h
    rw [← h.1]; exact toInt32_range w
  · simp only [Prod.mk.injEq] at h
    rw [← h.1]; exact toInt16_range w

/-- The frame `maybeAddIf` pushes for a forward jump that stays inside every open block. -/
theorem maybeAddIf_accept (cur to_ : Nat) (s : State) (hlt : cur < to_) (h16 : to_ < 65536)
    (hnest : ∀ f ∈ s.block_stack, to_ ≤ f.to_) (hdepth : s.block_stack.length < 256) :
    maybeAddIf cur to_ s =
      .ok (true, { s with block_stack :=
        { isWhile := whileShape s to_, from_ := cur, to_ := to_ } :: s.block_stack }) := by
  unfold maybeAddIf
  have hchk : ¬ ((to_ ||| cur) >>> 16 ≠ 0 ∨ to_ ≤ cur) := by
    rw [or_shiftRight16]
    intro h
    rcases h with h | h
    · exact h ⟨h16, by omega⟩
    · omega
  have hany : s.block_stack.any (fun p => decide (to_ > p.to_)) = false := by
    rw [List.any_eq_false]
    intro f hf
    have := hnest f hf
    simp only [gt_iff_lt, decide_eq_true_eq, not_lt]
    exact this
  rw [if_neg hchk, hany]
  simp only [Bool.false_eq_true, if_false, pushBlockStackItem, num_block_stack]
  rw [if_neg (by omega)]
  simp only [Nat.mod_eq_of_lt (show cur < 65536 by omega), Nat.mod_eq_of_lt h16, whileShape]


theorem get_signed_word_eq (s s1 : State) (d : Int) (h : get_signed_word s = (d, s1)) :
    ∃ k, s1 = { s with cur_pos := s.cur_pos + k } := by
  obtain ⟨w, k, hw⟩ := get_word_eq s
  unfold get_signed_word at h
  rw [hw] at h
  simp only at h
  split at h
  · simp only [Prod.mk.injEq] at h
    exact ⟨k, h.2.symm⟩
  · simp only [Prod.mk.injEq] at h
    exact ⟨k, h.2.symm⟩

theorem str_append_ne_empty_left (a b : String) (h : a ≠ "") : a ++ b ≠ "" := by
  intro hab
  apply h
  have h1 : (a ++ b).data = [] := by rw [hab]
  rw [String.data_append, List.append_eq_nil] at h1
  exact String.ext h1.1

theorem str_append_ne_empty_right (a b : String) (h : b ≠ "") : a ++ b ≠ "" := by
  intro hab
  apply h
  have h1 : (a ++ b).data = [] := by rw [hab]
  rw [String.data_append, List.append_eq_nil] at h1
  exact String.ext h1.2

/-- What `outputLine` prints for a line with explicit offset and indentation. -/
theorem outputLine_eq (buf : String) (curoffs opcode indent : Int) (s : State)
    (hbuf : buf ≠ "") (hoffs : curoffs ≠ -1) (hind : indent ≠ -1) :
    outputLine buf curoffs opcode indent s =
      printLine (linePrefix s curoffs opcode ++ getIndentString indent ++ buf) s := by
  unfold outputLine linePrefix
  simp only [hbuf, ne_eq, not_false_eq_true, if_true, hoffs, hind, if_false]
  cases s.dontShowOpcode <;> cases s.dontShowOffsets <;> simp [String.append_assoc]

/-- What `outputLine` prints for a closing brace (offset, opcode and indentation defaulted). -/
theorem outputLine_brace (s : State) :
    outputLine "\x7d" (-1) (-1) (-1) s =
      printLine (linePrefix s (get_curoffs s) (-1)
        ++ getIndentString (num_block_stack s) ++ "\x7d") s := by
  unfold outputLine linePrefix
  simp only [show ("\x7d" : String) ≠ "" by decide, ne_eq, not_false_eq_true, if_true]
  cases s.dontShowOpcode <;> cases s.dontShowOffsets <;> simp [String.append_assoc]

/-- The unconditional jump that closes the top frame and jumps forward inside the enclosing
blocks re-opens the frame up to its target and arms the pending else; it writes nothing. -/
theorem jump_else (s s1 : State) (d : Int) (c T : Nat) (p : BlockStack) (rest : List BlockStack)
    (hgs : get_signed_word s = (d, s1)) (hc : get_curoffs s1 = (c : Int))
    (hT : (c : Int) + d = (T : Int)) (hlt : c < T) (h16 : T < 65536)
    (htop : s1.block_stack = p :: rest) (hp : p.to_ = c)
    (hnest : ∀ f ∈ rest, T ≤ f.to_) (hdepth : rest.length < 256)
    (helse : s1.dontOutputElse = false) :
    jump s = .ok { s1 with
      block_stack :=
        { isWhile := whileShape { s1 with block_stack := rest } T, from_ := c, to_ := T } :: rest,
      pendingElse := true, pendingElseTo := T, pendingElseOffs := (c : Int) - 1,
      pendingElseOpcode := s1.g_jump_opcode, pendingElseIndent := (rest.length + 1 : Nat) } := by
  unfold jump
  rw [hgs]
  simp only [helse, Bool.not_false, if_true, hc, hT]
  have hcu : toU32 (c : Int) = c := toU32_natCast_of_lt (by omega)
  have hTu : toU32 (T : Int) = T := toU32_natCast_of_lt (by omega)
  rw [hcu, hTu]
  have hchk : ¬ ((T ||| c) >>> 16 ≠ 0 ∨ T ≤ c) := by
    rw [or_shiftRight16]
    intro h
    rcases h with h | h
    · exact h ⟨h16, by omega⟩
    · omega
  have hif := maybeAddIf_accept c T { s1 with block_stack := rest } hlt h16 hnest hdepth
  simp only [maybeAddElse, if_neg hchk, htop, hp, ne_eq, not_true_eq_false, if_false, hif,
    num_block_stack, List.length_cons]
  simp [helse]

/-- The unconditional jump at the end of a `while` body: it is rejected as an else (the
target is not ahead) and, the top frame being a `while` that ends here, it writes nothing
and leaves the block stack alone. -/
theorem jump_while_end (t t1 : State) (d : Int) (c : Nat) (p : BlockStack)
    (rest : List BlockStack)
    (hgs : get_signed_word t = (d, t1)) (hc : get_curoffs t1 = (c : Int))
    (hback : d ≤ 0) (h16 : c < 65536)
    (htop : t1.block_stack = p :: rest) (hw : p.isWhile = true) (hp : p.to_ = c)
    (hwhile : t1.dontOutputWhile = false) :
    jump t = .ok t1 := by
  have hrange := get_signed_word_range t t1 d hgs
  unfold jump
  rw [hgs]
  simp only [hc]
  have hcu : toU32 (c : Int) = c := toU32_natCast_of_lt (by omega)
  have hrej : maybeAddElse (toU32 (c : Int)) (toU32 ((c : Int) + d)) t1 = .ok (false, t1) := by
    unfold maybeAddElse
    rw [hcu]
    have hchk : (toU32 ((c : Int) + d) ||| c) >>> 16 ≠ 0 ∨ toU32 ((c : Int) + d) ≤ c := by
      by_cases hneg : (c : Int) + d < 0
      · left
        rw [or_shiftRight16]
        intro h
        have := toU32_neg_ge hneg (by omega)
        omega
      · right
        rw [toU32_of_nonneg_lt (by omega) (by omega)]
        omega
    rw [if_pos hchk]
  cases hde : t1.dontOutputElse with
  | true => simp [htop, hwhile, hw, hp]
  | false => simp [hrej, htop, hwhile, hw, hp]

/-- The conditional jump whose target is ahead, inside every open block, and directly behind
an unconditional jump back to the start of the current line opens a `while` frame and
writes the `while` header. -/
theorem jumpif_while (s s1 : State) (se : StackEnt) (when : Bool) (d : Int) (c T : Nat)
    (hgs : get_signed_word s = (d, s1)) (hc : get_curoffs s1 = (c : Int))
    (hT : (c : Int) + d = (T : Int)) (hlt : c < T) (h16 : T < 65536)
    (hnest : ∀ f ∈ s1.block_stack, T ≤ f.to_) (hdepth : s1.block_stack.length < 256)
    (hpend : s1.pendingElse = false) (hifs : s1.dontOutputIfs = false)
    (hwhile : s1.dontOutputWhile = false) (hshape : whileShape s1 T = true) :
    jumpif se when s = .ok { s1 with
      block_stack := { isWhile := true, from_ := c, to_ := T } :: s1.block_stack,
      output := "while (" ++ se_astext s1.scriptVersion (if when then se_neg se else se) false
        ++ headerTail s1 T } := by
  unfold jumpif
  rw [hgs]
  simp only [hpend, Bool.false_eq_true, and_false, if_false, hifs, Bool.not_false, if_true, hc, hT]
  have hcu : toU32 (c : Int) = c := toU32_natCast_of_lt (by omega)
  have hTu : toU32 (T : Int) = T := toU32_natCast_of_lt (by omega)
  rw [hcu, hTu, maybeAddIf_accept c T s1 hlt h16 hnest hdepth, hshape]
  simp [hwhile, headerTail, hpend, hifs]

/-- The conditional jump of the same shape without the back edge opens an `if` frame. -/
theorem jumpif_if (s s1 : State) (se : StackEnt) (when : Bool) (d : Int) (c T : Nat)
    (hgs : get_signed_word s = (d, s1)) (hc : get_curoffs s1 = (c : Int))
    (hT : (c : Int) + d = (T : Int)) (hlt : c < T) (h16 : T < 65536)
    (hnest : ∀ f ∈ s1.block_stack, T ≤ f.to_) (hdepth : s1.block_stack.length < 256)
    (hpend : s1.pendingElse = false) (hifs : s1.dontOutputIfs = false)
    (hshape : whileShape s1 T = false) :
    jumpif se when s = .ok { s1 with
      block_stack := { isWhile := false, from_ := c, to_ := T } :: s1.block_stack,
      output := "if (" ++ se_astext s1.scriptVersion (if when then se_neg se else se) false
        ++ headerTail s1 T } := by
  unfold jumpif
  rw [hgs]
  simp only [hpend, Bool.false_eq_true, and_false, if_false, hifs, Bool.not_false, if_true, hc, hT]
  have hcu : toU32 (c : Int) = c := toU32_natCast_of_lt (by omega)
  have hTu : toU32 (T : Int) = T := toU32_natCast_of_lt (by omega)
  rw [hcu, hTu, maybeAddIf_accept c T s1 hlt h16 hnest hdepth, hshape]
  simp [headerTail, hpend, hifs]

theorem closeBlocks_stop (n : Nat) (s : State) (c : Nat) (hc : toU32 (get_curoffs s) = c)
    (h : ∀ q, s.block_stack.head? = some q → c < q.to_) : closeBlocks (n + 1) s = s := by
  simp only [closeBlocks, indentBlock, hc]
  cases hs : s.block_stack with
  | nil => rfl
  | cons q rest =>
    have := h q (by rw [hs]; rfl)
    simp [this]

theorem closeBlocks_pop (n : Nat) (s : State) (p : BlockStack) (rest : List BlockStack)
    (htop : s.block_stack = p :: rest) (hp : p.to_ ≤ toU32 (get_curoffs s)) :
    closeBlocks (n + 1) s =
      closeBlocks n (outputLine "\x7d" (-1) (-1) (-1) { s with block_stack := rest }) := by
  simp only [closeBlocks, indentBlock, htop]
  rw [if_neg (by omega)]

/-- The closing loop at a cursor that has reached the end of the top frame but not the end
of the frame beneath it removes exactly the top frame and prints exactly one brace,
indented by the number of frames left. -/
theorem closeBlocks_one (u : State) (c : Nat) (p : BlockStack) (rest : List BlockStack)
    (hc : get_curoffs u = (c : Int)) (h32 : c < 4294967296)
    (htop : u.block_stack = p :: rest) (hp : p.to_ ≤ c)
    (hrest : ∀ q, rest.head? = some q → c < q.to_) :
    closeBlocks (num_block_stack u + 1) u =
      printLine (linePrefix u (c : Int) (-1) ++ getIndentString (rest.length : Nat) ++ "\x7d")
        { u with block_stack := rest } := by
  have hcu : toU32 (get_curoffs u) = c := by rw [hc]; exact toU32_natCast_of_lt h32
  have hn : num_block_stack u + 1 = (rest.length + 1) + 1 := by
    simp [num_block_stack, htop]
  rw [hn, closeBlocks_pop (rest.length + 1) u p rest htop (by omega), outputLine_brace]
  have hstop := closeBlocks_stop rest.length
    (printLine (linePrefix { u with block_stack := rest }
        (get_curoffs { u with block_stack := rest }) (-1)
      ++ getIndentString (num_block_stack { u with block_stack := rest }) ++ "\x7d")
      { u with block_stack := rest }) c hcu hrest
  rw [hstop, ← hc]
  rfl


/-! The driver on jumps -/

theorem next_line_switch_jump (s : State) : next_line_switch 0x73 s = jump s := rfl

theorem next_line_V8_switch_jump (s : State) : next_line_V8_switch 0x66 s = jump s := rfl

/-- The dispatch of `main` on the unconditional jump opcode of the dialect. -/
theorem dispatch_jump (s0 : State)
    (hop : (s0.scriptVersion = 8 ∧ byteAt s0 s0.cur_pos = 0x66)
      ∨ (s0.scriptVersion ≠ 8 ∧ byteAt s0 s0.cur_pos = 0x73)) :
    (if ({ s0 with output := "" } : State).scriptVersion = 8
      then next_line_V8 { s0 with output := "" } else next_line { s0 with output := "" })
      = jump { s0 with output := "", cur_pos := s0.cur_pos + 1 } := by
  rcases hop with ⟨hv, hb⟩ | ⟨hv, hb⟩
  · have hb2 : byteAt { s0 with output := "" } ({ s0 with output := "" } : State).cur_pos
        = 0x66 := hb
    have hv2 : ({ s0 with output := "" } : State).scriptVersion = 8 := hv
    rw [if_pos hv2]
    simp only [next_line_V8, get_byte, hb2, next_line_V8_switch_jump]
  · have hb2 : byteAt { s0 with output := "" } ({ s0 with output := "" } : State).cur_pos
        = 0x73 := hb
    have hv2 : ¬ ({ s0 with output := "" } : State).scriptVersion = 8 := hv
    rw [if_neg hv2]
    simp only [next_line, get_byte, hb2, next_line_switch_jump]

theorem writePendingElse_eq (t : State) (hp : t.pendingElse = true)
    (ha : t.alwaysShowOffs = false) (hoffs : t.pendingElseOffs ≠ -1)
    (hind : t.pendingElseIndent - 1 ≠ -1) :
    writePendingElse t =
      { printLine (linePrefix t t.pendingElseOffs t.pendingElseOpcode
          ++ getIndentString (t.pendingElseIndent - 1) ++ "\x7d else \x7b") t
        with pendingElse := false } := by
  unfold writePendingElse
  simp only [hp, if_true, ha, Bool.false_eq_true, if_false]
  rw [outputLine_eq _ _ _ _ _ (by decide) hoffs hind]

/-- What `outputLine` does in any case: it prints at most one line. -/
theorem outputLine_prints (buf : String) (curoffs opcode indent : Int) (s : State) :
    ∃ l, outputLine buf curoffs opcode indent s = { s with stdout := s.stdout ++ l } := by
  unfold outputLine
  by_cases hb : buf ≠ ""
  · rw [if_pos hb]
    simp only []
    by_cases h1 : s.dontShowOpcode = true
    · rw [if_pos h1]
      by_cases h2 : s.dontShowOffsets = true
      · rw [if_pos h2]; exact ⟨[_], rfl⟩
      · rw [if_neg h2]; exact ⟨[_], rfl⟩
    · rw [if_neg h1]
      by_cases h2 : s.dontShowOffsets = true
      · rw [if_pos h2]; exact ⟨[_], rfl⟩
      · rw [if_neg h2]; exact ⟨[_], rfl⟩
  · rw [if_neg hb]; exact ⟨[], by simp⟩

/-- The closing loop removes frames and prints; it changes nothing else. -/
theorem closeBlocks_eq (n : Nat) : ∀ (s : State),
    ∃ bs closers, closeBlocks n s =
      { s with block_stack := bs, stdout := s.stdout ++ closers } := by
  induction n with
  | zero => intro s; exact ⟨s.block_stack, [], by simp [closeBlocks]⟩
  | succ m ih =>
    intro s
    simp only [closeBlocks, indentBlock]
    cases hs : s.block_stack with
    | nil => exact ⟨[], [], by simp [← hs]⟩
    | cons p rest =>
      simp only
      by_cases hlt : toU32 (get_curoffs s) < p.to_
      · rw [if_pos hlt]; exact ⟨p :: rest, [], by simp [← hs]⟩
      · rw [if_neg hlt]
        simp only
        obtain ⟨l, hl⟩ := outputLine_prints "\x7d" (-1) (-1) (-1) { s with block_stack := rest }
        rw [hl]
        obtain ⟨bs, cl, hcl⟩ := ih
          { ({ s with block_stack := rest } : State) with stdout := s.stdout ++ l }
        rw [hcl]
        exact ⟨bs, l ++ cl, by simp [List.append_assoc]⟩


theorem next_line_switch_jumpif_true (s : State) : next_line_switch 0x5C s =
    (match pop s with
    | .error f => .error f
    | .ok (se, s1) => jumpif se true s1) := rfl

theorem next_line_switch_jumpif_false (s : State) : next_line_switch 0x5D s =
    (match pop s with
    | .error f => .error f
    | .ok (se, s1) => jumpif se false s1) := rfl

theorem next_line_V8_switch_jumpif_true (s : State) : next_line_V8_switch 0x64 s =
    (match pop s with
    | .error f => .error f
    | .ok (se, s1) => jumpif se true s1) := rfl

theorem next_line_V8_switch_jumpif_false (s : State) : next_line_V8_switch 0x65 s =
    (match pop s with
    | .error f => .error f
    | .ok (se, s1) => jumpif se false s1) := rfl

/-- The dispatch of `main` on a conditional jump opcode with the predicate on the stack. -/
theorem dispatch_jumpif (s0 : State) (se : StackEnt) (stk : List StackEnt) (when : Bool)
    (hstack : s0.stack = se :: stk)
    (hop : (s0.scriptVersion = 8 ∧ ((byteAt s0 s0.cur_pos = 0x64 ∧ when = true)
              ∨ (byteAt s0 s0.cur_pos = 0x65 ∧ when = false)))
      ∨ (s0.scriptVersion ≠ 8 ∧ ((byteAt s0 s0.cur_pos = 0x5C ∧ when = true)
              ∨ (byteAt s0 s0.cur_pos = 0x5D ∧ when = false)))) :
    (if ({ s0 with output := "" } : State).scriptVersion = 8
      then next_line_V8 { s0 with output := "" } else next_line { s0 with output := "" })
      = jumpif se when { s0 with output := "", cur_pos := s0.cur_pos + 1, stack := stk } := by
  rcases hop with ⟨hv, hb⟩ | ⟨hv, hb⟩
  · have hv2 : ({ s0 with output := "" } : State).scriptVersion = 8 := hv
    rw [if_pos hv2]
    rcases hb with ⟨hb, hw⟩ | ⟨hb, hw⟩
    · have hb2 : byteAt { s0 with output := "" } ({ s0 with output := "" } : State).cur_pos
          = 0x64 := hb
      simp only [next_line_V8, get_byte, hb2, next_line_V8_switch_jumpif_true]
      simp only [pop, hstack, hw]
    · have hb2 : byteAt { s0 with output := "" } ({ s0 with output := "" } : State).cur_pos
          = 0x65 := hb
      simp only [next_line_V8, get_byte, hb2, next_line_V8_switch_jumpif_false]
      simp only [pop, hstack, hw]
  · have hv2 : ¬ ({ s0 with output := "" } : State).scriptVersion = 8 := hv
    rw [if_neg hv2]
    rcases hb with ⟨hb, hw⟩ | ⟨hb, hw⟩
    · have hb2 : byteAt { s0 with output := "" } ({ s0 with output := "" } : State).cur_pos
          = 0x5C := hb
      simp only [next_line, get_byte, hb2, next_line_switch_jumpif_true]
      simp only [pop, hstack, hw]
    · have hb2 : byteAt { s0 with output := "" } ({ s0 with output := "" } : State).cur_pos
          = 0x5D := hb
      simp only [next_line, get_byte, hb2, next_line_switch_jumpif_false]
      simp only [pop, hstack, hw]


/-- A pass of the driver whose opcode leaves the output buffer empty prints no line of its
own; only the closing loop runs. -/
theorem mainStep_silent (t t1 : State)
    (hdisp : (if ({ t with output := "" } : State).scriptVersion = 8
      then next_line_V8 { t with output := "" } else next_line { t with output := "" })
      = .ok t1)
    (hout : t1.output = "") :
    mainStep t = .ok (closeBlocks (num_block_stack t1 + 1) t1) := by
  unfold mainStep
  simp only [hdisp, hout, ne_eq, not_true_eq_false, if_false]

/-- A pass of the driver whose opcode leaves a line in the output buffer, with no else
pending: the line is printed at the depth the pass started with, under the offset of the
line start, and the closing loop runs behind it. -/
theorem mainStep_line (t t1 : State)
    (hdisp : (if ({ t with output := "" } : State).scriptVersion = 8
      then next_line_V8 { t with output := "" } else next_line { t with output := "" })
      = .ok t1)
    (hne : t1.output ≠ "") (hpend : t1.pendingElse = false) (hhave : t1.haveElse = false)
    (hol : 0 ≤ t1.offs_of_line) :
    mainStep t = .ok (closeBlocks (num_block_stack t1 + 1)
      { t1 with
        haveElse := false,
        stdout := t1.stdout ++ [linePrefix t1 t1.offs_of_line (byteAt t t.cur_pos)
          ++ getIndentString (num_block_stack t) ++ t1.output],
        offs_of_line := get_curoffs t1 }) := by
  unfold mainStep
  simp only [hdisp, hne, ne_eq, not_false_eq_true, if_true, writePendingElse, hpend, hhave,
    Bool.false_eq_true, if_false]
  rw [outputLine_eq _ _ _ _ _ hne (by omega) (by omega)]
  rfl


theorem next_line_switch_00 (s : State) : next_line_switch 0x0 s =
    .ok (push (se_int (get_byte s).1) (get_byte s).2) := rfl

theorem next_line_switch_43 (s : State) : next_line_switch 0x43 s =
    (match pop (get_word s).2 with
    | .error f => .error f
    | .ok (se, s2) => .ok (writeVar (toInt32 (get_word s).1) se s2)) := rfl

/-- C1: for every byte n and every v6 global variable id v (below 4096) without an entry in
the v6 name table, decompiling a v6 `SCRP` file with the body 00 n 43 lo(v) hi(v) from the
initial state (empty stack) succeeds, prints exactly one statement line, `var<v> = <n>`
(behind the prefix `[0000] (43) ` with the default flags, bare with `-c -x`), then `END`
and `Stack count: 0`, and ends with an empty stack. -/
theorem C1_literal_assignment (n v : Nat) (_hn : n < 256) (hv : v < 4096)
    (hname : getVarName 6 v = none) (a b c d : Nat) (junk : List Nat) :
    (∃ s, decompile ([83, 67, 82, 80, a, b, c, d] ++ [0x00, n, 0x43, v % 256, v / 256]) junk {}
          = .ok s
        ∧ s.stdout = ["[0000] (43) " ++ ("var" ++ fmt_d v ++ " = " ++ fmt_d n),
                      "END", "Stack count: 0"]
        ∧ s.stack = [])
    ∧ (∃ s, decompile ([83, 67, 82, 80, a, b, c, d] ++ [0x00, n, 0x43, v % 256, v / 256]) junk
            plainFlags = .ok s
        ∧ s.stdout = ["var" ++ fmt_d v ++ " = " ++ fmt_d n, "END", "Stack count: 0"]
        ∧ s.stack = []) := by
  have hw : v % 256 + 256 * (v / 256) = v := Nat.mod_add_div v 256
  have hword : toInt32 (toU32 (toInt16 (v % 256 + 256 * (v / 256)))) = (v : Int) := by
    rw [hw, toInt16_of_lt (by omega), toU32_natCast_of_lt (by omega), toInt32_of_lt (by omega)]
  have htext : varText 6 (v : Int) = "var" ++ fmt_d v := by
    rw [varText_global 6 v (by simpa [varWidth] using hv), hname]
  have hne : "var" ++ fmt_d (v : Int) ++ " = " ++ fmt_d (n : Int) ≠ "" := by
    apply str_append_ne_empty_left; apply str_append_ne_empty_left
    apply str_append_ne_empty_left
    decide
  constructor
  · simp [decompile, tagOf, mainLoop, mainStep, next_line, next_line_switch_00,
      next_line_switch_43, get_byte, byteAt, get_word, hword, pop, push, writeVar, doAssign,
      se_var, se_int, se_astext, htext, hne, closeBlocks, indentBlock, num_block_stack,
      get_curoffs, outputLine, writePendingElse, printEnd, printLine, num_stack]
    exact ⟨congrArg (fun p => p ++ ("var" ++ fmt_d (v : Int) ++ " = " ++ fmt_d (n : Int)))
      (by decide), by decide⟩
  · simp [plainFlags, decompile, tagOf, mainLoop, mainStep, next_line, next_line_switch_00,
      next_line_switch_43, get_byte, byteAt, get_word, hword, pop, push, writeVar, doAssign,
      se_var, se_int, se_astext, htext, hne, closeBlocks, indentBlock, num_block_stack,
      get_curoffs, outputLine, writePendingElse, printEnd, printLine, num_stack]
    have h0 : getIndentString 0 = "" := by decide
    rw [h0]
    exact ⟨String.empty_append _, by decide⟩

/-- Witness of C1: the body 00 07 43 00 00 prints `var0 = 7` and ends with stack count 0. -/
theorem C1_literal_assignment_witness :
    (∃ s, decompile ([83, 67, 82, 80, 0, 0, 0, 0] ++ [0x00, 7, 0x43, 0 % 256, 0 / 256]) [] {}
          = .ok s
        ∧ s.stdout = ["[0000] (43) " ++ ("var" ++ fmt_d (0 : Nat) ++ " = " ++ fmt_d (7 : Nat)),
                      "END", "Stack count: 0"]
        ∧ s.stack = [])
    ∧ (∃ s, decompile ([83, 67, 82, 80, 0, 0, 0, 0] ++ [0x00, 7, 0x43, 0 % 256, 0 / 256]) []
            plainFlags = .ok s
        ∧ s.stdout = ["var" ++ fmt_d (0 : Nat) ++ " = " ++ fmt_d (7 : Nat), "END",
                      "Stack count: 0"]
        ∧ s.stack = []) :=
  C1_literal_assignment 7 0 (by decide) (by decide) (by decide) 0 0 0 0 []

/-- C2 as stated fails: the v6 body 00 02 00 03 00 05 14 43 00 00 holds no multiplication
opcode; what is printed is `var0 = (3 + 5)`, not `var0 = (2 + (3 * 5))`, and the literal 2
stays on the stack. -/
theorem C2_counterexample :
    (decompile (scrpFile [0x00, 0x02, 0x00, 0x03, 0x00, 0x05, 0x14, 0x43, 0x00, 0x00]) []
        plainFlags).toOption.map (fun s => s.stdout)
      = some ["var0 = (3 + 5)", "END", "Stack count: 1", "Stack contents:", "2"]
    ∧ (decompile (scrpFile [0x00, 0x02, 0x00, 0x03, 0x00, 0x05, 0x14, 0x43, 0x00, 0x00]) []
        plainFlags).toOption.map (fun s => decide ("var0 = (2 + (3 * 5))" ∈ s.stdout))
      = some false := by
  decide

/-- C2 (amended): the v6 body 00 02 00 03 00 05 16 14 43 00 00 (push 2, push 3, push 5,
opcode 0x16 `*`, opcode 0x14 `+`, store into variable 0) prints exactly the statement
`var0 = (2 + (3 * 5))` and ends with stack count 0; the body 00 02 00 03 00 05 14 43 00 00,
which has no 0x16, prints `var0 = (3 + 5)` and ends with the literal 2 on the stack. -/
theorem C2_arithmetic_parens :
    (decompile (scrpFile [0x00, 0x02, 0x00, 0x03, 0x00, 0x05, 0x16, 0x14, 0x43, 0x00, 0x00]) []
        plainFlags).toOption.map (fun s => s.stdout)
      = some ["var0 = (2 + (3 * 5))", "END", "Stack count: 0"]
    ∧ (decompile (scrpFile [0x00, 0x02, 0x00, 0x03, 0x00, 0x05, 0x16, 0x14, 0x43, 0x00, 0x00]) []
        {}).toOption.map (fun s => s.stdout)
      = some ["[0000] (43) var0 = (2 + (3 * 5))", "END", "Stack count: 0"]
    ∧ (decompile (scrpFile [0x00, 0x02, 0x00, 0x03, 0x00, 0x05, 0x14, 0x43, 0x00, 0x00]) []
        {}).toOption.map (fun s => s.stdout)
      = some ["[0000] (43) var0 = (3 + 5)", "END", "Stack count: 1", "Stack contents:", "2"] := by
  decide

/-- C3 as stated fails: for the v6 body 00 01 5D 08 00 00 09 43 00 00 73 00 00 the trailing
jump (displacement 0) is printed as the line `jump d` inside the block, so four lines are
printed and a line stands between `var0 = 9` and the closing brace. -/
theorem C3_counterexample :
    (decompile (scrpFile [0x00, 0x01, 0x5D, 0x08, 0x00, 0x00, 0x09, 0x43, 0x00, 0x00,
        0x73, 0x00, 0x00]) [] plainFlags).toOption.map (fun s => s.stdout)
      = some ["if (1) \x7b", "  var0 = 9", "  jump d", "\x7d", "END", "Stack count: 0"] := by
  decide

/-- C3 (amended): decompiling the v6 body 00 01 5D 08 00 00 09 43 00 00 73 00 00 prints
exactly the four lines `if (1) {`, `var0 = 9` and `jump d` indented by one level, and `}`;
the closing brace is printed at offset 000D, the target of the conditional jump.  The body
00 01 5D 05 00 00 09 43 00 00, without a trailing jump, prints exactly the three lines
`if (1) {`, `  var0 = 9`, `}`, closing at the target 000A of its conditional jump. -/
theorem C3_simple_if :
    (decompile (scrpFile [0x00, 0x01, 0x5D, 0x08, 0x00, 0x00, 0x09, 0x43, 0x00, 0x00,
        0x73, 0x00, 0x00]) [] {}).toOption.map (fun s => s.stdout)
      = some ["[0000] (5D) if (1) \x7b", "[0005] (43)   var0 = 9", "[000A] (73)   jump d",
              "[000D] (**) \x7d", "END", "Stack count: 0"]
    ∧ (decompile (scrpFile [0x00, 0x01, 0x5D, 0x05, 0x00, 0x00, 0x09, 0x43, 0x00, 0x00]) []
        {}).toOption.map (fun s => s.stdout)
      = some ["[0000] (5D) if (1) \x7b", "[0005] (43)   var0 = 9", "[000A] (**) \x7d",
              "END", "Stack count: 0"]
    ∧ (decompile (scrpFile [0x00, 0x01, 0x5D, 0x05, 0x00, 0x00, 0x09, 0x43, 0x00, 0x00]) []
        plainFlags).toOption.map (fun s => s.stdout)
      = some ["if (1) \x7b", "  var0 = 9", "\x7d", "END", "Stack count: 0"] := by
  decide

theorem menuEntries_ne_nil (menu : List Nat) : menuEntries menu ≠ [] := by
  cases menu with
  | nil => simp [menuEntries]
  | cons c rest =>
    unfold menuEntries
    by_cases h0 : c = 0
    · simp [h0]
    · by_cases h44 : c = 44
      · simp [h44]
      · rw [if_neg h0, if_neg h44]
        cases menuEntries rest <;> simp

theorem menuEntries_cons_plain (c : Nat) (rest : List Nat) (h0 : c ≠ 0) (h44 : c ≠ 44) :
    ∃ e es, menuEntries rest = e :: es ∧ menuEntries (c :: rest) = (c :: e) :: es := by
  cases h : menuEntries rest with
  | nil => exact absurd h (menuEntries_ne_nil rest)
  | cons e es =>
    refine ⟨e, es, rfl, ?_⟩
    rw [menuEntries, if_neg h0, if_neg h44, h]

/-- The scan of a menu in which every entry has a leading byte, none of them the sub-opcode,
ends in `invalidop` with the menu name: from the start of an entry, and from inside one. -/
theorem scanSubOp_invalid (extstr : List Nat) (extcmd : Nat) (s : State) :
    ∀ (menu : List Nat), 0 ∈ menu →
      (([] ∉ (menuEntries menu).tail ∧ extcmd ∉ (menuEntries menu).tail.filterMap List.head?) →
        scanSubOp extstr extcmd s false menu
          = invalidop (some (bytesToString extstr)) extcmd s)
      ∧ (([] ∉ menuEntries menu ∧ extcmd ∉ menuLeads menu) →
        scanSubOp extstr extcmd s true menu
          = invalidop (some (bytesToString extstr)) extcmd s) := by
  intro menu
  induction menu with
  | nil => intro h; simp at h
  | cons c rest ih =>
    intro hmem
    by_cases h0 : c = 0
    · subst h0
      constructor
      · intro _
        simp [scanSubOp]
      · intro h
        simp [menuEntries] at h
    · have hrest : 0 ∈ rest := by
        rcases List.mem_cons.1 hmem with h | h
        · exact absurd h.symm h0
        · exact h
      obtain ⟨ihF, ihT⟩ := ih hrest
      by_cases h44 : c = 44
      · subst h44
        have he : menuEntries (44 :: rest) = [] :: menuEntries rest := by
          simp [menuEntries]
        constructor
        · intro h
          rw [he] at h
          simp only [List.tail_cons] at h
          have : scanSubOp extstr extcmd s false (44 :: rest)
              = scanSubOp extstr extcmd s true rest := by simp [scanSubOp]
          rw [this]
          exact ihT ⟨h.1, h.2⟩
        · intro h
          rw [he] at h
          simp at h
      · obtain ⟨e, es, h1, h2⟩ := menuEntries_cons_plain c rest h0 h44
        constructor
        · intro h
          rw [h2] at h
          simp only [List.tail_cons] at h
          have : scanSubOp extstr extcmd s false (c :: rest)
              = scanSubOp extstr extcmd s false rest := by simp [scanSubOp, h0, h44]
          rw [this]
          apply ihF
          rw [h1]
          exact h
        · intro h
          unfold menuLeads at h
          rw [h2] at h
          have hc : c ≠ extcmd := by
            intro hc
            apply h.2
            simp [hc]
          have : scanSubOp extstr extcmd s true (c :: rest)
              = scanSubOp extstr extcmd s false rest := by simp [scanSubOp, hc]
          rw [this]
          apply ihF
          rw [h1]
          simp only [List.tail_cons]
          refine ⟨fun hm => h.1 (List.mem_cons_of_mem _ hm), fun hm => h.2 ?_⟩
          simp only [List.filterMap_cons, List.head?_cons]
          exact List.mem_cons_of_mem _ hm

/-- A descriptor that consists of an `x` menu (with or without `m` prefix) whose entries all
have a leading byte: when the byte at the cursor is none of them, `ext` ends in
`invalidop` with the menu name, the sub-opcode read and the cursor behind it. -/
theorem extBytes_menu_invalid (fmt name menu : List Nat) (s : State)
    (hx : xMenu fmt = some (name, menu)) (h0 : 0 ∈ menu) (hwf : [] ∉ menuEntries menu)
    (hb : byteAt s s.cur_pos ∉ menuLeads menu) :
    extBytes fmt s = invalidop (some (bytesToString name)) (byteAt s s.cur_pos)
      { s with cur_pos := s.cur_pos + 1 } := by
  have hscan := fun (st : State) =>
    (scanSubOp_invalid name (byteAt s s.cur_pos) st menu h0).2 ⟨hwf, hb⟩
  unfold xMenu at hx
  split at hx
  · rename_i rest
    cases hs : skipString rest with
    | none => rw [hs] at hx; simp at hx
    | some m =>
      rw [hs] at hx
      simp only [Option.map_some', Option.some.injEq, Prod.mk.injEq] at hx
      obtain ⟨hn, hm⟩ := hx
      subst hn hm
      unfold extBytes
      simp only [List.head?_cons, Option.some.injEq, show ¬ (120 = 114) by decide,
        decide_False, Bool.false_eq_true, if_false]
      simp only [extArgs, show ¬ (120 = 124) by decide, if_false, true_and, if_true, hs,
        get_byte, hscan, invalidop]
  · rename_i rest
    cases hs : skipString rest with
    | none => rw [hs] at hx; simp at hx
    | some r2 =>
      rw [hs] at hx
      cases r2 with
      | nil => simp at hx
      | cons c rest2 =>
        by_cases hc : c = 120
        · subst hc
          simp only at hx
          cases hs2 : skipString rest2 with
          | none => rw [hs2] at hx; simp at hx
          | some m =>
            rw [hs2] at hx
            simp only [Option.map_some', Option.some.injEq, Prod.mk.injEq] at hx
            obtain ⟨hn, hm⟩ := hx
            subst hn hm
            unfold extBytes
            simp only [List.head?_cons, Option.some.injEq, show ¬ (109 = 114) by decide,
              decide_False, Bool.false_eq_true, if_false]
            have hlen : (109 :: rest).length + 1 = ((rest.length) + 1) + 1 := by simp
            rw [hlen]
            simp only [extArgs, show ¬ (109 = 124) by decide, show ¬ (109 = 120) by decide,
              show ¬ (109 = 121) by decide, if_false, false_and, true_and, if_true, hs,
              show ¬ (120 = 124) by decide, hs2, get_byte, hscan, invalidop]
        · simp [hc] at hx
  · simp at hx

theorem next_line_eq (s : State) :
    next_line s = next_line_switch (byteAt s s.cur_pos) { s with cur_pos := s.cur_pos + 1 } := rfl

theorem next_line_V8_eq (s : State) :
    next_line_V8 s
      = next_line_V8_switch (byteAt s s.cur_pos) { s with cur_pos := s.cur_pos + 1 } := rfl

theorem invalidop_some (name : List Nat) (op : Nat) (s : State) :
    (invalidop (some (bytesToString name)) op s : Result State) =
      .error (.exit 1 (s.stdout ++ ["invalid opcode " ++ bytesToString name ++ ":0x" ++ fmt_x op
        ++ " (stack count " ++ fmt_d (num_stack s) ++ ")"])) := rfl

theorem extBytes_menu_check (fmt : List Nat) (name : String) (leads : List Nat) (s : State)
    (hx : xMenuCheck fmt name leads = true) (hb : byteAt s s.cur_pos ∉ leads) :
    extBytes fmt s = .error (.exit 1 (s.stdout ++ ["invalid opcode " ++ name ++ ":0x"
      ++ fmt_x (byteAt s s.cur_pos) ++ " (stack count " ++ fmt_d (num_stack s) ++ ")"])) := by
  unfold xMenuCheck at hx
  cases hm : xMenu fmt with
  | none => rw [hm] at hx; simp at hx
  | some r =>
    obtain ⟨n, menu⟩ := r
    rw [hm] at hx
    simp only [Bool.and_eq_true, decide_eq_true_eq] at hx
    obtain ⟨⟨⟨hn, h0⟩, hwf⟩, hl⟩ := hx
    rw [extBytes_menu_invalid fmt n menu s hm h0 hwf (by rw [hl]; exact hb), invalidop_some, hn]
    rfl

set_option maxRecDepth 8192 in
/-- The scan of the `wait` menu for a byte that leads none of its entries reads behind
the end of the descriptor. -/
theorem wait_menu_runs_off (s : State)
    (hb : byteAt s s.cur_pos ∉ [0xA8, 0xA9, 0xAA, 0xAB, 0xE2, 0xE8]) :
    next_line_switch 0xA9 s
      = .error (.undefined "format string read past its terminating NUL") := by
  have hc : cstr ("xwait\x00\xA8pj|waitForActor,\xA9|waitForMessage,\xAA|waitForCamera," ++
      "\xAB|waitForSentence,\xE2pj|waitUntilActorDrawn,\xE8pj|waitUntilActorTurned,")
      = 120 :: 119 :: 97 :: 105 :: 116 :: 0 ::
        (cstr ("\xA8pj|waitForActor,\xA9|waitForMessage,\xAA|waitForCamera," ++
      "\xAB|waitForSentence,\xE2pj|waitUntilActorDrawn,\xE8pj|waitUntilActorTurned,")) := by
    decide
  show extBytes (cstr _) s = _
  rw [hc]
  simp only [List.mem_cons, List.mem_singleton, List.not_mem_nil, or_false, not_or] at hb
  obtain ⟨h1, h2, h3, h4, h5, h6⟩ := hb
  generalize hbb : byteAt s s.cur_pos = b at *
  have e1 : ¬ 168 = b := fun h => h1 h.symm
  have e2 : ¬ 169 = b := fun h => h2 h.symm
  have e3 : ¬ 170 = b := fun h => h3 h.symm
  have e4 : ¬ 171 = b := fun h => h4 h.symm
  have e5 : ¬ 226 = b := fun h => h5 h.symm
  have e6 : ¬ 232 = b := fun h => h6 h.symm
  by_cases h0 : 0 = b
  · subst h0
    simp [extBytes, extArgs, skipString, stringAt, get_byte, hbb, scanSubOp, cstr]
  · simp [extBytes, extArgs, skipString, stringAt, get_byte, hbb, scanSubOp, cstr, e1, e2, e3, e4, e5, e6, h0]

set_option maxRecDepth 8192 in
/-- In every `x` menu of `next_line_V8` a sub-opcode byte that leads no entry ends the run
through `invalidop`, with the name of the menu in the diagnostic. -/
theorem xMenus8_invalidop : ∀ row ∈ xMenus8, ∀ s : State, byteAt s s.cur_pos = row.1 →
    byteAt s (s.cur_pos + 1) ∉ row.2.2 →
    next_line_V8 s = .error (.exit 1 (s.stdout ++ ["invalid opcode " ++ row.2.1 ++ ":0x"
      ++ fmt_x (byteAt s (s.cur_pos + 1)) ++ " (stack count " ++ fmt_d (num_stack s) ++ ")"])) := by
  intro row hrow s hop hb
  simp only [xMenus8, List.mem_cons, List.mem_singleton, List.not_mem_nil, or_false] at hrow
  rw [next_line_V8_eq, hop]
  rcases hrow with rfl | rfl | rfl | rfl | rfl | rfl | rfl | rfl | rfl | rfl | rfl | rfl | rfl
  all_goals (refine extBytes_menu_check _ _ _ _ ?_ hb; decide)

set_option maxRecDepth 8192 in
/-- C11: for every `x` menu of the two dispatchers whose entries all have a leading byte
(every one but the v6 `wait` menu) and every sub-opcode byte that is not the leading byte
of an entry, the dispatch ends in `invalidop`: the run exits with status 1 having printed
`invalid opcode NAME:0x..` with the menu name, and no statement.  For the `wait` menu
(opcode 0xA9), whose last entry ends with a comma, the scan takes the terminating NUL for a
leading byte and reads behind the end of the descriptor instead. -/
theorem C11_menu_mismatch :
    (∀ row ∈ xMenus6, ∀ s : State, byteAt s s.cur_pos = row.1 →
      byteAt s (s.cur_pos + 1) ∉ row.2.2 →
      next_line s = .error (.exit 1 (s.stdout ++ ["invalid opcode " ++ row.2.1 ++ ":0x"
        ++ fmt_x (byteAt s (s.cur_pos + 1)) ++ " (stack count " ++ fmt_d (num_stack s) ++ ")"])))
    ∧ (∀ row ∈ xMenus8, ∀ s : State, byteAt s s.cur_pos = row.1 →
      byteAt s (s.cur_pos + 1) ∉ row.2.2 →
      next_line_V8 s = .error (.exit 1 (s.stdout ++ ["invalid opcode " ++ row.2.1 ++ ":0x"
        ++ fmt_x (byteAt s (s.cur_pos + 1)) ++ " (stack count " ++ fmt_d (num_stack s) ++ ")"])))
    ∧ (∀ s : State, byteAt s s.cur_pos = 0xA9 →
      byteAt s (s.cur_pos + 1) ∉ [0xA8, 0xA9, 0xAA, 0xAB, 0xE2, 0xE8] →
      next_line s = .error (.undefined "format string read past its terminating NUL")) := by
  refine ⟨?_, ?_, ?_⟩
  case refine_3 =>
    intro s hop hb
    rw [next_line_eq, hop]
    exact wait_menu_runs_off _ hb
  · intro row hrow s hop hb
    simp only [xMenus6, List.mem_cons, List.mem_singleton, List.not_mem_nil, or_false] at hrow
    rw [next_line_eq, hop]
    rcases hrow with rfl | rfl | rfl | rfl | rfl | rfl | rfl | rfl | rfl | rfl | rfl | rfl | rfl | rfl | rfl | rfl
    all_goals (refine extBytes_menu_check _ _ _ _ ?_ hb; decide)
  · exact xMenus8_invalidop

/-- C11, instances: v6 opcode 0xA4 (`arrayOps`) with sub-opcode 0x01 and v8 opcode 0x70
(`dim`) with sub-opcode 0x2C end the run with the diagnostic of the menu; v6 opcode 0xA9
(`wait`) with sub-opcode 0x01 reads behind the end of its descriptor. -/
theorem C11_menu_mismatch_witness :
    next_line { mem := [0xA4, 0x01] }
      = .error (.exit 1 ["invalid opcode arrayOps:0x1 (stack count 0)"])
    ∧ next_line_V8 { mem := [0x70, 0x2C], scriptVersion := 8 }
      = .error (.exit 1 ["invalid opcode dim:0x2c (stack count 0)"])
    ∧ next_line { mem := [0xA9, 0x01] }
      = .error (.undefined "format string read past its terminating NUL") :=
  ⟨(C11_menu_mismatch.1 (0xA4, "arrayOps", [0xCD, 0xD0, 0xD4]) (by decide)
      { mem := [0xA4, 0x01] } rfl (by decide)).trans rfl,
   (C11_menu_mismatch.2.1 (0x70, "dim", [0x0A, 0x0B, 0xCA]) (by decide)
      { mem := [0x70, 0x2C], scriptVersion := 8 } rfl (by decide)).trans rfl,
   C11_menu_mismatch.2.2 { mem := [0xA9, 0x01] } rfl (by decide)⟩

/-- C12: on an empty stack `pop` prints its diagnostic and then aborts (exit status 1)
exactly when halt-on-error is set; otherwise it returns the Complex node
`**** INVALID DATA ****` with the stack still empty, and the run goes on (the v6 body
43 00 00 prints `var0 = **** INVALID DATA ****` and reaches `END`).  On a non-empty stack
`pop` returns the top entry, the one pushed last, and lowers the depth by one. -/
theorem C12_pop_underflow (s : State) :
    (s.stack = [] →
      ((∃ code out, pop s = .error (.exit code out)) ↔ s.haltOnError = true)
      ∧ (s.haltOnError = true →
          pop s = .error (.exit 1 (s.stdout ++ ["No items on stack to pop!"])))
      ∧ (s.haltOnError = false →
          pop s = .ok (.seComplex "**** INVALID DATA ****",
            printLine "No items on stack to pop!" s)
          ∧ num_stack (printLine "No items on stack to pop!" s) = 0))
    ∧ (∀ se rest, s.stack = se :: rest →
        pop s = .ok (se, { s with stack := rest })
        ∧ num_stack ({ s with stack := rest } : State) + 1 = num_stack s)
    ∧ (∀ se, pop (push se s) = .ok (se, s))
    ∧ (decompile (scrpFile [0x43, 0x00, 0x00]) [] plainFlags).toOption.map (fun t => t.stdout)
        = some ["No items on stack to pop!", "var0 = **** INVALID DATA ****", "END",
                "Stack count: 0"]
    ∧ decompile (scrpFile [0x43, 0x00, 0x00]) [] { plainFlags with haltOnError := true }
        = .error (.exit 1 ["No items on stack to pop!"]) := by
  refine ⟨?_, ?_, fun se => rfl, by decide, rfl⟩
  · intro hs
    have hp : s.haltOnError = true → pop s
        = .error (.exit 1 (s.stdout ++ ["No items on stack to pop!"])) := by
      intro hh
      simp [pop, hs, printLine, hh]
    have hq : s.haltOnError = false → pop s = .ok (.seComplex "**** INVALID DATA ****",
        printLine "No items on stack to pop!" s) := by
      intro hh
      simp [pop, hs, printLine, hh, se_complex]
    refine ⟨⟨?_, fun hh => ⟨1, _, hp hh⟩⟩, hp, fun hh => ⟨hq hh, ?_⟩⟩
    · rintro ⟨code, out, h⟩
      by_cases hh : s.haltOnError = true
      · exact hh
      · rw [hq (by simpa using hh)] at h
        cases h
    · simp [num_stack, printLine, hs]
  · intro se rest hs
    constructor
    · simp [pop, hs]
    · simp [num_stack, hs]

/-- C12, instances: `pop` on the empty stack with and without halt-on-error, and on the
stack 2, 1. -/
theorem C12_pop_underflow_witness :
    pop { haltOnError := true } = .error (.exit 1 ["No items on stack to pop!"])
    ∧ pop {} = .ok (.seComplex "**** INVALID DATA ****",
        { stdout := ["No items on stack to pop!"] })
    ∧ pop { stack := [.seInt 2, .seInt 1] } = .ok (.seInt 2, { stack := [.seInt 1] }) :=
  ⟨((C12_pop_underflow { haltOnError := true }).1 rfl).2.1 rfl,
   (((C12_pop_underflow {}).1 rfl).2.2 rfl).1,
   ((C12_pop_underflow { stack := [.seInt 2, .seInt 1] }).2.1 _ _ rfl).1⟩

set_option maxRecDepth 100000 in
/-- C13 fails on the code: `push` stores the entry and raises the depth whatever the depth
is, also at 128 (in C the store goes to `stack[128]`, behind the array; the list of the
embedding has no capacity), and prints nothing.  The v6 body of 129 instructions 00 01
(push the byte 1) runs to `END` and reports `Stack count: 129`. -/
theorem C13_push_unbounded :
    (∀ (se : StackEnt) (s : State), num_stack s = 128 →
      num_stack (push se s) = 129 ∧ (push se s).stack.head? = some se
      ∧ (push se s).stdout = s.stdout)
    ∧ (decompile (scrpFile (List.replicate 129 [0x00, 0x01]).flatten) [] {}).toOption.map
        (fun s => s.stdout.take 2) = some ["END", "Stack count: 129"] := by
  refine ⟨fun se s h => ⟨?_, rfl, rfl⟩, by decide⟩
  simp only [num_stack] at h
  simp [push, num_stack, h]

/-- C13, instance: a push on a stack of 128 entries. -/
theorem C13_push_unbounded_witness :
    num_stack (push (.seInt 7) { stack := List.replicate 128 (.seInt 0) }) = 129
    ∧ (push (.seInt 7) { stack := List.replicate 128 (.seInt 0) }).stack.head? = some (.seInt 7)
    ∧ (push (.seInt 7) { stack := List.replicate 128 (.seInt 0) }).stdout = [] :=
  C13_push_unbounded.1 (.seInt 7) { stack := List.replicate 128 (.seInt 0) } rfl

set_option maxRecDepth 100000 in
/-- C14 holds for the diagnostics of `invalidop`, of `pop` under halt-on-error and of
`se_get_list` (exit status 1), and fails for the other two: `pushBlockStackItem` on a full
block stack prints `BlockStack full!` and calls `exit(0)`, and `main` on a file with an
unknown tag prints `Unknown script type!` and calls `exit(0)`: a conditional jump
dispatched with 256 frames open, and the file `ABCD…`, end the run with exit status 0. -/
theorem C14_exit_status :
    (∀ (cmd : Option String) (op : Nat) (s : State),
      exitCode (invalidop cmd op s : Result State) = some 1)
    ∧ (∀ s : State, s.stack = [] → s.haltOnError = true → exitCode (pop s) = some 1)
    ∧ (∀ (s : State) (se : StackEnt) (rest : List StackEnt), s.stack = se :: rest →
        (∀ n, se ≠ .seInt n) → exitCode (se_get_list s) = some 1)
    ∧ (∀ (item : BlockStack) (s : State), num_block_stack s ≥ 256 →
        pushBlockStackItem item s = .error (.exit 0 (s.stdout ++ ["BlockStack full!"])))
    ∧ (∀ (file junk : List Nat) (s : State),
        tagOf (file.take 65536 ++ junk) ∉ [[76, 83, 67, 82], [83, 67, 82, 80], [69, 78, 67, 68],
          [69, 88, 68, 69], [86, 69, 82, 66]] →
        decompile file junk s = .error (.exit 0 (s.stdout ++ ["Unknown script type!"])))
    ∧ next_line fullBlockStack = .error (.exit 0 ["BlockStack full!"])
    ∧ main ["script.bin"] (fun _ => some [65, 66, 67, 68, 0, 0, 0, 0, 0x00, 0x07]) []
        = .error (.exit 0 ["Unknown script type!"]) := by
  refine ⟨?_, ?_, ?_, ?_, ?_, rfl, rfl⟩
  · intro cmd op s
    cases cmd <;> rfl
  · intro s hs hh
    simp [pop, hs, printLine, hh, exitCode]
  · intro s se rest hs hse
    simp only [se_get_list, pop, hs]
    cases se with
    | seInt n => exact absurd rfl (hse n)
    | _ => rfl
  · intro item s h
    simp [pushBlockStackItem, h]
  · intro file junk s h
    simp only [List.mem_cons, List.mem_singleton, List.not_mem_nil, or_false, not_or] at h
    obtain ⟨h1, h2, h3, h4, h5⟩ := h
    simp only [decompile, h1, h2, h3, h4, h5, if_false]

set_option maxRecDepth 100000 in
/-- C14, instances: the diagnostics of a stack list with a variable count (status 1), of a
full block stack and of an unknown tag (status 0). -/
theorem C14_exit_status_witness :
    exitCode (se_get_list { stack := [.seVar 1] }) = some 1
    ∧ pushBlockStackItem { isWhile := false, from_ := 1, to_ := 2 } fullBlockStack
        = .error (.exit 0 ["BlockStack full!"])
    ∧ decompile [65, 66, 67, 68, 0, 0, 0, 0, 0x00, 0x07] [] {}
        = .error (.exit 0 ["Unknown script type!"]) :=
  ⟨C14_exit_status.2.2.1 { stack := [.seVar 1] } (.seVar 1) [] rfl (fun n h => by cases h),
   C14_exit_status.2.2.2.1 { isWhile := false, from_ := 1, to_ := 2 } fullBlockStack
      (Nat.le_of_eq rfl),
   C14_exit_status.2.2.2.2.1 [65, 66, 67, 68, 0, 0, 0, 0, 0x00, 0x07] [] {} (by decide)⟩

theorem Upd_refl (s : State) : Upd s s := ⟨⟨rfl, Nat.le_refl _, [], by simp⟩, rfl⟩

theorem Advances_trans {s s1 s2 : State} (h1 : Advances s s1) (h2 : Advances s1 s2) :
    Advances s s2 := by
  obtain ⟨a1, b1, e1, c1⟩ := h1
  obtain ⟨a2, b2, e2, c2⟩ := h2
  exact ⟨a2.trans a1, Nat.le_trans b1 b2, e1 ++ e2, by rw [c2, c1, List.append_assoc]⟩

theorem Upd_trans {s s1 s2 : State} (h1 : Upd s s1) (h2 : Upd s1 s2) : Upd s s2 :=
  ⟨Advances_trans h1.1 h2.1, h2.2.trans h1.2⟩

theorem Upd_push {s0 s : State} (se : StackEnt) (h : Upd s0 s) : Upd s0 (push se s) :=
  Upd_trans h ⟨⟨rfl, Nat.le_refl _, [], by simp [push]⟩, rfl⟩

theorem Upd_get_byte {s0 s s1 : State} {b : Nat} (hg : get_byte s = (b, s1))
    (h : Upd s0 s) : Upd s0 s1 := by
  simp only [get_byte, Prod.mk.injEq] at hg
  obtain ⟨_, hg⟩ := hg
  subst hg
  exact Upd_trans h ⟨⟨rfl, Nat.le_add_right _ _, [], by simp⟩, rfl⟩

theorem Upd_get_word {s0 s s1 : State} {w : Nat} (hg : get_word s = (w, s1))
    (h : Upd s0 s) : Upd s0 s1 := by
  obtain ⟨w2, k, hk⟩ := get_word_eq s
  rw [hk] at hg
  simp only [Prod.mk.injEq] at hg
  obtain ⟨_, hg⟩ := hg
  subst hg
  exact Upd_trans h ⟨⟨rfl, Nat.le_add_right _ _, [], by simp⟩, rfl⟩

theorem Upd_pop {s0 s s1 : State} {se : StackEnt} (hp : pop s = .ok (se, s1))
    (h : Upd s0 s) : Upd s0 s1 := by
  unfold pop at hp
  cases hs : s.stack with
  | nil =>
    rw [hs] at hp
    simp only at hp
    by_cases hh : (!(printLine "No items on stack to pop!" s).haltOnError) = true
    · rw [if_pos hh] at hp
      simp only [Except.ok.injEq, Prod.mk.injEq] at hp
      obtain ⟨_, hp⟩ := hp
      subst hp
      exact Upd_trans h ⟨⟨rfl, Nat.le_refl _, [_], rfl⟩, rfl⟩
    · rw [if_neg hh] at hp
      cases hp
  | cons a rest =>
    rw [hs] at hp
    simp only [Except.ok.injEq, Prod.mk.injEq] at hp
    obtain ⟨_, hp⟩ := hp
    subst hp
    exact Upd_trans h ⟨⟨rfl, Nat.le_refl _, [], by simp⟩, rfl⟩

theorem Upd_doAssign {s0 s : State} (dst src : StackEnt) (h : Upd s0 s) :
    Upd s0 (doAssign dst src s).2 := by
  unfold doAssign
  split
  · exact h
  · exact Upd_trans h ⟨⟨rfl, Nat.le_refl _, [], by simp⟩, rfl⟩

theorem Upd_kill {s0 s : State} (se : StackEnt) (h : Upd s0 s) : Upd s0 (kill se s) := by
  unfold kill
  split
  · exact Upd_push _ h
  · exact Upd_trans h ⟨⟨rfl, Nat.le_refl _, [], by simp⟩, rfl⟩

theorem Upd_dup {s0 s s1 : State} {se se1 : StackEnt} (hd : dup se s = (se1, s1))
    (h : Upd s0 s) : Upd s0 s1 := by
  unfold dup at hd
  split at hd
  · simp only [Prod.mk.injEq] at hd
    rw [← hd.2]; exact h
  · have := Upd_doAssign (.seDup ({ s with dupindex := s.dupindex + 1 } : State).dupindex) se
      (Upd_trans h (⟨⟨rfl, Nat.le_refl _, [], by simp⟩, rfl⟩ :
        Upd s { s with dupindex := s.dupindex + 1 }))
    rw [hd] at this
    exact this

theorem Upd_writeVar {s0 s : State} (i : Int) (value : StackEnt) (h : Upd s0 s) :
    Upd s0 (writeVar i value s) := Upd_doAssign _ _ h

theorem Upd_writeArray {s0 s : State} (i : Int) (dim2 : Option StackEnt)
    (dim1 value : StackEnt) (h : Upd s0 s) : Upd s0 (writeArray i dim2 dim1 value s) :=
  Upd_doAssign _ _ h

theorem Upd_addVar {s0 s : State} (i val : Int) (h : Upd s0 s) : Upd s0 (addVar i val s) :=
  Upd_trans h ⟨⟨rfl, Nat.le_refl _, [], by simp [addVar, doAdd]⟩, rfl⟩

theorem Upd_addArray {s0 s : State} (i : Int) (dim1 : StackEnt) (val : Int) (h : Upd s0 s) :
    Upd s0 (addArray i dim1 val s) :=
  Upd_trans h ⟨⟨rfl, Nat.le_refl _, [], by simp [addArray, doAdd]⟩, rfl⟩

theorem Upd_popList (n : Nat) : ∀ {s0 s s1 : State} {l : List StackEnt},
    popList n s = .ok (l, s1) → Upd s0 s → Upd s0 s1 := by
  induction n with
  | zero =>
    intro s0 s s1 l hp h
    simp only [popList, Except.ok.injEq, Prod.mk.injEq] at hp
    rw [← hp.2]; exact h
  | succ m ih =>
    intro s0 s s1 l hp h
    simp only [popList] at hp
    cases h1 : pop s with
    | error f => rw [h1] at hp; cases hp
    | ok r =>
      obtain ⟨se, s2⟩ := r
      rw [h1] at hp
      simp only at hp
      cases h2 : popList m s2 with
      | error f => rw [h2] at hp; cases hp
      | ok r2 =>
        obtain ⟨l2, s3⟩ := r2
        rw [h2] at hp
        simp only [Except.ok.injEq, Prod.mk.injEq] at hp
        rw [← hp.2]
        exact ih h2 (Upd_pop h1 h)

theorem Upd_se_get_list {s0 s s1 : State} {se : StackEnt} (hl : se_get_list s = .ok (se, s1))
    (h : Upd s0 s) : Upd s0 s1 := by
  unfold se_get_list at hl
  cases h1 : pop s with
  | error f => rw [h1] at hl; cases hl
  | ok r =>
    obtain ⟨senum, s2⟩ := r
    rw [h1] at hl
    simp only at hl
    cases senum with
    | seInt num =>
      simp only at hl
      cases h2 : popList num.toNat s2 with
      | error f => rw [h2] at hl; cases hl
      | ok r2 =>
        obtain ⟨l2, s3⟩ := r2
        rw [h2] at hl
        simp only [Except.ok.injEq, Prod.mk.injEq] at hl
        rw [← hl.2]
        exact Upd_popList _ h2 (Upd_pop h1 h)
    | _ => cases hl

theorem Upd_se_get_string_escape {s0 s s1 : State} (i : Nat) {text : String}
    (he : se_get_string_escape i s = (text, s1)) (h : Upd s0 s) : Upd s0 s1 := by
  obtain ⟨t, k, hk⟩ := se_get_string_escape_eq i s
  rw [hk] at he
  simp only [Prod.mk.injEq] at he
  rw [← he.2]
  exact Upd_trans h ⟨⟨rfl, Nat.le_add_right _ _, [], by simp⟩, rfl⟩

theorem Upd_se_get_string_loop : ∀ (fuel : Nat) {s0 s s1 : State} {e buf : String} {inq : Bool},
    se_get_string_loop fuel e inq s = .ok (buf, s1) → Upd s0 s → Upd s0 s1 := by
  intro fuel
  induction fuel with
  | zero => intro s0 s s1 e buf inq hl h; simp [se_get_string_loop] at hl
  | succ f ih =>
    intro s0 s s1 e buf inq hl h
    rw [se_get_string_loop] at hl
    have hb : Upd s0 (get_byte s).2 := Upd_get_byte rfl h
    simp only at hl
    by_cases h0 : (get_byte s).1 = 0
    · rw [if_pos h0] at hl
      simp only [Except.ok.injEq, Prod.mk.injEq] at hl
      rw [← hl.2]; exact hb
    · rw [if_neg h0] at hl
      by_cases hf : (get_byte s).1 = 0xFF ∨ (get_byte s).1 = 0xFE
      · rw [if_pos hf] at hl
        have hb2 : Upd s0 (get_byte (get_byte s).2).2 := Upd_get_byte rfl hb
        have he : Upd s0 (se_get_string_escape (get_byte (get_byte s).2).1
            (get_byte (get_byte s).2).2).2 := Upd_se_get_string_escape _ rfl hb2
        exact ih hl he
      · rw [if_neg hf] at hl
        exact ih hl hb

theorem Upd_se_get_string {s0 s s1 : State} {se : StackEnt}
    (hs : se_get_string s = .ok (se, s1)) (h : Upd s0 s) : Upd s0 s1 := by
  unfold se_get_string at hs
  cases hl : se_get_string_loop (s.mem.length - s.cur_pos + 1) "" false s with
  | error f => rw [hl] at hs; cases hs
  | ok r =>
    obtain ⟨buf, s2⟩ := r
    rw [hl] at hs
    simp only [Except.ok.injEq, Prod.mk.injEq] at hs
    rw [← hs.2]
    exact Upd_se_get_string_loop _ hl h

theorem Upd_printLine {s0 s : State} (line : String) (h : Upd s0 s) :
    Upd s0 (printLine line s) :=
  Upd_trans h ⟨⟨rfl, Nat.le_refl _, [line], rfl⟩, rfl⟩

theorem Upd_extArgs : ∀ (fuel : Nat) {s0 s s1 : State} {fmt fmt1 : List Nat}
    {l l1 : ExtLocals}, extArgs fuel fmt l s = .ok (fmt1, l1, s1) → Upd s0 s → Upd s0 s1 := by
  intro fuel
  induction fuel with
  | zero => intro s0 s s1 fmt fmt1 l l1 he h; simp [extArgs] at he
  | succ f ih =>
    intro s0 s s1 fmt fmt1 l l1 he h
    cases fmt with
    | nil => simp [extArgs] at he
    | cons cmd fmt =>
      rw [extArgs] at he
      by_cases c1 : cmd = 124
      · rw [if_pos c1] at he
        simp only [Except.ok.injEq, Prod.mk.injEq] at he
        rw [← he.2.2]; exact h
      rw [if_neg c1] at he
      by_cases c2 : cmd = 120 ∧ l.extstr = none
      · rw [if_pos c2] at he
        cases hs : skipString fmt with
        | none => rw [hs] at he; cases he
        | some fmt2 =>
          rw [hs] at he
          simp only at he
          cases hsc : scanSubOp (stringAt fmt) (get_byte s).1 (get_byte s).2 true fmt2 with
          | error e => rw [hsc] at he; cases he
          | ok fmt3 =>
            rw [hsc] at he
            exact ih he (Upd_get_byte rfl h)
      rw [if_neg c2] at he
      by_cases c3 : cmd = 121 ∧ l.extstr = none
      · rw [if_pos c3] at he
        cases hs : skipString fmt with
        | none => rw [hs] at he; cases he
        | some fmt2 =>
          rw [hs] at he
          simp only at he
          cases hg : se_get_list s with
          | error e => rw [hg] at he; cases he
          | ok r =>
            obtain ⟨se, s2⟩ := r
            rw [hg] at he
            have h2 := Upd_se_get_list hg h
            cases se with
            | seStackList data list =>
              simp only at he
              split at he
              · cases he
              · split at he
                · cases he
                · split at he
                  · cases he
                  · exact ih he h2
            | _ => cases he
      rw [if_neg c3] at he
      by_cases c4 : cmd = 109 ∧ l.prep = none
      · rw [if_pos c4] at he
        cases hs : skipString fmt with
        | none => rw [hs] at he; cases he
        | some fmt2 =>
          rw [hs] at he
          exact ih he h
      rw [if_neg c4] at he
      by_cases c5 : cmd = 112
      · rw [if_pos c5] at he
        cases hp : pop s with
        | error e => rw [hp] at he; cases he
        | ok r =>
          obtain ⟨a, s2⟩ := r
          rw [hp] at he
          exact ih he (Upd_pop hp h)
      rw [if_neg c5] at he
      by_cases c6 : cmd = 122
      · rw [if_pos c6] at he
        cases hp : pop s with
        | error e => rw [hp] at he; cases he
        | ok r =>
          obtain ⟨a, s2⟩ := r
          rw [hp] at he
          simp only at he
          have h2 := Upd_pop hp h
          by_cases hv : s2.scriptVersion < 7
          · rw [if_pos hv] at he
            cases hp2 : pop s2 with
            | error e => rw [hp2] at he; cases he
            | ok r2 =>
              obtain ⟨b, s3⟩ := r2
              rw [hp2] at he
              exact ih he (Upd_pop hp2 h2)
          · rw [if_neg hv] at he
            exact ih he h2
      rw [if_neg c6] at he
      by_cases c7 : cmd = 115
      · rw [if_pos c7] at he
        cases hp : se_get_string s with
        | error e => rw [hp] at he; cases he
        | ok r =>
          obtain ⟨a, s2⟩ := r
          rw [hp] at he
          exact ih he (Upd_se_get_string hp h)
      rw [if_neg c7] at he
      by_cases c8 : cmd = 119
      · rw [if_pos c8] at he
        exact ih he (Upd_get_word rfl h)
      rw [if_neg c8] at he
      by_cases c9 : cmd = 108
      · rw [if_pos c9] at he
        cases hp : se_get_list s with
        | error e => rw [hp] at he; cases he
        | ok r =>
          obtain ⟨a, s2⟩ := r
          rw [hp] at he
          exact ih he (Upd_se_get_list hp h)
      rw [if_neg c9] at he
      by_cases c10 : cmd = 106
      · rw [if_pos c10] at he
        exact ih he (Upd_get_word rfl h)
      rw [if_neg c10] at he
      exact ih he (Upd_printLine _ h)

theorem Upd_extBytes {s0 s s1 : State} {fmt : List Nat} (he : extBytes fmt s = .ok s1)
    (h : Upd s0 s) : Upd s0 s1 := by
  unfold extBytes at he
  simp only at he
  cases ha : extArgs ((if decide (fmt.head? = some 114) = true then fmt.tail else fmt).length + 1)
      (if decide (fmt.head? = some 114) = true then fmt.tail else fmt) {} s with
  | error e => rw [ha] at he; cases he
  | ok r =>
    obtain ⟨fmt1, l1, s2⟩ := r
    rw [ha] at he
    simp only at he
    have h2 := Upd_extArgs _ ha h
    cases hl : readLabel fmt1 with
    | none => rw [hl] at he; cases he
    | some label =>
      rw [hl] at he
      simp only at he
      split at he
      · simp only [Except.ok.injEq] at he
        rw [← he]
        exact Upd_trans h2 ⟨⟨rfl, Nat.le_refl _, [], by simp [push]⟩, rfl⟩
      · simp only [Except.ok.injEq] at he
        rw [← he]
        exact Upd_trans h2 ⟨⟨rfl, Nat.le_refl _, [], by simp⟩, rfl⟩

theorem Upd_ext {s0 s s1 : State} {fmt : String} (he : ext fmt s = .ok s1)
    (h : Upd s0 s) : Upd s0 s1 := Upd_extBytes he h

/-- A `dite` whose condition fails equals what its `else` branch gives. -/
theorem dite_eq_of_neg {α : Sort u} {c : Prop} [inst : Decidable c] {t : c → α} {e : ¬ c → α}
    {d : α} (hc : ¬ c) (h : ∀ hn : ¬ c, e hn = d) : dite c t e = d :=
  (dif_neg hc).trans (h hc)

theorem pop_noFuel (s : State) : pop s ≠ .error .outOfFuel := by
  intro h
  unfold pop at h
  cases hs : s.stack with
  | nil =>
    rw [hs] at h
    simp only at h
    split at h <;> cases h
  | cons se rest =>
    rw [hs] at h
    cases h

theorem popList_noFuel : ∀ (n : Nat) (s : State), popList n s ≠ .error .outOfFuel := by
  intro n
  induction n with
  | zero => intro s h; cases h
  | succ m ih =>
    intro s h
    unfold popList at h
    split at h
    · cases h; exact pop_noFuel _ (by assumption)
    · split at h
      · cases h; exact ih _ (by assumption)
      · cases h

theorem se_get_list_noFuel (s : State) : se_get_list s ≠ .error .outOfFuel := by
  intro h
  unfold se_get_list at h
  split at h
  · cases h; exact pop_noFuel _ (by assumption)
  · split at h
    · split at h
      · cases h; exact popList_noFuel _ _ (by assumption)
      · cases h
    · cases h

theorem se_get_string_noFuel (s : State) : se_get_string s ≠ .error .outOfFuel := by
  intro h
  unfold se_get_string at h
  obtain ⟨buf, c, hk⟩ := se_get_string_loop_ok (s.mem.length - s.cur_pos + 1) "" false s
    (Nat.lt_succ_self _)
  rw [hk] at h
  cases h

theorem invalidop_noFuel (cmd : Option String) (op : Nat) (s : State) :
    (invalidop cmd op s : Result State) ≠ .error .outOfFuel := by
  intro h
  unfold invalidop at h
  split at h <;> cases h

theorem skipString_length : ∀ (fmt fmt2 : List Nat), skipString fmt = some fmt2 →
    fmt2.length < fmt.length := by
  intro fmt
  induction fmt with
  | nil => intro fmt2 h; cases h
  | cons c rest ih =>
    intro fmt2 h
    unfold skipString at h
    split at h
    · simp only [Option.some.injEq] at h
      rw [← h]
      exact Nat.lt_succ_self _
    · exact Nat.lt_succ_of_lt (ih fmt2 h)

theorem scanSubOp_length (extstr : List Nat) (extcmd : Nat) (s : State) :
    ∀ (fmt fmt3 : List Nat) (b : Bool), scanSubOp extstr extcmd s b fmt = .ok fmt3 →
      fmt3.length < fmt.length := by
  intro fmt
  induction fmt with
  | nil => intro fmt3 b h; cases b <;> cases h
  | cons c rest ih =>
    intro fmt3 b h
    cases b
    · rw [scanSubOp] at h
      split at h
      · exact Nat.lt_succ_of_lt (ih fmt3 true h)
      · split at h
        · exact absurd h (by
            intro h2
            unfold invalidop at h2
            cases h2)
        · exact Nat.lt_succ_of_lt (ih fmt3 false h)
    · rw [scanSubOp] at h
      split at h
      · simp only [Except.ok.injEq] at h
        rw [← h]
        exact Nat.lt_succ_self _
      · exact Nat.lt_succ_of_lt (ih fmt3 false h)

theorem scanSubOp_noFuel (extstr : List Nat) (extcmd : Nat) (s : State) :
    ∀ (fmt : List Nat) (b : Bool),
      scanSubOp extstr extcmd s b fmt ≠ .error .outOfFuel := by
  intro fmt
  induction fmt with
  | nil => intro b h; cases b <;> cases h
  | cons c rest ih =>
    intro b h
    cases b
    · rw [scanSubOp] at h
      split at h
      · exact ih true h
      · split at h
        · unfold invalidop at h
          cases h
        · exact ih false h
    · rw [scanSubOp] at h
      split at h
      · cases h
      · exact ih false h

theorem extArgs_noFuel : ∀ (fuel : Nat) (fmt : List Nat) (l : ExtLocals) (s : State),
    fmt.length < fuel → extArgs fuel fmt l s ≠ .error .outOfFuel := by
  intro fuel
  induction fuel with
  | zero => intro fmt l s h; omega
  | succ f ih =>
    intro fmt l s hlen he
    cases fmt with
    | nil => simp [extArgs] at he
    | cons cmd fmt =>
      simp only [List.length_cons] at hlen
      have hf : fmt.length < f := by omega
      rw [extArgs] at he
      by_cases c1 : cmd = 124
      · rw [if_pos c1] at he
        cases he
      rw [if_neg c1] at he
      by_cases c2 : cmd = 120 ∧ l.extstr = none
      · rw [if_pos c2] at he
        cases hs : skipString fmt with
        | none => rw [hs] at he; cases he
        | some fmt2 =>
          rw [hs] at he
          simp only at he
          cases hsc : scanSubOp (stringAt fmt) (get_byte s).1 (get_byte s).2 true fmt2 with
          | error e =>
            rw [hsc] at he
            cases he
            exact scanSubOp_noFuel _ _ _ _ _ hsc
          | ok fmt3 =>
            rw [hsc] at he
            exact ih _ _ _ (Nat.lt_trans (scanSubOp_length _ _ _ _ _ _ hsc)
              (Nat.lt_trans (skipString_length _ _ hs) hf)) he
      rw [if_neg c2] at he
      by_cases c3 : cmd = 121 ∧ l.extstr = none
      · rw [if_pos c3] at he
        cases hs : skipString fmt with
        | none => rw [hs] at he; cases he
        | some fmt2 =>
          rw [hs] at he
          simp only at he
          cases hg : se_get_list s with
          | error e =>
            rw [hg] at he
            cases he
            exact se_get_list_noFuel _ hg
          | ok r =>
            obtain ⟨se, s2⟩ := r
            rw [hg] at he
            cases se with
            | seStackList data list =>
              simp only at he
              split at he
              · cases he
              · split at he
                · cases he
                · split at he
                  · cases he
                    exact scanSubOp_noFuel _ _ _ _ _ (by assumption)
                  · exact ih _ _ _ (Nat.lt_trans (scanSubOp_length _ _ _ _ _ _ (by assumption))
                      (Nat.lt_trans (skipString_length _ _ hs) hf)) he
            | _ => cases he
      rw [if_neg c3] at he
      by_cases c4 : cmd = 109 ∧ l.prep = none
      · rw [if_pos c4] at he
        cases hs : skipString fmt with
        | none => rw [hs] at he; cases he
        | some fmt2 =>
          rw [hs] at he
          exact ih _ _ _ (Nat.lt_trans (skipString_length _ _ hs) hf) he
      rw [if_neg c4] at he
      by_cases c5 : cmd = 112
      · rw [if_pos c5] at he
        cases hp : pop s with
        | error e => rw [hp] at he; cases he; exact pop_noFuel _ hp
        | ok r =>
          obtain ⟨a, s2⟩ := r
          rw [hp] at he
          exact ih _ _ _ hf he
      rw [if_neg c5] at he
      by_cases c6 : cmd = 122
      · rw [if_pos c6] at he
        cases hp : pop s with
        | error e => rw [hp] at he; cases he; exact pop_noFuel _ hp
        | ok r =>
          obtain ⟨a, s2⟩ := r
          rw [hp] at he
          simp only at he
          by_cases hv : s2.scriptVersion < 7
          · rw [if_pos hv] at he
            cases hp2 : pop s2 with
            | error e => rw [hp2] at he; cases he; exact pop_noFuel _ hp2
            | ok r2 =>
              obtain ⟨b, s3⟩ := r2
              rw [hp2] at he
              exact ih _ _ _ hf he
          · rw [if_neg hv] at he
            exact ih _ _ _ hf he
      rw [if_neg c6] at he
      by_cases c7 : cmd = 115
      · rw [if_pos c7] at he
        cases hp : se_get_string s with
        | error e => rw [hp] at he; cases he; exact se_get_string_noFuel _ hp
        | ok r =>
          obtain ⟨a, s2⟩ := r
          rw [hp] at he
          exact ih _ _ _ hf he
      rw [if_neg c7] at he
      by_cases c8 : cmd = 119
      · rw [if_pos c8] at he
        exact ih _ _ _ hf he
      rw [if_neg c8] at he
      by_cases c9 : cmd = 108
      · rw [if_pos c9] at he
        cases hp : se_get_list s with
        | error e => rw [hp] at he; cases he; exact se_get_list_noFuel _ hp
        | ok r =>
          obtain ⟨a, s2⟩ := r
          rw [hp] at he
          exact ih _ _ _ hf he
      rw [if_neg c9] at he
      by_cases c10 : cmd = 106
      · rw [if_pos c10] at he
        exact ih _ _ _ hf he
      rw [if_neg c10] at he
      exact ih _ _ _ hf he

theorem extBytes_noFuel (fmt : List Nat) (s : State) :
    extBytes fmt s ≠ .error .outOfFuel := by
  intro h
  unfold extBytes at h
  simp only at h
  split at h
  · cases h
    exact extArgs_noFuel _ _ _ _ (Nat.lt_succ_self _) (by assumption)
  · split at h
    · cases h
    · split at h <;> cases h

theorem ext_noFuel (fmt : String) (s : State) : ext fmt s ≠ .error .outOfFuel :=
  extBytes_noFuel _ s

theorem maybeAddIf_noFuel (cur to_ : Nat) (s : State) :
    maybeAddIf cur to_ s ≠ .error .outOfFuel := by
  intro h
  unfold maybeAddIf at h
  split at h
  · cases h
  · split at h
    · cases h
    · simp only [pushBlockStackItem] at h
      by_cases h3 : num_block_stack s ≥ 256
      · rw [if_pos h3] at h
        cases h
      · rw [if_neg h3] at h
        cases h

theorem maybeAddElse_noFuel (cur to_ : Nat) (s : State) :
    maybeAddElse cur to_ s ≠ .error .outOfFuel := by
  intro h
  unfold maybeAddElse at h
  split at h
  · cases h
  · cases hs : s.block_stack with
    | nil => rw [hs] at h; cases h
    | cons p rest =>
      rw [hs] at h
      simp only at h
      split at h
      · cases h
      · cases hm : maybeAddIf cur to_ { s with block_stack := rest } with
        | error f =>
          rw [hm] at h
          cases h
          exact maybeAddIf_noFuel _ _ _ hm
        | ok r =>
          obtain ⟨b, s2⟩ := r
          rw [hm] at h
          cases b <;> cases h

theorem jump_noFuel (s : State) : jump s ≠ .error .outOfFuel := by
  intro h
  unfold jump at h
  cases hg : get_signed_word s with
  | mk off s1 =>
    rw [hg] at h
    simp only at h
    cases hm : (if (!s1.dontOutputElse) = true
        then maybeAddElse (toU32 (get_curoffs s1)) (toU32 (get_curoffs s1 + off)) s1
        else .ok (false, s1)) with
    | error f =>
      rw [hm] at h
      cases h
      split at hm
      · exact maybeAddElse_noFuel _ _ _ hm
      · cases hm
    | ok r =>
      obtain ⟨b, s2⟩ := r
      rw [hm] at h
      cases b
      · simp only at h
        split at h
        · split at h <;> cases h
        · cases h
      · cases h

theorem jumpif_noFuel (se : StackEnt) (when : Bool) (s : State) :
    jumpif se when s ≠ .error .outOfFuel := by
  intro h
  unfold jumpif at h
  cases hg : get_signed_word s with
  | mk off s1 =>
    rw [hg] at h
    simp only at h
    split at h
    · cases h
    · rename_i s3 _
      cases hm : (if (!s3.dontOutputIfs) = true
          then maybeAddIf (toU32 (get_curoffs s1)) (toU32 (get_curoffs s1 + off)) s3
          else .ok (false, s3)) with
      | error f =>
        rw [hm] at h
        cases h
        split at hm
        · exact maybeAddIf_noFuel _ _ _ hm
        · cases hm
      | ok r =>
        obtain ⟨b, s2⟩ := r
        rw [hm] at h
        cases b <;> cases h

/-- Case analysis on the condition of a `dite`. -/
theorem dite_cases {α : Sort u} {c : Prop} [inst : Decidable c] {t : c → α} {e : ¬ c → α}
    (P : α → Prop) (ht : ∀ h : c, P (t h)) (he : ∀ h : ¬ c, P (e h)) : P (dite c t e) := by
  by_cases h : c
  · rw [dif_pos h]; exact ht h
  · rw [dif_neg h]; exact he h

set_option maxHeartbeats 4000000 in
set_option maxRecDepth 100000 in
/-- The walk through the `switch` of `next_line`, one case after the other. -/
theorem next_line_switch_walk (code : Nat) (s : State) :
    WalkOk [0x5C, 0x5D, 0x73] opcodes6 code s (next_line_switch code s) := by
  unfold next_line_switch next_line_switch.match_1
  refine dite_cases (WalkOk [0x5C, 0x5D, 0x73] opcodes6 code s) (fun hc => ?_) (fun _ => ?_); swap
  refine dite_cases (WalkOk [0x5C, 0x5D, 0x73] opcodes6 code s) (fun hc => ?_) (fun _ => ?_); swap
  refine dite_cases (WalkOk [0x5C, 0x5D, 0x73] opcodes6 code s) (fun hc => ?_) (fun _ => ?_); swap
  refine dite_cases (WalkOk [0x5C, 0x5D, 0x73] opcodes6 code s) (fun hc => ?_) (fun _ => ?_); swap
  refine dite_cases (WalkOk [0x5C, 0x5D, 0x73] opcodes6 code s) (fun hc => ?_) (fun _ => ?_); swap
  refine dite_cases (WalkOk [0x5C, 0x5D, 0x73] opcodes6 code s) (fun hc => ?_) (fun _ => ?_); swap
  refine dite_cases (WalkOk [0x5C, 0x5D, 0x73] opcodes6 code s) (fun hc => ?_) (fun _ => ?_); swap
  refine dite_cases (WalkOk [0x5C, 0x5D, 0x73] opcodes6 code s) (fun hc => ?_) (fun _ => ?_); swap
  refine dite_cases (WalkOk [0x5C, 0x5D, 0x73] opcodes6 code s) (fun hc => ?_) (fun _ => ?_); swap
  refine dite_cases (WalkOk [0x5C, 0x5D, 0x73] opcodes6 code s) (fun hc => ?_) (fun _ => ?_); swap
  refine dite_cases (WalkOk [0x5C, 0x5D, 0x73] opcodes6 code s) (fun hc => ?_) (fun _ => ?_); swap
  refine dite_cases (WalkOk [0x5C, 0x5D, 0x73] opcodes6 code s) (fun hc => ?_) (fun _ => ?_); swap
  refine dite_cases (WalkOk [0x5C, 0x5D, 0x73] opcodes6 code s) (fun hc => ?_) (fun _ => ?_); swap
  refine dite_cases (WalkOk [0x5C, 0x5D, 0x73] opcodes6 code s) (fun hc => ?_) (fun _ => ?_); swap
  refine dite_cases (WalkOk [0x5C, 0x5D, 0x73] opcodes6 code s) (fun hc => ?_) (fun _ => ?_); swap
  refine dite_cases (WalkOk [0x5C, 0x5D, 0x73] opcodes6 code s) (fun hc => ?_) (fun _ => ?_); swap
  refine dite_cases (WalkOk [0x5C, 0x5D, 0x73] opcodes6 code s) (fun hc => ?_) (fun _ => ?_); swap
  refine dite_cases (WalkOk [0x5C, 0x5D, 0x73] opcodes6 code s) (fun hc => ?_) (fun _ => ?_); swap
  refine dite_cases (WalkOk [0x5C, 0x5D, 0x73] opcodes6 code s) (fun hc => ?_) (fun _ => ?_); swap
  refine dite_cases (WalkOk [0x5C, 0x5D, 0x73] opcodes6 code s) (fun hc => ?_) (fun _ => ?_); swap
  refine dite_cases (WalkOk [0x5C, 0x5D, 0x73] opcodes6 code s) (fun hc => ?_) (fun _ => ?_); swap
  refine dite_cases (WalkOk [0x5C, 0x5D, 0x73] opcodes6 code s) (fun hc => ?_) (fun _ => ?_); swap
  refine dite_cases (WalkOk [0x5C, 0x5D, 0x73] opcodes6 code s) (fun hc => ?_) (fun _ => ?_); swap
  refine dite_cases (WalkOk [0x5C, 0x5D, 0x73] opcodes6 code s) (fun hc => ?_) (fun _ => ?_); swap
  refine dite_cases (WalkOk [0x5C, 0x5D, 0x73] opcodes6 code s) (fun hc => ?_) (fun _ => ?_); swap
  refine dite_cases (WalkOk [0x5C, 0x5D, 0x73] opcodes6 code s) (fun hc => ?_) (fun _ => ?_); swap
  refine dite_cases (WalkOk [0x5C, 0x5D, 0x73] opcodes6 code s) (fun hc => ?_) (fun _ => ?_); swap
  refine dite_cases (WalkOk [0x5C, 0x5D, 0x73] opcodes6 code s) (fun hc => ?_) (fun _ => ?_); swap
  refine dite_cases (WalkOk [0x5C, 0x5D, 0x73] opcodes6 code s) (fun hc => ?_) (fun _ => ?_); swap
  refine dite_cases (WalkOk [0x5C, 0x5D, 0x73] opcodes6 code s) (fun hc => ?_) (fun _ => ?_); swap
  refine dite_cases (WalkOk [0x5C, 0x5D, 0x73] opcodes6 code s) (fun hc => ?_) (fun _ => ?_); swap
  refine dite_cases (WalkOk [0x5C, 0x5D, 0x73] opcodes6 code s) (fun hc => ?_) (fun _ => ?_); swap
  refine dite_cases (WalkOk [0x5C, 0x5D, 0x73] opcodes6 code s) (fun hc => ?_) (fun _ => ?_); swap
  refine dite_cases (WalkOk [0x5C, 0x5D, 0x73] opcodes6 code s) (fun hc => ?_) (fun _ => ?_); swap
  refine dite_cases (WalkOk [0x5C, 0x5D, 0x73] opcodes6 code s) (fun hc => ?_) (fun _ => ?_); swap
  refine dite_cases (WalkOk [0x5C, 0x5D, 0x73] opcodes6 code s) (fun hc => ?_) (fun _ => ?_); swap
  refine dite_cases (WalkOk [0x5C, 0x5D, 0x73] opcodes6 code s) (fun hc => ?_) (fun _ => ?_); swap
  refine dite_cases (WalkOk [0x5C, 0x5D, 0x73] opcodes6 code s) (fun hc => ?_) (fun _ => ?_); swap
  refine dite_cases (WalkOk [0x5C, 0x5D, 0x73] opcodes6 code s) (fun hc => ?_) (fun _ => ?_); swap
  refine dite_cases (WalkOk [0x5C, 0x5D, 0x73] opcodes6 code s) (fun hc => ?_) (fun _ => ?_); swap
  refine dite_cases (WalkOk [0x5C, 0x5D, 0x73] opcodes6 code s) (fun hc => ?_) (fun _ => ?_); swap
  refine dite_cases (WalkOk [0x5C, 0x5D, 0x73] opcodes6 code s) (fun hc => ?_) (fun _ => ?_); swap
  refine dite_cases (WalkOk [0x5C, 0x5D, 0x73] opcodes6 code s) (fun hc => ?_) (fun _ => ?_); swap
  refine dite_cases (WalkOk [0x5C, 0x5D, 0x73] opcodes6 code s) (fun hc => ?_) (fun _ => ?_); swap
  refine dite_cases (WalkOk [0x5C, 0x5D, 0x73] opcodes6 code s) (fun hc => ?_) (fun _ => ?_); swap
  refine dite_cases (WalkOk [0x5C, 0x5D, 0x73] opcodes6 code s) (fun hc => ?_) (fun _ => ?_); swap
  refine dite_cases (WalkOk [0x5C, 0x5D, 0x73] opcodes6 code s) (fun hc => ?_) (fun _ => ?_); swap
  refine dite_cases (WalkOk [0x5C, 0x5D, 0x73] opcodes6 code s) (fun hc => ?_) (fun _ => ?_); swap
  refine dite_cases (WalkOk [0x5C, 0x5D, 0x73] opcodes6 code s) (fun hc => ?_) (fun _ => ?_); swap
  refine dite_cases (WalkOk [0x5C, 0x5D, 0x73] opcodes6 code s) (fun hc => ?_) (fun _ => ?_); swap
  refine dite_cases (WalkOk [0x5C, 0x5D, 0x73] opcodes6 code s) (fun hc => ?_) (fun _ => ?_); swap
  refine dite_cases (WalkOk [0x5C, 0x5D, 0x73] opcodes6 code s) (fun hc => ?_) (fun _ => ?_); swap
  refine dite_cases (WalkOk [0x5C, 0x5D, 0x73] opcodes6 code s) (fun hc => ?_) (fun _ => ?_); swap
  refine dite_cases (WalkOk [0x5C, 0x5D, 0x73] opcodes6 code s) (fun hc => ?_) (fun _ => ?_); swap
  refine dite_cases (WalkOk [0x5C, 0x5D, 0x73] opcodes6 code s) (fun hc => ?_) (fun _ => ?_); swap
  refine dite_cases (WalkOk [0x5C, 0x5D, 0x73] opcodes6 code s) (fun hc => ?_) (fun _ => ?_); swap
  refine dite_cases (WalkOk [0x5C, 0x5D, 0x73] opcodes6 code s) (fun hc => ?_) (fun _ => ?_); swap
  refine dite_cases (WalkOk [0x5C, 0x5D, 0x73] opcodes6 code s) (fun hc => ?_) (fun _ => ?_); swap
  refine dite_cases (WalkOk [0x5C, 0x5D, 0x73] opcodes6 code s) (fun hc => ?_) (fun _ => ?_); swap
  refine dite_cases (WalkOk [0x5C, 0x5D, 0x73] opcodes6 code s) (fun hc => ?_) (fun _ => ?_); swap
  refine dite_cases (WalkOk [0x5C, 0x5D, 0x73] opcodes6 code s) (fun hc => ?_) (fun _ => ?_); swap
  refine dite_cases (WalkOk [0x5C, 0x5D, 0x73] opcodes6 code s) (fun hc => ?_) (fun _ => ?_); swap
  refine dite_cases (WalkOk [0x5C, 0x5D, 0x73] opcodes6 code s) (fun hc => ?_) (fun _ => ?_); swap
  refine dite_cases (WalkOk [0x5C, 0x5D, 0x73] opcodes6 code s) (fun hc => ?_) (fun _ => ?_); swap
  refine dite_cases (WalkOk [0x5C, 0x5D, 0x73] opcodes6 code s) (fun hc => ?_) (fun _ => ?_); swap
  refine dite_cases (WalkOk [0x5C, 0x5D, 0x73] opcodes6 code s) (fun hc => ?_) (fun _ => ?_); swap
  refine dite_cases (WalkOk [0x5C, 0x5D, 0x73] opcodes6 code s) (fun hc => ?_) (fun _ => ?_); swap
  refine dite_cases (WalkOk [0x5C, 0x5D, 0x73] opcodes6 code s) (fun hc => ?_) (fun _ => ?_); swap
  refine dite_cases (WalkOk [0x5C, 0x5D, 0x73] opcodes6 code s) (fun hc => ?_) (fun _ => ?_); swap
  refine dite_cases (WalkOk [0x5C, 0x5D, 0x73] opcodes6 code s) (fun hc => ?_) (fun _ => ?_); swap
  refine dite_cases (WalkOk [0x5C, 0x5D, 0x73] opcodes6 code s) (fun hc => ?_) (fun _ => ?_); swap
  refine dite_cases (WalkOk [0x5C, 0x5D, 0x73] opcodes6 code s) (fun hc => ?_) (fun _ => ?_); swap
  refine dite_cases (WalkOk [0x5C, 0x5D, 0x73] opcodes6 code s) (fun hc => ?_) (fun _ => ?_); swap
  refine dite_cases (WalkOk [0x5C, 0x5D, 0x73] opcodes6 code s) (fun hc => ?_) (fun _ => ?_); swap
  refine dite_cases (WalkOk [0x5C, 0x5D, 0x73] opcodes6 code s) (fun hc => ?_) (fun _ => ?_); swap
  refine dite_cases (WalkOk [0x5C, 0x5D, 0x73] opcodes6 code s) (fun hc => ?_) (fun _ => ?_); swap
  refine dite_cases (WalkOk [0x5C, 0x5D, 0x73] opcodes6 code s) (fun hc => ?_) (fun _ => ?_); swap
  refine dite_cases (WalkOk [0x5C, 0x5D, 0x73] opcodes6 code s) (fun hc => ?_) (fun _ => ?_); swap
  refine dite_cases (WalkOk [0x5C, 0x5D, 0x73] opcodes6 code s) (fun hc => ?_) (fun _ => ?_); swap
  refine dite_cases (WalkOk [0x5C, 0x5D, 0x73] opcodes6 code s) (fun hc => ?_) (fun _ => ?_); swap
  refine dite_cases (WalkOk [0x5C, 0x5D, 0x73] opcodes6 code s) (fun hc => ?_) (fun _ => ?_); swap
  refine dite_cases (WalkOk [0x5C, 0x5D, 0x73] opcodes6 code s) (fun hc => ?_) (fun _ => ?_); swap
  refine dite_cases (WalkOk [0x5C, 0x5D, 0x73] opcodes6 code s) (fun hc => ?_) (fun _ => ?_); swap
  refine dite_cases (WalkOk [0x5C, 0x5D, 0x73] opcodes6 code s) (fun hc => ?_) (fun _ => ?_); swap
  refine dite_cases (WalkOk [0x5C, 0x5D, 0x73] opcodes6 code s) (fun hc => ?_) (fun _ => ?_); swap
  refine dite_cases (WalkOk [0x5C, 0x5D, 0x73] opcodes6 code s) (fun hc => ?_) (fun _ => ?_); swap
  refine dite_cases (WalkOk [0x5C, 0x5D, 0x73] opcodes6 code s) (fun hc => ?_) (fun _ => ?_); swap
  refine dite_cases (WalkOk [0x5C, 0x5D, 0x73] opcodes6 code s) (fun hc => ?_) (fun _ => ?_); swap
  refine dite_cases (WalkOk [0x5C, 0x5D, 0x73] opcodes6 code s) (fun hc => ?_) (fun _ => ?_); swap
  refine dite_cases (WalkOk [0x5C, 0x5D, 0x73] opcodes6 code s) (fun hc => ?_) (fun _ => ?_); swap
  refine dite_cases (WalkOk [0x5C, 0x5D, 0x73] opcodes6 code s) (fun hc => ?_) (fun _ => ?_); swap
  refine dite_cases (WalkOk [0x5C, 0x5D, 0x73] opcodes6 code s) (fun hc => ?_) (fun _ => ?_); swap
  refine dite_cases (WalkOk [0x5C, 0x5D, 0x73] opcodes6 code s) (fun hc => ?_) (fun _ => ?_); swap
  refine dite_cases (WalkOk [0x5C, 0x5D, 0x73] opcodes6 code s) (fun hc => ?_) (fun _ => ?_); swap
  refine dite_cases (WalkOk [0x5C, 0x5D, 0x73] opcodes6 code s) (fun hc => ?_) (fun _ => ?_); swap
  refine dite_cases (WalkOk [0x5C, 0x5D, 0x73] opcodes6 code s) (fun hc => ?_) (fun _ => ?_); swap
  refine dite_cases (WalkOk [0x5C, 0x5D, 0x73] opcodes6 code s) (fun hc => ?_) (fun _ => ?_); swap
  refine dite_cases (WalkOk [0x5C, 0x5D, 0x73] opcodes6 code s) (fun hc => ?_) (fun _ => ?_); swap
  refine dite_cases (WalkOk [0x5C, 0x5D, 0x73] opcodes6 code s) (fun hc => ?_) (fun _ => ?_); swap
  refine dite_cases (WalkOk [0x5C, 0x5D, 0x73] opcodes6 code s) (fun hc => ?_) (fun _ => ?_); swap
  refine dite_cases (WalkOk [0x5C, 0x5D, 0x73] opcodes6 code s) (fun hc => ?_) (fun _ => ?_); swap
  refine dite_cases (WalkOk [0x5C, 0x5D, 0x73] opcodes6 code s) (fun hc => ?_) (fun _ => ?_); swap
  refine dite_cases (WalkOk [0x5C, 0x5D, 0x73] opcodes6 code s) (fun hc => ?_) (fun _ => ?_); swap
  refine dite_cases (WalkOk [0x5C, 0x5D, 0x73] opcodes6 code s) (fun hc => ?_) (fun _ => ?_); swap
  refine dite_cases (WalkOk [0x5C, 0x5D, 0x73] opcodes6 code s) (fun hc => ?_) (fun _ => ?_); swap
  refine dite_cases (WalkOk [0x5C, 0x5D, 0x73] opcodes6 code s) (fun hc => ?_) (fun _ => ?_); swap
  refine dite_cases (WalkOk [0x5C, 0x5D, 0x73] opcodes6 code s) (fun hc => ?_) (fun _ => ?_); swap
  refine dite_cases (WalkOk [0x5C, 0x5D, 0x73] opcodes6 code s) (fun hc => ?_) (fun _ => ?_); swap
  refine dite_cases (WalkOk [0x5C, 0x5D, 0x73] opcodes6 code s) (fun hc => ?_) (fun _ => ?_); swap
  refine dite_cases (WalkOk [0x5C, 0x5D, 0x73] opcodes6 code s) (fun hc => ?_) (fun _ => ?_); swap
  refine dite_cases (WalkOk [0x5C, 0x5D, 0x73] opcodes6 code s) (fun hc => ?_) (fun _ => ?_); swap
  refine dite_cases (WalkOk [0x5C, 0x5D, 0x73] opcodes6 code s) (fun hc => ?_) (fun _ => ?_); swap
  refine dite_cases (WalkOk [0x5C, 0x5D, 0x73] opcodes6 code s) (fun hc => ?_) (fun _ => ?_); swap
  refine dite_cases (WalkOk [0x5C, 0x5D, 0x73] opcodes6 code s) (fun hc => ?_) (fun _ => ?_); swap
  refine dite_cases (WalkOk [0x5C, 0x5D, 0x73] opcodes6 code s) (fun hc => ?_) (fun _ => ?_); swap
  refine dite_cases (WalkOk [0x5C, 0x5D, 0x73] opcodes6 code s) (fun hc => ?_) (fun _ => ?_); swap
  refine dite_cases (WalkOk [0x5C, 0x5D, 0x73] opcodes6 code s) (fun hc => ?_) (fun _ => ?_); swap
  refine dite_cases (WalkOk [0x5C, 0x5D, 0x73] opcodes6 code s) (fun hc => ?_) (fun _ => ?_); swap
  refine dite_cases (WalkOk [0x5C, 0x5D, 0x73] opcodes6 code s) (fun hc => ?_) (fun _ => ?_); swap
  refine dite_cases (WalkOk [0x5C, 0x5D, 0x73] opcodes6 code s) (fun hc => ?_) (fun _ => ?_); swap
  refine dite_cases (WalkOk [0x5C, 0x5D, 0x73] opcodes6 code s) (fun hc => ?_) (fun _ => ?_); swap
  refine dite_cases (WalkOk [0x5C, 0x5D, 0x73] opcodes6 code s) (fun hc => ?_) (fun _ => ?_); swap
  refine dite_cases (WalkOk [0x5C, 0x5D, 0x73] opcodes6 code s) (fun hc => ?_) (fun _ => ?_); swap
  refine dite_cases (WalkOk [0x5C, 0x5D, 0x73] opcodes6 code s) (fun hc => ?_) (fun _ => ?_); swap
  refine dite_cases (WalkOk [0x5C, 0x5D, 0x73] opcodes6 code s) (fun hc => ?_) (fun _ => ?_); swap
  refine dite_cases (WalkOk [0x5C, 0x5D, 0x73] opcodes6 code s) (fun hc => ?_) (fun _ => ?_); swap
  refine dite_cases (WalkOk [0x5C, 0x5D, 0x73] opcodes6 code s) (fun hc => ?_) (fun _ => ?_); swap
  refine dite_cases (WalkOk [0x5C, 0x5D, 0x73] opcodes6 code s) (fun hc => ?_) (fun _ => ?_); swap
  refine dite_cases (WalkOk [0x5C, 0x5D, 0x73] opcodes6 code s) (fun hc => ?_) (fun _ => ?_); swap
  refine dite_cases (WalkOk [0x5C, 0x5D, 0x73] opcodes6 code s) (fun hc => ?_) (fun _ => ?_); swap
  refine dite_cases (WalkOk [0x5C, 0x5D, 0x73] opcodes6 code s) (fun hc => ?_) (fun _ => ?_); swap
  refine dite_cases (WalkOk [0x5C, 0x5D, 0x73] opcodes6 code s) (fun hc => ?_) (fun _ => ?_); swap
  refine dite_cases (WalkOk [0x5C, 0x5D, 0x73] opcodes6 code s) (fun hc => ?_) (fun _ => ?_); swap
  refine dite_cases (WalkOk [0x5C, 0x5D, 0x73] opcodes6 code s) (fun hc => ?_) (fun _ => ?_); swap
  refine dite_cases (WalkOk [0x5C, 0x5D, 0x73] opcodes6 code s) (fun hc => ?_) (fun _ => ?_); swap
  refine dite_cases (WalkOk [0x5C, 0x5D, 0x73] opcodes6 code s) (fun hc => ?_) (fun _ => ?_); swap
  refine dite_cases (WalkOk [0x5C, 0x5D, 0x73] opcodes6 code s) (fun hc => ?_) (fun _ => ?_); swap
  refine dite_cases (WalkOk [0x5C, 0x5D, 0x73] opcodes6 code s) (fun hc => ?_) (fun _ => ?_); swap
  refine dite_cases (WalkOk [0x5C, 0x5D, 0x73] opcodes6 code s) (fun hc => ?_) (fun _ => ?_); swap
  refine dite_cases (WalkOk [0x5C, 0x5D, 0x73] opcodes6 code s) (fun hc => ?_) (fun _ => ?_); swap
  refine dite_cases (WalkOk [0x5C, 0x5D, 0x73] opcodes6 code s) (fun hc => ?_) (fun _ => ?_); swap
  refine dite_cases (WalkOk [0x5C, 0x5D, 0x73] opcodes6 code s) (fun hc => ?_) (fun _ => ?_); swap
  refine dite_cases (WalkOk [0x5C, 0x5D, 0x73] opcodes6 code s) (fun hc => ?_) (fun _ => ?_); swap
  refine dite_cases (WalkOk [0x5C, 0x5D, 0x73] opcodes6 code s) (fun hc => ?_) (fun _ => ?_); swap
  refine dite_cases (WalkOk [0x5C, 0x5D, 0x73] opcodes6 code s) (fun hc => ?_) (fun _ => ?_); swap
  refine dite_cases (WalkOk [0x5C, 0x5D, 0x73] opcodes6 code s) (fun hc => ?_) (fun _ => ?_); swap
  refine dite_cases (WalkOk [0x5C, 0x5D, 0x73] opcodes6 code s) (fun hc => ?_) (fun _ => ?_); swap
  refine dite_cases (WalkOk [0x5C, 0x5D, 0x73] opcodes6 code s) (fun hc => ?_) (fun _ => ?_); swap
  refine dite_cases (WalkOk [0x5C, 0x5D, 0x73] opcodes6 code s) (fun hc => ?_) (fun _ => ?_); swap
  · exact ⟨fun s1 _ h => (by cases h), invalidop_noFuel _ _ _, fun _ => rfl⟩
  all_goals subst hc
  all_goals refine ⟨fun s1 hop h => ?_, fun h => ?_, fun hL => absurd (by decide) hL⟩
  all_goals (try dsimp only at h)
  all_goals (repeat' (split at h))
  all_goals with_reducible first
    | (cases h; done)
    | exact absurd (by decide) hop
    | exact Upd_ext h (Upd_refl _)
    | exact absurd h (ext_noFuel _ _)
    | exact absurd h (jump_noFuel _)
    | exact absurd h (jumpif_noFuel _ _ _)
    | (cases h; exact absurd (by assumption) (pop_noFuel _))
    | (cases h
       repeat (first
        | exact Upd_refl _
        | refine Upd_pop (by assumption) ?_
        | refine Upd_get_word rfl ?_
        | refine Upd_get_byte rfl ?_
        | refine Upd_dup rfl ?_
        | refine Upd_se_get_string (by assumption) ?_
        | refine Upd_se_get_list (by assumption) ?_
        | apply Upd_writeVar
        | apply Upd_writeArray
        | apply Upd_addVar
        | apply Upd_addArray
        | apply Upd_kill
        | apply Upd_push))

set_option maxHeartbeats 4000000 in
set_option maxRecDepth 100000 in
/-- An opcode without a case in `next_line` reaches the default case. -/
theorem next_line_switch_default (code : Nat) (s : State)
    (c0 : ¬ code = 0x0) (c1 : ¬ code = 0x1) (c2 : ¬ code = 0x2) (c3 : ¬ code = 0x3)
    (c6 : ¬ code = 0x6) (c7 : ¬ code = 0x7) (cA : ¬ code = 0xA) (cB : ¬ code = 0xB)
    (cC : ¬ code = 0xC) (cD : ¬ code = 0xD) (cE : ¬ code = 0xE) (cF : ¬ code = 0xF)
    (c10 : ¬ code = 0x10) (c11 : ¬ code = 0x11) (c12 : ¬ code = 0x12) (c13 : ¬ code = 0x13)
    (c14 : ¬ code = 0x14) (c15 : ¬ code = 0x15) (c16 : ¬ code = 0x16) (c17 : ¬ code = 0x17)
    (c18 : ¬ code = 0x18) (c19 : ¬ code = 0x19) (c1A : ¬ code = 0x1A) (c42 : ¬ code = 0x42)
    (c43 : ¬ code = 0x43) (c46 : ¬ code = 0x46) (c47 : ¬ code = 0x47) (c4A : ¬ code = 0x4A)
    (c4B : ¬ code = 0x4B) (c4E : ¬ code = 0x4E) (c4F : ¬ code = 0x4F) (c52 : ¬ code = 0x52)
    (c53 : ¬ code = 0x53) (c56 : ¬ code = 0x56) (c57 : ¬ code = 0x57) (c5A : ¬ code = 0x5A)
    (c5B : ¬ code = 0x5B) (c5C : ¬ code = 0x5C) (c5D : ¬ code = 0x5D) (c5E : ¬ code = 0x5E)
    (c5F : ¬ code = 0x5F) (c60 : ¬ code = 0x60) (c61 : ¬ code = 0x61) (c62 : ¬ code = 0x62)
    (c65 : ¬ code = 0x65) (c66 : ¬ code = 0x66) (c67 : ¬ code = 0x67) (c68 : ¬ code = 0x68)
    (c69 : ¬ code = 0x69) (c6A : ¬ code = 0x6A) (c6B : ¬ code = 0x6B) (c6C : ¬ code = 0x6C)
    (c6D : ¬ code = 0x6D) (c6E : ¬ code = 0x6E) (c6F : ¬ code = 0x6F) (c70 : ¬ code = 0x70)
    (c71 : ¬ code = 0x71) (c72 : ¬ code = 0x72) (c73 : ¬ code = 0x73) (c74 : ¬ code = 0x74)
    (c75 : ¬ code = 0x75) (c76 : ¬ code = 0x76) (c77 : ¬ code = 0x77) (c78 : ¬ code = 0x78)
    (c79 : ¬ code = 0x79) (c7A : ¬ code = 0x7A) (c7B : ¬ code = 0x7B) (c7C : ¬ code = 0x7C)
    (c7D : ¬ code = 0x7D) (c7E : ¬ code = 0x7E) (c7F : ¬ code = 0x7F) (c80 : ¬ code = 0x80)
    (c81 : ¬ code = 0x81) (c82 : ¬ code = 0x82) (c83 : ¬ code = 0x83) (c84 : ¬ code = 0x84)
    (c85 : ¬ code = 0x85) (c87 : ¬ code = 0x87) (c88 : ¬ code = 0x88) (c8A : ¬ code = 0x8A)
    (c8B : ¬ code = 0x8B) (c8C : ¬ code = 0x8C) (c8D : ¬ code = 0x8D) (c8E : ¬ code = 0x8E)
    (c8F : ¬ code = 0x8F) (c90 : ¬ code = 0x90) (c91 : ¬ code = 0x91) (c92 : ¬ code = 0x92)
    (c93 : ¬ code = 0x93) (c94 : ¬ code = 0x94) (c95 : ¬ code = 0x95) (c96 : ¬ code = 0x96)
    (c97 : ¬ code = 0x97) (c98 : ¬ code = 0x98) (c99 : ¬ code = 0x99) (c9A : ¬ code = 0x9A)
    (c9B : ¬ code = 0x9B) (c9C : ¬ code = 0x9C) (c9D : ¬ code = 0x9D) (c9E : ¬ code = 0x9E)
    (c9F : ¬ code = 0x9F) (cA0 : ¬ code = 0xA0) (cA1 : ¬ code = 0xA1) (cA2 : ¬ code = 0xA2)
    (cA3 : ¬ code = 0xA3) (cA4 : ¬ code = 0xA4) (cA5 : ¬ code = 0xA5) (cA6 : ¬ code = 0xA6)
    (cA8 : ¬ code = 0xA8) (cA9 : ¬ code = 0xA9) (cAA : ¬ code = 0xAA) (cAB : ¬ code = 0xAB)
    (cAC : ¬ code = 0xAC) (cAD : ¬ code = 0xAD) (cAE : ¬ code = 0xAE) (cAF : ¬ code = 0xAF)
    (cB0 : ¬ code = 0xB0) (cB1 : ¬ code = 0xB1) (cB2 : ¬ code = 0xB2) (cB3 : ¬ code = 0xB3)
    (cB4 : ¬ code = 0xB4) (cB5 : ¬ code = 0xB5) (cB6 : ¬ code = 0xB6) (cB7 : ¬ code = 0xB7)
    (cB8 : ¬ code = 0xB8) (cB9 : ¬ code = 0xB9) (cBA : ¬ code = 0xBA) (cBB : ¬ code = 0xBB)
    (cBC : ¬ code = 0xBC) (cBE : ¬ code = 0xBE) (cBF : ¬ code = 0xBF) (cC0 : ¬ code = 0xC0)
    (cC4 : ¬ code = 0xC4) (cC5 : ¬ code = 0xC5) (cC6 : ¬ code = 0xC6) (cC7 : ¬ code = 0xC7)
    (cC8 : ¬ code = 0xC8) (cC9 : ¬ code = 0xC9) (cCA : ¬ code = 0xCA) (cCB : ¬ code = 0xCB)
    (cCC : ¬ code = 0xCC) (cCD : ¬ code = 0xCD) (cD2 : ¬ code = 0xD2) (cD5 : ¬ code = 0xD5)
    (cD6 : ¬ code = 0xD6) (cD7 : ¬ code = 0xD7) (cD8 : ¬ code = 0xD8) (cEC : ¬ code = 0xEC)
    (cED : ¬ code = 0xED) :
    next_line_switch code s = invalidop none code s := by
  refine (next_line_switch_walk code s).2.2 (fun hm => ?_)
  simp only [opcodes6, List.mem_cons, List.mem_singleton, List.not_mem_nil, or_self, c0, c1, c2,
    c3, c6, c7, cA, cB, cC, cD, cE, cF, c10, c11, c12, c13, c14, c15, c16, c17, c18, c19, c1A,
    c42, c43, c46, c47, c4A, c4B, c4E, c4F, c52, c53, c56, c57, c5A, c5B, c5C, c5D, c5E, c5F,
    c60, c61, c62, c65, c66, c67, c68, c69, c6A, c6B, c6C, c6D, c6E, c6F, c70, c71, c72, c73,
    c74, c75, c76, c77, c78, c79, c7A, c7B, c7C, c7D, c7E, c7F, c80, c81, c82, c83, c84, c85,
    c87, c88, c8A, c8B, c8C, c8D, c8E, c8F, c90, c91, c92, c93, c94, c95, c96, c97, c98, c99,
    c9A, c9B, c9C, c9D, c9E, c9F, cA0, cA1, cA2, cA3, cA4, cA5, cA6, cA8, cA9, cAA, cAB, cAC,
    cAD, cAE, cAF, cB0, cB1, cB2, cB3, cB4, cB5, cB6, cB7, cB8, cB9, cBA, cBB, cBC, cBE, cBF,
    cC0, cC4, cC5, cC6, cC7, cC8, cC9, cCA, cCB, cCC, cCD, cD2, cD5, cD6, cD7, cD8, cEC, cED] at hm

set_option maxHeartbeats 4000000 in
set_option maxRecDepth 100000 in
/-- Every opcode of `next_line` other than the three jumps moves the cursor forward (or not
at all), prints diagnostics at most, and leaves the block reconstruction alone. -/
theorem next_line_switch_upd (code : Nat) (s s1 : State)
    (hop : code ∉ [0x5C, 0x5D, 0x73]) (h : next_line_switch code s = .ok s1) : Upd s s1 :=
  (next_line_switch_walk code s).1 s1 hop h

set_option maxHeartbeats 4000000 in
set_option maxRecDepth 100000 in
/-- The walk through the `switch` of `next_line_V8`, one case after the other. -/
theorem next_line_V8_switch_walk (code : Nat) (s : State) :
    WalkOk [0x64, 0x65, 0x66] opcodes8 code s (next_line_V8_switch code s) := by
  unfold next_line_V8_switch next_line_V8_switch.match_3
  refine dite_cases (WalkOk [0x64, 0x65, 0x66] opcodes8 code s) (fun hc => ?_) (fun _ => ?_); swap
  refine dite_cases (WalkOk [0x64, 0x65, 0x66] opcodes8 code s) (fun hc => ?_) (fun _ => ?_); swap
  refine dite_cases (WalkOk [0x64, 0x65, 0x66] opcodes8 code s) (fun hc => ?_) (fun _ => ?_); swap
  refine dite_cases (WalkOk [0x64, 0x65, 0x66] opcodes8 code s) (fun hc => ?_) (fun _ => ?_); swap
  refine dite_cases (WalkOk [0x64, 0x65, 0x66] opcodes8 code s) (fun hc => ?_) (fun _ => ?_); swap
  refine dite_cases (WalkOk [0x64, 0x65, 0x66] opcodes8 code s) (fun hc => ?_) (fun _ => ?_); swap
  refine dite_cases (WalkOk [0x64, 0x65, 0x66] opcodes8 code s) (fun hc => ?_) (fun _ => ?_); swap
  refine dite_cases (WalkOk [0x64, 0x65, 0x66] opcodes8 code s) (fun hc => ?_) (fun _ => ?_); swap
  refine dite_cases (WalkOk [0x64, 0x65, 0x66] opcodes8 code s) (fun hc => ?_) (fun _ => ?_); swap
  refine dite_cases (WalkOk [0x64, 0x65, 0x66] opcodes8 code s) (fun hc => ?_) (fun _ => ?_); swap
  refine dite_cases (WalkOk [0x64, 0x65, 0x66] opcodes8 code s) (fun hc => ?_) (fun _ => ?_); swap
  refine dite_cases (WalkOk [0x64, 0x65, 0x66] opcodes8 code s) (fun hc => ?_) (fun _ => ?_); swap
  refine dite_cases (WalkOk [0x64, 0x65, 0x66] opcodes8 code s) (fun hc => ?_) (fun _ => ?_); swap
  refine dite_cases (WalkOk [0x64, 0x65, 0x66] opcodes8 code s) (fun hc => ?_) (fun _ => ?_); swap
  refine dite_cases (WalkOk [0x64, 0x65, 0x66] opcodes8 code s) (fun hc => ?_) (fun _ => ?_); swap
  refine dite_cases (WalkOk [0x64, 0x65, 0x66] opcodes8 code s) (fun hc => ?_) (fun _ => ?_); swap
  refine dite_cases (WalkOk [0x64, 0x65, 0x66] opcodes8 code s) (fun hc => ?_) (fun _ => ?_); swap
  refine dite_cases (WalkOk [0x64, 0x65, 0x66] opcodes8 code s) (fun hc => ?_) (fun _ => ?_); swap
  refine dite_cases (WalkOk [0x64, 0x65, 0x66] opcodes8 code s) (fun hc => ?_) (fun _ => ?_); swap
  refine dite_cases (WalkOk [0x64, 0x65, 0x66] opcodes8 code s) (fun hc => ?_) (fun _ => ?_); swap
  refine dite_cases (WalkOk [0x64, 0x65, 0x66] opcodes8 code s) (fun hc => ?_) (fun _ => ?_); swap
  refine dite_cases (WalkOk [0x64, 0x65, 0x66] opcodes8 code s) (fun hc => ?_) (fun _ => ?_); swap
  refine dite_cases (WalkOk [0x64, 0x65, 0x66] opcodes8 code s) (fun hc => ?_) (fun _ => ?_); swap
  refine dite_cases (WalkOk [0x64, 0x65, 0x66] opcodes8 code s) (fun hc => ?_) (fun _ => ?_); swap
  refine dite_cases (WalkOk [0x64, 0x65, 0x66] opcodes8 code s) (fun hc => ?_) (fun _ => ?_); swap
  refine dite_cases (WalkOk [0x64, 0x65, 0x66] opcodes8 code s) (fun hc => ?_) (fun _ => ?_); swap
  refine dite_cases (WalkOk [0x64, 0x65, 0x66] opcodes8 code s) (fun hc => ?_) (fun _ => ?_); swap
  refine dite_cases (WalkOk [0x64, 0x65, 0x66] opcodes8 code s) (fun hc => ?_) (fun _ => ?_); swap
  refine dite_cases (WalkOk [0x64, 0x65, 0x66] opcodes8 code s) (fun hc => ?_) (fun _ => ?_); swap
  refine dite_cases (WalkOk [0x64, 0x65, 0x66] opcodes8 code s) (fun hc => ?_) (fun _ => ?_); swap
  refine dite_cases (WalkOk [0x64, 0x65, 0x66] opcodes8 code s) (fun hc => ?_) (fun _ => ?_); swap
  refine dite_cases (WalkOk [0x64, 0x65, 0x66] opcodes8 code s) (fun hc => ?_) (fun _ => ?_); swap
  refine dite_cases (WalkOk [0x64, 0x65, 0x66] opcodes8 code s) (fun hc => ?_) (fun _ => ?_); swap
  refine dite_cases (WalkOk [0x64, 0x65, 0x66] opcodes8 code s) (fun hc => ?_) (fun _ => ?_); swap
  refine dite_cases (WalkOk [0x64, 0x65, 0x66] opcodes8 code s) (fun hc => ?_) (fun _ => ?_); swap
  refine dite_cases (WalkOk [0x64, 0x65, 0x66] opcodes8 code s) (fun hc => ?_) (fun _ => ?_); swap
  refine dite_cases (WalkOk [0x64, 0x65, 0x66] opcodes8 code s) (fun hc => ?_) (fun _ => ?_); swap
  refine dite_cases (WalkOk [0x64, 0x65, 0x66] opcodes8 code s) (fun hc => ?_) (fun _ => ?_); swap
  refine dite_cases (WalkOk [0x64, 0x65, 0x66] opcodes8 code s) (fun hc => ?_) (fun _ => ?_); swap
  refine dite_cases (WalkOk [0x64, 0x65, 0x66] opcodes8 code s) (fun hc => ?_) (fun _ => ?_); swap
  refine dite_cases (WalkOk [0x64, 0x65, 0x66] opcodes8 code s) (fun hc => ?_) (fun _ => ?_); swap
  refine dite_cases (WalkOk [0x64, 0x65, 0x66] opcodes8 code s) (fun hc => ?_) (fun _ => ?_); swap
  refine dite_cases (WalkOk [0x64, 0x65, 0x66] opcodes8 code s) (fun hc => ?_) (fun _ => ?_); swap
  refine dite_cases (WalkOk [0x64, 0x65, 0x66] opcodes8 code s) (fun hc => ?_) (fun _ => ?_); swap
  refine dite_cases (WalkOk [0x64, 0x65, 0x66] opcodes8 code s) (fun hc => ?_) (fun _ => ?_); swap
  refine dite_cases (WalkOk [0x64, 0x65, 0x66] opcodes8 code s) (fun hc => ?_) (fun _ => ?_); swap
  refine dite_cases (WalkOk [0x64, 0x65, 0x66] opcodes8 code s) (fun hc => ?_) (fun _ => ?_); swap
  refine dite_cases (WalkOk [0x64, 0x65, 0x66] opcodes8 code s) (fun hc => ?_) (fun _ => ?_); swap
  refine dite_cases (WalkOk [0x64, 0x65, 0x66] opcodes8 code s) (fun hc => ?_) (fun _ => ?_); swap
  refine dite_cases (WalkOk [0x64, 0x65, 0x66] opcodes8 code s) (fun hc => ?_) (fun _ => ?_); swap
  refine dite_cases (WalkOk [0x64, 0x65, 0x66] opcodes8 code s) (fun hc => ?_) (fun _ => ?_); swap
  refine dite_cases (WalkOk [0x64, 0x65, 0x66] opcodes8 code s) (fun hc => ?_) (fun _ => ?_); swap
  refine dite_cases (WalkOk [0x64, 0x65, 0x66] opcodes8 code s) (fun hc => ?_) (fun _ => ?_); swap
  refine dite_cases (WalkOk [0x64, 0x65, 0x66] opcodes8 code s) (fun hc => ?_) (fun _ => ?_); swap
  refine dite_cases (WalkOk [0x64, 0x65, 0x66] opcodes8 code s) (fun hc => ?_) (fun _ => ?_); swap
  refine dite_cases (WalkOk [0x64, 0x65, 0x66] opcodes8 code s) (fun hc => ?_) (fun _ => ?_); swap
  refine dite_cases (WalkOk [0x64, 0x65, 0x66] opcodes8 code s) (fun hc => ?_) (fun _ => ?_); swap
  refine dite_cases (WalkOk [0x64, 0x65, 0x66] opcodes8 code s) (fun hc => ?_) (fun _ => ?_); swap
  refine dite_cases (WalkOk [0x64, 0x65, 0x66] opcodes8 code s) (fun hc => ?_) (fun _ => ?_); swap
  refine dite_cases (WalkOk [0x64, 0x65, 0x66] opcodes8 code s) (fun hc => ?_) (fun _ => ?_); swap
  refine dite_cases (WalkOk [0x64, 0x65, 0x66] opcodes8 code s) (fun hc => ?_) (fun _ => ?_); swap
  refine dite_cases (WalkOk [0x64, 0x65, 0x66] opcodes8 code s) (fun hc => ?_) (fun _ => ?_); swap
  refine dite_cases (WalkOk [0x64, 0x65, 0x66] opcodes8 code s) (fun hc => ?_) (fun _ => ?_); swap
  refine dite_cases (WalkOk [0x64, 0x65, 0x66] opcodes8 code s) (fun hc => ?_) (fun _ => ?_); swap
  refine dite_cases (WalkOk [0x64, 0x65, 0x66] opcodes8 code s) (fun hc => ?_) (fun _ => ?_); swap
  refine dite_cases (WalkOk [0x64, 0x65, 0x66] opcodes8 code s) (fun hc => ?_) (fun _ => ?_); swap
  refine dite_cases (WalkOk [0x64, 0x65, 0x66] opcodes8 code s) (fun hc => ?_) (fun _ => ?_); swap
  refine dite_cases (WalkOk [0x64, 0x65, 0x66] opcodes8 code s) (fun hc => ?_) (fun _ => ?_); swap
  refine dite_cases (WalkOk [0x64, 0x65, 0x66] opcodes8 code s) (fun hc => ?_) (fun _ => ?_); swap
  refine dite_cases (WalkOk [0x64, 0x65, 0x66] opcodes8 code s) (fun hc => ?_) (fun _ => ?_); swap
  refine dite_cases (WalkOk [0x64, 0x65, 0x66] opcodes8 code s) (fun hc => ?_) (fun _ => ?_); swap
  refine dite_cases (WalkOk [0x64, 0x65, 0x66] opcodes8 code s) (fun hc => ?_) (fun _ => ?_); swap
  refine dite_cases (WalkOk [0x64, 0x65, 0x66] opcodes8 code s) (fun hc => ?_) (fun _ => ?_); swap
  refine dite_cases (WalkOk [0x64, 0x65, 0x66] opcodes8 code s) (fun hc => ?_) (fun _ => ?_); swap
  refine dite_cases (WalkOk [0x64, 0x65, 0x66] opcodes8 code s) (fun hc => ?_) (fun _ => ?_); swap
  refine dite_cases (WalkOk [0x64, 0x65, 0x66] opcodes8 code s) (fun hc => ?_) (fun _ => ?_); swap
  refine dite_cases (WalkOk [0x64, 0x65, 0x66] opcodes8 code s) (fun hc => ?_) (fun _ => ?_); swap
  refine dite_cases (WalkOk [0x64, 0x65, 0x66] opcodes8 code s) (fun hc => ?_) (fun _ => ?_); swap
  refine dite_cases (WalkOk [0x64, 0x65, 0x66] opcodes8 code s) (fun hc => ?_) (fun _ => ?_); swap
  refine dite_cases (WalkOk [0x64, 0x65, 0x66] opcodes8 code s) (fun hc => ?_) (fun _ => ?_); swap
  refine dite_cases (WalkOk [0x64, 0x65, 0x66] opcodes8 code s) (fun hc => ?_) (fun _ => ?_); swap
  refine dite_cases (WalkOk [0x64, 0x65, 0x66] opcodes8 code s) (fun hc => ?_) (fun _ => ?_); swap
  refine dite_cases (WalkOk [0x64, 0x65, 0x66] opcodes8 code s) (fun hc => ?_) (fun _ => ?_); swap
  refine dite_cases (WalkOk [0x64, 0x65, 0x66] opcodes8 code s) (fun hc => ?_) (fun _ => ?_); swap
  refine dite_cases (WalkOk [0x64, 0x65, 0x66] opcodes8 code s) (fun hc => ?_) (fun _ => ?_); swap
  refine dite_cases (WalkOk [0x64, 0x65, 0x66] opcodes8 code s) (fun hc => ?_) (fun _ => ?_); swap
  refine dite_cases (WalkOk [0x64, 0x65, 0x66] opcodes8 code s) (fun hc => ?_) (fun _ => ?_); swap
  refine dite_cases (WalkOk [0x64, 0x65, 0x66] opcodes8 code s) (fun hc => ?_) (fun _ => ?_); swap
  refine dite_cases (WalkOk [0x64, 0x65, 0x66] opcodes8 code s) (fun hc => ?_) (fun _ => ?_); swap
  refine dite_cases (WalkOk [0x64, 0x65, 0x66] opcodes8 code s) (fun hc => ?_) (fun _ => ?_); swap
  refine dite_cases (WalkOk [0x64, 0x65, 0x66] opcodes8 code s) (fun hc => ?_) (fun _ => ?_); swap
  refine dite_cases (WalkOk [0x64, 0x65, 0x66] opcodes8 code s) (fun hc => ?_) (fun _ => ?_); swap
  · exact ⟨fun s1 _ h => (by cases h), invalidop_noFuel _ _ _, fun _ => rfl⟩
  all_goals subst hc
  all_goals refine ⟨fun s1 hop h => ?_, fun h => ?_, fun hL => absurd (by decide) hL⟩
  all_goals (try dsimp only at h)
  all_goals (repeat' (split at h))
  all_goals with_reducible first
    | (cases h; done)
    | exact absurd (by decide) hop
    | exact Upd_ext h (Upd_refl _)
    | exact absurd h (ext_noFuel _ _)
    | exact absurd h (jump_noFuel _)
    | exact absurd h (jumpif_noFuel _ _ _)
    | (cases h; exact absurd (by assumption) (pop_noFuel _))
    | (cases h; exact absurd (by assumption) (se_get_string_noFuel _))
    | (cases h; exact absurd (by assumption) (se_get_list_noFuel _))
    | (cases h
       repeat (first
        | exact Upd_refl _
        | refine Upd_pop (by assumption) ?_
        | refine Upd_get_word rfl ?_
        | refine Upd_get_byte rfl ?_
        | refine Upd_dup rfl ?_
        | refine Upd_se_get_string (by assumption) ?_
        | refine Upd_se_get_list (by assumption) ?_
        | apply Upd_writeVar
        | apply Upd_writeArray
        | apply Upd_addVar
        | apply Upd_addArray
        | apply Upd_kill
        | apply Upd_push))

set_option maxHeartbeats 4000000 in
set_option maxRecDepth 100000 in
/-- An opcode without a case in `next_line_V8` reaches the default case. -/
theorem next_line_V8_switch_default (code : Nat) (s : State)
    (c1 : ¬ code = 0x1) (c2 : ¬ code = 0x2) (c3 : ¬ code = 0x3) (c4 : ¬ code = 0x4)
    (c5 : ¬ code = 0x5) (c6 : ¬ code = 0x6) (c7 : ¬ code = 0x7) (c8 : ¬ code = 0x8)
    (c9 : ¬ code = 0x9) (cA : ¬ code = 0xA) (cB : ¬ code = 0xB) (cC : ¬ code = 0xC)
    (cD : ¬ code = 0xD) (cE : ¬ code = 0xE) (cF : ¬ code = 0xF) (c10 : ¬ code = 0x10)
    (c11 : ¬ code = 0x11) (c12 : ¬ code = 0x12) (c13 : ¬ code = 0x13) (c14 : ¬ code = 0x14)
    (c15 : ¬ code = 0x15) (c16 : ¬ code = 0x16) (c64 : ¬ code = 0x64) (c65 : ¬ code = 0x65)
    (c66 : ¬ code = 0x66) (c67 : ¬ code = 0x67) (c6A : ¬ code = 0x6A) (c6B : ¬ code = 0x6B)
    (c6C : ¬ code = 0x6C) (c6D : ¬ code = 0x6D) (c6E : ¬ code = 0x6E) (c6F : ¬ code = 0x6F)
    (c70 : ¬ code = 0x70) (c71 : ¬ code = 0x71) (c74 : ¬ code = 0x74) (c75 : ¬ code = 0x75)
    (c76 : ¬ code = 0x76) (c79 : ¬ code = 0x79) (c7A : ¬ code = 0x7A) (c7B : ¬ code = 0x7B)
    (c7C : ¬ code = 0x7C) (c7D : ¬ code = 0x7D) (c7F : ¬ code = 0x7F) (c89 : ¬ code = 0x89)
    (c93 : ¬ code = 0x93) (c94 : ¬ code = 0x94) (c95 : ¬ code = 0x95) (c96 : ¬ code = 0x96)
    (c9C : ¬ code = 0x9C) (c9D : ¬ code = 0x9D) (c9E : ¬ code = 0x9E) (c9F : ¬ code = 0x9F)
    (cA0 : ¬ code = 0xA0) (cA1 : ¬ code = 0xA1) (cA2 : ¬ code = 0xA2) (cA3 : ¬ code = 0xA3)
    (cA4 : ¬ code = 0xA4) (cA5 : ¬ code = 0xA5) (cA6 : ¬ code = 0xA6) (cAA : ¬ code = 0xAA)
    (cAB : ¬ code = 0xAB) (cAC : ¬ code = 0xAC) (cAD : ¬ code = 0xAD) (cAE : ¬ code = 0xAE)
    (cB1 : ¬ code = 0xB1) (cB2 : ¬ code = 0xB2) (cB3 : ¬ code = 0xB3) (cBA : ¬ code = 0xBA)
    (cCD : ¬ code = 0xCD) (cCE : ¬ code = 0xCE) (cCF : ¬ code = 0xCF) (cD0 : ¬ code = 0xD0)
    (cD1 : ¬ code = 0xD1) (cD2 : ¬ code = 0xD2) (cD3 : ¬ code = 0xD3) (cD5 : ¬ code = 0xD5)
    (cD6 : ¬ code = 0xD6) (cD8 : ¬ code = 0xD8) (cDB : ¬ code = 0xDB) (cDC : ¬ code = 0xDC)
    (cE1 : ¬ code = 0xE1) (cE2 : ¬ code = 0xE2) (cE3 : ¬ code = 0xE3) (cE4 : ¬ code = 0xE4)
    (cE5 : ¬ code = 0xE5) (cE6 : ¬ code = 0xE6) (cE7 : ¬ code = 0xE7) (cE8 : ¬ code = 0xE8)
    (cE9 : ¬ code = 0xE9) (cEA : ¬ code = 0xEA) (cEB : ¬ code = 0xEB) (cEC : ¬ code = 0xEC) :
    next_line_V8_switch code s = invalidop none code s := by
  refine (next_line_V8_switch_walk code s).2.2 (fun hm => ?_)
  simp only [opcodes8, List.mem_cons, List.mem_singleton, List.not_mem_nil, or_self, c1, c2, c3,
    c4, c5, c6, c7, c8, c9, cA, cB, cC, cD, cE, cF, c10, c11, c12, c13, c14, c15, c16, c64, c65,
    c66, c67, c6A, c6B, c6C, c6D, c6E, c6F, c70, c71, c74, c75, c76, c79, c7A, c7B, c7C, c7D,
    c7F, c89, c93, c94, c95, c96, c9C, c9D, c9E, c9F, cA0, cA1, cA2, cA3, cA4, cA5, cA6, cAA,
    cAB, cAC, cAD, cAE, cB1, cB2, cB3, cBA, cCD, cCE, cCF, cD0, cD1, cD2, cD3, cD5, cD6, cD8,
    cDB, cDC, cE1, cE2, cE3, cE4, cE5, cE6, cE7, cE8, cE9, cEA, cEB, cEC] at hm

set_option maxHeartbeats 4000000 in
set_option maxRecDepth 100000 in
/-- Every opcode of `next_line_V8` other than the three jumps moves the cursor forward (or
not at all), prints diagnostics at most, and leaves the block reconstruction alone. -/
theorem next_line_V8_switch_upd (code : Nat) (s s1 : State)
    (hop : code ∉ [0x64, 0x65, 0x66]) (h : next_line_V8_switch code s = .ok s1) : Upd s s1 :=
  (next_line_V8_switch_walk code s).1 s1 hop h

/-- When it returns, `maybeAddIf` has changed nothing but the block stack. -/
theorem maybeAddIf_shape (cur to_ : Nat) (s s1 : State) (b : Bool)
    (h : maybeAddIf cur to_ s = .ok (b, s1)) : ∃ bs, s1 = { s with block_stack := bs } := by
  unfold maybeAddIf at h
  by_cases h1 : (to_ ||| cur) >>> 16 ≠ 0 ∨ to_ ≤ cur
  · rw [if_pos h1] at h
    simp only [Except.ok.injEq, Prod.mk.injEq] at h
    exact ⟨s.block_stack, h.2.symm⟩
  · rw [if_neg h1] at h
    by_cases h2 : s.block_stack.any (fun p => decide (to_ > p.to_)) = true
    · rw [if_pos h2] at h
      simp only [Except.ok.injEq, Prod.mk.injEq] at h
      exact ⟨s.block_stack, h.2.symm⟩
    · rw [if_neg h2] at h
      simp only [pushBlockStackItem] at h
      by_cases h3 : num_block_stack s ≥ 256
      · rw [if_pos h3] at h
        simp at h
      · rw [if_neg h3] at h
        simp only [Except.ok.injEq, Prod.mk.injEq] at h
        exact ⟨_, h.2.symm⟩

/-- The function `maybeAddElseIf` changes nothing but the block stack. -/
theorem maybeAddElseIf_shape (cur elseto to_ : Nat) (s : State) :
    ∃ bs, (maybeAddElseIf cur elseto to_ s).2 = { s with block_stack := bs } := by
  unfold maybeAddElseIf
  by_cases h1 : (to_ ||| cur ||| elseto) >>> 16 ≠ 0 ∨ elseto < to_ ∨ to_ ≤ cur
  · rw [if_pos h1]; exact ⟨s.block_stack, rfl⟩
  · rw [if_neg h1]
    cases hs : s.block_stack with
    | nil => exact ⟨s.block_stack, rfl⟩
    | cons p rest =>
      simp only
      by_cases h2 : p.isWhile = true
      · rw [if_pos h2]; exact ⟨s.block_stack, rfl⟩
      · rw [if_neg h2]
        by_cases h3 : byteAtInt s ((s.org_pos : Int)
            + (if s.scriptVersion = 8 then (to_ : Int) - 5 else (to_ : Int) - 3))
            ≠ s.g_jump_opcode
        · rw [if_pos h3]; exact ⟨s.block_stack, rfl⟩
        · rw [if_neg h3]
          by_cases h4 : (if s.scriptVersion = 8
              then toU32 ((to_ : Int) + int32At s
                ((if s.scriptVersion = 8 then (to_ : Int) - 5 else (to_ : Int) - 3) + 1))
              else toU32 ((to_ : Int) + int16At s
                ((if s.scriptVersion = 8 then (to_ : Int) - 5 else (to_ : Int) - 3) + 1)))
              ≠ elseto
          · rw [if_pos h4]; exact ⟨s.block_stack, rfl⟩
          · rw [if_neg h4]; exact ⟨_, rfl⟩

/-- The text `se_astext` gives a negated node: `!` in front of the operand. -/
theorem se_astext_seNeg (ver : Nat) (e : StackEnt) (wp : Bool) :
    se_astext ver (se_neg e) wp = "!" ++ se_astext ver e true := by
  simp [se_neg, se_astext]

/-- What `jumpif` leaves in the output buffer when it returns: a structured header whose
predicate is negated when `when` is set, or the `goto` line, whose predicate carries the
`!` when `when` is not set. -/
theorem jumpif_output (se : StackEnt) (when : Bool) (s s2 : State)
    (h : jumpif se when s = .ok s2) :
    (∃ opener, (opener = "\x7d else if (" ∨ opener = "if (" ∨ opener = "while (")
      ∧ s2.output = opener ++ se_astext s.scriptVersion (if when then se_neg se else se) false
          ++ headerTail s (get_curoffs (get_signed_word s).2 + (get_signed_word s).1))
    ∨ s2.output = (if when then "if (" else "if (!") ++ se_astext s.scriptVersion se true
        ++ ") goto "
        ++ fmt_x (toU32 (get_curoffs (get_signed_word s).2 + (get_signed_word s).1)) := by
  cases hg : get_signed_word s with
  | mk d s1 =>
    obtain ⟨k, hk⟩ := get_signed_word_eq s s1 d hg
    have hv1 : s1.scriptVersion = s.scriptVersion := by rw [hk]
    have ht1 : ∀ x, headerTail s1 x = headerTail s x := by intro x; rw [hk]; rfl
    unfold jumpif at h
    rw [hg] at h
    simp only at h
    cases hte : (if (!s1.dontOutputElseif) = true ∧ s1.pendingElse = true then
        maybeAddElseIf (toU32 (get_curoffs s1)) (toU32 s1.pendingElseTo)
          (toU32 (get_curoffs s1 + d)) s1
      else (false, s1)) with
    | mk b s3 =>
      have hs3 : ∃ bs, s3 = { s1 with block_stack := bs } := by
        by_cases hc : (!s1.dontOutputElseif) = true ∧ s1.pendingElse = true
        · rw [if_pos hc] at hte
          obtain ⟨bs, hbs⟩ := maybeAddElseIf_shape (toU32 (get_curoffs s1))
            (toU32 s1.pendingElseTo) (toU32 (get_curoffs s1 + d)) s1
          rw [hte] at hbs
          exact ⟨bs, hbs⟩
        · rw [if_neg hc] at hte
          simp only [Prod.mk.injEq] at hte
          exact ⟨s1.block_stack, hte.2.symm⟩
      obtain ⟨bs3, hbs3⟩ := hs3
      have hv3 : s3.scriptVersion = s.scriptVersion := by rw [hbs3]; exact hv1
      have ht3 : ∀ x, headerTail s3 x = headerTail s x := by
        intro x; rw [hbs3]; exact ht1 x
      rw [hte] at h
      cases b with
      | true =>
        simp only [Except.ok.injEq] at h
        left
        refine ⟨"\x7d else if (", Or.inl rfl, ?_⟩
        rw [← h]
        simp only [hv3, ht3]
      | false =>
        simp only at h
        cases hmi : (if (!s3.dontOutputIfs) = true then
            maybeAddIf (toU32 (get_curoffs s1)) (toU32 (get_curoffs s1 + d)) s3
          else .ok (false, s3)) with
        | error f => rw [hmi] at h; simp at h
        | ok r =>
          obtain ⟨b2, s4⟩ := r
          have hs4 : ∃ bs, s4 = { s3 with block_stack := bs } := by
            by_cases hc : (!s3.dontOutputIfs) = true
            · rw [if_pos hc] at hmi
              exact maybeAddIf_shape _ _ _ _ _ hmi
            · rw [if_neg hc] at hmi
              simp only [Except.ok.injEq, Prod.mk.injEq] at hmi
              exact ⟨s3.block_stack, hmi.2.symm⟩
          obtain ⟨bs4, hbs4⟩ := hs4
          have hv4 : s4.scriptVersion = s.scriptVersion := by rw [hbs4]; exact hv3
          have ht4 : ∀ x, headerTail s4 x = headerTail s x := by
            intro x; rw [hbs4]; exact ht3 x
          rw [hmi] at h
          cases b2 with
          | true =>
            simp only [Except.ok.injEq] at h
            left
            rw [← h]
            simp only [hv4, ht4]
            cases hb : s4.block_stack with
            | nil => exact ⟨"if (", Or.inr (Or.inl rfl), rfl⟩
            | cons p rest =>
              simp only
              by_cases hw : (!s4.dontOutputWhile) = true ∧ p.isWhile = true
              · rw [if_pos hw]; exact ⟨"while (", Or.inr (Or.inr rfl), rfl⟩
              · rw [if_neg hw]; exact ⟨"if (", Or.inr (Or.inl rfl), rfl⟩
          | false =>
            simp only [Except.ok.injEq] at h
            right
            rw [← h]
            simp only [hv4]

/-- C17 as stated fails: with the jump-if-false opcode 0x5D, whose fallback line is
`if (!1) goto 5`, the structured header is `if (1) {`, the predicate unchanged; with the
jump-if-true opcode 0x5C, whose fallback line is `if (1) goto 5`, the header is
`if (!1) {`, the predicate negated. -/
theorem C17_counterexample :
    (decompile (scrpFile [0x00, 0x01, 0x5D, 0x05, 0x00, 0x00, 0x09, 0x43, 0x00, 0x00]) []
        plainFlags).toOption.map (fun s => s.stdout)
      = some ["if (1) \x7b", "  var0 = 9", "\x7d", "END", "Stack count: 0"]
    ∧ (decompile (scrpFile [0x00, 0x01, 0x5D, 0x00, 0x00]) [] plainFlags).toOption.map
        (fun s => s.stdout) = some ["if (!1) goto 5", "END", "Stack count: 0"]
    ∧ (decompile (scrpFile [0x00, 0x01, 0x5C, 0x05, 0x00, 0x00, 0x09, 0x43, 0x00, 0x00]) []
        plainFlags).toOption.map (fun s => s.stdout)
      = some ["if (!1) \x7b", "  var0 = 9", "\x7d", "END", "Stack count: 0"]
    ∧ (decompile (scrpFile [0x00, 0x01, 0x5C, 0x00, 0x00]) [] plainFlags).toOption.map
        (fun s => s.stdout) = some ["if (1) goto 5", "END", "Stack count: 0"] := by
  decide

/-- C17 (amended): whenever `jumpif` returns, the output buffer holds either a structured
header (`} else if (`, `if (` or `while (`, then the predicate, then `) {`) in which the
popped predicate is wrapped in Neg exactly when the polarity flag `when` is set, or the
fallback line, which is `if (PRED) goto …` when `when` is set and `if (!PRED) goto …` when
it is not.  A Neg node renders as `!` in front of its operand.  `when` is set by the
jump-if-true opcodes (0x5C on v6/v7, 0x64 on v8) and clear for the jump-if-false opcodes
(0x5D, 0x65): the header negates for the polarity whose fallback prints no `!`. -/
theorem C17_predicate_polarity :
    (∀ (se : StackEnt) (when : Bool) (s s2 : State), jumpif se when s = .ok s2 →
      (∃ opener, (opener = "\x7d else if (" ∨ opener = "if (" ∨ opener = "while (")
        ∧ s2.output = opener
            ++ se_astext s.scriptVersion (if when then se_neg se else se) false
            ++ headerTail s (get_curoffs (get_signed_word s).2 + (get_signed_word s).1))
      ∨ s2.output = (if when then "if (" else "if (!") ++ se_astext s.scriptVersion se true
          ++ ") goto "
          ++ fmt_x (toU32 (get_curoffs (get_signed_word s).2 + (get_signed_word s).1)))
    ∧ (∀ (ver : Nat) (e : StackEnt) (wp : Bool),
        se_astext ver (se_neg e) wp = "!" ++ se_astext ver e true)
    ∧ (∀ (s : State) (se : StackEnt) (rest : List StackEnt), s.stack = se :: rest →
        next_line_switch 0x5C s = jumpif se true { s with stack := rest }
        ∧ next_line_switch 0x5D s = jumpif se false { s with stack := rest }
        ∧ next_line_V8_switch 0x64 s = jumpif se true { s with stack := rest }
        ∧ next_line_V8_switch 0x65 s = jumpif se false { s with stack := rest })
    ∧ (decompile (scrpFile [0x01, 0x01, 0x00, 0x00, 0x00, 0x64, 0x00, 0x00, 0x00, 0x00]) []
        plainFlags8).toOption.map (fun s => s.stdout)
      = some ["if (1) goto a", "END", "Stack count: 0"]
    ∧ (decompile (scrpFile [0x01, 0x01, 0x00, 0x00, 0x00, 0x65, 0x00, 0x00, 0x00, 0x00]) []
        plainFlags8).toOption.map (fun s => s.stdout)
      = some ["if (!1) goto a", "END", "Stack count: 0"] := by
  refine ⟨jumpif_output, se_astext_seNeg, ?_, by decide, by decide⟩
  intro s se rest hs
  rw [next_line_switch_jumpif_true, next_line_switch_jumpif_false,
    next_line_V8_switch_jumpif_true, next_line_V8_switch_jumpif_false]
  simp only [pop, hs]
  exact ⟨trivial, trivial, trivial, trivial⟩

/-- C17, instances: on v6, with the literal 1 popped and the cursor at a displacement of 5,
`jumpif` with `when` set writes `if (!1) {`; with a displacement of 0 it writes
`if (1) goto 2`. -/
theorem C17_predicate_polarity_witness :
    ((∃ opener, (opener = "\x7d else if (" ∨ opener = "if (" ∨ opener = "while (")
        ∧ "if (!1) \x7b" = opener ++ se_astext 6 (se_neg (.seInt 1)) false ++ ") \x7b")
      ∨ "if (!1) \x7b" = "if (" ++ se_astext 6 (.seInt 1) true ++ ") goto " ++ fmt_x 7)
    ∧ next_line_switch 0x5C { mem := [0x00, 0x00], stack := [.seInt 1] }
        = jumpif (.seInt 1) true { mem := [0x00, 0x00] } :=
  ⟨C17_predicate_polarity.1 (.seInt 1) true { mem := [0x05, 0x00] }
      { mem := [0x05, 0x00], cur_pos := 2, output := "if (!1) \x7b",
        block_stack := [{ isWhile := false, from_ := 2, to_ := 7 }] } rfl,
   (C17_predicate_polarity.2.2.1 { mem := [0x00, 0x00], stack := [.seInt 1] } (.seInt 1) []
      rfl).1⟩

/-- What one flag character does to the dialect and the jump opcode: a dialect flag sets
both, the opcode being that of the dialect; any other flag leaves both as they are. -/
theorem applyFlag_dialect (c : Char) (s s1 : State) (h : applyFlag c s = .ok s1) :
    (isDialectFlag c = true → s1.g_jump_opcode = jumpOpcodeOf s1.scriptVersion)
    ∧ (isDialectFlag c = false →
        s1.scriptVersion = s.scriptVersion ∧ s1.g_jump_opcode = s.g_jump_opcode) := by
  unfold applyFlag at h
  unfold isDialectFlag
  simp only at h
  by_cases h6 : c.toLower = Char.ofNat 54
  · simp only [h6, show ¬ (Char.ofNat 54 = Char.ofNat 111) by decide,
      show ¬ (Char.ofNat 54 = Char.ofNat 105) by decide,
      show ¬ (Char.ofNat 54 = Char.ofNat 101) by decide,
      show ¬ (Char.ofNat 54 = Char.ofNat 102) by decide,
      show ¬ (Char.ofNat 54 = Char.ofNat 119) by decide,
      show ¬ (Char.ofNat 54 = Char.ofNat 99) by decide,
      show ¬ (Char.ofNat 54 = Char.ofNat 120) by decide,
      show ¬ (Char.ofNat 54 = Char.ofNat 104) by decide, if_false, if_true,
      Except.ok.injEq] at h
    subst h
    simp [jumpOpcodeOf, h6]
  · by_cases h7 : c.toLower = Char.ofNat 55
    · simp only [h7, show ¬ (Char.ofNat 55 = Char.ofNat 111) by decide,
        show ¬ (Char.ofNat 55 = Char.ofNat 105) by decide,
        show ¬ (Char.ofNat 55 = Char.ofNat 101) by decide,
        show ¬ (Char.ofNat 55 = Char.ofNat 102) by decide,
        show ¬ (Char.ofNat 55 = Char.ofNat 119) by decide,
        show ¬ (Char.ofNat 55 = Char.ofNat 99) by decide,
        show ¬ (Char.ofNat 55 = Char.ofNat 120) by decide,
        show ¬ (Char.ofNat 55 = Char.ofNat 104) by decide,
        show ¬ (Char.ofNat 55 = Char.ofNat 54) by decide, if_false, if_true,
        Except.ok.injEq] at h
      subst h
      simp [jumpOpcodeOf, h7]
    · by_cases h8 : c.toLower = Char.ofNat 56
      · simp only [h8, show ¬ (Char.ofNat 56 = Char.ofNat 111) by decide,
          show ¬ (Char.ofNat 56 = Char.ofNat 105) by decide,
          show ¬ (Char.ofNat 56 = Char.ofNat 101) by decide,
          show ¬ (Char.ofNat 56 = Char.ofNat 102) by decide,
          show ¬ (Char.ofNat 56 = Char.ofNat 119) by decide,
          show ¬ (Char.ofNat 56 = Char.ofNat 99) by decide,
          show ¬ (Char.ofNat 56 = Char.ofNat 120) by decide,
          show ¬ (Char.ofNat 56 = Char.ofNat 104) by decide,
          show ¬ (Char.ofNat 56 = Char.ofNat 54) by decide,
          show ¬ (Char.ofNat 56 = Char.ofNat 55) by decide, if_false, if_true,
          Except.ok.injEq] at h
        subst h
        simp [jumpOpcodeOf, h8]
      · simp only [h6, h7, h8, if_false] at h
        simp only [h6, h7, h8, decide_False, Bool.or_self, Bool.false_eq_true, false_implies,
          true_and, forall_true_left]
        by_cases g1 : c.toLower = Char.ofNat 111
        · rw [if_pos g1] at h; cases h; exact ⟨rfl, rfl⟩
        · rw [if_neg g1] at h
          by_cases g2 : c.toLower = Char.ofNat 105
          · rw [if_pos g2] at h; cases h; exact ⟨rfl, rfl⟩
          · rw [if_neg g2] at h
            by_cases g3 : c.toLower = Char.ofNat 101
            · rw [if_pos g3] at h; cases h; exact ⟨rfl, rfl⟩
            · rw [if_neg g3] at h
              by_cases g4 : c.toLower = Char.ofNat 102
              · rw [if_pos g4] at h; cases h; exact ⟨rfl, rfl⟩
              · rw [if_neg g4] at h
                by_cases g5 : c.toLower = Char.ofNat 119
                · rw [if_pos g5] at h; cases h; exact ⟨rfl, rfl⟩
                · rw [if_neg g5] at h
                  by_cases g6 : c.toLower = Char.ofNat 99
                  · rw [if_pos g6] at h; cases h; exact ⟨rfl, rfl⟩
                  · rw [if_neg g6] at h
                    by_cases g7 : c.toLower = Char.ofNat 120
                    · rw [if_pos g7] at h; cases h; exact ⟨rfl, rfl⟩
                    · rw [if_neg g7] at h
                      by_cases g8 : c.toLower = Char.ofNat 104
                      · rw [if_pos g8] at h; cases h; exact ⟨rfl, rfl⟩
                      · rw [if_neg g8] at h
                        simp [ShowHelpAndExit] at h

/-- The flags of one argument keep the agreement of dialect and jump opcode, and establish
it when a dialect flag is among them. -/
theorem applyFlags_dialect (cs : List Char) : ∀ (s s1 : State), applyFlags cs s = .ok s1 →
    (s.g_jump_opcode = jumpOpcodeOf s.scriptVersion ∨ cs.any isDialectFlag = true →
      s1.g_jump_opcode = jumpOpcodeOf s1.scriptVersion)
    ∧ (cs.any isDialectFlag = false →
        s1.scriptVersion = s.scriptVersion ∧ s1.g_jump_opcode = s.g_jump_opcode) := by
  induction cs with
  | nil =>
    intro s s1 h
    simp only [applyFlags, Except.ok.injEq] at h
    subst h
    simp
  | cons c cs ih =>
    intro s s1 h
    simp only [applyFlags] at h
    cases hc : applyFlag c s with
    | error f => rw [hc] at h; simp at h
    | ok s2 =>
      rw [hc] at h
      simp only at h
      obtain ⟨hd, hn⟩ := applyFlag_dialect c s s2 hc
      obtain ⟨ih1, ih2⟩ := ih s2 s1 h
      constructor
      · intro hor
        by_cases hcd : isDialectFlag c = true
        · exact ih1 (Or.inl (hd hcd))
        · have hcf : isDialectFlag c = false := by simpa using hcd
          obtain ⟨hv, hj⟩ := hn hcf
          rcases hor with ha | ha
          · exact ih1 (Or.inl (by rw [hv, hj]; exact ha))
          · simp only [List.any_cons, hcf, Bool.false_or] at ha
            exact ih1 (Or.inr ha)
      · intro hany
        simp only [List.any_cons, Bool.or_eq_false_iff] at hany
        obtain ⟨hv, hj⟩ := hn hany.1
        obtain ⟨hv2, hj2⟩ := ih2 hany.2
        exact ⟨hv2.trans hv, hj2.trans hj⟩

/-- The argument loop keeps the agreement of dialect and jump opcode; when it ends without
agreement, dialect and jump opcode are those it started with. -/
theorem parseArgs_dialect (argv : List String) : ∀ (fn fn1 : Option String) (s s1 : State),
    parseArgs argv fn s = .ok (fn1, s1) →
    (s.g_jump_opcode = jumpOpcodeOf s.scriptVersion →
      s1.g_jump_opcode = jumpOpcodeOf s1.scriptVersion)
    ∧ (s1.g_jump_opcode = jumpOpcodeOf s1.scriptVersion
        ∨ (s1.scriptVersion = s.scriptVersion ∧ s1.g_jump_opcode = s.g_jump_opcode)) := by
  induction argv with
  | nil =>
    intro fn fn1 s s1 h
    simp only [parseArgs, Except.ok.injEq, Prod.mk.injEq] at h
    obtain ⟨_, h⟩ := h
    subst h
    exact ⟨id, Or.inr ⟨rfl, rfl⟩⟩
  | cons a rest ih =>
    intro fn fn1 s s1 h
    unfold parseArgs at h
    cases ha : a.toList with
    | nil =>
      rw [ha] at h
      simp only at h
      by_cases hf : fn ≠ none
      · rw [if_pos hf] at h; simp [ShowHelpAndExit] at h
      · rw [if_neg hf] at h; exact ih _ _ _ _ h
    | cons c cs =>
      rw [ha] at h
      simp only at h
      by_cases hc : c = Char.ofNat 45
      · rw [if_pos hc] at h
        cases hfl : applyFlags cs s with
        | error f => rw [hfl] at h; simp at h
        | ok s2 =>
          rw [hfl] at h
          simp only at h
          obtain ⟨f1, f2⟩ := applyFlags_dialect cs s s2 hfl
          obtain ⟨i1, i2⟩ := ih _ _ _ _ h
          refine ⟨fun hag => i1 (f1 (Or.inl hag)), ?_⟩
          rcases i2 with i2 | ⟨iv, ij⟩
          · exact Or.inl i2
          · by_cases hany : cs.any isDialectFlag = true
            · exact Or.inl (i1 (f1 (Or.inr hany)))
            · obtain ⟨hv, hj⟩ := f2 (by simpa using hany)
              exact Or.inr ⟨iv.trans hv, ij.trans hj⟩
      · rw [if_neg hc] at h
        by_cases hf : fn ≠ none
        · rw [if_pos hf] at h; simp [ShowHelpAndExit] at h
        · rw [if_neg hf] at h; exact ih _ _ _ _ h

/-- C18 fails on the code for the start without a dialect flag: the initial values are
dialect 6 with jump opcode 0x66, not 0x73.  Every dialect flag sets the opcode of its
dialect (0x73 for 6 and 7, 0x66 for 8) and no other flag touches either, so the argument
loop ends with dialect and opcode in agreement or with the initial pair (6, 0x66).
Without a dialect flag the v6 chain `if … else if … else` is printed as nested `else`/`if`
blocks, else-if detection comparing with 0x66; with `-6` it is printed as `} else if`. -/
theorem C18_jump_opcode :
    (∀ (argv : List String) (fn : Option String) (s : State),
      parseArgs argv none {} = .ok (fn, s) →
      s.g_jump_opcode = jumpOpcodeOf s.scriptVersion
      ∨ (s.scriptVersion = 6 ∧ s.g_jump_opcode = 0x66))
    ∧ (∀ (cs : List Char) (s s1 : State), applyFlags cs s = .ok s1 →
        cs.any isDialectFlag = true → s1.g_jump_opcode = jumpOpcodeOf s1.scriptVersion)
    ∧ parseArgs ["script.bin"] none {} = .ok (some "script.bin", {})
    ∧ ({} : State).scriptVersion = 6 ∧ ({} : State).g_jump_opcode = 0x66
    ∧ jumpOpcodeOf 6 = 0x73
    ∧ main ["-cx", "script.bin"] (fun _ => some (scrpFile elseIfBody)) []
        = .ok (0, ["if (1) \x7b", "  var0 = 9", "\x7d else \x7b", "  if (1) \x7b",
                   "    var0 = 10", "  \x7d else \x7b", "    var0 = 11", "  \x7d", "\x7d",
                   "END", "Stack count: 0"])
    ∧ main ["-6cx", "script.bin"] (fun _ => some (scrpFile elseIfBody)) []
        = .ok (0, ["if (1) \x7b", "  var0 = 9", "\x7d else if (1) \x7b", "  var0 = 10",
                   "\x7d else \x7b", "  var0 = 11", "\x7d", "END", "Stack count: 0"]) := by
  refine ⟨?_, ?_, rfl, rfl, rfl, rfl, rfl, rfl⟩
  · intro argv fn s h
    exact (parseArgs_dialect argv none fn {} s h).2
  · intro cs s s1 h hany
    exact (applyFlags_dialect cs s s1 h).1 (Or.inr hany)

/-- C18, instances: the flag arguments `-7` and `-c8` leave dialect 7 with opcode 0x73 and
dialect 8 with opcode 0x66; no argument but the file name leaves dialect 6 with 0x66. -/
theorem C18_jump_opcode_witness :
    ({ scriptVersion := 7, g_jump_opcode := 0x73 } : State).g_jump_opcode = jumpOpcodeOf 7
    ∧ ({ dontShowOpcode := true, scriptVersion := 8, g_jump_opcode := 0x66 } : State).g_jump_opcode
        = jumpOpcodeOf 8
    ∧ (({} : State).g_jump_opcode = jumpOpcodeOf ({} : State).scriptVersion
        ∨ (({} : State).scriptVersion = 6 ∧ ({} : State).g_jump_opcode = 0x66)) :=
  ⟨C18_jump_opcode.2.1 [Char.ofNat 55] {} { scriptVersion := 7, g_jump_opcode := 0x73 } rfl rfl,
   C18_jump_opcode.2.1 [Char.ofNat 99, Char.ofNat 56] {}
      { dontShowOpcode := true, scriptVersion := 8, g_jump_opcode := 0x66 } rfl rfl,
   C18_jump_opcode.1 ["script.bin"] (some "script.bin") {} rfl⟩

/-- C19 as stated fails: on v6 `get_word` over the bytes FF FF returns 4294967295, not 65535
(the 16-bit read is made through `int16`), and a word literal with these operand bytes is
printed as -1: opcode 0x01 in `var0 = -1`, the `w` atom in `dimType5(-1,3)`. -/
theorem C19_counterexample :
    (get_word { mem := [0xFF, 0xFF] }).1 = 4294967295
    ∧ (get_word { mem := [0xFF, 0xFF] }).1 ≠ 65535
    ∧ (decompile (scrpFile [0x01, 0xFF, 0xFF, 0x43, 0x00, 0x00]) [] plainFlags).toOption.map
        (fun s => s.stdout) = some ["var0 = -1", "END", "Stack count: 0"]
    ∧ (decompile (scrpFile [0x00, 0x03, 0xBC, 0xC7, 0xFF, 0xFF]) [] plainFlags).toOption.map
        (fun s => s.stdout) = some ["dimType5(-1,3)", "END", "Stack count: 0"] := by
  decide

/-- C19 (amended): on v6/v7 `get_word` over the bytes b0 b1 advances the cursor by 2 and
returns b0 + 256*b1 sign-extended from 16 bits, as an unsigned 32-bit value (the value
itself below 32768, the value plus 2^32 - 65536 from 32768 on); `get_signed_word` returns
the same 32-bit pattern as a signed number.  On v8 both read 4 bytes and advance by 4;
`get_word` returns the unsigned little-endian value and `get_signed_word` that value
sign-extended from 32 bits.  In every dialect the two results are the same `int`, so a
word literal with operand bytes FF FF renders as -1. -/
theorem C19_word_reads (s : State) (b0 b1 b2 b3 : Nat)
    (h0 : byteAt s s.cur_pos = b0) (h1 : byteAt s (s.cur_pos + 1) = b1)
    (h2 : byteAt s (s.cur_pos + 2) = b2) (h3 : byteAt s (s.cur_pos + 3) = b3)
    (hb0 : b0 < 256) (hb1 : b1 < 256) (hb2 : b2 < 256) (hb3 : b3 < 256) :
    (s.scriptVersion ≠ 8 →
      get_word s = ((if b0 + 256 * b1 < 32768 then b0 + 256 * b1
                      else b0 + 256 * b1 + (4294967296 - 65536)),
                    { s with cur_pos := s.cur_pos + 2 })
      ∧ get_signed_word s = ((if b0 + 256 * b1 < 32768 then ((b0 + 256 * b1 : Nat) : Int)
                               else ((b0 + 256 * b1 : Nat) : Int) - 65536),
                             { s with cur_pos := s.cur_pos + 2 }))
    ∧ (s.scriptVersion = 8 →
      get_word s = (b0 + 256 * b1 + 65536 * b2 + 16777216 * b3,
                    { s with cur_pos := s.cur_pos + 4 })
      ∧ get_signed_word s =
          ((if b0 + 256 * b1 + 65536 * b2 + 16777216 * b3 < 2147483648
              then ((b0 + 256 * b1 + 65536 * b2 + 16777216 * b3 : Nat) : Int)
              else ((b0 + 256 * b1 + 65536 * b2 + 16777216 * b3 : Nat) : Int) - 4294967296),
           { s with cur_pos := s.cur_pos + 4 }))
    ∧ toInt32 (get_word s).1 = (get_signed_word s).1
    ∧ (b0 = 255 → b1 = 255 → b2 = 255 → b3 = 255 →
        se_astext s.scriptVersion (se_int (toInt32 (get_word s).1)) true = "-1") := by
  have hv6 : s.scriptVersion ≠ 8 →
      get_word s = (toU32 (toInt16 (b0 + 256 * b1)), { s with cur_pos := s.cur_pos + 2 }) := by
    intro hv
    simp only [get_word, if_neg hv, h0, h1]
  have hv8 : s.scriptVersion = 8 →
      get_word s = (b0 + 256 * b1 + 65536 * b2 + 16777216 * b3,
        { s with cur_pos := s.cur_pos + 4 }) := by
    intro hv
    simp only [get_word, if_pos hv, h0, h1, h2, h3]
  have hw16 : toU32 (toInt16 (b0 + 256 * b1)) = (if b0 + 256 * b1 < 32768 then b0 + 256 * b1
      else b0 + 256 * b1 + (4294967296 - 65536)) := by
    unfold toU32 toInt16
    split <;> split <;> omega
  have hs16 : toInt16 (toU32 (toInt16 (b0 + 256 * b1)))
      = (if b0 + 256 * b1 < 32768 then ((b0 + 256 * b1 : Nat) : Int)
          else ((b0 + 256 * b1 : Nat) : Int) - 65536) := by
    rw [hw16]
    unfold toInt16
    split <;> split <;> omega
  have hs32 : toInt32 (b0 + 256 * b1 + 65536 * b2 + 16777216 * b3)
      = (if b0 + 256 * b1 + 65536 * b2 + 16777216 * b3 < 2147483648
          then ((b0 + 256 * b1 + 65536 * b2 + 16777216 * b3 : Nat) : Int)
          else ((b0 + 256 * b1 + 65536 * b2 + 16777216 * b3 : Nat) : Int) - 4294967296) := by
    unfold toInt32
    split <;> split <;> omega
  have hsame16 : toInt32 (toU32 (toInt16 (b0 + 256 * b1)))
      = toInt16 (toU32 (toInt16 (b0 + 256 * b1))) := by
    rw [hs16, hw16]
    unfold toInt32
    split <;> split <;> omega
  refine ⟨fun hv => ⟨?_, ?_⟩, fun hv => ⟨hv8 hv, ?_⟩, ?_, ?_⟩
  · rw [hv6 hv, hw16]
  · simp only [get_signed_word, hv6 hv, if_neg hv, hs16]
  · simp only [get_signed_word, hv8 hv, if_pos hv, hs32]
  · by_cases hv : s.scriptVersion = 8
    · simp only [get_signed_word, hv8 hv, if_pos hv]
    · simp only [get_signed_word, hv6 hv, if_neg hv, hsame16]
  · intro e0 e1 e2 e3
    subst e0 e1 e2 e3
    by_cases hv : s.scriptVersion = 8
    · rw [hv8 hv]
      simp only [se_int, se_astext]
      decide
    · rw [hv6 hv]
      simp only [se_int, se_astext]
      decide

/-- C19, instances: the v6 word 34 12 is 0x1234, the v6 word FF FF is 4294967295 read
unsigned and -1 read signed, the v8 word FF FF FF FF likewise. -/
theorem C19_word_reads_witness :
    get_word { mem := [0x34, 0x12] } = (0x1234, { mem := [0x34, 0x12], cur_pos := 2 })
    ∧ get_word { mem := [0xFF, 0xFF] } = (4294967295, { mem := [0xFF, 0xFF], cur_pos := 2 })
    ∧ get_signed_word { mem := [0xFF, 0xFF] } = (-1, { mem := [0xFF, 0xFF], cur_pos := 2 })
    ∧ get_word { mem := [0xFF, 0xFF, 0xFF, 0xFF], scriptVersion := 8 }
        = (4294967295, { mem := [0xFF, 0xFF, 0xFF, 0xFF], scriptVersion := 8, cur_pos := 4 })
    ∧ se_astext 8 (se_int (toInt32
          (get_word { mem := [0xFF, 0xFF, 0xFF, 0xFF], scriptVersion := 8 }).1)) true = "-1" :=
  ⟨((C19_word_reads { mem := [0x34, 0x12] } 0x34 0x12 0 0 rfl rfl rfl rfl (by decide)
      (by decide) (by decide) (by decide)).1 (by decide)).1,
   ((C19_word_reads { mem := [0xFF, 0xFF] } 0xFF 0xFF 0 0 rfl rfl rfl rfl (by decide)
      (by decide) (by decide) (by decide)).1 (by decide)).1,
   ((C19_word_reads { mem := [0xFF, 0xFF] } 0xFF 0xFF 0 0 rfl rfl rfl rfl (by decide)
      (by decide) (by decide) (by decide)).1 (by decide)).2,
   ((C19_word_reads { mem := [0xFF, 0xFF, 0xFF, 0xFF], scriptVersion := 8 } 0xFF 0xFF 0xFF 0xFF
      rfl rfl rfl rfl (by decide) (by decide) (by decide) (by decide)).2.1 rfl).1,
   (C19_word_reads { mem := [0xFF, 0xFF, 0xFF, 0xFF], scriptVersion := 8 } 0xFF 0xFF 0xFF 0xFF
      rfl rfl rfl rfl (by decide) (by decide) (by decide) (by decide)).2.2.2 rfl rfl rfl rfl⟩

/-- C20: for every pair (cur, to) with to ≤ cur, or with cur or to not below 65536, each
of `maybeAddIf` and `maybeAddElse` returns false with the state, and so the block stack,
unchanged; `maybeAddElseIf` does so too, and also when `elseto` is not below 65536 (or is
smaller than `to`). -/
theorem C20_forward_jumps_only (cur to_ elseto : Nat) (s : State) :
    (to_ ≤ cur ∨ 65536 ≤ cur ∨ 65536 ≤ to_ →
      maybeAddIf cur to_ s = .ok (false, s)
      ∧ maybeAddElse cur to_ s = .ok (false, s)
      ∧ maybeAddElseIf cur elseto to_ s = (false, s))
    ∧ (65536 ≤ elseto ∨ elseto < to_ → maybeAddElseIf cur elseto to_ s = (false, s)) := by
  constructor
  · intro h
    have h1 : (to_ ||| cur) >>> 16 ≠ 0 ∨ to_ ≤ cur := by
      rw [or_shiftRight16]
      rcases h with h | h | h
      · exact Or.inr h
      · exact Or.inl (fun hc => by omega)
      · exact Or.inl (fun hc => by omega)
    have h2 : (to_ ||| cur ||| elseto) >>> 16 ≠ 0 ∨ elseto < to_ ∨ to_ ≤ cur := by
      rw [or_shiftRight16]
      have hor := or_lt_two_pow_iff to_ cur 16
      rcases h with h | h | h
      · exact Or.inr (Or.inr h)
      · exact Or.inl (fun hc => by have := hor.1 hc.1; omega)
      · exact Or.inl (fun hc => by have := hor.1 hc.1; omega)
    refine ⟨?_, ?_, ?_⟩
    · unfold maybeAddIf; rw [if_pos h1]
    · unfold maybeAddElse; rw [if_pos h1]
    · unfold maybeAddElseIf; rw [if_pos h2]
  · intro h
    have h2 : (to_ ||| cur ||| elseto) >>> 16 ≠ 0 ∨ elseto < to_ ∨ to_ ≤ cur := by
      rw [or_shiftRight16]
      rcases h with h | h
      · exact Or.inl (fun hc => by omega)
      · exact Or.inr (Or.inl h)
    unfold maybeAddElseIf; rw [if_pos h2]

/-- C20, instances: a backward pair, a pair whose target needs 17 bits, and an `elseto`
that needs 17 bits, on a stack of one frame. -/
theorem C20_forward_jumps_only_witness :
    maybeAddIf 10 4 { block_stack := [{ isWhile := false, from_ := 5, to_ := 10 }] }
      = .ok (false, { block_stack := [{ isWhile := false, from_ := 5, to_ := 10 }] })
    ∧ maybeAddElse 10 65536 { block_stack := [{ isWhile := false, from_ := 5, to_ := 10 }] }
      = .ok (false, { block_stack := [{ isWhile := false, from_ := 5, to_ := 10 }] })
    ∧ maybeAddElseIf 10 65536 20 { block_stack := [{ isWhile := false, from_ := 5, to_ := 10 }] }
      = (false, { block_stack := [{ isWhile := false, from_ := 5, to_ := 10 }] }) :=
  ⟨((C20_forward_jumps_only 10 4 0
      { block_stack := [{ isWhile := false, from_ := 5, to_ := 10 }] }).1
      (Or.inl (by decide))).1,
   ((C20_forward_jumps_only 10 65536 0
      { block_stack := [{ isWhile := false, from_ := 5, to_ := 10 }] }).1
      (Or.inr (Or.inr (by decide)))).2.1,
   (C20_forward_jumps_only 10 20 65536
      { block_stack := [{ isWhile := false, from_ := 5, to_ := 10 }] }).2
      (Or.inl (by decide))⟩

theorem get_signed_word_snd (s : State) :
    ∃ k, 2 ≤ k ∧ (get_signed_word s).2 = { s with cur_pos := s.cur_pos + k } := by
  unfold get_signed_word get_word
  by_cases h : s.scriptVersion = 8
  · rw [if_pos h]; exact ⟨4, by decide, by simp [h]⟩
  · rw [if_neg h]; exact ⟨2, by decide, by simp [h]⟩

/-- The two results of `maybeAddIf`: nothing changed; or a frame was pushed whose target
lies beyond the cursor, below 65536 and not beyond the target of any frame of the stack. -/
theorem maybeAddIf_cases (cur to_ : Nat) (s s1 : State) (b : Bool)
    (h : maybeAddIf cur to_ s = .ok (b, s1)) :
    (b = false ∧ s1 = s)
    ∨ (b = true ∧ cur < to_ ∧ to_ < 65536 ∧ (∀ q ∈ s.block_stack, to_ ≤ q.to_)
        ∧ ∃ w, s1 = { s with block_stack :=
            { isWhile := w, from_ := cur % 65536, to_ := to_ } :: s.block_stack }) := by
  unfold maybeAddIf at h
  by_cases h1 : (to_ ||| cur) >>> 16 ≠ 0 ∨ to_ ≤ cur
  · rw [if_pos h1] at h
    simp only [Except.ok.injEq, Prod.mk.injEq] at h
    exact Or.inl ⟨h.1.symm, h.2.symm⟩
  · rw [if_neg h1] at h
    by_cases h2 : s.block_stack.any (fun p => decide (to_ > p.to_)) = true
    · rw [if_pos h2] at h
      simp only [Except.ok.injEq, Prod.mk.injEq] at h
      exact Or.inl ⟨h.1.symm, h.2.symm⟩
    · rw [if_neg h2] at h
      simp only [pushBlockStackItem] at h
      by_cases h3 : num_block_stack s ≥ 256
      · rw [if_pos h3] at h
        simp at h
      · rw [if_neg h3] at h
        simp only [Except.ok.injEq, Prod.mk.injEq] at h
        have h16 : to_ < 65536 ∧ cur < 65536 := by
          by_contra hc
          exact h1 (Or.inl ((or_shiftRight16 to_ cur).2 hc))
        have hlt : cur < to_ := by
          by_contra hc
          exact h1 (Or.inr (by omega))
        have hall : ∀ q ∈ s.block_stack, to_ ≤ q.to_ := by
          intro q hq
          by_contra hc
          exact h2 (List.any_eq_true.2 ⟨q, hq, by simp; omega⟩)
        refine Or.inr ⟨h.1.symm, hlt, h16.1, hall, ?_⟩
        rw [← h.2, Nat.mod_eq_of_lt h16.1]
        exact ⟨_, rfl⟩

/-- The two results of `maybeAddElse`: nothing changed; or the top frame, whose target is
the cursor, was replaced by a frame whose target lies beyond the cursor, below 65536 and
not beyond the target of any frame beneath. -/
theorem maybeAddElse_cases (cur to_ : Nat) (s s1 : State) (b : Bool)
    (h : maybeAddElse cur to_ s = .ok (b, s1)) :
    (b = false ∧ s1 = s)
    ∨ (b = true ∧ cur < to_ ∧ to_ < 65536
        ∧ ∃ p rest w, s.block_stack = p :: rest ∧ p.to_ = cur ∧ (∀ q ∈ rest, to_ ≤ q.to_)
          ∧ s1 = { s with block_stack :=
              { isWhile := w, from_ := cur % 65536, to_ := to_ } :: rest }) := by
  unfold maybeAddElse at h
  by_cases h1 : (to_ ||| cur) >>> 16 ≠ 0 ∨ to_ ≤ cur
  · rw [if_pos h1] at h
    simp only [Except.ok.injEq, Prod.mk.injEq] at h
    exact Or.inl ⟨h.1.symm, h.2.symm⟩
  · rw [if_neg h1] at h
    cases hs : s.block_stack with
    | nil =>
      rw [hs] at h
      simp only [Except.ok.injEq, Prod.mk.injEq] at h
      exact Or.inl ⟨h.1.symm, h.2.symm⟩
    | cons p rest =>
      rw [hs] at h
      simp only at h
      by_cases h2 : cur ≠ p.to_
      · rw [if_pos h2] at h
        simp only [Except.ok.injEq, Prod.mk.injEq] at h
        exact Or.inl ⟨h.1.symm, h.2.symm⟩
      · rw [if_neg h2] at h
        cases hm : maybeAddIf cur to_ { s with block_stack := rest } with
        | error f => rw [hm] at h; cases h
        | ok r =>
          obtain ⟨b2, s2⟩ := r
          rw [hm] at h
          rcases maybeAddIf_cases _ _ _ _ _ hm with ⟨hb, hs2⟩ | ⟨hb, hlt, h16, hall, w, hs2⟩
          · subst hb
            simp only [Except.ok.injEq, Prod.mk.injEq] at h
            left
            refine ⟨h.1.symm, ?_⟩
            rw [← h.2, hs2, ← hs]
          · subst hb
            simp only [Except.ok.injEq, Prod.mk.injEq] at h
            right
            refine ⟨h.1.symm, hlt, h16, p, rest, w, rfl, (not_not.1 h2).symm, hall, ?_⟩
            rw [← h.2, hs2]

/-- The two results of `maybeAddElseIf`: nothing changed; or the top frame got the new
target, which is not beyond `elseto`. -/
theorem maybeAddElseIf_cases (cur elseto to_ : Nat) (s : State) :
    maybeAddElseIf cur elseto to_ s = (false, s)
    ∨ (to_ ≤ elseto ∧ ∃ p rest, s.block_stack = p :: rest
        ∧ maybeAddElseIf cur elseto to_ s = (true, { s with block_stack :=
            { p with from_ := cur % 65536, to_ := to_ } :: rest })) := by
  unfold maybeAddElseIf
  by_cases h1 : (to_ ||| cur ||| elseto) >>> 16 ≠ 0 ∨ elseto < to_ ∨ to_ ≤ cur
  · rw [if_pos h1]; exact Or.inl rfl
  · rw [if_neg h1]
    have h16 : to_ < 65536 := by
      by_contra hc
      refine h1 (Or.inl ((or_shiftRight16 _ _).2 ?_))
      intro hh
      have := (or_lt_two_pow_iff to_ cur 16).1 hh.1
      omega
    cases hs : s.block_stack with
    | nil => exact Or.inl rfl
    | cons p rest =>
      simp only
      by_cases h2 : p.isWhile = true
      · rw [if_pos h2]; exact Or.inl rfl
      · rw [if_neg h2]
        by_cases h3 : byteAtInt s ((s.org_pos : Int)
            + (if s.scriptVersion = 8 then (to_ : Int) - 5 else (to_ : Int) - 3))
            ≠ s.g_jump_opcode
        · rw [if_pos h3]; exact Or.inl rfl
        · rw [if_neg h3]
          by_cases h4 : (if s.scriptVersion = 8
              then toU32 ((to_ : Int) + int32At s
                ((if s.scriptVersion = 8 then (to_ : Int) - 5 else (to_ : Int) - 3) + 1))
              else toU32 ((to_ : Int) + int16At s
                ((if s.scriptVersion = 8 then (to_ : Int) - 5 else (to_ : Int) - 3) + 1)))
              ≠ elseto
          · rw [if_pos h4]; exact Or.inl rfl
          · rw [if_neg h4]
            right
            refine ⟨by omega, p, rest, rfl, ?_⟩
            rw [Nat.mod_eq_of_lt h16]

/-- The results of `jump`: the cursor is moved behind the displacement, and either nothing
else changes but the line buffer (a raw `jump` line, or nothing at the end of a while), or
the top frame is replaced and an else is left pending. -/
theorem jump_cases (s d : State) (h : jump s = .ok d) :
    ∃ k, 2 ≤ k ∧
      ((∃ out, d = { s with cur_pos := s.cur_pos + k, output := out })
      ∨ (∃ p rest new T, s.block_stack = p :: rest ∧ (∀ q ∈ rest, new.to_ ≤ q.to_)
          ∧ new.to_ = toU32 T
          ∧ d = { s with
                cur_pos := s.cur_pos + k, block_stack := new :: rest,
                pendingElse := true, pendingElseTo := T,
                pendingElseOffs := (s.cur_pos + k : Nat) - (s.org_pos : Int) - 1,
                pendingElseOpcode := s.g_jump_opcode,
                pendingElseIndent := (rest.length + 1 : Nat) })) := by
  obtain ⟨k, hk2, hk⟩ := get_signed_word_snd s
  refine ⟨k, hk2, ?_⟩
  unfold jump at h
  cases hg : get_signed_word s with
  | mk off s1 =>
    rw [hg] at h hk
    simp only at h hk
    cases hm : (if (!s1.dontOutputElse) = true
        then maybeAddElse (toU32 (get_curoffs s1)) (toU32 (get_curoffs s1 + off)) s1
        else .ok (false, s1)) with
    | error f => rw [hm] at h; cases h
    | ok r =>
      obtain ⟨b, s2⟩ := r
      rw [hm] at h
      have hc : (b = false ∧ s2 = s1)
          ∨ (b = true ∧ get_curoffs s1 < get_curoffs s1 + off ∨ True) ∧
            (b = true ∧ ∃ p rest w, s1.block_stack = p :: rest
              ∧ (∀ q ∈ rest, toU32 (get_curoffs s1 + off) ≤ q.to_)
              ∧ s2 = { s1 with block_stack :=
                  { isWhile := w, from_ := toU32 (get_curoffs s1) % 65536,
                    to_ := toU32 (get_curoffs s1 + off) } :: rest }) := by
        by_cases hd : (!s1.dontOutputElse) = true
        · rw [if_pos hd] at hm
          rcases maybeAddElse_cases _ _ _ _ _ hm with h1 | ⟨hb, _, _, p, rest, w, h2, _, h3, h4⟩
          · exact Or.inl h1
          · exact Or.inr ⟨Or.inr trivial, hb, p, rest, w, h2, h3, h4⟩
        · rw [if_neg hd] at hm
          simp only [Except.ok.injEq, Prod.mk.injEq] at hm
          exact Or.inl ⟨hm.1.symm, hm.2.symm⟩
      rcases hc with ⟨hb, hs2⟩ | ⟨_, hb, p, rest, w, h2, h3, h4⟩
      · subst hb hs2
        simp only at h
        left
        split at h
        · split at h
          · simp only [Except.ok.injEq] at h
            exact ⟨s.output, by rw [← h, hk]⟩
          · simp only [Except.ok.injEq] at h
            exact ⟨_, by rw [← h, hk]⟩
        · simp only [Except.ok.injEq] at h
          exact ⟨_, by rw [← h, hk]⟩
      · subst hb
        simp only [Except.ok.injEq] at h
        right
        rw [hk] at h2
        refine ⟨p, rest, ⟨w, toU32 (get_curoffs s1) % 65536, toU32 (get_curoffs s1 + off)⟩,
          get_curoffs s1 + off, h2, h3, rfl, ?_⟩
        rw [← h, h4, hk]
        simp [get_curoffs, num_block_stack]

/-- The results of `jumpif`: the cursor is moved behind the displacement and the line
buffer is written; either a `goto` line and nothing else, or a header `if (` or `while (`
with a frame pushed, or `} else if (` with the top frame replaced and the pending else
taken. -/
theorem jumpif_cases (se : StackEnt) (when : Bool) (s d : State)
    (h : jumpif se when s = .ok d) :
    ∃ (k : Nat) (T : Int), 2 ≤ k ∧
      (d = { s with
              cur_pos := s.cur_pos + k,
              output := (if when then "if (" else "if (!") ++ se_astext s.scriptVersion se true
                ++ ") goto " ++ fmt_x (toU32 T) }
      ∨ (∃ new opener, (opener = "if (" ∨ opener = "while (")
          ∧ (∀ q ∈ s.block_stack, new.to_ ≤ q.to_)
          ∧ d = { s with
                cur_pos := s.cur_pos + k, block_stack := new :: s.block_stack,
                output := opener
                  ++ se_astext s.scriptVersion (if when then se_neg se else se) false
                  ++ headerTail s T })
      ∨ (∃ p rest t, s.pendingElse = true ∧ s.block_stack = p :: rest
          ∧ t.to_ ≤ toU32 s.pendingElseTo
          ∧ d = { s with
                cur_pos := s.cur_pos + k, block_stack := t :: rest,
                pendingElse := false, haveElse := true,
                output := "\x7d else if ("
                  ++ se_astext s.scriptVersion (if when then se_neg se else se) false
                  ++ headerTail s T })) := by
  obtain ⟨k, hk2, hk⟩ := get_signed_word_snd s
  unfold jumpif at h
  cases hg : get_signed_word s with
  | mk off s1 =>
    rw [hg] at h hk
    simp only at h hk
    refine ⟨k, get_curoffs s1 + off, hk2, ?_⟩
    have hv1 : s1.scriptVersion = s.scriptVersion := by rw [hk]
    have ht1 : ∀ x, headerTail s1 x = headerTail s x := by intro x; rw [hk]; rfl
    have htry : (if (!s1.dontOutputElseif) = true ∧ s1.pendingElse = true then
          maybeAddElseIf (toU32 (get_curoffs s1)) (toU32 s1.pendingElseTo)
            (toU32 (get_curoffs s1 + off)) s1
        else (false, s1)) = (false, s1)
        ∨ (s1.pendingElse = true ∧ toU32 (get_curoffs s1 + off) ≤ toU32 s1.pendingElseTo
          ∧ ∃ p rest, s1.block_stack = p :: rest
            ∧ (if (!s1.dontOutputElseif) = true ∧ s1.pendingElse = true then
                maybeAddElseIf (toU32 (get_curoffs s1)) (toU32 s1.pendingElseTo)
                  (toU32 (get_curoffs s1 + off)) s1
              else (false, s1)) = (true, { s1 with block_stack :=
                { p with from_ := toU32 (get_curoffs s1) % 65536,
                         to_ := toU32 (get_curoffs s1 + off) } :: rest })) := by
      by_cases hc : (!s1.dontOutputElseif) = true ∧ s1.pendingElse = true
      · rw [if_pos hc]
        rcases maybeAddElseIf_cases (toU32 (get_curoffs s1)) (toU32 s1.pendingElseTo)
            (toU32 (get_curoffs s1 + off)) s1 with he | ⟨hle, p, rest, hbs, he⟩
        · exact Or.inl he
        · exact Or.inr ⟨hc.2, hle, p, rest, hbs, he⟩
      · rw [if_neg hc]; exact Or.inl rfl
    rcases htry with he | ⟨hpe, hle, p, rest, hbs, he⟩
    · rw [he] at h
      simp only at h
      cases hmi : (if (!s1.dontOutputIfs) = true then
          maybeAddIf (toU32 (get_curoffs s1)) (toU32 (get_curoffs s1 + off)) s1
        else .ok (false, s1)) with
      | error f => rw [hmi] at h; cases h
      | ok r =>
        obtain ⟨b2, s4⟩ := r
        rw [hmi] at h
        have hc : (b2 = false ∧ s4 = s1)
            ∨ (b2 = true ∧ (∀ q ∈ s1.block_stack, toU32 (get_curoffs s1 + off) ≤ q.to_)
                ∧ ∃ w, s4 = { s1 with block_stack :=
                    { isWhile := w, from_ := toU32 (get_curoffs s1) % 65536,
                      to_ := toU32 (get_curoffs s1 + off) } :: s1.block_stack }) := by
          by_cases hd : (!s1.dontOutputIfs) = true
          · rw [if_pos hd] at hmi
            rcases maybeAddIf_cases _ _ _ _ _ hmi with h1 | ⟨hb, _, _, hall, w, hs4⟩
            · exact Or.inl h1
            · exact Or.inr ⟨hb, hall, w, hs4⟩
          · rw [if_neg hd] at hmi
            simp only [Except.ok.injEq, Prod.mk.injEq] at hmi
            exact Or.inl ⟨hmi.1.symm, hmi.2.symm⟩
        rcases hc with ⟨hb, hs4⟩ | ⟨hb, hall, w, hs4⟩
        · subst hb hs4
          simp only [Except.ok.injEq] at h
          left
          rw [← h, hk]
        · subst hb hs4
          simp only [Except.ok.injEq] at h
          right; left
          have hall : ∀ q ∈ s.block_stack, toU32 (get_curoffs s1 + off) ≤ q.to_ :=
            fun q hq => hall q (by rw [hk]; exact hq)
          refine ⟨⟨w, toU32 (get_curoffs s1) % 65536, toU32 (get_curoffs s1 + off)⟩,
            if (!s1.dontOutputWhile) = true ∧ w = true then "while (" else "if (", ?_, hall, ?_⟩
          · by_cases hw : (!s1.dontOutputWhile) = true ∧ w = true
            · rw [if_pos hw]; exact Or.inr rfl
            · rw [if_neg hw]; exact Or.inl rfl
          · rw [← h, hk]
            rfl
    · rw [he] at h
      simp only [Except.ok.injEq] at h
      right; right
      refine ⟨p, rest, ⟨p.isWhile, toU32 (get_curoffs s1) % 65536,
        toU32 (get_curoffs s1 + off)⟩, ?_, ?_, ?_, ?_⟩
      · rw [hk] at hpe; exact hpe
      · rw [hk] at hbs; exact hbs
      · have e : s1.pendingElseTo = s.pendingElseTo := by rw [hk]
        rw [e] at hle; exact hle
      · rw [← h, hk]
        rfl

theorem blocks_eq (s s1 : State) (h : s1.blocks = s.blocks) :
    s1.block_stack = s.block_stack ∧ s1.pendingElse = s.pendingElse
    ∧ s1.haveElse = s.haveElse ∧ s1.pendingElseTo = s.pendingElseTo
    ∧ s1.pendingElseOffs = s.pendingElseOffs ∧ s1.pendingElseOpcode = s.pendingElseOpcode
    ∧ s1.pendingElseIndent = s.pendingElseIndent := by
  simp only [State.blocks, Prod.mk.injEq] at h
  exact h

/-- What `jump` does to the state, in the terms of `BlockChange`. -/
theorem jump_change (s d : State) (h : jump s = .ok d) :
    d.fixed = s.fixed ∧ s.cur_pos + 2 ≤ d.cur_pos ∧ d.stdout = s.stdout ∧ BlockChange s d := by
  obtain ⟨k, hk2, hc⟩ := jump_cases s d h
  rcases hc with ⟨out, hd⟩ | ⟨p, rest, new, T, hbs, hall, hnew, hd⟩
  · subst hd
    exact ⟨rfl, Nat.add_le_add_left hk2 _, rfl, Or.inl rfl⟩
  · subst hd
    refine ⟨rfl, Nat.add_le_add_left hk2 _, rfl, Or.inr (Or.inl ⟨rfl, rfl, ?_, Nat.add_le_add_left hk2 _,
      p, rest, new, hbs, rfl, hnew, hall⟩)⟩
    simp only [get_curoffs]
    omega

/-- What `jumpif` does to the state, in the terms of `BlockChange`: it always writes a line. -/
theorem jumpif_change (se : StackEnt) (when : Bool) (s d : State)
    (h : jumpif se when s = .ok d) :
    d.fixed = s.fixed ∧ s.cur_pos + 2 ≤ d.cur_pos ∧ d.stdout = s.stdout ∧ d.output ≠ ""
    ∧ (d.blocks = s.blocks
      ∨ (d.pendingElse = s.pendingElse ∧ d.pendingElseTo = s.pendingElseTo
          ∧ d.pendingElseOffs = s.pendingElseOffs ∧ d.pendingElseOpcode = s.pendingElseOpcode
          ∧ ∃ new, d.block_stack = new :: s.block_stack ∧ ∀ q ∈ s.block_stack, new.to_ ≤ q.to_)
      ∨ (s.pendingElse = true ∧ d.pendingElse = false
          ∧ ∃ p rest t, s.block_stack = p :: rest ∧ d.block_stack = t :: rest
              ∧ t.to_ ≤ toU32 s.pendingElseTo)) := by
  obtain ⟨k, T, hk2, hc⟩ := jumpif_cases se when s d h
  rcases hc with hd | ⟨new, opener, hop, hall, hd⟩ | ⟨p, rest, t, hpe, hbs, ht, hd⟩
  · subst hd
    refine ⟨rfl, Nat.add_le_add_left hk2 _, rfl, ?_, Or.inl rfl⟩
    simp only [String.append_assoc]
    apply str_append_ne_empty_left
    cases when <;> decide
  · subst hd
    refine ⟨rfl, Nat.add_le_add_left hk2 _, rfl, ?_, Or.inr (Or.inl ⟨rfl, rfl, rfl, rfl, new, rfl, hall⟩)⟩
    simp only [String.append_assoc]
    apply str_append_ne_empty_left
    rcases hop with hop | hop <;> rw [hop] <;> decide
  · subst hd
    refine ⟨rfl, Nat.add_le_add_left hk2 _, rfl, ?_, Or.inr (Or.inr ⟨hpe, rfl, p, rest, t, hbs, rfl, ht⟩)⟩
    simp only [String.append_assoc]
    apply str_append_ne_empty_left
    decide

/-- A conditional jump opcode: the predicate is popped and `jumpif` runs. -/
theorem popjumpif_change (when : Bool) (s d : State)
    (h : (match pop s with
      | .error f => (.error f : Result State)
      | .ok (se, s1) => jumpif se when s1) = .ok d) :
    d.fixed = s.fixed ∧ s.cur_pos ≤ d.cur_pos ∧ (∃ extra, d.stdout = s.stdout ++ extra)
    ∧ d.output ≠ "" ∧ BlockChange s d := by
  cases hp : pop s with
  | error f => rw [hp] at h; cases h
  | ok r =>
    obtain ⟨se, s1⟩ := r
    rw [hp] at h
    simp only at h
    have hU : Upd s s1 := Upd_pop hp (Upd_refl s)
    obtain ⟨hf, hcur, hout, hne, hb⟩ := jumpif_change se when s1 d h
    obtain ⟨⟨hf1, hcur1, extra, hex⟩, hb1⟩ := hU
    obtain ⟨b1, b2, b3, b4, b5, b6, b7⟩ := blocks_eq s s1 hb1
    refine ⟨hf.trans hf1, by omega, ⟨extra, by rw [hout, hex]⟩, hne, ?_⟩
    rcases hb with hb | ⟨c1, c2, c3, c4, new, c5, c6⟩ | ⟨c1, c2, p, rest, t, c3, c4, c5⟩
    · exact Or.inl (hb.trans hb1)
    · refine Or.inr (Or.inr (Or.inl ⟨hne, c1.trans b2, c2.trans b4, c3.trans b5, c4.trans b6,
        new, ?_, ?_⟩))
      · rw [c5, b1]
      · rw [← b1]; exact c6
    · refine Or.inr (Or.inr (Or.inr ⟨hne, ?_, c2, p, rest, t, ?_, c4, ?_⟩))
      · rw [← b2]; exact c1
      · rw [← b1]; exact c3
      · rw [← b4]; exact c5

/-- What a call of the dispatcher does to the state: the configuration stays, the cursor
moves forward, lines may be printed, and the block reconstruction changes as `BlockChange`
says. -/
theorem dispatch_change (s d : State) (h : dispatch s = .ok d) :
    d.fixed = s.fixed ∧ s.cur_pos < d.cur_pos ∧ (∃ extra, d.stdout = s.stdout ++ extra)
    ∧ BlockChange { s with cur_pos := s.cur_pos + 1 } d := by
  unfold dispatch at h
  have key : ∀ (s0 : State),
      (s0.fixed = s.fixed ∧ s0.cur_pos = s.cur_pos + 1 ∧ s0.stdout = s.stdout) →
      (d.fixed = s0.fixed ∧ s0.cur_pos ≤ d.cur_pos ∧ (∃ extra, d.stdout = s0.stdout ++ extra)
        ∧ BlockChange s0 d) →
      d.fixed = s.fixed ∧ s.cur_pos < d.cur_pos ∧ (∃ extra, d.stdout = s.stdout ++ extra)
        ∧ BlockChange s0 d := by
    intro s0 ⟨a1, a2, a3⟩ ⟨b1, b2, ⟨extra, b3⟩, b4⟩
    exact ⟨b1.trans a1, by omega, ⟨extra, by rw [b3, a3]⟩, b4⟩
  by_cases hv : s.scriptVersion = 8
  · rw [if_pos hv, next_line_V8_eq] at h
    refine key _ ⟨rfl, rfl, rfl⟩ ?_
    by_cases hop : byteAt s s.cur_pos ∈ [0x64, 0x65, 0x66]
    · simp only [List.mem_cons, List.mem_singleton, List.not_mem_nil, or_false] at hop
      rcases hop with hop | hop | hop
      · rw [hop, next_line_V8_switch_jumpif_true] at h
        obtain ⟨c1, c2, c3, _, c5⟩ := popjumpif_change true _ d h
        exact ⟨c1, c2, c3, c5⟩
      · rw [hop, next_line_V8_switch_jumpif_false] at h
        obtain ⟨c1, c2, c3, _, c5⟩ := popjumpif_change false _ d h
        exact ⟨c1, c2, c3, c5⟩
      · rw [hop, next_line_V8_switch_jump] at h
        obtain ⟨c1, c2, c3, c4⟩ := jump_change _ d h
        exact ⟨c1, by omega, ⟨[], by rw [c3]; simp⟩, c4⟩
    · obtain ⟨⟨c1, c2, c3⟩, c4⟩ := next_line_V8_switch_upd _ _ d hop h
      exact ⟨c1, c2, c3, Or.inl c4⟩
  · rw [if_neg hv, next_line_eq] at h
    refine key _ ⟨rfl, rfl, rfl⟩ ?_
    by_cases hop : byteAt s s.cur_pos ∈ [0x5C, 0x5D, 0x73]
    · simp only [List.mem_cons, List.mem_singleton, List.not_mem_nil, or_false] at hop
      rcases hop with hop | hop | hop
      · rw [hop, next_line_switch_jumpif_true] at h
        obtain ⟨c1, c2, c3, _, c5⟩ := popjumpif_change true _ d h
        exact ⟨c1, c2, c3, c5⟩
      · rw [hop, next_line_switch_jumpif_false] at h
        obtain ⟨c1, c2, c3, _, c5⟩ := popjumpif_change false _ d h
        exact ⟨c1, c2, c3, c5⟩
      · rw [hop, next_line_switch_jump] at h
        obtain ⟨c1, c2, c3, c4⟩ := jump_change _ d h
        exact ⟨c1, by omega, ⟨[], by rw [c3]; simp⟩, c4⟩
    · obtain ⟨⟨c1, c2, c3⟩, c4⟩ := next_line_switch_upd _ _ d hop h
      exact ⟨c1, c2, c3, Or.inl c4⟩

theorem linePrefix_fixed (s d : State) (h : d.fixed = s.fixed) :
    linePrefix d = linePrefix s := by
  simp only [State.fixed, Prod.mk.injEq] at h
  obtain ⟨_, _, _, _, _, _, _, _, _, h1, h2, _, _⟩ := h
  funext c o
  unfold linePrefix
  rw [h1, h2]

/-- A line with an explicit offset carries the prefix of that offset, some indentation and
the text. -/
theorem outputLine_line (buf : String) (curoffs opcode indent : Int) (s : State)
    (hbuf : buf ≠ "") (hoffs : curoffs ≠ -1) :
    ∃ ind, outputLine buf curoffs opcode indent s =
      printLine (linePrefix s curoffs opcode ++ ind ++ buf) s := by
  unfold outputLine linePrefix
  simp only [hbuf, ne_eq, not_false_eq_true, if_true, hoffs, if_false]
  refine ⟨getIndentString (if indent = -1 then (num_block_stack s : Int) else indent), ?_⟩
  cases s.dontShowOpcode <;> cases s.dontShowOffsets <;> simp [String.append_assoc]

/-- The closing loop removes the frames whose target the cursor has reached, one `}` line
for each, all under the offset of the cursor, and stops at a frame whose target lies beyond
the cursor. -/
theorem closeBlocks_spec (n : Nat) : ∀ (e : State), e.block_stack.length < n →
    ∃ k closers, closeBlocks n e =
        { e with block_stack := e.block_stack.drop k, stdout := e.stdout ++ closers }
      ∧ closers.length = k ∧ k ≤ e.block_stack.length
      ∧ (∀ l ∈ closers, ∃ ind, l = linePrefix e (get_curoffs e) (-1) ++ ind ++ "\x7d")
      ∧ (∀ q, (e.block_stack.drop k).head? = some q → toU32 (get_curoffs e) < q.to_) := by
  induction n with
  | zero => intro e h; omega
  | succ m ih =>
    intro e h
    by_cases hstop : ∀ q, e.block_stack.head? = some q → toU32 (get_curoffs e) < q.to_
    · refine ⟨0, [], ?_, rfl, Nat.zero_le _, ?_, ?_⟩
      · rw [closeBlocks_stop m e _ rfl hstop]
        simp
      · intro l hl; exact absurd hl (List.not_mem_nil l)
      · intro q hq
        rw [List.drop_zero] at hq
        exact hstop q hq
    · cases hs : e.block_stack with
      | nil => exact absurd (fun q hq => by rw [hs] at hq; simp at hq) hstop
      | cons p rest =>
        have hp : p.to_ ≤ toU32 (get_curoffs e) := by
          by_contra hc
          apply hstop
          intro q hq
          rw [hs] at hq
          simp only [List.head?_cons, Option.some.injEq] at hq
          rw [← hq]; omega
        rw [closeBlocks_pop m e p rest hs hp, outputLine_brace]
        have hlen : (printLine (linePrefix { e with block_stack := rest }
            (get_curoffs { e with block_stack := rest }) (-1)
            ++ getIndentString (num_block_stack { e with block_stack := rest }) ++ "\x7d")
            { e with block_stack := rest }).block_stack.length < m := by
          rw [hs] at h
          simp only [List.length_cons] at h
          show rest.length < m
          omega
        obtain ⟨k, closers, h1, h2, h3, h4, h5⟩ := ih _ hlen
        rw [h1]
        refine ⟨k + 1, (linePrefix { e with block_stack := rest }
            (get_curoffs { e with block_stack := rest }) (-1)
            ++ getIndentString (num_block_stack { e with block_stack := rest }) ++ "\x7d")
            :: closers, ?_, ?_, ?_, ?_, ?_⟩
        · simp [printLine, List.append_assoc]
        · simp [h2]
        · have : k ≤ rest.length := h3
          simp only [List.length_cons]
          omega
        · intro l hl
          rcases List.mem_cons.1 hl with hl | hl
          · exact ⟨_, hl⟩
          · exact h4 l hl
        · intro q hq
          exact h5 q hq

theorem state_with_pendingElse (d : State) (b : Bool) (h : d.pendingElse = b) :
    { d with pendingElse := b } = d := by
  subst h; rfl

theorem state_with_output (d : State) (t : String) (h : d.output = t) :
    { d with output := t } = d := by
  subst h; rfl

theorem mainStep_eq (s : State) :
    mainStep s = (match dispatch { s with output := "" } with
      | .error f => .error f
      | .ok d => .ok (closeBlocks
          (num_block_stack (emitLine (byteAt s s.cur_pos) (num_block_stack s) d) + 1)
          (emitLine (byteAt s s.cur_pos) (num_block_stack s) d))) := rfl

/-- What `writePendingElse` does: nothing without a pending else; with one, the else line
under the offset kept for it, and the else is no longer pending. -/
theorem writePendingElse_lines (d : State) (hpo : d.pendingElse = true → d.pendingElseOffs ≠ -1) :
    ∃ elseLines, writePendingElse d
        = { d with pendingElse := false, stdout := d.stdout ++ elseLines }
      ∧ ((elseLines = [] ∧ d.pendingElse = false)
        ∨ (d.pendingElse = true ∧ ∃ ind2 buf2,
            elseLines = [linePrefix d d.pendingElseOffs d.pendingElseOpcode ++ ind2 ++ buf2])) := by
  by_cases hp : d.pendingElse = true
  · have hbuf : (if d.alwaysShowOffs = true
        then "\x7d else /*" ++ fmt_X 4 (toU32 d.pendingElseTo) ++ "*/ \x7b"
        else "\x7d else \x7b") ≠ "" := by
      split
      · simp only [String.append_assoc]
        exact str_append_ne_empty_left _ _ (by decide)
      · decide
    obtain ⟨ind2, h2⟩ := outputLine_line _ d.pendingElseOffs d.pendingElseOpcode
      (d.pendingElseIndent - 1) d hbuf (hpo hp)
    refine ⟨[linePrefix d d.pendingElseOffs d.pendingElseOpcode ++ ind2
      ++ (if d.alwaysShowOffs = true
        then "\x7d else /*" ++ fmt_X 4 (toU32 d.pendingElseTo) ++ "*/ \x7b"
        else "\x7d else \x7b")], ?_, Or.inr ⟨hp, ind2, _, rfl⟩⟩
    unfold writePendingElse
    rw [if_pos hp]
    simp only
    rw [h2]
    rfl
  · have hp2 : d.pendingElse = false := by simpa using hp
    refine ⟨[], ?_, Or.inl ⟨rfl, hp2⟩⟩
    unfold writePendingElse
    rw [if_neg hp]
    simp only [List.append_nil]
    exact (state_with_pendingElse d false hp2).symm

/-- The lines of a pass whose opcode left text in the output buffer: the pending else, if
there is one, and the statement line under the offset of the line start. -/
theorem emitLine_lines (d : State) (opcode : Nat) (j : Int) (hne : d.output ≠ "")
    (hol : d.offs_of_line ≠ -1) (hpo : d.pendingElse = true → d.pendingElseOffs ≠ -1) :
    ∃ elseLines ind,
      emitLine opcode j d
        = { d with pendingElse := false, haveElse := false,
                   stdout := d.stdout ++ elseLines
                     ++ [linePrefix d d.offs_of_line opcode ++ ind ++ d.output],
                   offs_of_line := get_curoffs d }
      ∧ ((elseLines = [] ∧ d.pendingElse = false)
        ∨ (d.pendingElse = true ∧ ∃ ind2 buf2,
            elseLines = [linePrefix d d.pendingElseOffs d.pendingElseOpcode ++ ind2 ++ buf2])) := by
  obtain ⟨elseLines, hW, hcase⟩ := writePendingElse_lines d hpo
  obtain ⟨ind, h1⟩ := outputLine_line d.output d.offs_of_line opcode
    (if d.haveElse = true then j - 1 else j)
    { d with pendingElse := false, stdout := d.stdout ++ elseLines, haveElse := false } hne hol
  refine ⟨elseLines, ind, ?_, hcase⟩
  unfold emitLine
  rw [if_pos hne]
  simp only [hW]
  rw [h1]
  rfl

/-- A pass whose opcode left no text writes no line. -/
theorem emitLine_silent (d : State) (opcode : Nat) (j : Int) (he : d.output = "") :
    emitLine opcode j d = d := by
  unfold emitLine
  rw [if_neg (by simp [he])]

/-- Without regard to its text, the line writing of a pass keeps the block stack, the
cursor and the configuration, and clears the pending else when it writes. -/
theorem emitLine_shape (d : State) (opcode : Nat) (j : Int) :
    ∃ lines, emitLine opcode j d
      = { d with pendingElse := (if d.output ≠ "" then false else d.pendingElse),
                 haveElse := (if d.output ≠ "" then false else d.haveElse),
                 stdout := d.stdout ++ lines,
                 offs_of_line := (if d.output ≠ "" then get_curoffs d else d.offs_of_line) } := by
  by_cases hne : d.output ≠ ""
  · unfold emitLine
    rw [if_pos hne]
    simp only [hne, ne_eq, not_false_eq_true, if_true]
    have hW : ∃ l1, writePendingElse d = { d with pendingElse := false, stdout := d.stdout ++ l1 } := by
      unfold writePendingElse
      by_cases hp : d.pendingElse = true
      · rw [if_pos hp]
        simp only
        obtain ⟨l, hl⟩ := outputLine_prints (if d.alwaysShowOffs = true
          then "\x7d else /*" ++ fmt_X 4 (toU32 d.pendingElseTo) ++ "*/ \x7b"
          else "\x7d else \x7b") d.pendingElseOffs d.pendingElseOpcode (d.pendingElseIndent - 1) d
        rw [hl]
        exact ⟨l, rfl⟩
      · rw [if_neg hp]
        refine ⟨[], ?_⟩
        simp only [List.append_nil]
        exact (state_with_pendingElse d false (by simpa using hp)).symm
    obtain ⟨l1, hW⟩ := hW
    simp only [hW]
    obtain ⟨l2, hl2⟩ := outputLine_prints d.output d.offs_of_line opcode
      (if d.haveElse = true then j - 1 else j)
      { d with pendingElse := false, stdout := d.stdout ++ l1, haveElse := false }
    rw [hl2]
    exact ⟨l1 ++ l2, by simp [get_curoffs, List.append_assoc]⟩
  · have he : d.output = "" := by simpa using hne
    rw [emitLine_silent d opcode j he]
    refine ⟨[], ?_⟩
    rw [if_neg hne, if_neg hne, if_neg hne, List.append_nil]

/-- The parts of the state a pass of the driver ends with, in terms of the state `d` the
dispatcher returned: the closing loop removes `k` frames and writes `k` lines. -/
theorem mainStep_parts (s s1 : State) (h : mainStep s = .ok s1) :
    ∃ d k closers, dispatch { s with output := "" } = .ok d
      ∧ s1 = { emitLine (byteAt s s.cur_pos) (num_block_stack s) d with
          block_stack := (emitLine (byteAt s s.cur_pos) (num_block_stack s) d).block_stack.drop k,
          stdout := (emitLine (byteAt s s.cur_pos) (num_block_stack s) d).stdout ++ closers }
      ∧ closers.length = k
      ∧ k ≤ (emitLine (byteAt s s.cur_pos) (num_block_stack s) d).block_stack.length
      ∧ (∀ l ∈ closers, ∃ ind, l = linePrefix s
          (get_curoffs (emitLine (byteAt s s.cur_pos) (num_block_stack s) d)) (-1)
            ++ ind ++ "\x7d")
      ∧ (∀ q, ((emitLine (byteAt s s.cur_pos) (num_block_stack s) d).block_stack.drop k).head?
          = some q →
          toU32 (get_curoffs (emitLine (byteAt s s.cur_pos) (num_block_stack s) d)) < q.to_) := by
  rw [mainStep_eq] at h
  cases hd : dispatch { s with output := "" } with
  | error f => rw [hd] at h; cases h
  | ok d =>
    rw [hd] at h
    simp only [Except.ok.injEq] at h
    obtain ⟨k, closers, h1, h2, h3, h4, h5⟩ := closeBlocks_spec
      (num_block_stack (emitLine (byteAt s s.cur_pos) (num_block_stack s) d) + 1)
      (emitLine (byteAt s s.cur_pos) (num_block_stack s) d) (Nat.lt_succ_self _)
    refine ⟨d, k, closers, rfl, ?_, h2, h3, ?_, h5⟩
    · rw [← h, h1]
    · obtain ⟨lines, hl⟩ := emitLine_shape d (byteAt s s.cur_pos) (num_block_stack s)
      intro l hl2
      obtain ⟨ind, hind⟩ := h4 l hl2
      refine ⟨ind, ?_⟩
      rw [hind]
      have hp : linePrefix (emitLine (byteAt s s.cur_pos) (num_block_stack s) d)
          = linePrefix s := by
        obtain ⟨hfix, _⟩ := dispatch_change _ d hd
        rw [hl]
        funext c o
        exact (congrFun (congrFun (linePrefix_fixed { s with output := "" } d hfix) c) o).trans rfl
      rw [hp]

/-- A pending else that is written in a pass was pending when the pass began. -/
theorem pending_kept (s0 d : State) (hbc : BlockChange s0 d) (hout : s0.output = "")
    (hne : d.output ≠ "") (hp : d.pendingElse = true) :
    s0.pendingElse = true ∧ d.pendingElseOffs = s0.pendingElseOffs
    ∧ d.pendingElseOpcode = s0.pendingElseOpcode := by
  rcases hbc with hb | ⟨ho, _⟩ | ⟨_, c1, _, c3, c4, _⟩ | ⟨_, _, c, _⟩
  · obtain ⟨_, b2, _, _, b5, b6, _⟩ := blocks_eq s0 d hb
    exact ⟨by rw [← b2]; exact hp, b5, b6⟩
  · rw [ho] at hne; exact absurd hout hne
  · exact ⟨by rw [← c1]; exact hp, c3, c4⟩
  · rw [c] at hp; cases hp

/-- C15 as stated fails: with the default flags the lines of scenario D carry the offsets
0000, 0005, 000C, 000A, 0012: the `} else {` line carries 000C, the offset of the last byte
of its jump, and the statement after it 000A.  In the second run the `}` carries 0007 and
the statement after it 0005, the offset at which its first opcode began. -/
theorem C15_counterexample :
    (decompile (scrpFile ifElseBody) [] {}).toOption.map (fun s => s.stdout)
      = some ["[0000] (5D) if (1) \x7b", "[0005] (43)   var0 = 9", "[000C] (66) \x7d else \x7b",
              "[000A] (43)   var0 = 10", "[0012] (**) \x7d", "END", "Stack count: 0"]
    ∧ (decompile (scrpFile [0x00, 0x01, 0x5D, 0x02, 0x00, 0x00, 0x05, 0x43, 0x00, 0x00]) []
        {}).toOption.map (fun s => s.stdout)
      = some ["[0000] (5D) if (1) \x7b", "[0007] (**) \x7d", "[0005] (43) var0 = 5", "END",
              "Stack count: 0"] := by
  decide

/-- C15 (amended): the offsets the driver keeps are in order (`OffsetsOrdered`) when the
loop is entered, and every pass of the loop that starts with them in order ends with them
in order.  In such a pass the cursor moves forward; the statement or header line of the
pass, if there is one, carries the offset of the line start, and the next line start is the
offset the cursor has reached, so the offsets of statement and header lines are strictly
increasing; a `} else {` line written in front of it carries the offset kept from its
jump, which lies above the offset of that statement line and below the cursor; every `}`
of the pass carries the offset the cursor has reached.  Lines the dispatcher prints itself
carry no offset. -/
theorem C15_output_ordering :
    (∀ (s : State) (m : Nat), s.pendingElse = false →
      OffsetsOrdered { s with cur_pos := m, org_pos := m, offs_of_line := 0 })
    ∧ (∀ (s s1 : State), OffsetsOrdered s → mainStep s = .ok s1 →
      OffsetsOrdered s1 ∧ get_curoffs s < get_curoffs s1
      ∧ ∃ (diag elseLines stmtLines closers : List String),
          s1.stdout = s.stdout ++ diag ++ elseLines ++ stmtLines ++ closers
          ∧ (∀ l ∈ closers, ∃ ind, l = linePrefix s (get_curoffs s1) (-1) ++ ind ++ "\x7d")
          ∧ ((stmtLines = [] ∧ elseLines = [] ∧ s1.offs_of_line = s.offs_of_line)
            ∨ ((∃ ind buf, stmtLines
                  = [linePrefix s s.offs_of_line (byteAt s s.cur_pos) ++ ind ++ buf])
                ∧ s.offs_of_line < s1.offs_of_line ∧ s1.offs_of_line = get_curoffs s1
                ∧ (elseLines = []
                  ∨ ((∃ ind buf, elseLines
                        = [linePrefix s s.pendingElseOffs s.pendingElseOpcode ++ ind ++ buf])
                      ∧ s.offs_of_line < s.pendingElseOffs
                      ∧ s.pendingElseOffs < get_curoffs s1))))) := by
  refine ⟨fun s m hp => ⟨Int.le_refl 0, by simp [get_curoffs], fun h => ?_⟩, ?_⟩
  · have h : s.pendingElse = true := h
    rw [hp] at h; cases h
  intro s s1 hinv h
  obtain ⟨hi0, hi1, hi2⟩ := hinv
  obtain ⟨d, k, closers, hd, hs1, _, _, hcl, _⟩ := mainStep_parts s s1 h
  obtain ⟨hfix, hcur, ⟨diag, hdiag⟩, hbc⟩ := dispatch_change _ d hd
  have hlp : linePrefix d = linePrefix s := by
    funext c o
    exact (congrFun (congrFun (linePrefix_fixed { s with output := "" } d hfix) c) o).trans rfl
  simp only [State.fixed, Prod.mk.injEq] at hfix
  obtain ⟨_, _, horg, hol, _⟩ := hfix
  have horg : d.org_pos = s.org_pos := horg
  have hol : d.offs_of_line = s.offs_of_line := hol
  have hcur : s.cur_pos < d.cur_pos := hcur
  have hdiag : d.stdout = s.stdout ++ diag := hdiag
  have hcd : get_curoffs s < get_curoffs d := by
    simp only [get_curoffs, horg]; omega
  by_cases hne : d.output ≠ ""
  · have hpk := pending_kept _ d hbc rfl hne
    have hpo : d.pendingElse = true → d.pendingElseOffs ≠ -1 := by
      intro hp
      obtain ⟨a1, a2, _⟩ := hpk hp
      have := (hi2 a1).1
      have a2 : d.pendingElseOffs = s.pendingElseOffs := a2
      omega
    obtain ⟨elseLines, ind, hE, hcase⟩ := emitLine_lines d (byteAt s s.cur_pos)
      (num_block_stack s) hne (by omega) hpo
    rw [hE] at hs1 hcl
    have hc1 : get_curoffs s1 = get_curoffs d := by rw [hs1]; rfl
    have ho1 : s1.offs_of_line = get_curoffs d := by rw [hs1]
    have hp1 : s1.pendingElse = false := by rw [hs1]
    refine ⟨⟨by omega, by omega, fun hp => by rw [hp1] at hp; cases hp⟩, by omega,
      diag, elseLines, [linePrefix s s.offs_of_line (byteAt s s.cur_pos) ++ ind ++ d.output],
      closers, ?_, ?_, Or.inr ⟨⟨ind, d.output, rfl⟩, by omega, by omega, ?_⟩⟩
    · rw [hs1]
      show d.stdout ++ elseLines ++ [linePrefix d d.offs_of_line (byteAt s s.cur_pos)
        ++ ind ++ d.output] ++ closers = _
      rw [hdiag, hlp, hol]
    · intro l hl
      rw [hc1]
      exact hcl l hl
    · rcases hcase with ⟨he, _⟩ | ⟨hp, ind2, buf2, he⟩
      · exact Or.inl he
      · obtain ⟨a1, a2, a3⟩ := hpk hp
        have a2 : d.pendingElseOffs = s.pendingElseOffs := a2
        have a3 : d.pendingElseOpcode = s.pendingElseOpcode := a3
        have := hi2 a1
        refine Or.inr ⟨⟨ind2, buf2, ?_⟩, this.1, by omega⟩
        rw [he, hlp, a2, a3]
  · have he : d.output = "" := by simpa using hne
    rw [emitLine_silent d _ _ he] at hs1 hcl
    have hc1 : get_curoffs s1 = get_curoffs d := by rw [hs1]; rfl
    have ho1 : s1.offs_of_line = s.offs_of_line := by rw [hs1]; exact hol
    refine ⟨⟨by omega, by omega, ?_⟩, by omega, diag, [], [], closers, ?_, ?_,
      Or.inl ⟨rfl, rfl, ho1⟩⟩
    · intro hp
      have hp : d.pendingElse = true := by rw [hs1] at hp; exact hp
      have hpo : s1.pendingElseOffs = d.pendingElseOffs := by rw [hs1]
      rw [hpo, ho1, hc1]
      rcases hbc with hb | ⟨_, _, c3, c4, _⟩ | ⟨c, _⟩ | ⟨c, _⟩
      · obtain ⟨_, b2, _, _, b5, _, _⟩ := blocks_eq _ d hb
        have b2 : d.pendingElse = s.pendingElse := b2
        have b5 : d.pendingElseOffs = s.pendingElseOffs := b5
        have := hi2 (by rw [← b2]; exact hp)
        omega
      · have c4 : s.cur_pos + 1 + 2 ≤ d.cur_pos := c4
        simp only [get_curoffs, horg] at c3 hi1 ⊢
        omega
      · exact absurd he c
      · exact absurd he c
    · rw [hs1]
      show d.stdout ++ closers = _
      rw [hdiag]
      simp
    · intro l hl
      rw [hc1]
      exact hcl l hl

/-- C15, instance: the pass over the store `43 00 00` at offset 0 prints its line under
offset 0 and leaves the offsets in order, with the cursor at 3. -/
theorem C15_output_ordering_witness :
    OffsetsOrdered (resultState (mainStep storePass) storePass)
    ∧ get_curoffs storePass < get_curoffs (resultState (mainStep storePass) storePass) :=
  ⟨(C15_output_ordering.2 storePass (resultState (mainStep storePass) storePass)
      ⟨by decide, by decide, fun h => by cases h⟩ rfl).1,
   (C15_output_ordering.2 storePass (resultState (mainStep storePass) storePass)
      ⟨by decide, by decide, fun h => by cases h⟩ rfl).2.1⟩

theorem printEnd_keeps (s : State) :
    (printEnd s).block_stack = s.block_stack ∧ get_curoffs (printEnd s) = get_curoffs s := by
  unfold printEnd
  simp only
  split <;> exact ⟨rfl, rfl⟩

/-- A pass of the driver keeps the frames nested, and ends with every frame that is left
having its target beyond the cursor. -/
theorem mainStep_nested (s s1 : State) (hn : BlocksNested s) (h : mainStep s = .ok s1) :
    BlocksNested s1 ∧ BlocksOpen s1 := by
  obtain ⟨hsort, hpend⟩ := hn
  obtain ⟨d, k, closers, hd, hs1, _, _, _, hhead⟩ := mainStep_parts s s1 h
  obtain ⟨_, _, _, hbc⟩ := dispatch_change _ d hd
  obtain ⟨lines, hE⟩ := emitLine_shape d (byteAt s s.cur_pos) (num_block_stack s)
  rw [hE] at hs1 hhead
  have hdn : d.block_stack.Pairwise (fun a b => a.to_ ≤ b.to_)
      ∧ (d.output = "" → d.pendingElse = true →
          ∀ p ∈ d.block_stack, toU32 d.pendingElseTo ≤ p.to_) := by
    rcases hbc with hb | ⟨_, _, _, _, p, rest, new, c1, c2, c3, c4⟩
        | ⟨c0, _, _, _, _, new, c1, c2⟩ | ⟨c0, c1, _, p, rest, t, c2, c3, c4⟩
    · obtain ⟨b1, b2, _, b4, _, _, _⟩ := blocks_eq _ d hb
      have b1 : d.block_stack = s.block_stack := b1
      have b2 : d.pendingElse = s.pendingElse := b2
      have b4 : d.pendingElseTo = s.pendingElseTo := b4
      rw [b1, b2, b4]
      exact ⟨hsort, fun _ => hpend⟩
    · have c1 : s.block_stack = p :: rest := c1
      rw [c1] at hsort
      rw [c2]
      refine ⟨List.Pairwise.cons c4 (List.Pairwise.of_cons hsort), fun _ _ q hq => ?_⟩
      rcases List.mem_cons.1 hq with hq | hq
      · rw [hq, c3]
      · rw [← c3]; exact c4 q hq
    · rw [c1]
      exact ⟨List.Pairwise.cons c2 hsort, fun he => absurd he c0⟩
    · have c2 : s.block_stack = p :: rest := c2
      have c1 : s.pendingElse = true := c1
      have c4 : t.to_ ≤ toU32 s.pendingElseTo := c4
      have hall := hpend c1
      rw [c2] at hsort hall
      rw [c3]
      refine ⟨List.Pairwise.cons (fun q hq => ?_) (List.Pairwise.of_cons hsort),
        fun he => absurd he c0⟩
      have := hall q (List.mem_cons_of_mem _ hq)
      omega
  obtain ⟨hds, hdp⟩ := hdn
  have hbs : s1.block_stack = d.block_stack.drop k := by rw [hs1]
  have hcu : get_curoffs s1 = get_curoffs d := by rw [hs1]; rfl
  have hsub : ∀ q ∈ s1.block_stack, q ∈ d.block_stack := by
    intro q hq; rw [hbs] at hq; exact List.mem_of_mem_drop hq
  have hs1sort : s1.block_stack.Pairwise (fun a b => a.to_ ≤ b.to_) := by
    rw [hbs]; exact List.Pairwise.sublist (List.drop_sublist k _) hds
  refine ⟨⟨hs1sort, ?_⟩, ?_⟩
  · intro hp q hq
    by_cases hne : d.output ≠ ""
    · have : s1.pendingElse = false := by rw [hs1]; simp [hne]
      rw [this] at hp; cases hp
    · have he : d.output = "" := by simpa using hne
      have h1 : s1.pendingElse = d.pendingElse := by rw [hs1]; simp [he]
      have h2 : s1.pendingElseTo = d.pendingElseTo := by rw [hs1]
      rw [h2]
      exact hdp he (by rw [← h1]; exact hp) q (hsub q hq)
  · intro q hq
    rw [hcu]
    cases hb : s1.block_stack with
    | nil => rw [hb] at hq; cases hq
    | cons top rest =>
      have htop : toU32 (get_curoffs d) < top.to_ := by
        apply hhead top
        show (d.block_stack.drop k).head? = some top
        rw [← hbs, hb]; rfl
      rw [hb] at hq hs1sort
      rcases List.mem_cons.1 hq with hq | hq
      · rw [hq]; exact htop
      · have := List.rel_of_pairwise_cons hs1sort hq
        omega

/-- The driver loop keeps the frames nested, and ends with every frame that is left having
its target beyond the cursor. -/
theorem mainLoop_nested (endPos : Nat) : ∀ (fuel : Nat) (s s1 : State), BlocksNested s →
    mainLoop endPos fuel s = .ok s1 → BlocksNested s1 ∧ BlocksOpen s1 := by
  intro fuel
  induction fuel with
  | zero => intro s s1 _ h; simp [mainLoop] at h
  | succ f ih =>
    intro s s1 hn h
    rw [mainLoop] at h
    cases hm : mainStep s with
    | error e => rw [hm] at h; cases h
    | ok s2 =>
      rw [hm] at h
      simp only at h
      have h2 := mainStep_nested s s2 hn hm
      by_cases hc : s2.cur_pos < endPos
      · rw [if_pos hc] at h
        exact ih s2 s1 h2.1 h
      · rw [if_neg hc] at h
        simp only [Except.ok.injEq] at h
        rw [← h]; exact h2

theorem verbHeaderPrint_blocks (hdrlen : Int) : ∀ (fuel p : Nat) (s : State),
    (verbHeaderPrint hdrlen fuel p s).2.block_stack = s.block_stack := by
  intro fuel
  induction fuel with
  | zero => intro p s; rfl
  | succ f ih =>
    intro p s
    rw [verbHeaderPrint]
    split
    · rw [ih]; rfl
    · rfl

theorem skipVerbHeader_blocks (p : Nat) (s : State) :
    (skipVerbHeader p s).2.block_stack = s.block_stack := by
  unfold skipVerbHeader
  simp only
  rw [verbHeaderPrint_blocks]
  rfl

/-- An opcode that is no conditional jump leaves the number of frames as it is. -/
theorem dispatch_depth (s d : State) (h : dispatch s = .ok d)
    (hop : byteAt s s.cur_pos ∉ condJumps s.scriptVersion) :
    num_block_stack d = num_block_stack s := by
  unfold dispatch at h
  unfold condJumps at hop
  have hj : ∀ s0 : State, s0.block_stack = s.block_stack → jump s0 = .ok d →
      num_block_stack d = num_block_stack s := by
    intro s0 h0 hjump
    obtain ⟨k, _, hc⟩ := jump_cases s0 d hjump
    rcases hc with ⟨out, hd⟩ | ⟨p, rest, new, T, hbs, _, _, hd⟩
    · rw [hd]; simp only [num_block_stack]; rw [h0]
    · rw [hd]; simp only [num_block_stack, List.length_cons]; rw [← h0, hbs]; rfl
  by_cases hv : s.scriptVersion = 8
  · rw [if_pos hv, next_line_V8_eq] at h
    rw [if_pos hv] at hop
    by_cases h66 : byteAt s s.cur_pos = 0x66
    · rw [h66, next_line_V8_switch_jump] at h
      exact hj { s with cur_pos := s.cur_pos + 1 } rfl h
    · have hu := next_line_V8_switch_upd _ _ d (by
        simp only [List.mem_cons, List.mem_singleton, List.not_mem_nil, or_false] at hop ⊢
        tauto) h
      obtain ⟨b1, _⟩ := blocks_eq _ d hu.2
      simp only [num_block_stack]; rw [b1]
  · rw [if_neg hv, next_line_eq] at h
    rw [if_neg hv] at hop
    by_cases h73 : byteAt s s.cur_pos = 0x73
    · rw [h73, next_line_switch_jump] at h
      exact hj { s with cur_pos := s.cur_pos + 1 } rfl h
    · have hu := next_line_switch_upd _ _ d (by
        simp only [List.mem_cons, List.mem_singleton, List.not_mem_nil, or_false] at hop ⊢
        tauto) h
      obtain ⟨b1, _⟩ := blocks_eq _ d hu.2
      simp only [num_block_stack]; rw [b1]

/-- C16 as stated fails: the v6 body 00 01 5D 08 00 00 09 43 00 00 opens an `if` whose
target 13 lies behind the end of the bytecode (offset 10).  The run reaches the end
without a raw `jump` or `goto` line, prints `if (1) {` and no `}`, and ends with one frame
on the block stack. -/
theorem C16_counterexample :
    (decompile (scrpFile [0x00, 0x01, 0x5D, 0x08, 0x00, 0x00, 0x09, 0x43, 0x00, 0x00]) []
        plainFlags).toOption.map (fun s => (s.stdout, s.block_stack))
      = some (["if (1) \x7b", "  var0 = 9", "END", "Stack count: 0"],
              [{ isWhile := false, from_ := 5, to_ := 13 }]) := by
  decide

/-- C16 (amended): for every input on which the driver reaches the end of the bytecode,
every frame left on the block stack has its target beyond the final offset, so the stack is
empty when no block has its target behind the end.  In every pass the closing loop removes
exactly as many frames as it writes `}` lines; an opcode that is no conditional jump leaves
the number of frames as it is; and a conditional jump pushes one frame exactly when it
writes an `if (` or `while (` header, while `} else if (` and the `goto` line leave the
number of frames as it is.  So headers and `}` lines balance when the stack ends empty. -/
theorem C16_block_balance :
    (∀ (file junk : List Nat) (s s1 : State), s.block_stack = [] →
      decompile file junk s = .ok s1 →
      ∀ p ∈ s1.block_stack, toU32 (get_curoffs s1) < p.to_)
    ∧ (∀ (s s1 : State), mainStep s = .ok s1 →
        ∃ d k lines closers, dispatch { s with output := "" } = .ok d
          ∧ s1.block_stack = d.block_stack.drop k ∧ k ≤ num_block_stack d
          ∧ s1.stdout = d.stdout ++ lines ++ closers ∧ closers.length = k
          ∧ ∀ l ∈ closers, ∃ ind, l = linePrefix s (get_curoffs s1) (-1) ++ ind ++ "\x7d")
    ∧ (∀ (s d : State), dispatch s = .ok d →
        byteAt s s.cur_pos ∉ condJumps s.scriptVersion →
        num_block_stack d = num_block_stack s)
    ∧ (∀ (se : StackEnt) (when : Bool) (s d : State), jumpif se when s = .ok d →
        ∃ text, d.output = text
          ∧ ((num_block_stack d = num_block_stack s + 1
              ∧ ∃ opener cond tail, (opener = "if (" ∨ opener = "while (")
                ∧ text = opener ++ cond ++ tail)
            ∨ (num_block_stack d = num_block_stack s
              ∧ ∃ cond tail, text = "\x7d else if (" ++ cond ++ tail)
            ∨ (num_block_stack d = num_block_stack s
              ∧ ∃ pred target, text = (if when then "if (" else "if (!") ++ pred
                  ++ ") goto " ++ target))) := by
  refine ⟨?_, ?_, dispatch_depth, ?_⟩
  · intro file junk s s1 hs h
    unfold decompile at h
    simp only at h
    have key : ∀ (r : Result (Nat × State)),
        (∀ m s2, r = .ok (m, s2) → s2.block_stack = []) →
        (match r with
          | .error f => (.error f : Result State)
          | .ok (mem, s) =>
            match mainLoop (List.take 65536 file).length
                ((List.take 65536 file).length - mem + 1)
                { s with cur_pos := mem, org_pos := mem, offs_of_line := 0 } with
            | .error f => .error f
            | .ok s => .ok (printEnd s)) = .ok s1 →
        ∀ p ∈ s1.block_stack, toU32 (get_curoffs s1) < p.to_ := by
      intro r hr hrun
      cases r with
      | error f => cases hrun
      | ok v =>
        obtain ⟨m, s2⟩ := v
        simp only at hrun
        have h0 := hr m s2 rfl
        cases hl : mainLoop (List.take 65536 file).length
            ((List.take 65536 file).length - m + 1)
            { s2 with cur_pos := m, org_pos := m, offs_of_line := 0 } with
        | error f => rw [hl] at hrun; cases hrun
        | ok s3 =>
          rw [hl] at hrun
          simp only [Except.ok.injEq] at hrun
          have hn : BlocksNested { s2 with cur_pos := m, org_pos := m, offs_of_line := 0 } := by
            refine ⟨?_, fun _ p hp => ?_⟩
            · show s2.block_stack.Pairwise _
              rw [h0]; exact List.Pairwise.nil
            · have hp : p ∈ s2.block_stack := hp
              rw [h0] at hp; cases hp
          obtain ⟨_, hopen⟩ := mainLoop_nested _ _ _ s3 hn hl
          intro p hp
          rw [← hrun] at hp ⊢
          rw [(printEnd_keeps s3).1] at hp
          rw [(printEnd_keeps s3).2]
          exact hopen p hp
    refine key _ ?_ h
    intro m s2 hr
    split at hr
    · split at hr
      · simp only [Except.ok.injEq, Prod.mk.injEq] at hr
        rw [← hr.2]; exact hs
      · simp only [Except.ok.injEq, Prod.mk.injEq] at hr
        rw [← hr.2]; exact hs
    · split at hr
      · simp only [Except.ok.injEq, Prod.mk.injEq] at hr
        rw [← hr.2]; exact hs
      · split at hr
        · simp only [Except.ok.injEq, Prod.mk.injEq] at hr
          rw [← hr.2]; exact hs
        · split at hr
          · simp only [Except.ok.injEq, Prod.mk.injEq] at hr
            rw [← hr.2]; exact hs
          · split at hr
            · simp only [Except.ok.injEq] at hr
              have hb := skipVerbHeader_blocks 8 { s with mem := List.take 65536 file ++ junk }
              rw [hr] at hb
              exact hb.trans hs
            · cases hr
  · intro s s1 h
    obtain ⟨d, k, closers, hd, hs1, h2, h3, h4, _⟩ := mainStep_parts s s1 h
    obtain ⟨lines, hE⟩ := emitLine_shape d (byteAt s s.cur_pos) (num_block_stack s)
    rw [hE] at hs1 h3 h4
    have hcu : get_curoffs s1 = get_curoffs d := by rw [hs1]; rfl
    refine ⟨d, k, lines, closers, hd, by rw [hs1], h3, by rw [hs1], h2, ?_⟩
    intro l hl
    rw [hcu]
    exact h4 l hl
  · intro se when s d h
    obtain ⟨k, T, _, hc⟩ := jumpif_cases se when s d h
    rcases hc with hd | ⟨new, opener, hop, _, hd⟩ | ⟨p, rest, t, _, hbs, _, hd⟩
    · exact ⟨_, rfl, Or.inr (Or.inr ⟨by rw [hd]; rfl, _, _, by rw [hd]⟩)⟩
    · exact ⟨_, rfl, Or.inl ⟨by rw [hd]; rfl, opener, _, _, hop, by rw [hd]⟩⟩
    · exact ⟨_, rfl, Or.inr (Or.inl ⟨by rw [hd]; simp [num_block_stack, hbs], _, _, by rw [hd]⟩)⟩

set_option maxRecDepth 100000 in
/-- C16, instance: in the run that ends with one frame left, the target 13 of that frame
lies beyond the final offset 10. -/
theorem C16_block_balance_witness :
    ∀ p ∈ (resultState (decompile (scrpFile [0x00, 0x01, 0x5D, 0x08, 0x00, 0x00, 0x09, 0x43,
        0x00, 0x00]) [] plainFlags) {}).block_stack,
      toU32 (get_curoffs (resultState (decompile (scrpFile [0x00, 0x01, 0x5D, 0x08, 0x00,
        0x00, 0x09, 0x43, 0x00, 0x00]) [] plainFlags) {})) < p.to_ :=
  C16_block_balance.1 (scrpFile [0x00, 0x01, 0x5D, 0x08, 0x00, 0x00, 0x09, 0x43, 0x00, 0x00])
    [] plainFlags _ rfl rfl

/-- A pair that `maybeAddIf` does not take leaves the state as it is. -/
theorem maybeAddIf_reject (cur to_ : Nat) (s : State)
    (h : ¬ ∀ f ∈ s.block_stack, to_ ≤ f.to_) : maybeAddIf cur to_ s = .ok (false, s) := by
  unfold maybeAddIf
  by_cases h1 : (to_ ||| cur) >>> 16 ≠ 0 ∨ to_ ≤ cur
  · rw [if_pos h1]
  · rw [if_neg h1]
    have hany : s.block_stack.any (fun p => decide (to_ > p.to_)) = true := by
      rw [List.any_eq_true]
      by_contra hc
      apply h
      intro f hf
      by_contra hlt
      exact hc ⟨f, hf, by simp; omega⟩
    rw [if_pos hany]

/-- C21: for a forward pair of 16-bit offsets (cur < to < 65536) and fewer than 256 frames, `maybeAddIf`
returns; when `to` does not exceed the `to` of any frame it returns true and the new stack
is the old one with the frame (from = cur, to = to) pushed on top, and when `to` exceeds
the `to` of some frame it returns false with the state, and so the stack, unchanged.
Nothing but the block stack is touched. -/
theorem C21_maybeAddIf_acceptance (cur to_ : Nat) (s : State)
    (hlt : cur < to_) (hto : to_ < 65536) (hdepth : num_block_stack s < 256) :
    ((∀ f ∈ s.block_stack, to_ ≤ f.to_) →
      ∃ w, maybeAddIf cur to_ s = .ok (true, { s with block_stack :=
        { isWhile := w, from_ := cur, to_ := to_ } :: s.block_stack }))
    ∧ ((¬ ∀ f ∈ s.block_stack, to_ ≤ f.to_) → maybeAddIf cur to_ s = .ok (false, s))
    ∧ (∀ b s1, maybeAddIf cur to_ s = .ok (b, s1) →
        (b = true ↔ ∀ f ∈ s.block_stack, to_ ≤ f.to_)) := by
  refine ⟨fun h => ⟨_, maybeAddIf_accept cur to_ s hlt hto h hdepth⟩,
    maybeAddIf_reject cur to_ s, ?_⟩
  intro b s1 hb
  by_cases hall : ∀ f ∈ s.block_stack, to_ ≤ f.to_
  · rw [maybeAddIf_accept cur to_ s hlt hto hall hdepth] at hb
    simp only [Except.ok.injEq, Prod.mk.injEq] at hb
    exact ⟨fun _ => hall, fun _ => hb.1.symm⟩
  · rw [maybeAddIf_reject cur to_ s hall] at hb
    simp only [Except.ok.injEq, Prod.mk.injEq] at hb
    constructor
    · intro hbt; rw [hbt] at hb; exact absurd hb.1 (by decide)
    · intro h; exact absurd h hall

/-- C21, instances: on the stack of one frame that ends at 10, the pair (3, 8) is taken
and its frame pushed on top, the pair (3, 12) is refused. -/
theorem C21_maybeAddIf_acceptance_witness :
    (∃ w, maybeAddIf 3 8 { block_stack := [{ isWhile := false, from_ := 2, to_ := 10 }] }
      = .ok (true, { block_stack := [{ isWhile := w, from_ := 3, to_ := 8 },
          { isWhile := false, from_ := 2, to_ := 10 }] }))
    ∧ maybeAddIf 3 12 { block_stack := [{ isWhile := false, from_ := 2, to_ := 10 }] }
      = .ok (false, { block_stack := [{ isWhile := false, from_ := 2, to_ := 10 }] }) :=
  ⟨(C21_maybeAddIf_acceptance 3 8
      { block_stack := [{ isWhile := false, from_ := 2, to_ := 10 }] }
      (by decide) (by decide) (by decide)).1 (by decide),
   (C21_maybeAddIf_acceptance 3 12
      { block_stack := [{ isWhile := false, from_ := 2, to_ := 10 }] }
      (by decide) (by decide) (by decide)).2.1 (by decide)⟩

/-- C22: the frame pushed by a successful `maybeAddIf(cur, to)` is marked as a while
exactly when the byte at body offset `to - L` is the unconditional-jump opcode of the
dialect (0x73 with L = 3 on v6/v7, 0x66 with L = 5 on v8) and the signed little-endian
displacement stored behind that byte equals `offs_of_line - to`. -/
theorem C22_while_classification (cur to_ : Nat) (s s1 : State)
    (h : maybeAddIf cur to_ s = .ok (true, s1)) :
    ∃ p, s1.block_stack = p :: s.block_stack ∧ p.from_ = cur ∧ p.to_ = to_
      ∧ (p.isWhile = true ↔
          byteAtInt s ((s.org_pos : Int) + to_ - jumpLength s.scriptVersion)
              = jumpOpcodeOf s.scriptVersion
          ∧ jumpDisplacementBefore s to_ = s.offs_of_line - to_)
      ∧ jumpOpcodeOf s.scriptVersion = (if s.scriptVersion = 8 then 0x66 else 0x73)
      ∧ jumpLength s.scriptVersion = (if s.scriptVersion = 8 then 5 else 3) := by
  rcases maybeAddIf_cases cur to_ s s1 true h with ⟨hb, _⟩ | ⟨_, hlt, h16, hall, _, _⟩
  · exact absurd hb (by decide)
  · have hd : s.block_stack.length < 256 := by
      by_contra hc
      unfold maybeAddIf at h
      have h1 : ¬ ((to_ ||| cur) >>> 16 ≠ 0 ∨ to_ ≤ cur) := by
        rw [or_shiftRight16]
        intro hh
        rcases hh with hh | hh
        · exact hh ⟨h16, by omega⟩
        · omega
      have h2 : ¬ (s.block_stack.any (fun p => decide (to_ > p.to_)) = true) := by
        rw [List.any_eq_true]
        rintro ⟨f, hf, hgt⟩
        have := hall f hf
        simp at hgt
        omega
      rw [if_neg h1, if_neg h2] at h
      simp only [pushBlockStackItem, num_block_stack] at h
      rw [if_pos (by omega)] at h
      cases h
    rw [maybeAddIf_accept cur to_ s hlt h16 hall hd] at h
    simp only [Except.ok.injEq, Prod.mk.injEq, true_and] at h
    subst h
    refine ⟨_, rfl, rfl, rfl, ?_, rfl, rfl⟩
    have h32 : toInt32 to_ = (to_ : Int) := toInt32_of_lt (by omega)
    simp only [whileShape, jumpLength, jumpOpcodeOf, jumpDisplacementBefore, h32]
    by_cases hv : s.scriptVersion = 8
    · simp only [hv, if_true, Bool.and_eq_true, decide_eq_true_eq]
      constructor
      · rintro ⟨a, b⟩; exact ⟨a, by omega⟩
      · rintro ⟨a, b⟩; exact ⟨a, by omega⟩
    · simp only [hv, if_false, Bool.and_eq_true, decide_eq_true_eq]
      constructor
      · rintro ⟨a, b⟩; exact ⟨a, by omega⟩
      · rintro ⟨a, b⟩; exact ⟨a, by omega⟩

/-- C22, instance: on v6, with the line starting at offset 0 and the bytes 73 F6 FF (a jump
by -10) in front of body offset 10, the frame pushed for the pair (5, 10) is a while. -/
theorem C22_while_classification_witness :
    ∃ p, ({ mem := [0, 0, 0, 0, 0, 0, 0, 0x73, 0xF6, 0xFF],
            block_stack := [{ isWhile := true, from_ := 5, to_ := 10 }] } : State).block_stack
          = p :: ({ mem := [0, 0, 0, 0, 0, 0, 0, 0x73, 0xF6, 0xFF] } : State).block_stack
      ∧ p.from_ = 5 ∧ p.to_ = 10
      ∧ (p.isWhile = true ↔
          byteAtInt { mem := [0, 0, 0, 0, 0, 0, 0, 0x73, 0xF6, 0xFF] }
              (((0 : Nat) : Int) + (10 : Nat) - jumpLength 6) = jumpOpcodeOf 6
          ∧ jumpDisplacementBefore { mem := [0, 0, 0, 0, 0, 0, 0, 0x73, 0xF6, 0xFF] } 10
              = 0 - (10 : Nat))
      ∧ jumpOpcodeOf 6 = (if (6 : Nat) = 8 then 0x66 else 0x73)
      ∧ jumpLength 6 = (if (6 : Nat) = 8 then 5 else 3) :=
  C22_while_classification 5 10 { mem := [0, 0, 0, 0, 0, 0, 0, 0x73, 0xF6, 0xFF] }
    { mem := [0, 0, 0, 0, 0, 0, 0, 0x73, 0xF6, 0xFF],
      block_stack := [{ isWhile := true, from_ := 5, to_ := 10 }] } rfl

/-- C23: `maybeAddElse(cur, to)` returns whenever the block stack holds no more than 256
frames; it returns true only if there is a top frame whose `to` equals `cur`, and then the
top frame has been replaced by the frame (from = cur, to = to) while the frames beneath and
everything else are unchanged; when it returns false, also when the re-opening through
`maybeAddIf` fails, the state is exactly what it was before the call. -/
theorem C23_maybeAddElse_atomic (cur to_ : Nat) (s : State) :
    (∀ b s1, maybeAddElse cur to_ s = .ok (b, s1) →
      (b = true → ∃ p rest w, s.block_stack = p :: rest ∧ p.to_ = cur
        ∧ s1 = { s with block_stack := { isWhile := w, from_ := cur, to_ := to_ } :: rest }
        ∧ num_block_stack s1 = num_block_stack s)
      ∧ (b = false → s1 = s))
    ∧ (num_block_stack s ≤ 256 → ∃ b s1, maybeAddElse cur to_ s = .ok (b, s1)) := by
  constructor
  · intro b s1 h
    rcases maybeAddElse_cases cur to_ s s1 b h with ⟨hb, hs⟩ | ⟨hb, hlt, h16, p, rest, w, hbs, hp, _, hs⟩
    · exact ⟨fun hbt => absurd (hb ▸ hbt) (by decide), fun _ => hs⟩
    · refine ⟨fun _ => ⟨p, rest, w, hbs, hp, ?_, ?_⟩, fun hbf => absurd (hb ▸ hbf) (by decide)⟩
      · rw [hs, Nat.mod_eq_of_lt (by omega)]
      · rw [hs]; simp [num_block_stack, hbs]
  · intro hd
    unfold maybeAddElse
    by_cases h1 : (to_ ||| cur) >>> 16 ≠ 0 ∨ to_ ≤ cur
    · rw [if_pos h1]; exact ⟨_, _, rfl⟩
    · rw [if_neg h1]
      cases hs : s.block_stack with
      | nil => exact ⟨_, _, rfl⟩
      | cons p rest =>
        simp only
        by_cases h2 : cur ≠ p.to_
        · rw [if_pos h2]; exact ⟨_, _, rfl⟩
        · rw [if_neg h2]
          have h16 : to_ < 65536 ∧ cur < 65536 := by
            by_contra hc
            exact h1 (Or.inl ((or_shiftRight16 to_ cur).2 hc))
          have hlen : rest.length < 256 := by
            simp only [num_block_stack, hs, List.length_cons] at hd
            omega
          by_cases hall : ∀ f ∈ ({ s with block_stack := rest } : State).block_stack, to_ ≤ f.to_
          · rw [maybeAddIf_accept cur to_ { s with block_stack := rest } (by omega) h16.1 hall hlen]
            exact ⟨_, _, rfl⟩
          · rw [maybeAddIf_reject cur to_ { s with block_stack := rest } hall]
            exact ⟨_, _, rfl⟩

/-- C23, instances: with the top frame ending at the cursor 10, the pair (10, 15) replaces
it; with the enclosing frame ending at 12, the pair (10, 15) is refused and the stack is
what it was. -/
theorem C23_maybeAddElse_atomic_witness :
    (∃ p rest w, ({ block_stack := [{ isWhile := false, from_ := 5, to_ := 10 }] } : State).block_stack
        = p :: rest ∧ p.to_ = 10
      ∧ ({ block_stack := [{ isWhile := false, from_ := 10, to_ := 15 }] } : State)
        = { ({ block_stack := [{ isWhile := false, from_ := 5, to_ := 10 }] } : State) with
            block_stack := { isWhile := w, from_ := 10, to_ := 15 } :: rest }
      ∧ num_block_stack { block_stack := [{ isWhile := false, from_ := 10, to_ := 15 }] }
        = num_block_stack { block_stack := [{ isWhile := false, from_ := 5, to_ := 10 }] })
    ∧ ({ block_stack := [{ isWhile := false, from_ := 5, to_ := 10 },
          { isWhile := false, from_ := 1, to_ := 12 }] } : State)
        = { block_stack := [{ isWhile := false, from_ := 5, to_ := 10 },
          { isWhile := false, from_ := 1, to_ := 12 }] } :=
  ⟨((C23_maybeAddElse_atomic 10 15
      { block_stack := [{ isWhile := false, from_ := 5, to_ := 10 }] }).1 true
      { block_stack := [{ isWhile := false, from_ := 10, to_ := 15 }] } rfl).1 rfl,
   ((C23_maybeAddElse_atomic 10 15
      { block_stack := [{ isWhile := false, from_ := 5, to_ := 10 },
        { isWhile := false, from_ := 1, to_ := 12 }] }).1 false
      { block_stack := [{ isWhile := false, from_ := 5, to_ := 10 },
        { isWhile := false, from_ := 1, to_ := 12 }] } rfl).2 rfl⟩

theorem toU32_eq_natCast_iff (x : Int) (n : Nat) (hx0 : -2147483648 ≤ x)
    (hx1 : x < 4294967296) (hn : n < 65536) : toU32 x = n ↔ x = (n : Int) := by
  unfold toU32
  omega

theorem int16At_range (s : State) (k : Int) :
    -2147483648 ≤ int16At s k ∧ int16At s k < 2147483648 := toInt16_range _

theorem int32At_range (s : State) (k : Int) :
    -2147483648 ≤ int32At s k ∧ int32At s k < 2147483648 := toInt32_range _

/-- The test of `maybeAddElseIf` spelled out: it takes the triple exactly when the first
check passes, a top frame exists that is no while, the byte in front of the target is
`g_jump_opcode` and the displacement behind it leads from `to` to `elseto`. -/
theorem maybeAddElseIf_char (cur elseto to_ : Nat) (s : State) :
    (maybeAddElseIf cur elseto to_ s = (false, s)
      ∧ ¬ (¬ ((to_ ||| cur ||| elseto) >>> 16 ≠ 0 ∨ elseto < to_ ∨ to_ ≤ cur)
          ∧ ∃ p rest, s.block_stack = p :: rest ∧ p.isWhile = false
            ∧ byteAtInt s ((s.org_pos : Int)
                + (if s.scriptVersion = 8 then (to_ : Int) - 5 else (to_ : Int) - 3))
              = s.g_jump_opcode
            ∧ (if s.scriptVersion = 8
                then toU32 ((to_ : Int) + int32At s
                  ((if s.scriptVersion = 8 then (to_ : Int) - 5 else (to_ : Int) - 3) + 1))
                else toU32 ((to_ : Int) + int16At s
                  ((if s.scriptVersion = 8 then (to_ : Int) - 5 else (to_ : Int) - 3) + 1)))
              = elseto))
    ∨ (¬ ((to_ ||| cur ||| elseto) >>> 16 ≠ 0 ∨ elseto < to_ ∨ to_ ≤ cur)
      ∧ ∃ p rest, s.block_stack = p :: rest ∧ p.isWhile = false
        ∧ byteAtInt s ((s.org_pos : Int)
            + (if s.scriptVersion = 8 then (to_ : Int) - 5 else (to_ : Int) - 3))
          = s.g_jump_opcode
        ∧ (if s.scriptVersion = 8
            then toU32 ((to_ : Int) + int32At s
              ((if s.scriptVersion = 8 then (to_ : Int) - 5 else (to_ : Int) - 3) + 1))
            else toU32 ((to_ : Int) + int16At s
              ((if s.scriptVersion = 8 then (to_ : Int) - 5 else (to_ : Int) - 3) + 1)))
          = elseto
        ∧ maybeAddElseIf cur elseto to_ s = (true, { s with block_stack :=
            { p with from_ := cur % 65536, to_ := to_ % 65536 } :: rest })) := by
  unfold maybeAddElseIf
  by_cases h1 : (to_ ||| cur ||| elseto) >>> 16 ≠ 0 ∨ elseto < to_ ∨ to_ ≤ cur
  · rw [if_pos h1]; exact Or.inl ⟨rfl, fun hc => hc.1 h1⟩
  · rw [if_neg h1]
    cases hs : s.block_stack with
    | nil => exact Or.inl ⟨rfl, fun hc => by obtain ⟨_, p, rest, hh, _⟩ := hc; cases hh⟩
    | cons p rest =>
      simp only
      by_cases h2 : p.isWhile = true
      · rw [if_pos h2]
        refine Or.inl ⟨rfl, fun hc => ?_⟩
        obtain ⟨_, p2, rest2, hh, hw, _⟩ := hc
        simp only [List.cons.injEq] at hh
        rw [← hh.1, h2] at hw
        cases hw
      · rw [if_neg h2]
        by_cases h3 : byteAtInt s ((s.org_pos : Int)
            + (if s.scriptVersion = 8 then (to_ : Int) - 5 else (to_ : Int) - 3))
            ≠ s.g_jump_opcode
        · rw [if_pos h3]
          exact Or.inl ⟨rfl, fun hc => by obtain ⟨_, _, _, _, _, hb, _⟩ := hc; exact h3 hb⟩
        · rw [if_neg h3]
          by_cases h4 : (if s.scriptVersion = 8
              then toU32 ((to_ : Int) + int32At s
                ((if s.scriptVersion = 8 then (to_ : Int) - 5 else (to_ : Int) - 3) + 1))
              else toU32 ((to_ : Int) + int16At s
                ((if s.scriptVersion = 8 then (to_ : Int) - 5 else (to_ : Int) - 3) + 1)))
              ≠ elseto
          · rw [if_pos h4]
            exact Or.inl ⟨rfl, fun hc => by obtain ⟨_, _, _, _, _, _, hd⟩ := hc; exact h4 hd⟩
          · rw [if_neg h4]
            exact Or.inr ⟨h1, p, rest, rfl, by simpa using h2, not_not.1 h3, not_not.1 h4, rfl⟩

/-- The checks of `maybeAddElseIf` in the terms of the specification, for 16-bit offsets
with `cur < to`. -/
theorem maybeAddElseIf_terms (cur elseto to_ : Nat) (s : State)
    (hlt : cur < to_) (hto : to_ < 65536) (helse : elseto < 65536) :
    (¬ ((to_ ||| cur ||| elseto) >>> 16 ≠ 0 ∨ elseto < to_ ∨ to_ ≤ cur) ↔ to_ ≤ elseto)
    ∧ (s.org_pos : Int) + (if s.scriptVersion = 8 then (to_ : Int) - 5 else (to_ : Int) - 3)
        = (s.org_pos : Int) + to_ - jumpLength s.scriptVersion
    ∧ ((if s.scriptVersion = 8
          then toU32 ((to_ : Int) + int32At s
            ((if s.scriptVersion = 8 then (to_ : Int) - 5 else (to_ : Int) - 3) + 1))
          else toU32 ((to_ : Int) + int16At s
            ((if s.scriptVersion = 8 then (to_ : Int) - 5 else (to_ : Int) - 3) + 1)))
        = elseto ↔ (to_ : Int) + jumpDisplacementBefore s to_ = elseto) := by
  refine ⟨?_, ?_, ?_⟩
  · rw [or_shiftRight16]
    have hor := or_lt_two_pow_iff to_ cur 16
    constructor
    · intro h
      by_contra hc
      exact h (Or.inr (Or.inl (by omega)))
    · intro h hc
      rcases hc with hc | hc | hc
      · exact hc ⟨hor.2 ⟨hto, by omega⟩, helse⟩
      · omega
      · omega
  · unfold jumpLength
    by_cases hv : s.scriptVersion = 8
    · simp only [hv, if_true]; push_cast; ring
    · simp only [hv, if_false]; push_cast; ring
  · unfold jumpDisplacementBefore
    by_cases hv : s.scriptVersion = 8
    · simp only [hv, if_true]
      have e : (to_ : Int) - 5 + 1 = (to_ : Int) - 4 := by ring
      rw [e]
      have hr := int32At_range s ((to_ : Int) - 4)
      exact toU32_eq_natCast_iff _ _ (by omega) (by omega) helse
    · simp only [hv, if_false]
      have e : (to_ : Int) - 3 + 1 = (to_ : Int) - 2 := by ring
      rw [e]
      have hr := int16At_range s ((to_ : Int) - 2)
      exact toU32_eq_natCast_iff _ _ (by omega) (by omega) helse

/-- C24 as stated fails: with `to` equal to `elseto` (both 10, cur 5), a top frame that is
no while, and the jump `73 00 00` with displacement 0 in front of body offset 10,
`maybeAddElseIf` returns true and re-targets the top frame, although `to < elseto` does not
hold. -/
theorem C24_counterexample :
    maybeAddElseIf 5 10 10 elseIfEqualTargets
      = (true, { elseIfEqualTargets with
          block_stack := [{ isWhile := false, from_ := 5, to_ := 10 }] })
    ∧ ¬ (10 < 10) := ⟨rfl, by decide⟩

/-- C24 (amended): for 16-bit offsets with cur < to (and to not below the length L of the
jump instruction), `maybeAddElseIf(cur, elseto, to)` returns true iff a top frame exists,
that frame is not a while, to ≤ elseto, the byte at body offset to - L is `g_jump_opcode`
(the unconditional-jump opcode the dialect flag selected), and the displacement behind that
byte plus to equals elseto; on success only `from` and `to` of the top frame are changed,
to (cur, to), and on failure the state is unchanged. -/
theorem C24_maybeAddElseIf_acceptance (cur elseto to_ : Nat) (s : State)
    (hlt : cur < to_) (hto : to_ < 65536) (helse : elseto < 65536)
    (_hL : jumpLength s.scriptVersion ≤ to_) :
    ((maybeAddElseIf cur elseto to_ s).1 = true ↔
      ∃ p rest, s.block_stack = p :: rest ∧ p.isWhile = false ∧ to_ ≤ elseto
        ∧ byteAtInt s ((s.org_pos : Int) + to_ - jumpLength s.scriptVersion) = s.g_jump_opcode
        ∧ (to_ : Int) + jumpDisplacementBefore s to_ = elseto)
    ∧ ((maybeAddElseIf cur elseto to_ s).1 = true →
        ∃ p rest, s.block_stack = p :: rest
          ∧ (maybeAddElseIf cur elseto to_ s).2
            = { s with block_stack := { p with from_ := cur, to_ := to_ } :: rest }
          ∧ num_block_stack (maybeAddElseIf cur elseto to_ s).2 = num_block_stack s)
    ∧ ((maybeAddElseIf cur elseto to_ s).1 = false → (maybeAddElseIf cur elseto to_ s).2 = s) := by
  obtain ⟨t1, t2, t3⟩ := maybeAddElseIf_terms cur elseto to_ s hlt hto helse
  have hc : cur % 65536 = cur := Nat.mod_eq_of_lt (by omega)
  have ht : to_ % 65536 = to_ := Nat.mod_eq_of_lt hto
  rcases maybeAddElseIf_char cur elseto to_ s with ⟨he, hn⟩ | ⟨hg, p, rest, hbs, hw, hb, hd, he⟩
  · rw [he]
    refine ⟨⟨fun h => by simp at h, ?_⟩, fun h => by simp at h, fun _ => rfl⟩
    rintro ⟨p, rest, hbs, hw, hle, hb, hd⟩
    exact absurd ⟨t1.2 hle, p, rest, hbs, hw, by rw [t2]; exact hb, t3.2 hd⟩ hn
  · rw [he, hc, ht]
    refine ⟨⟨fun _ => ⟨p, rest, hbs, hw, t1.1 hg, by rw [← t2]; exact hb, t3.1 hd⟩, fun _ => rfl⟩,
      fun _ => ⟨p, rest, hbs, rfl, by simp [num_block_stack, hbs]⟩, fun h => by simp at h⟩

/-- C24, instances: with elseto 14 and the jump `73 04 00` in front of body offset 10 the
triple (5, 14, 10) is taken; with elseto 15 it is not. -/
theorem C24_maybeAddElseIf_acceptance_witness :
    ((maybeAddElseIf 5 14 10 { elseIfEqualTargets with
          mem := [0, 0, 0, 0, 0, 0, 0, 0x73, 4, 0, 0, 0] }).1 = true ↔
      ∃ p rest, ({ elseIfEqualTargets with
          mem := [0, 0, 0, 0, 0, 0, 0, 0x73, 4, 0, 0, 0] } : State).block_stack = p :: rest
        ∧ p.isWhile = false ∧ 10 ≤ 14
        ∧ byteAtInt { elseIfEqualTargets with mem := [0, 0, 0, 0, 0, 0, 0, 0x73, 4, 0, 0, 0] }
            (((0 : Nat) : Int) + (10 : Nat) - jumpLength 6) = 0x73
        ∧ ((10 : Nat) : Int) + jumpDisplacementBefore { elseIfEqualTargets with
            mem := [0, 0, 0, 0, 0, 0, 0, 0x73, 4, 0, 0, 0] } 10 = (14 : Nat))
    ∧ (maybeAddElseIf 5 14 10 { elseIfEqualTargets with
          mem := [0, 0, 0, 0, 0, 0, 0, 0x73, 4, 0, 0, 0] }).1 = true
    ∧ (maybeAddElseIf 5 15 10 { elseIfEqualTargets with
          mem := [0, 0, 0, 0, 0, 0, 0, 0x73, 4, 0, 0, 0] }).2
        = { elseIfEqualTargets with mem := [0, 0, 0, 0, 0, 0, 0, 0x73, 4, 0, 0, 0] } :=
  ⟨(C24_maybeAddElseIf_acceptance 5 14 10
      { elseIfEqualTargets with mem := [0, 0, 0, 0, 0, 0, 0, 0x73, 4, 0, 0, 0] }
      (by decide) (by decide) (by decide) (by decide)).1,
   rfl,
   (C24_maybeAddElseIf_acceptance 5 15 10
      { elseIfEqualTargets with mem := [0, 0, 0, 0, 0, 0, 0, 0x73, 4, 0, 0, 0] }
      (by decide) (by decide) (by decide) (by decide)).2.2 rfl⟩

/-- C25 as stated fails: after `maybeAddIf(0, 10)` and `maybeAddIf(1, 5)` on the empty
stack the top frame ends at 5 and the frame beneath it at 10, so a frame does have a
smaller `to` than the frame beneath it. -/
theorem C25_counterexample :
    ∃ s top beneath, BlockReach s ∧ s.block_stack = [top, beneath] ∧ top.to_ = 5
      ∧ beneath.to_ = 10 ∧ top.to_ < beneath.to_ :=
  ⟨{ block_stack := [{ isWhile := false, from_ := 1, to_ := 5 },
      { isWhile := false, from_ := 0, to_ := 10 }] }, _, _,
    BlockReach.addIf 1 5 { block_stack := [{ isWhile := false, from_ := 0, to_ := 10 }] } _ true
      (BlockReach.addIf 0 10 {} _ true (BlockReach.start {} rfl) rfl) rfl,
    rfl, rfl, rfl, by decide⟩

/-- C25 (amended): in every state reached from the empty block stack through `maybeAddIf`,
`maybeAddElse` and the closing of a block, the frames are ordered by non-increasing `to`
from bottom to top: a frame never has a larger `to` than a frame beneath it (the list
holds the top frame first). -/
theorem C25_block_stack_ordering (s : State) (h : BlockReach s) :
    s.block_stack.Pairwise (fun upper lower => upper.to_ ≤ lower.to_) := by
  induction h with
  | start s h0 => rw [h0]; exact List.Pairwise.nil
  | addIf cur to_ s s1 b _ hm ih =>
    rcases maybeAddIf_cases cur to_ s s1 b hm with ⟨_, hs⟩ | ⟨_, _, _, hall, w, hs⟩
    · rw [hs]; exact ih
    · rw [hs]
      exact List.Pairwise.cons hall ih
  | addElse cur to_ s s1 b _ hm ih =>
    rcases maybeAddElse_cases cur to_ s s1 b hm with ⟨_, hs⟩ | ⟨_, _, _, p, rest, w, hbs, _, hall, hs⟩
    · rw [hs]; exact ih
    · rw [hs]
      rw [hbs] at ih
      exact List.Pairwise.cons hall (List.Pairwise.of_cons ih)
  | close cur s _ ih =>
    unfold indentBlock
    cases hbs : s.block_stack with
    | nil => simp only; rw [hbs]; exact List.Pairwise.nil
    | cons p rest =>
      simp only
      rw [hbs] at ih
      by_cases hc : cur < p.to_
      · rw [if_pos hc]; simp only; rw [hbs]; exact ih
      · rw [if_neg hc]; exact List.Pairwise.of_cons ih

/-- C25, instance: the stack reached by `maybeAddIf(0, 10)` and `maybeAddIf(1, 5)`. -/
theorem C25_block_stack_ordering_witness :
    ({ block_stack := [{ isWhile := false, from_ := 1, to_ := 5 },
        { isWhile := false, from_ := 0, to_ := 10 }] } : State).block_stack.Pairwise
      (fun upper lower => upper.to_ ≤ lower.to_) :=
  C25_block_stack_ordering _
    (BlockReach.addIf 1 5 { block_stack := [{ isWhile := false, from_ := 0, to_ := 10 }] } _ true
      (BlockReach.addIf 0 10 {} _ true (BlockReach.start {} rfl) rfl) rfl)

/-- C26: when `jumpif` runs with an else pending, else-if output not suppressed, and
`maybeAddElseIf(cur, pendingElseTo, to)` accepts, it returns with `} else if (PRED) {` in
the output buffer (the predicate, negated for the jump-if-true polarity, rendered without
outer parentheses; with the flag for offsets the target stands as a comment in front of
the brace), `haveElse` set, the pending else cleared, the number of frames unchanged and
nothing printed.  The driver then writes that line, and no `} else {` line, with the
indentation of one level less than the number of frames. -/
theorem C26_else_if_resolution :
    (∀ (se : StackEnt) (when : Bool) (s : State),
      s.pendingElse = true → s.dontOutputElseif = false →
      (maybeAddElseIf (toU32 (get_curoffs (get_signed_word s).2)) (toU32 s.pendingElseTo)
        (toU32 (get_curoffs (get_signed_word s).2 + (get_signed_word s).1))
        (get_signed_word s).2).1 = true →
      ∃ d, jumpif se when s = .ok d
        ∧ d.output = "\x7d else if ("
            ++ se_astext s.scriptVersion (if when then se_neg se else se) false
            ++ headerTail s (get_curoffs (get_signed_word s).2 + (get_signed_word s).1)
        ∧ d.haveElse = true ∧ d.pendingElse = false
        ∧ num_block_stack d = num_block_stack s ∧ d.stdout = s.stdout)
    ∧ (∀ (s : State) (T : Int), s.alwaysShowOffs = false → headerTail s T = ") \x7b")
    ∧ (∀ (t d : State), dispatch { t with output := "" } = .ok d → d.output ≠ "" →
        d.haveElse = true → d.pendingElse = false → d.offs_of_line ≠ -1 →
        1 ≤ num_block_stack t →
        mainStep t = .ok (closeBlocks (num_block_stack d + 1)
          { d with haveElse := false,
                   stdout := d.stdout ++ [linePrefix d d.offs_of_line (byteAt t t.cur_pos)
                     ++ getIndentString ((num_block_stack t : Int) - 1) ++ d.output],
                   offs_of_line := get_curoffs d })) := by
  refine ⟨?_, ?_, ?_⟩
  · intro se when s hpe hf hacc
    obtain ⟨k, _, hk⟩ := get_signed_word_snd s
    cases hg : get_signed_word s with
    | mk off s1 =>
      rw [hg] at hacc hk
      simp only at hacc hk
      have e1 : s1.pendingElseTo = s.pendingElseTo := by rw [hk]
      have e2 : s1.pendingElse = true := by rw [hk]; exact hpe
      have e3 : s1.dontOutputElseif = false := by rw [hk]; exact hf
      rw [← e1] at hacc
      rcases maybeAddElseIf_cases (toU32 (get_curoffs s1)) (toU32 s1.pendingElseTo)
          (toU32 (get_curoffs s1 + off)) s1 with he | ⟨_, p, rest, hbs, he⟩
      · rw [he] at hacc; cases hacc
      · unfold jumpif
        rw [hg]
        simp only
        rw [if_pos ⟨by rw [e3]; rfl, e2⟩, he]
        simp only
        refine ⟨_, rfl, ?_, rfl, rfl, ?_, ?_⟩
        · simp only [hk]; rfl
        · simp only [num_block_stack, List.length_cons]
          have : s.block_stack = p :: rest := by rw [hk] at hbs; exact hbs
          rw [this]; rfl
        · rw [hk]
  · intro s T h
    unfold headerTail
    rw [if_neg (by simp [h])]
  · intro t d hd hne hhave hpend hol hdepth
    rw [mainStep_eq, hd]
    simp only
    have hE : emitLine (byteAt t t.cur_pos) (num_block_stack t) d
        = { d with haveElse := false,
                   stdout := d.stdout ++ [linePrefix d d.offs_of_line (byteAt t t.cur_pos)
                     ++ getIndentString ((num_block_stack t : Int) - 1) ++ d.output],
                   offs_of_line := get_curoffs d } := by
      unfold emitLine
      rw [if_pos hne]
      have hw : writePendingElse d = d := by
        unfold writePendingElse
        rw [if_neg (by simp [hpend])]
      simp only [hw, hhave, if_true]
      rw [outputLine_eq d.output d.offs_of_line (byteAt t t.cur_pos)
        ((num_block_stack t : Int) - 1) { d with haveElse := false } hne hol (by omega)]
      rfl
    rw [hE]
    rfl

/-- C26, instance: on v6, with an else pending for the target 9 and the jump `73 02 00` in
front of the target 7, the conditional jump by 5 from offset 2 is taken for an else-if. -/
theorem C26_else_if_resolution_witness :
    ∃ d, jumpif (.seInt 1) false elseIfPending = .ok d
      ∧ d.output = "\x7d else if ("
          ++ se_astext elseIfPending.scriptVersion
            (if false = true then se_neg (.seInt 1) else .seInt 1) false
          ++ headerTail elseIfPending (get_curoffs (get_signed_word elseIfPending).2
              + (get_signed_word elseIfPending).1)
      ∧ d.haveElse = true ∧ d.pendingElse = false
      ∧ num_block_stack d = num_block_stack elseIfPending ∧ d.stdout = elseIfPending.stdout :=
  C26_else_if_resolution.1 (.seInt 1) false elseIfPending rfl rfl rfl

/-- With the count `n` on top of `n` entries pushed in the order `es`, `se_get_list` pops
the `n + 1` entries and returns the list in pop order. -/
theorem se_get_list_pushed (s : State) (es rest : List StackEnt)
    (hs : s.stack = .seInt es.length :: (es.reverse ++ rest)) :
    se_get_list s = .ok (.seStackList es.length es.reverse, { s with stack := rest }) := by
  unfold se_get_list
  simp only [pop, hs, Int.toNat_ofNat]
  have h := popList_take es.length { s with stack := es.reverse ++ rest } (by simp)
  rw [h]
  have h1 : (es.reverse ++ rest).take es.length = es.reverse := by
    rw [← List.length_reverse es]; exact List.take_left' rfl
  have h2 : (es.reverse ++ rest).drop es.length = rest := by
    rw [← List.length_reverse es]; exact List.drop_left' rfl
  simp only [h1, h2]

theorem se_astext_list_eq_map (ver : Nat) (l : List StackEnt) :
    se_astext_list ver l = l.map (fun e => se_astext ver e true) := by
  induction l with
  | nil => simp [se_astext_list]
  | cons a rest ih => simp [se_astext_list, ih]

/-- A stack list whose count is the number of its first entries renders these entries
from the last one down to the first, separated by commas, in brackets. -/
theorem se_astext_stackList (ver : Nat) (es extra : List StackEnt) (wp : Bool) :
    se_astext ver (.seStackList es.length (es.reverse ++ extra)) wp
      = "[" ++ commaSep (es.map (fun e => se_astext ver e true)) ++ "]" := by
  rw [se_astext, se_astext_list_eq_map, List.map_append, Int.toNat_ofNat]
  have h := joinDown_append (es.reverse.map (fun e => se_astext ver e true))
    (extra.map (fun e => se_astext ver e true)) es.length (by simp)
  rw [h]
  have h2 := joinDown_eq_commaSep (es.reverse.map (fun e => se_astext ver e true))
  simp only [List.length_map, List.length_reverse] at h2
  rw [h2, ← List.map_reverse, List.reverse_reverse]

/-- C27: with expressions e1,…,en pushed in that order and the literal n on top,
`se_get_list` pops exactly the n+1 entries and yields a StackList of length n that renders
as `[E1,…,En]`, in push order; if the entry on top is no Int literal the run ends with the
diagnostic and exit status 1.  v6 opcode 0xAC (`l|soundKludge`) after pushing 1, 2 and the
count 2 leaves `soundKludge([1,2])` in the output buffer. -/
theorem C27_stack_list_order :
    (∀ (s : State) (es rest : List StackEnt),
      s.stack = .seInt es.length :: (es.reverse ++ rest) →
      se_get_list s = .ok (.seStackList es.length es.reverse, { s with stack := rest })
      ∧ ∀ wp, se_astext s.scriptVersion (.seStackList es.length es.reverse) wp
          = "[" ++ commaSep (es.map (fun e => se_astext s.scriptVersion e true)) ++ "]")
    ∧ (∀ (s : State) (e : StackEnt) (rest : List StackEnt), s.stack = e :: rest →
        (∀ n, e ≠ .seInt n) →
        se_get_list s = .error (.exit 1
          (s.stdout ++ ["stackList with variable number of arguments, cannot disassemble"])))
    ∧ next_line { mem := [0xAC], stack := [.seInt 2, .seInt 2, .seInt 1] }
        = .ok { mem := [0xAC], cur_pos := 1, stack := [], output := "soundKludge([1,2])" } := by
  refine ⟨fun s es rest hs => ⟨se_get_list_pushed s es rest hs, fun wp => ?_⟩, ?_, rfl⟩
  · have h := se_astext_stackList s.scriptVersion es [] wp
    rw [List.append_nil] at h
    exact h
  · intro s e rest hs hne
    unfold se_get_list
    simp only [pop, hs]

/-- C27, instances: the entries 7, 8, 9 pushed in that order with the count 3 on top give
the list that renders `[7,8,9]`; a variable on top ends the run. -/
theorem C27_stack_list_order_witness :
    (se_get_list { stack := [.seInt 3, .seInt 9, .seInt 8, .seInt 7, .seInt 0] }
        = .ok (.seStackList 3 [.seInt 9, .seInt 8, .seInt 7], { stack := [.seInt 0] })
      ∧ ∀ wp, se_astext 6 (.seStackList 3 [.seInt 9, .seInt 8, .seInt 7]) wp
          = "[" ++ commaSep ([.seInt 7, .seInt 8, .seInt 9].map
              (fun e => se_astext 6 e true)) ++ "]")
    ∧ se_get_list { stack := [.seVar 1] } = .error (.exit 1
        ["stackList with variable number of arguments, cannot disassemble"]) :=
  ⟨C27_stack_list_order.1 { stack := [.seInt 3, .seInt 9, .seInt 8, .seInt 7, .seInt 0] }
      [.seInt 7, .seInt 8, .seInt 9] [.seInt 0] rfl,
   C27_stack_list_order.2.1 { stack := [.seVar 1] } (.seVar 1) [] rfl
      (fun n h => by cases h)⟩

set_option maxRecDepth 100000 in
/-- C28: a `y` descriptor executed after pushing a selector, then a1,…,ak, then the literal
k+1, pops the k+2 entries, takes the sub-opcode byte from the `data` field of the selector
(the entry at index k of the popped list, the one pushed first), and passes on the list
with its count lowered to k, which renders as `[A1,…,Ak]`: the selector is no longer part of
it.  v8 opcode 0xBA with the selector 11 leaves `lockObject([A,B])` in the output buffer for
every two expressions a and b. -/
theorem C28_y_selector :
    (∀ (fuel : Nat) (fmt fmt2 : List Nat) (l : ExtLocals) (s : State) (sel : StackEnt)
        (as rest : List StackEnt) (d : Int),
      l.extstr = none → skipString fmt = some fmt2 → sel.dataField = some d →
      s.stack = .seInt (as.length + 1 : Nat) :: (as.reverse ++ sel :: rest) →
      extArgs (fuel + 1) (121 :: fmt) l s =
        (match scanSubOp (stringAt fmt) (toU32 d % 256) { s with stack := rest } true fmt2 with
        | .error f => .error f
        | .ok fmt3 =>
          extArgs fuel fmt3
            { l with extstr := some (stringAt fmt),
                     args := l.args ++ [.seStackList as.length (as.reverse ++ [sel])] }
            { s with stack := rest }))
    ∧ (∀ (ver : Nat) (sel : StackEnt) (as : List StackEnt) (wp : Bool),
        se_astext ver (.seStackList as.length (as.reverse ++ [sel])) wp
          = "[" ++ commaSep (as.map (fun e => se_astext ver e true)) ++ "]")
    ∧ (∀ (a b : StackEnt) (rest : List StackEnt),
        next_line_V8 { mem := [0xBA], scriptVersion := 8,
                       stack := .seInt 3 :: b :: a :: .seInt 11 :: rest }
          = .ok { mem := [0xBA], scriptVersion := 8, cur_pos := 1, stack := rest,
                  output := "lockObject([" ++ se_astext 8 a true ++ "," ++ se_astext 8 b true
                    ++ "])" }) := by
  refine ⟨?_, fun ver sel as wp => se_astext_stackList ver as [sel] wp, ?_⟩
  · intro fuel fmt fmt2 l s sel as rest d hx hsk hd hs
    have hl := se_get_list_pushed s (sel :: as) rest (by
      rw [hs]; simp [List.reverse_cons, List.append_assoc])
    rw [extArgs]
    have hlen : ((sel :: as).length : Int) - 1 = (as.length : Int) := by
      simp
    have h1 : ¬ ((as.length : Int) < 0
        ∨ ((as.length : Int)).toNat ≥ (as.reverse ++ [sel]).length) := by
      simp
    have hget : ((as.reverse ++ [sel]).get? ((as.length : Int)).toNat) = some sel := by
      simp [List.getElem?_append_right]
    simp only [show ¬ ((121 : Nat) = 124) by decide, show ¬ ((121 : Nat) = 120) by decide,
      false_and, hx, and_self, if_true, if_false, hsk, hl, hlen, List.reverse_cons, h1, hget,
      Option.some_bind, hd]
  · intro a b rest
    have h : next_line_V8 {
          mem := [0xBA], scriptVersion := 8,
          stack := .seInt 3 :: b :: a :: .seInt 11 :: rest }
        = .ok {
          mem := [0xBA], scriptVersion := 8, cur_pos := 1, stack := rest,
          output := extText 8 ⟨some [107, 108, 117, 100, 103, 101], none,
              [.seStackList 2 [b, a, .seInt 11]]⟩
            [108, 111, 99, 107, 79, 98, 106, 101, 99, 116] } := rfl
    rw [h]
    have ho : extText 8 ⟨some [107, 108, 117, 100, 103, 101], none,
          [.seStackList 2 [b, a, .seInt 11]]⟩
          [108, 111, 99, 107, 79, 98, 106, 101, 99, 116]
        = "lockObject([" ++ se_astext 8 a true ++ "," ++ se_astext 8 b true ++ "])" := by
      apply String.ext
      simp [extText, joinDown, se_astext, se_astext_list, bytesToString, String.data_append]
    rw [ho]

/-- C28, instances: on v8, after pushing the selector 11, then 5 and 6, then the count 3,
opcode 0xBA leaves `lockObject([5,6])` in the output buffer. -/
theorem C28_y_selector_witness :
    next_line_V8 { mem := [0xBA], scriptVersion := 8,
                   stack := [.seInt 3, .seInt 6, .seInt 5, .seInt 11] }
      = .ok { mem := [0xBA], scriptVersion := 8, cur_pos := 1, stack := [],
              output := "lockObject([" ++ se_astext 8 (.seInt 5) true ++ ","
                ++ se_astext 8 (.seInt 6) true ++ "])" } :=
  C28_y_selector.2.2 (.seInt 5) (.seInt 6) []

theorem bytesToString_cons (c : Nat) (bs : List Nat) :
    bytesToString (c :: bs) = String.singleton (Char.ofNat c) ++ bytesToString bs := by
  apply String.ext
  simp [bytesToString, String.data_append, String.singleton]

theorem bytesToString_nil : bytesToString [] = "" := rfl

theorem str_append_empty (a : String) : a ++ "" = a := by
  apply String.ext
  simp [String.data_append]

/-- What follows in the text once a plain byte has been written, in terms of the segments
of the tokens behind it. -/
theorem renderOpen_plain (c : Nat) (toks : List StrToken) :
    String.singleton (Char.ofNat c) ++ renderOpen (strSegments toks)
      = renderOpen (strSegments (.plain c :: toks))
    ∧ dquote ++ String.singleton (Char.ofNat c) ++ renderOpen (strSegments toks)
      = renderSegments (strSegments (.plain c :: toks)) := by
  simp only [strSegments]
  cases h : strSegments toks with
  | nil =>
    simp only [renderOpen, renderSegments, bytesToString_cons, bytesToString_nil,
      String.append_assoc, str_append_empty]
    exact ⟨trivial, trivial⟩
  | cons seg segs =>
    cases seg with
    | run bs =>
      simp only [renderOpen, renderSegments, bytesToString_cons, String.append_assoc]
      exact ⟨trivial, trivial⟩
    | escape t =>
      simp only [renderOpen, renderSegments, bytesToString_cons, bytesToString_nil,
        String.append_assoc, str_append_empty]
      exact ⟨trivial, trivial⟩

/-- The loop of `se_get_string` writes the text of the segments behind what it has written
so far, and stops behind the terminating 0. -/
theorem se_get_string_loop_tokens : ∀ (fuel : Nat) (e : String) (inq : Bool) (s : State),
    s.mem.length - s.cur_pos < fuel →
    se_get_string_loop fuel e inq s =
      .ok (e ++ (if inq then renderOpen (strSegments (strTokens fuel s).1)
                  else renderSegments (strSegments (strTokens fuel s).1)),
           (strTokens fuel s).2)
    ∧ ∃ c, (strTokens fuel s).2 = { s with cur_pos := c + 1 } ∧ s.cur_pos ≤ c
        ∧ byteAt s c = 0 := by
  intro fuel
  induction fuel with
  | zero => intro e inq s h; omega
  | succ f ih =>
    intro e inq s h
    rw [se_get_string_loop, strTokens]
    simp only [get_byte]
    by_cases h0 : byteAt s s.cur_pos = 0
    · simp only [h0, if_true, strSegments, renderOpen, renderSegments, str_append_empty]
      refine ⟨?_, s.cur_pos, rfl, Nat.le_refl _, h0⟩
      cases inq <;> simp [str_append_empty]
    · have hlt := byteAt_ne_zero_lt s _ h0
      simp only [h0, if_false]
      by_cases hesc : byteAt s s.cur_pos = 0xFF ∨ byteAt s s.cur_pos = 0xFE
      · simp only [hesc, if_true]
        obtain ⟨text, k, hk⟩ := se_get_string_escape_eq
          (byteAt { s with cur_pos := s.cur_pos + 1 } (s.cur_pos + 1))
          { s with cur_pos := s.cur_pos + 1 + 1 }
        have hk2 : se_get_string_escape (byteAt s (s.cur_pos + 1))
            { s with cur_pos := s.cur_pos + 1 + 1 }
            = (text, { s with cur_pos := s.cur_pos + 1 + 1 + k }) := hk
        simp only [byteAt] at hk2 ⊢
        rw [hk2]
        simp only
        obtain ⟨h1, c, h2, h3, h4⟩ := ih ((if inq then e ++ dquote else e) ++ text) false
          { s with cur_pos := s.cur_pos + 1 + 1 + k }
          (by show s.mem.length - (s.cur_pos + 1 + 1 + k) < f; omega)
        rw [h1]
        refine ⟨?_, c, ?_, ?_, h4⟩
        · simp only [strSegments, renderSegments, renderOpen, Bool.false_eq_true, if_false]
          cases inq <;> simp [String.append_assoc]
        · rw [h2]
        · have : s.cur_pos + 1 + 1 + k ≤ c := h3
          omega
      · simp only [hesc, if_false]
        obtain ⟨h1, c, h2, h3, h4⟩ := ih
          ((if !inq then e ++ dquote else e) ++ String.singleton (Char.ofNat (byteAt s s.cur_pos)))
          true { s with cur_pos := s.cur_pos + 1 }
          (by show s.mem.length - (s.cur_pos + 1) < f; omega)
        rw [h1]
        refine ⟨?_, c, ?_, ?_, h4⟩
        · obtain ⟨r1, r2⟩ := renderOpen_plain (byteAt s s.cur_pos)
            (strTokens f { s with cur_pos := s.cur_pos + 1 }).1
          simp only [if_true]
          cases inq
          · simp only [Bool.not_false, if_true, Bool.false_eq_true, if_false, String.append_assoc]
            rw [← r2]
            simp only [String.append_assoc]
          · simp only [Bool.not_true, Bool.false_eq_true, if_false, if_true, String.append_assoc]
            rw [← r1]
        · rw [h2]
        · have : s.cur_pos + 1 ≤ c := h3
          omega

/-- Every escape is rendered as a text between two colons. -/
theorem se_get_string_escape_colons (i : Nat) (s : State) :
    ∃ tag, (se_get_string_escape i s).1 = ":" ++ tag ++ ":" := by
  unfold se_get_string_escape
  by_cases h1 : i = 1
  · rw [if_pos h1]; exact ⟨"newline", rfl⟩
  rw [if_neg h1]
  by_cases h2 : i = 2
  · rw [if_pos h2]; exact ⟨"keeptext", rfl⟩
  rw [if_neg h2]
  by_cases h3 : i = 3
  · rw [if_pos h3]; exact ⟨"wait", rfl⟩
  rw [if_neg h3]
  by_cases h4 : i = 4
  · rw [if_pos h4]; exact ⟨_, rfl⟩
  rw [if_neg h4]
  by_cases h9 : i = 9
  · rw [if_pos h9]; exact ⟨"startanim=" ++ fmt_d (toInt32 (get_word s).1), by
      simp only [String.append_assoc]; rfl⟩
  rw [if_neg h9]
  by_cases h10 : i = 10
  · rw [if_pos h10]; exact ⟨"sound", rfl⟩
  rw [if_neg h10]
  by_cases h14 : i = 14
  · rw [if_pos h14]; exact ⟨"setfont=" ++ fmt_d (toInt32 (get_word s).1), by
      simp only [String.append_assoc]; rfl⟩
  rw [if_neg h14]
  by_cases h12 : i = 12
  · rw [if_pos h12]; exact ⟨"setcolor=" ++ fmt_d (toInt32 (get_word s).1), by
      simp only [String.append_assoc]; rfl⟩
  rw [if_neg h12]
  by_cases h13 : i = 13
  · rw [if_pos h13]; exact ⟨"unk2=" ++ fmt_d (toInt32 (get_word s).1), by
      simp only [String.append_assoc]; rfl⟩
  rw [if_neg h13]
  exact ⟨"unk" ++ fmt_d i ++ "=" ++ fmt_d (toInt32 (get_word s).1), by
    simp only [String.append_assoc]; rfl⟩

/-- C29: for every state, `se_get_string` returns; it consumes the tokens of the inline
string up to and including the terminating 0 and renders them by segments: each maximal
run of plain bytes (bytes other than 0x00, 0xFE, 0xFF outside an escape) between exactly
one pair of double quotes, each escape outside the quotes as its text, which stands between
two colons.  The `sound` escape (code 10) skips 14 bytes and reads no word.  The bytes
'a' 'b' FF 01 'c' 00 render `"ab":newline:"c"`, a lone 00 renders the empty text. -/
theorem C29_inline_string_quoting :
    (∀ s : State,
      se_get_string s = .ok (se_complex (renderSegments (strSegments
          (strTokens (s.mem.length - s.cur_pos + 1) s).1)),
        (strTokens (s.mem.length - s.cur_pos + 1) s).2)
      ∧ ∃ c, (strTokens (s.mem.length - s.cur_pos + 1) s).2 = { s with cur_pos := c + 1 }
          ∧ s.cur_pos ≤ c ∧ byteAt s c = 0)
    ∧ (∀ (i : Nat) (s : State), ∃ tag, (se_get_string_escape i s).1 = ":" ++ tag ++ ":")
    ∧ (∀ s : State,
        se_get_string_escape 10 s = (":sound:", { s with cur_pos := s.cur_pos + 14 }))
    ∧ strSegments [.plain 97, .plain 98, .escape ":newline:", .plain 99]
        = [.run [97, 98], .escape ":newline:", .run [99]]
    ∧ renderSegments [.run [97, 98], .escape ":newline:", .run [99]]
        = "\x22ab\x22:newline:\x22c\x22"
    ∧ se_get_string { mem := [97, 98, 0xFF, 0x01, 99, 0x00, 0x07] }
        = .ok (se_complex "\x22ab\x22:newline:\x22c\x22",
            { mem := [97, 98, 0xFF, 0x01, 99, 0x00, 0x07], cur_pos := 6 })
    ∧ se_get_string { mem := [0x00, 0x07] }
        = .ok (se_complex "", { mem := [0x00, 0x07], cur_pos := 1 }) := by
  refine ⟨fun s => ?_, se_get_string_escape_colons, fun s => rfl, rfl, by decide, rfl, rfl⟩
  obtain ⟨h1, h2⟩ := se_get_string_loop_tokens (s.mem.length - s.cur_pos + 1) "" false s
    (Nat.lt_succ_self _)
  refine ⟨?_, h2⟩
  unfold se_get_string
  rw [h1]
  simp only [Bool.false_eq_true, if_false]
  have he : ∀ x : String, "" ++ x = x := fun x => by
    apply String.ext; simp [String.data_append]
  rw [he]

theorem next_line_switch_dup (s : State) : next_line_switch 0x0C s =
    (match pop s with
    | .error f => .error f
    | .ok (se, s1) => .ok (push (dup se s1).1 (push (dup se s1).1 (dup se s1).2))) := rfl

theorem next_line_V8_switch_dup (s : State) : next_line_V8_switch 0x05 s =
    (match pop s with
    | .error f => .error f
    | .ok (se, s1) => .ok (push (dup se s1).1 (push (dup se s1).1 (dup se s1).2))) := rfl

/-- C30 as stated fails: on an Int literal the duplicate-top opcode writes no assignment and
allocates no Dup slot; the v6 body 00 07 0C 43 00 00 (push 7, duplicate, store var 0)
emits `var0 = 7` only and ends with the literal 7 left on the stack.  On a Dup node it
writes no assignment either, and the two entries pushed carry the slot of that node. -/
theorem C30_counterexample :
    (decompile (scrpFile [0x00, 0x07, 0x0C, 0x43, 0x00, 0x00]) [] plainFlags).toOption.map
        (fun s => s.stdout)
      = some ["var0 = 7", "END", "Stack count: 1", "Stack contents:", "7"]
    ∧ dup (.seInt 7) {} = (.seInt 7, {})
    ∧ (dup (.seDup 1) { dupindex := 1 }).1 = .seDup 1
    ∧ (dup (.seDup 1) { dupindex := 1 }).2.output = "" := by
  refine ⟨by decide, rfl, rfl, rfl⟩

/-- C30 (amended): for every expression e on top of the stack that is neither an Int
literal nor a Dup node, the duplicate-top opcode (0x0C on v6/v7, 0x05 on v8) leaves the
assignment `dup[k] = E` in the output buffer, k being one more than the slot allocated
before, and replaces e by two entries for the Dup slot k, so the depth grows by one.  An
Int literal is pushed twice as it is, with no assignment and no slot; a Dup node is pushed
twice as it is, with no assignment (the slot counter advances all the same). -/
theorem C30_duplicate_top (s : State) (e : StackEnt) (rest : List StackEnt)
    (hs : s.stack = e :: rest) :
    (e.isFresh = true →
      next_line_switch 0x0C s = .ok { s with
          stack := .seDup (s.dupindex + 1) :: .seDup (s.dupindex + 1) :: rest,
          dupindex := s.dupindex + 1,
          output := "dup[" ++ fmt_d (s.dupindex + 1) ++ "]" ++ " = "
            ++ se_astext s.scriptVersion e true }
      ∧ next_line_V8_switch 0x05 s = next_line_switch 0x0C s)
    ∧ (∀ n, e = .seInt n →
        next_line_switch 0x0C s = .ok { s with stack := e :: e :: rest }
        ∧ next_line_V8_switch 0x05 s = next_line_switch 0x0C s)
    ∧ (∀ d, e = .seDup d →
        next_line_switch 0x0C s
          = .ok { s with stack := e :: e :: rest, dupindex := s.dupindex + 1 }
        ∧ next_line_V8_switch 0x05 s = next_line_switch 0x0C s) := by
  refine ⟨fun hf => ⟨?_, rfl⟩, fun n hn => ⟨?_, rfl⟩, fun d hd => ⟨?_, rfl⟩⟩
  · rw [next_line_switch_dup]
    simp only [pop, hs]
    cases e <;> first | (simp [StackEnt.isFresh] at hf; done) | rfl
  · rw [next_line_switch_dup]
    simp only [pop, hs]
    subst hn
    rfl
  · rw [next_line_switch_dup]
    simp only [pop, hs]
    subst hd
    rfl

/-- C30, instances: on v6 the duplicate of the variable 0 with one slot allocated before
writes `dup[2] = var0` and leaves two entries for slot 2; the duplicate of the literal 7
leaves 7 twice. -/
theorem C30_duplicate_top_witness :
    (next_line_switch 0x0C { stack := [.seVar 0], dupindex := 1 }).toOption.map
        (fun s => (s.stack.length, s.dupindex, s.output)) = some (2, 2, "dup[2] = var0")
    ∧ next_line_switch 0x0C { stack := [.seInt 7] } = .ok { stack := [.seInt 7, .seInt 7] } :=
  ⟨by rw [((C30_duplicate_top { stack := [.seVar 0], dupindex := 1 } (.seVar 0) [] rfl).1 rfl).1]
      decide,
   ((C30_duplicate_top { stack := [.seInt 7] } (.seInt 7) [] rfl).2.1 7 rfl).1⟩

theorem next_line_switch_kill (s : State) : next_line_switch 0x1A s =
    (match pop s with
    | .error f => .error f
    | .ok (se, s1) => .ok (kill se s1)) := rfl

theorem next_line_V8_switch_kill (s : State) : next_line_V8_switch 0x06 s =
    (match pop s with
    | .error f => .error f
    | .ok (se, s1) => .ok (kill se s1)) := rfl

/-- C31: the kill opcode (0x1A on v6/v7, 0x06 on v8) applied to a stack whose top is a Dup
node returns with every global as it was before the opcode: the Dup is pushed back, the
stack is what it was and the line buffer is not written, so that a pass of the driver over
the opcode prints no statement line (it moves the cursor by one byte and runs the closing
loop).  Applied to a top entry e of any other kind it removes e from the stack and
leaves `pop(E)` in the line buffer, E being the text of e. -/
theorem C31_pop_and_discard (s : State) (e : StackEnt) (rest : List StackEnt)
    (hs : s.stack = e :: rest) :
    (∀ d, e = .seDup d →
      next_line_switch 0x1A s = .ok s ∧ next_line_V8_switch 0x06 s = .ok s
      ∧ (byteAt s s.cur_pos = (if s.scriptVersion = 8 then 0x06 else 0x1A) →
          mainStep s = .ok (closeBlocks (num_block_stack s + 1)
            { s with output := "", cur_pos := s.cur_pos + 1 })))
    ∧ ((∀ d, e ≠ .seDup d) →
      next_line_switch 0x1A s = .ok { s with
          stack := rest, output := "pop(" ++ se_astext s.scriptVersion e true ++ ")" }
      ∧ next_line_V8_switch 0x06 s = next_line_switch 0x1A s) := by
  have h6 : ∀ (t : State) d, t.stack = .seDup d :: rest → next_line_switch 0x1A t = .ok t := by
    intro t d ht
    rw [next_line_switch_kill]
    simp only [pop, ht, kill, push]
    rw [← ht]
  have h8 : ∀ (t : State) d, t.stack = .seDup d :: rest →
      next_line_V8_switch 0x06 t = .ok t := by
    intro t d ht
    rw [next_line_V8_switch_kill]
    simp only [pop, ht, kill, push]
    rw [← ht]
  refine ⟨fun d hd => ⟨h6 s d (hd ▸ hs), h8 s d (hd ▸ hs), fun hop => ?_⟩,
    fun hne => ⟨?_, rfl⟩⟩
  · rw [mainStep_eq]
    have hd2 : dispatch { s with output := "" }
        = .ok { s with output := "", cur_pos := s.cur_pos + 1 } := by
      unfold dispatch
      by_cases hv : s.scriptVersion = 8
      · rw [if_pos hv] at hop
        rw [if_pos (show ({ s with output := "" } : State).scriptVersion = 8 from hv),
          next_line_V8_eq]
        rw [show byteAt { s with output := "" } ({ s with output := "" } : State).cur_pos
          = 0x06 from hop]
        exact h8 _ d (hd ▸ hs)
      · rw [if_neg hv] at hop
        rw [if_neg (show ¬ ({ s with output := "" } : State).scriptVersion = 8 from hv),
          next_line_eq]
        rw [show byteAt { s with output := "" } ({ s with output := "" } : State).cur_pos
          = 0x1A from hop]
        exact h6 _ d (hd ▸ hs)
    rw [hd2]
    simp only
    rw [emitLine_silent _ _ _ rfl]
    rfl
  · rw [next_line_switch_kill]
    simp only [pop, hs]
    cases e <;> first | (exact absurd rfl (hne _)) | rfl

/-- C31, instances: the kill opcode on the stack dup[1], 7 leaves the state as it is; on
the stack var0, 7 it removes var0 and leaves `pop(var0)` in the line buffer.  The v6 body
03 00 00 0C 1A 43 00 00 (push var0, duplicate, kill, store into var0) prints the two
assignments and no line for the kill, which leaves both Dup entries in place; the body
00 07 1A prints `pop(7)`. -/
theorem C31_pop_and_discard_witness :
    (next_line_switch 0x1A { stack := [.seDup 1, .seInt 7] }
        = .ok { stack := [.seDup 1, .seInt 7] }
      ∧ next_line_V8_switch 0x06 { stack := [.seDup 1, .seInt 7] }
        = .ok { stack := [.seDup 1, .seInt 7] })
    ∧ next_line_switch 0x1A { stack := [.seVar 0, .seInt 7] }
        = .ok { stack := [.seInt 7], output := "pop(var0)" }
    ∧ (decompile (scrpFile [0x03, 0x00, 0x00, 0x0C, 0x1A, 0x43, 0x00, 0x00]) [] plainFlags
        ).toOption.map (fun s => s.stdout)
      = some ["dup[1] = var0", "var0 = dup[1]", "END", "Stack count: 1", "Stack contents:",
          "dup[1]"]
    ∧ (decompile (scrpFile [0x00, 0x07, 0x1A]) [] plainFlags).toOption.map (fun s => s.stdout)
      = some ["pop(7)", "END", "Stack count: 0"] :=
  ⟨⟨((C31_pop_and_discard { stack := [.seDup 1, .seInt 7] } (.seDup 1) [.seInt 7] rfl).1
        1 rfl).1,
    ((C31_pop_and_discard { stack := [.seDup 1, .seInt 7] } (.seDup 1) [.seInt 7] rfl).1
        1 rfl).2.1⟩,
   ((C31_pop_and_discard { stack := [.seVar 0, .seInt 7] } (.seVar 0) [.seInt 7] rfl).2
      (fun d h => by cases h)).1.trans rfl,
   by decide, by decide⟩

theorem next_line_switch_writeArray1 (s : State) : next_line_switch 0x47 s =
    (match pop s with
    | .error f => .error f
    | .ok (first, s1) =>
      match pop s1 with
      | .error f => .error f
      | .ok (second, s2) =>
        .ok (writeArray (toInt32 (get_word s2).1) none
          ((s.argOrder 0x47).dim1of2 first second) ((s.argOrder 0x47).value2 first second)
          (get_word s2).2)) := rfl

theorem next_line_switch_writeArray2 (s : State) : next_line_switch 0x4B s =
    (match pop s with
    | .error f => .error f
    | .ok (first, s1) =>
      match pop s1 with
      | .error f => .error f
      | .ok (second, s2) =>
        match pop s2 with
        | .error f => .error f
        | .ok (third, s3) =>
          .ok (writeArray (toInt32 (get_word s3).1)
            (some ((s.argOrder 0x4B).dim2 first second third))
            ((s.argOrder 0x4B).dim1 first second third)
            ((s.argOrder 0x4B).value first second third) (get_word s3).2)) :=
  rfl

theorem next_line_V8_switch_writeArray1 (s : State) : next_line_V8_switch 0x71 s =
    (match pop s with
    | .error f => .error f
    | .ok (se_a, s1) =>
      match pop (get_word s1).2 with
      | .error f => .error f
      | .ok (dim1, s2) => .ok (writeArray (toInt32 (get_word s1).1) none dim1 se_a s2)) := rfl

theorem next_line_V8_switch_writeArray2 (s : State) : next_line_V8_switch 0x75 s =
    (match pop s with
    | .error f => .error f
    | .ok (se_a, s1) =>
      match pop s1 with
      | .error f => .error f
      | .ok (se_b, s2) =>
        match pop (get_word s2).2 with
        | .error f => .error f
        | .ok (dim2, s3) =>
          .ok (writeArray (toInt32 (get_word s2).1) (some dim2) se_b se_a s3)) := rfl

/-- The word read by `get_word` and the cursor behind it do not depend on the stack. -/
theorem get_word_stack (s : State) (st : List StackEnt) :
    get_word { s with stack := st } = ((get_word s).1, { (get_word s).2 with stack := st }) := by
  unfold get_word
  by_cases hv : s.scriptVersion = 8
  · rw [if_pos hv, if_pos (show ({ s with stack := st } : State).scriptVersion = 8 from hv)]
    rfl
  · rw [if_neg hv, if_neg (show ¬ ({ s with stack := st } : State).scriptVersion = 8 from hv)]
    rfl

theorem get_word_keeps (s : State) :
    (get_word s).2 = { s with cur_pos := (get_word s).2.cur_pos } := by
  unfold get_word
  by_cases hv : s.scriptVersion = 8
  · rw [if_pos hv]
  · rw [if_neg hv]

theorem writeArray_output (i : Int) (dim2 : Option StackEnt) (dim1 value : StackEnt)
    (s : State) :
    writeArray i dim2 dim1 value s = { s with
      output := se_astext s.scriptVersion (.seArray i dim2 dim1) true ++ " = "
        ++ se_astext s.scriptVersion value true } := by
  cases value <;> rfl

theorem se_astext_array1 (v : Nat) (i : Int) (dim1 : StackEnt) :
    se_astext v (.seArray i none dim1) true
      = "array-" ++ fmt_d i ++ "[" ++ se_astext v dim1 true ++ "]" := by
  simp only [se_astext]

theorem se_astext_array2 (v : Nat) (i : Int) (dim2 dim1 : StackEnt) :
    se_astext v (.seArray i (some dim2) dim1) true
      = "array-" ++ fmt_d i ++ "[" ++ se_astext v dim2 true ++ "]["
        ++ se_astext v dim1 true ++ "]" := by
  simp only [se_astext]

/-- The one-dimensional array writes on a stack that holds their operands, `a` on top of
`b`.  The v8 handler takes `a` for the value and `b` for the index; the v6/v7 handler takes
them as the order of evaluation of its `pop()` arguments says. -/
theorem array_write_1 (s : State) (a b : StackEnt) (rest : List StackEnt)
    (hs : s.stack = a :: b :: rest) :
    next_line_switch 0x47 s = .ok { s with
        stack := rest, cur_pos := (get_word s).2.cur_pos,
        output := ("array-" ++ fmt_d (toInt32 (get_word s).1) ++ "["
          ++ se_astext s.scriptVersion ((s.argOrder 0x47).dim1of2 a b) true ++ "]") ++ " = "
          ++ se_astext s.scriptVersion ((s.argOrder 0x47).value2 a b) true }
    ∧ next_line_V8_switch 0x71 s = .ok { s with
        stack := rest, cur_pos := (get_word s).2.cur_pos,
        output := ("array-" ++ fmt_d (toInt32 (get_word s).1) ++ "["
          ++ se_astext s.scriptVersion b true ++ "]") ++ " = "
          ++ se_astext s.scriptVersion a true } := by
  have e1 : next_line_switch 0x47 s
      = .ok (writeArray (toInt32 (get_word s).1) none ((s.argOrder 0x47).dim1of2 a b)
          ((s.argOrder 0x47).value2 a b) { (get_word s).2 with stack := rest }) := by
    rw [next_line_switch_writeArray1]
    simp only [pop, hs, get_word_stack]
  have e2 : next_line_V8_switch 0x71 s
      = .ok (writeArray (toInt32 (get_word s).1) none b a
          { (get_word s).2 with stack := rest }) := by
    rw [next_line_V8_switch_writeArray1]
    simp only [pop, hs, get_word_stack]
  refine ⟨?_, ?_⟩
  · rw [e1, writeArray_output, se_astext_array1]
    congr 1
    rw [get_word_keeps s]
  · rw [e2, writeArray_output, se_astext_array1]
    congr 1
    rw [get_word_keeps s]

/-- The two-dimensional array writes on a stack that holds their operands, `a` on top of
`b` on top of `c`. -/
theorem array_write_2 (s : State) (a b c : StackEnt) (rest : List StackEnt)
    (hs : s.stack = a :: b :: c :: rest) :
    next_line_switch 0x4B s = .ok { s with
        stack := rest, cur_pos := (get_word s).2.cur_pos,
        output := ("array-" ++ fmt_d (toInt32 (get_word s).1) ++ "["
          ++ se_astext s.scriptVersion ((s.argOrder 0x4B).dim2 a b c) true ++ "]["
          ++ se_astext s.scriptVersion ((s.argOrder 0x4B).dim1 a b c) true
          ++ "]") ++ " = " ++ se_astext s.scriptVersion ((s.argOrder 0x4B).value a b c) true }
    ∧ next_line_V8_switch 0x75 s = .ok { s with
        stack := rest, cur_pos := (get_word s).2.cur_pos,
        output := ("array-" ++ fmt_d (toInt32 (get_word s).1) ++ "["
          ++ se_astext s.scriptVersion c true ++ "][" ++ se_astext s.scriptVersion b true
          ++ "]") ++ " = " ++ se_astext s.scriptVersion a true } := by
  have e1 : next_line_switch 0x4B s
      = .ok (writeArray (toInt32 (get_word s).1) (some ((s.argOrder 0x4B).dim2 a b c))
          ((s.argOrder 0x4B).dim1 a b c) ((s.argOrder 0x4B).value a b c)
          { (get_word s).2 with stack := rest }) := by
    rw [next_line_switch_writeArray2]
    simp only [pop, hs, get_word_stack]
  have e2 : next_line_V8_switch 0x75 s
      = .ok (writeArray (toInt32 (get_word s).1) (some c) b a
          { (get_word s).2 with stack := rest }) := by
    rw [next_line_V8_switch_writeArray2]
    simp only [pop, hs, get_word_stack]
  refine ⟨?_, ?_⟩
  · rw [e1, writeArray_output, se_astext_array2]
    congr 1
    rw [get_word_keeps s]
  · rw [e2, writeArray_output, se_astext_array2]
    congr 1
    rw [get_word_keeps s]

/-- The read of a word and a `pop` do not interfere: `get_word` moves the cursor only, `pop`
does not look at it. -/
theorem pop_get_word (s : State) :
    pop (get_word s).2 = (match pop s with
      | .error f => .error f
      | .ok (se, s1) => .ok (se, (get_word s1).2)) := by
  unfold get_word pop
  by_cases hv : s.scriptVersion = 8
  · rw [if_pos hv]
    rcases hs : s.stack with _ | ⟨v, rest⟩
    · simp only [hs]
      cases hh : s.haltOnError
      · simp only [printLine, hh, Bool.not_false, if_true, hv]
        rw [hs]
      · simp only [printLine, hh, Bool.not_true]
        rfl
    · simp only [hs, hv, if_true]
  · rw [if_neg hv]
    rcases hs : s.stack with _ | ⟨v, rest⟩
    · simp only [hs]
      cases hh : s.haltOnError
      · simp only [printLine, hh, Bool.not_false, if_true, hv, if_false]
        rw [hs]
      · simp only [printLine, hh, Bool.not_true]
        rfl
    · simp only [hs, hv, if_false]

theorem get_word_after_pop (s s1 : State) (se : StackEnt) (h : pop s = .ok (se, s1)) :
    (get_word s1).1 = (get_word s).1 := by
  unfold pop at h
  rcases hs : s.stack with _ | ⟨v, rest⟩
  · rw [hs] at h
    simp only at h
    split at h
    · simp only [Except.ok.injEq, Prod.mk.injEq] at h
      rw [← h.2]
      unfold get_word
      by_cases hv : s.scriptVersion = 8
      · rw [if_pos hv, if_pos (show (printLine "No items on stack to pop!" s).scriptVersion = 8
          from hv)]
        rfl
      · rw [if_neg hv, if_neg (show ¬ (printLine "No items on stack to pop!" s).scriptVersion
          = 8 from hv)]
        rfl
    · cases h
  · rw [hs] at h
    simp only [Except.ok.injEq, Prod.mk.injEq] at h
    rw [← h.2, get_word_stack]

/-- On every state in which the v6/v7 handler of the one-dimensional array write evaluates
its argument `value` before its argument `dim1`, the v8 handler does what it does. -/
theorem array_write_1_agree (s : State) (ho : (s.argOrder 0x47).valueFirst = true) :
    next_line_V8_switch 0x71 s = next_line_switch 0x47 s := by
  rw [next_line_switch_writeArray1, next_line_V8_switch_writeArray1]
  cases h1 : pop s with
  | error f => rfl
  | ok r =>
    obtain ⟨a, s1⟩ := r
    simp only
    rw [pop_get_word]
    cases h2 : pop s1 with
    | error f => rfl
    | ok r2 =>
      obtain ⟨b, s2⟩ := r2
      simp only [ArgOrder.value2, ArgOrder.dim1of2, ho, if_true]
      rw [get_word_after_pop s1 s2 b h2]

/-- On every state in which the v6/v7 handler of the two-dimensional array write evaluates
its `pop()` arguments from right to left, the v8 handler does what it does. -/
theorem array_write_2_agree (s : State) (ho : s.argOrder 0x4B = .valueDim1Dim2) :
    next_line_V8_switch 0x75 s = next_line_switch 0x4B s := by
  rw [next_line_switch_writeArray2, next_line_V8_switch_writeArray2]
  cases h1 : pop s with
  | error f => rfl
  | ok r =>
    obtain ⟨a, s1⟩ := r
    simp only
    cases h2 : pop s1 with
    | error f => rfl
    | ok r2 =>
      obtain ⟨b, s2⟩ := r2
      simp only
      rw [pop_get_word]
      cases h3 : pop s2 with
      | error f => rfl
      | ok r3 =>
        obtain ⟨c, s3⟩ := r3
        simp only [ho, ArgOrder.value, ArgOrder.dim1, ArgOrder.dim2]
        rw [get_word_after_pop s2 s3 c h3]

/-- C32: the v8 array-write handlers (0x71, 0x75) spell out the order in which the operands
come off the stack; the v6/v7 handlers (0x47, 0x4B) pass `pop()` calls as arguments of one
`writeArray` call and so leave it to the order in which the binary evaluates them.
(1) On every state in which that order is right to left (for 0x47: `value` before `dim1`)
the v6/v7 handler is the same function of the state as the v8 one.  (2) With the array id N
and the value v on top of the index i, the v8 write leaves `array-N[I] = V`; the v6/v7
write leaves the same line when `value` is evaluated first and `array-N[V] = I` when `dim1`
is.  (3) With v on top of j on top of i the v8 write leaves `array-N[I][J] = V`; the v6/v7
write leaves the same line under right-to-left evaluation and `array-N[V][J] = I` under
left-to-right evaluation.  (4) The v6 bodies 00 03 00 07 47 05 00 and 00 02 00 03 00 07 4B
05 00 print `array-5[3] = 7` and `array-5[2][3] = 7` when the arguments are evaluated from
right to left, and `array-5[7] = 3` and `array-5[7][3] = 2` when they are evaluated from
left to right. -/
theorem C32_array_writes_agree :
    (∀ s : State,
      ((s.argOrder 0x47).valueFirst = true →
        next_line_V8_switch 0x71 s = next_line_switch 0x47 s)
      ∧ (s.argOrder 0x4B = .valueDim1Dim2 →
        next_line_V8_switch 0x75 s = next_line_switch 0x4B s))
    ∧ (∀ (s6 s8 : State) (v i : StackEnt) (rest : List StackEnt) (N : Int),
        toInt32 (get_word s6).1 = N → toInt32 (get_word s8).1 = N →
        s6.stack = v :: i :: rest → s8.stack = v :: i :: rest →
        next_line_V8_switch 0x71 s8 = .ok { s8 with
            stack := rest, cur_pos := (get_word s8).2.cur_pos,
            output := ("array-" ++ fmt_d N ++ "[" ++ se_astext s8.scriptVersion i true ++ "]")
              ++ " = " ++ se_astext s8.scriptVersion v true }
        ∧ ((s6.argOrder 0x47).valueFirst = true →
          next_line_switch 0x47 s6 = .ok { s6 with
            stack := rest, cur_pos := (get_word s6).2.cur_pos,
            output := ("array-" ++ fmt_d N ++ "[" ++ se_astext s6.scriptVersion i true ++ "]")
              ++ " = " ++ se_astext s6.scriptVersion v true })
        ∧ ((s6.argOrder 0x47).valueFirst = false →
          next_line_switch 0x47 s6 = .ok { s6 with
            stack := rest, cur_pos := (get_word s6).2.cur_pos,
            output := ("array-" ++ fmt_d N ++ "[" ++ se_astext s6.scriptVersion v true ++ "]")
              ++ " = " ++ se_astext s6.scriptVersion i true }))
    ∧ (∀ (s6 s8 : State) (v j i : StackEnt) (rest : List StackEnt) (N : Int),
        toInt32 (get_word s6).1 = N → toInt32 (get_word s8).1 = N →
        s6.stack = v :: j :: i :: rest → s8.stack = v :: j :: i :: rest →
        next_line_V8_switch 0x75 s8 = .ok { s8 with
            stack := rest, cur_pos := (get_word s8).2.cur_pos,
            output := ("array-" ++ fmt_d N ++ "[" ++ se_astext s8.scriptVersion i true ++ "]["
              ++ se_astext s8.scriptVersion j true ++ "]")
              ++ " = " ++ se_astext s8.scriptVersion v true }
        ∧ (s6.argOrder 0x4B = .valueDim1Dim2 →
          next_line_switch 0x4B s6 = .ok { s6 with
            stack := rest, cur_pos := (get_word s6).2.cur_pos,
            output := ("array-" ++ fmt_d N ++ "[" ++ se_astext s6.scriptVersion i true ++ "]["
              ++ se_astext s6.scriptVersion j true ++ "]")
              ++ " = " ++ se_astext s6.scriptVersion v true })
        ∧ (s6.argOrder 0x4B = .dim2Dim1Value →
          next_line_switch 0x4B s6 = .ok { s6 with
            stack := rest, cur_pos := (get_word s6).2.cur_pos,
            output := ("array-" ++ fmt_d N ++ "[" ++ se_astext s6.scriptVersion v true ++ "]["
              ++ se_astext s6.scriptVersion j true ++ "]")
              ++ " = " ++ se_astext s6.scriptVersion i true }))
    ∧ (decompile (scrpFile [0x00, 0x03, 0x00, 0x07, 0x47, 0x05, 0x00]) []
          { plainFlags with argOrder := fun _ => ArgOrder.valueDim1Dim2 }
        ).toOption.map (fun s => s.stdout) = some ["array-5[3] = 7", "END", "Stack count: 0"]
    ∧ (decompile (scrpFile [0x00, 0x03, 0x00, 0x07, 0x47, 0x05, 0x00]) []
          { plainFlags with argOrder := fun _ => ArgOrder.dim2Dim1Value }
        ).toOption.map (fun s => s.stdout) = some ["array-5[7] = 3", "END", "Stack count: 0"]
    ∧ (decompile (scrpFile [0x00, 0x02, 0x00, 0x03, 0x00, 0x07, 0x4B, 0x05, 0x00]) []
          { plainFlags with argOrder := fun _ => ArgOrder.valueDim1Dim2 }
        ).toOption.map (fun s => s.stdout)
        = some ["array-5[2][3] = 7", "END", "Stack count: 0"]
    ∧ (decompile (scrpFile [0x00, 0x02, 0x00, 0x03, 0x00, 0x07, 0x4B, 0x05, 0x00]) []
          { plainFlags with argOrder := fun _ => ArgOrder.dim2Dim1Value }
        ).toOption.map (fun s => s.stdout)
        = some ["array-5[7][3] = 2", "END", "Stack count: 0"]
    ∧ (decompile (scrpFile [0x01, 0x03, 0x00, 0x00, 0x00, 0x01, 0x07, 0x00, 0x00, 0x00,
          0x71, 0x05, 0x00, 0x00, 0x00]) []
          { plainFlags8 with argOrder := fun _ => ArgOrder.dim2Dim1Value }
        ).toOption.map (fun s => s.stdout) = some ["array-5[3] = 7", "END", "Stack count: 0"]
    ∧ (decompile (scrpFile [0x01, 0x02, 0x00, 0x00, 0x00, 0x01, 0x03, 0x00, 0x00, 0x00,
          0x01, 0x07, 0x00, 0x00, 0x00, 0x75, 0x05, 0x00, 0x00, 0x00]) []
          { plainFlags8 with argOrder := fun _ => ArgOrder.dim2Dim1Value }
        ).toOption.map (fun s => s.stdout)
        = some ["array-5[2][3] = 7", "END", "Stack count: 0"] := by
  refine ⟨fun s => ⟨array_write_1_agree s, array_write_2_agree s⟩, ?_, ?_,
    by decide, by decide, by decide, by decide, by decide, by decide⟩
  · intro s6 s8 v i rest N h6 h8 hs6 hs8
    refine ⟨?_, fun ho => ?_, fun ho => ?_⟩
    · rw [← h8]; exact (array_write_1 s8 v i rest hs8).2
    · rw [← h6]
      have h := (array_write_1 s6 v i rest hs6).1
      simp only [ArgOrder.value2, ArgOrder.dim1of2, ho, if_true] at h
      exact h
    · rw [← h6]
      have h := (array_write_1 s6 v i rest hs6).1
      simp only [ArgOrder.value2, ArgOrder.dim1of2, ho, Bool.false_eq_true, if_false] at h
      exact h
  · intro s6 s8 v j i rest N h6 h8 hs6 hs8
    refine ⟨?_, fun ho => ?_, fun ho => ?_⟩
    · rw [← h8]; exact (array_write_2 s8 v j i rest hs8).2
    · rw [← h6]
      have h := (array_write_2 s6 v j i rest hs6).1
      simp only [ho, ArgOrder.value, ArgOrder.dim1, ArgOrder.dim2] at h
      exact h
    · rw [← h6]
      have h := (array_write_2 s6 v j i rest hs6).1
      simp only [ho, ArgOrder.value, ArgOrder.dim1, ArgOrder.dim2] at h
      exact h

/-- C32, instances: with the array id 5 behind the opcode and the stack 7, 3 (7 on top) the
v8 opcode 0x71 leaves `array-5[3] = 7`; the v6 opcode 0x47 leaves the same line in a binary
that evaluates the arguments from right to left and `array-5[7] = 3` in one that evaluates
them from left to right. -/
theorem C32_array_writes_agree_witness :
    next_line_V8_switch 0x71
        { mem := [0x05, 0x00, 0x00, 0x00], scriptVersion := 8, stack := [.seInt 7, .seInt 3] }
      = .ok { mem := [0x05, 0x00, 0x00, 0x00], scriptVersion := 8, cur_pos := 4,
              output := "array-5[3] = 7" }
    ∧ next_line_switch 0x47 { mem := [0x05, 0x00], stack := [.seInt 7, .seInt 3] }
      = .ok { mem := [0x05, 0x00], cur_pos := 2, output := "array-5[3] = 7" }
    ∧ next_line_switch 0x47
        { mem := [0x05, 0x00], stack := [.seInt 7, .seInt 3],
          argOrder := fun _ => ArgOrder.dim2Dim1Value }
      = .ok
        { mem := [0x05, 0x00], cur_pos := 2, output := "array-5[7] = 3",
          argOrder := fun _ => ArgOrder.dim2Dim1Value }
    ∧ next_line_V8_switch 0x71
        { mem := [0x05, 0x00, 0x00, 0x00], scriptVersion := 8, stack := [.seInt 7, .seInt 3] }
      = next_line_switch 0x47
        { mem := [0x05, 0x00, 0x00, 0x00], scriptVersion := 8, stack := [.seInt 7, .seInt 3] } :=
  ⟨(C32_array_writes_agree.2.1 { mem := [0x05, 0x00], stack := [.seInt 7, .seInt 3] }
        { mem := [0x05, 0x00, 0x00, 0x00], scriptVersion := 8, stack := [.seInt 7, .seInt 3] }
        (.seInt 7) (.seInt 3) [] 5 (by decide) (by decide) rfl rfl).1.trans rfl,
   ((C32_array_writes_agree.2.1 { mem := [0x05, 0x00], stack := [.seInt 7, .seInt 3] }
        { mem := [0x05, 0x00, 0x00, 0x00], scriptVersion := 8, stack := [.seInt 7, .seInt 3] }
        (.seInt 7) (.seInt 3) [] 5 (by decide) (by decide) rfl rfl).2.1 rfl).trans rfl,
   ((C32_array_writes_agree.2.1
        { mem := [0x05, 0x00], stack := [.seInt 7, .seInt 3],
          argOrder := fun _ => ArgOrder.dim2Dim1Value }
        { mem := [0x05, 0x00, 0x00, 0x00], scriptVersion := 8, stack := [.seInt 7, .seInt 3] }
        (.seInt 7) (.seInt 3) [] 5 (by decide) (by decide) rfl rfl).2.2 rfl).trans rfl,
   (C32_array_writes_agree.1
        { mem := [0x05, 0x00, 0x00, 0x00], scriptVersion := 8,
          stack := [.seInt 7, .seInt 3] }).1 rfl⟩

/-- In the states reached from an empty block stack every frame starts in front of its end,
and no frame ends behind a frame beneath it. -/
theorem blockReach_frames (s : State) (h : BlockReach s) :
    (∀ p ∈ s.block_stack, p.from_ < p.to_)
    ∧ s.block_stack.Pairwise (fun upper lower => upper.to_ ≤ lower.to_) := by
  induction h with
  | start s h0 =>
    rw [h0]
    exact ⟨fun p hp => absurd hp (List.not_mem_nil p), List.Pairwise.nil⟩
  | addIf cur to_ s s1 b _ hm ih =>
    rcases maybeAddIf_cases cur to_ s s1 b hm with ⟨_, hs⟩ | ⟨_, hlt, _, hall, w, hs⟩
    · rw [hs]; exact ih
    · rw [hs]
      refine ⟨?_, List.Pairwise.cons hall ih.2⟩
      intro p hp
      rcases List.mem_cons.1 hp with hp | hp
      · rw [hp]
        exact Nat.lt_of_le_of_lt (Nat.mod_le _ _) hlt
      · exact ih.1 p hp
  | addElse cur to_ s s1 b _ hm ih =>
    rcases maybeAddElse_cases cur to_ s s1 b hm with
      ⟨_, hs⟩ | ⟨_, hlt, _, p, rest, w, hbs, _, hall, hs⟩
    · rw [hs]; exact ih
    · rw [hs]
      rw [hbs] at ih
      refine ⟨?_, List.Pairwise.cons hall (List.Pairwise.of_cons ih.2)⟩
      intro q hq
      rcases List.mem_cons.1 hq with hq | hq
      · rw [hq]
        exact Nat.lt_of_le_of_lt (Nat.mod_le _ _) hlt
      · exact ih.1 q (List.mem_cons_of_mem _ hq)
  | close cur s _ ih =>
    unfold indentBlock
    cases hbs : s.block_stack with
    | nil =>
      simp only
      rw [hbs]
      exact ⟨fun p hp => absurd hp (List.not_mem_nil p), List.Pairwise.nil⟩
    | cons p rest =>
      simp only
      rw [hbs] at ih
      by_cases hc : cur < p.to_
      · rw [if_pos hc]; simp only; rw [hbs]; exact ih
      · rw [if_neg hc]
        exact ⟨fun q hq => ih.1 q (List.mem_cons_of_mem _ hq), List.Pairwise.of_cons ih.2⟩

/-- The closing loop on a block stack whose frames are nested: it removes exactly the
frames that end at or in front of the cursor, and prints one closing brace for each. -/
theorem closeBlocks_nested (n : Nat) : ∀ (e : State), e.block_stack.length < n →
    e.block_stack.Pairwise (fun upper lower => upper.to_ ≤ lower.to_) →
    ∃ closers, closeBlocks n e =
        { e with
          block_stack := e.block_stack.filter (fun p => decide (toU32 (get_curoffs e) < p.to_)),
          stdout := e.stdout ++ closers }
      ∧ closers.length
          = (e.block_stack.filter (fun p => decide (p.to_ ≤ toU32 (get_curoffs e)))).length
      ∧ (∀ l ∈ closers, ∃ ind, l = linePrefix e (get_curoffs e) (-1) ++ ind ++ "\x7d") := by
  induction n with
  | zero => intro e h; omega
  | succ m ih =>
    intro e h hpw
    cases hs : e.block_stack with
    | nil =>
      refine ⟨[], ?_, rfl, fun l hl => absurd hl (List.not_mem_nil l)⟩
      rw [closeBlocks_stop m e _ rfl (fun q hq => by rw [hs] at hq; simp at hq)]
      simp only [List.filter_nil, List.append_nil]
      rw [← hs]
    | cons p rest =>
      rw [hs] at hpw
      by_cases hp : p.to_ ≤ toU32 (get_curoffs e)
      · rw [closeBlocks_pop m e p rest hs hp, outputLine_brace]
        have hlen : (printLine (linePrefix { e with block_stack := rest }
            (get_curoffs { e with block_stack := rest }) (-1)
            ++ getIndentString (num_block_stack { e with block_stack := rest }) ++ "\x7d")
            { e with block_stack := rest }).block_stack.length < m := by
          rw [hs] at h
          simp only [List.length_cons] at h
          show rest.length < m
          omega
        obtain ⟨closers, h1, h2, h3⟩ := ih _ hlen (List.Pairwise.of_cons hpw)
        rw [h1]
        refine ⟨(linePrefix { e with block_stack := rest }
            (get_curoffs { e with block_stack := rest }) (-1)
            ++ getIndentString (num_block_stack { e with block_stack := rest }) ++ "\x7d")
            :: closers, ?_, ?_, ?_⟩
        · have hnot : ¬ toU32 ((e.cur_pos : Int) - (e.org_pos : Int)) < p.to_ := by
            have := hp
            unfold get_curoffs at this
            omega
          simp [printLine, List.append_assoc, List.filter_cons, hnot, get_curoffs]
        · have h2x : closers.length
              = (rest.filter (fun q => decide (q.to_ ≤ toU32 (get_curoffs e)))).length := h2
          simp [List.filter_cons, hp, h2x]
        · intro l hl
          rcases List.mem_cons.1 hl with hl | hl
          · exact ⟨_, hl⟩
          · exact h3 l hl
      · have hlt : toU32 (get_curoffs e) < p.to_ := by omega
        have hall : ∀ q ∈ p :: rest, toU32 (get_curoffs e) < q.to_ := by
          intro q hq
          rcases List.mem_cons.1 hq with hq | hq
          · rw [hq]; exact hlt
          · exact Nat.lt_of_lt_of_le hlt (List.rel_of_pairwise_cons hpw hq)
        refine ⟨[], ?_, ?_, fun l hl => absurd hl (List.not_mem_nil l)⟩
        · rw [closeBlocks_stop m e _ rfl (fun q hq => by
            rw [hs] at hq
            simp only [List.head?_cons, Option.some.injEq] at hq
            rw [← hq]; exact hlt)]
          have hf : (p :: rest).filter (fun q => decide (toU32 (get_curoffs e) < q.to_))
              = p :: rest := List.filter_eq_self.2 (fun q hq => by simpa using hall q hq)
          rw [hf, List.append_nil, ← hs]
        · have hf : (p :: rest).filter (fun q => decide (q.to_ ≤ toU32 (get_curoffs e)))
              = [] := List.filter_eq_nil_iff.2 (fun q hq => by
                have := hall q hq
                simp only [decide_eq_true_eq]
                omega)
          rw [hf]
          rfl

/-- C33: in every state reached from an empty block stack through `maybeAddIf`,
`maybeAddElse` and the closing of a block, each frame has from < to and the `to` of each
frame is not larger than the `to` of any frame beneath it.  Consequently the closing loop
of the driver, run at the cursor offset c in such a state, returns with exactly the frames
of `to` > c left on the stack (in their order), and has printed exactly one `}` line for each
frame whose `to` was ≤ c. -/
theorem C33_no_frame_outlives_its_end (s : State) (h : BlockReach s) :
    (∀ p ∈ s.block_stack, p.from_ < p.to_)
    ∧ s.block_stack.Pairwise (fun upper lower => upper.to_ ≤ lower.to_)
    ∧ ∃ closers, closeBlocks (num_block_stack s + 1) s =
        { s with
          block_stack := s.block_stack.filter (fun p => decide (toU32 (get_curoffs s) < p.to_)),
          stdout := s.stdout ++ closers }
      ∧ (∀ p ∈ (closeBlocks (num_block_stack s + 1) s).block_stack,
          toU32 (get_curoffs s) < p.to_)
      ∧ closers.length
          = (s.block_stack.filter (fun p => decide (p.to_ ≤ toU32 (get_curoffs s)))).length
      ∧ (∀ l ∈ closers, ∃ ind, l = linePrefix s (get_curoffs s) (-1) ++ ind ++ "\x7d") := by
  obtain ⟨h1, h2⟩ := blockReach_frames s h
  refine ⟨h1, h2, ?_⟩
  obtain ⟨closers, e1, e2, e3⟩ := closeBlocks_nested (num_block_stack s + 1) s
    (Nat.lt_succ_self _) h2
  refine ⟨closers, e1, ?_, e2, e3⟩
  rw [e1]
  intro p hp
  have := (List.mem_filter.1 hp).2
  simpa using this

/-- C33, instance: the state with the frames (1, 5) above (0, 10) is reached by
`maybeAddIf(0, 10)` and `maybeAddIf(1, 5)`; its frames start in front of their ends and
are nested, and the closing loop at offset 7 removes the frame that ends at 5, prints one
`}` line and leaves the frame that ends at 10. -/
theorem C33_no_frame_outlives_its_end_witness :
    (∀ p ∈ twoFramesAtSeven.block_stack, p.from_ < p.to_)
    ∧ twoFramesAtSeven.block_stack.Pairwise (fun upper lower => upper.to_ ≤ lower.to_)
    ∧ closeBlocks (num_block_stack twoFramesAtSeven + 1) twoFramesAtSeven
      = { twoFramesAtSeven with
          block_stack := [{ isWhile := false, from_ := 0, to_ := 10 }], stdout := ["  \x7d"] } :=
  ⟨(C33_no_frame_outlives_its_end twoFramesAtSeven
      (BlockReach.addIf 1 5
        { twoFramesAtSeven with block_stack := [{ isWhile := false, from_ := 0, to_ := 10 }] }
        _ true
        (BlockReach.addIf 0 10 { twoFramesAtSeven with block_stack := [] } _ true
          (BlockReach.start _ rfl) rfl) rfl)).1,
   (C33_no_frame_outlives_its_end twoFramesAtSeven
      (BlockReach.addIf 1 5
        { twoFramesAtSeven with block_stack := [{ isWhile := false, from_ := 0, to_ := 10 }] }
        _ true
        (BlockReach.addIf 0 10 { twoFramesAtSeven with block_stack := [] } _ true
          (BlockReach.start _ rfl) rfl) rfl)).2.1,
   rfl⟩

theorem dispatch_noFuel (s : State) : dispatch s ≠ .error .outOfFuel := by
  unfold dispatch
  split
  · rw [next_line_V8_eq]
    exact (next_line_V8_switch_walk _ _).2.1
  · rw [next_line_eq]
    exact (next_line_switch_walk _ _).2.1

theorem mainStep_noFuel (s : State) : mainStep s ≠ .error .outOfFuel := by
  rw [mainStep_eq]
  intro h
  cases hd : dispatch { s with output := "" } with
  | error f =>
    rw [hd] at h
    cases h
    exact dispatch_noFuel _ hd
  | ok d =>
    rw [hd] at h
    cases h

theorem mainStep_forward (s s1 : State) (h : mainStep s = .ok s1) : s.cur_pos < s1.cur_pos := by
  obtain ⟨d, k, closers, hd, hs1, _⟩ := mainStep_parts s s1 h
  obtain ⟨_, hlt, _⟩ := dispatch_change _ d hd
  obtain ⟨lines, hl⟩ := emitLine_shape d (byteAt s s.cur_pos) (num_block_stack s)
  rw [hs1, hl]
  exact hlt

theorem mainLoop_noFuel (endPos : Nat) : ∀ (fuel : Nat) (s : State),
    max 1 (endPos - s.cur_pos) ≤ fuel → mainLoop endPos fuel s ≠ .error .outOfFuel := by
  intro fuel
  induction fuel with
  | zero => intro s h; omega
  | succ f ih =>
    intro s hb h
    rw [mainLoop] at h
    cases hm : mainStep s with
    | error e =>
      rw [hm] at h
      cases h
      exact mainStep_noFuel _ hm
    | ok d =>
      rw [hm] at h
      simp only at h
      have hf := mainStep_forward s d hm
      by_cases hc : d.cur_pos < endPos
      · rw [if_pos hc] at h
        exact ih d (by omega) h
      · rw [if_neg hc] at h
        cases h

theorem mainLoop_fuel (endPos : Nat) : ∀ (fuel fuel2 : Nat) (s : State),
    max 1 (endPos - s.cur_pos) ≤ fuel → max 1 (endPos - s.cur_pos) ≤ fuel2 →
    mainLoop endPos fuel s = mainLoop endPos fuel2 s := by
  intro fuel
  induction fuel with
  | zero => intro fuel2 s h; omega
  | succ f ih =>
    intro fuel2 s hb hb2
    cases fuel2 with
    | zero => omega
    | succ f2 =>
      rw [mainLoop, mainLoop]
      cases hm : mainStep s with
      | error e => rfl
      | ok d =>
        simp only
        have hf := mainStep_forward s d hm
        by_cases hc : d.cur_pos < endPos
        · rw [if_pos hc, if_pos hc]
          exact ih f2 d (by omega) (by omega)
        · rw [if_neg hc, if_neg hc]

theorem mainLoopPasses_le (endPos : Nat) : ∀ (fuel : Nat) (s : State),
    mainLoopPasses endPos fuel s ≤ max 1 (endPos - s.cur_pos) := by
  intro fuel
  induction fuel with
  | zero => intro s; rw [mainLoopPasses]; omega
  | succ f ih =>
    intro s
    rw [mainLoopPasses]
    cases hm : mainStep s with
    | error e => simp only; omega
    | ok d =>
      simp only
      have hf := mainStep_forward s d hm
      by_cases hc : d.cur_pos < endPos
      · rw [if_pos hc]
        have := ih d
        omega
      · rw [if_neg hc]
        omega

theorem decompile_noFuel (file junk : List Nat) (s : State) :
    decompile file junk s ≠ .error .outOfFuel := by
  intro h
  unfold decompile at h
  simp only at h
  split at h
  · rename_i f hh
    cases h
    repeat' (split at hh)
    all_goals cases hh
  · rename_i mem s2 hh
    split at h
    · rename_i f hl
      cases h
      exact mainLoop_noFuel _ _ _ (by
        show max 1 ((file.take 65536).length - mem) ≤ (file.take 65536).length - mem + 1
        omega) hl
    · cases h

/-- C34: every opcode that is dispatched and returns has moved the cursor forward by at
least one byte (no handler, the jump handlers included, moves it backwards), and so has
every pass of the loop of `main`; no pass ends in a loop of the embedding that ran out of
fuel.  Hence from a cursor with len bytes in front of the end the loop makes at most
max(1, len) passes: with that much fuel or more `mainLoop` does not run out of fuel and its
result does not depend on the fuel, and the run of `decompile`, which passes len + 1, ends
with `END` printed or with an abort of the program, never for lack of fuel. -/
theorem C34_driver_terminates :
    (∀ s d : State, dispatch s = .ok d → s.cur_pos + 1 ≤ d.cur_pos)
    ∧ (∀ s d : State, mainStep s = .ok d → s.cur_pos + 1 ≤ d.cur_pos)
    ∧ (∀ s : State, mainStep s ≠ .error .outOfFuel)
    ∧ (∀ (endPos fuel : Nat) (s : State),
        mainLoopPasses endPos fuel s ≤ max 1 (endPos - s.cur_pos))
    ∧ (∀ (endPos fuel : Nat) (s : State), max 1 (endPos - s.cur_pos) ≤ fuel →
        mainLoop endPos fuel s ≠ .error .outOfFuel
        ∧ mainLoop endPos fuel s = mainLoop endPos (max 1 (endPos - s.cur_pos)) s)
    ∧ (∀ (file junk : List Nat) (s : State), decompile file junk s ≠ .error .outOfFuel) :=
  ⟨fun s d h => (dispatch_change s d h).2.1,
   fun s d h => mainStep_forward s d h,
   mainStep_noFuel,
   fun endPos fuel s => mainLoopPasses_le endPos fuel s,
   fun endPos fuel s h => ⟨mainLoop_noFuel endPos fuel s h,
     mainLoop_fuel endPos fuel _ s h (Nat.le_refl _)⟩,
   decompile_noFuel⟩

/-- C34, instances: the v6 opcode 0x00 with its operand byte moves the cursor from 0 to 2.
On the body 00 07 43 00 00 (5 bytes) the loop makes 2 passes, and `mainLoop` returns with 5
units of fuel as it does with 6. -/
theorem C34_driver_terminates_witness :
    ({ mem := [0x00, 0x07] } : State).cur_pos + 1
      ≤ ({ mem := [0x00, 0x07], cur_pos := 2, stack := [.seInt 7] } : State).cur_pos
    ∧ mainLoopPasses 13 6 pushStoreRun = 2
    ∧ mainLoopPasses 13 6 pushStoreRun ≤ max 1 (13 - pushStoreRun.cur_pos)
    ∧ mainLoop 13 6 pushStoreRun ≠ .error .outOfFuel
    ∧ mainLoop 13 6 pushStoreRun = mainLoop 13 (max 1 (13 - pushStoreRun.cur_pos)) pushStoreRun
    ∧ (mainLoop 13 6 pushStoreRun).toOption.map (fun s => (s.cur_pos, s.stdout))
      = some (13, ["var0 = 7"]) :=
  ⟨C34_driver_terminates.1 { mem := [0x00, 0x07] }
      { mem := [0x00, 0x07], cur_pos := 2, stack := [.seInt 7] } rfl,
   by decide,
   C34_driver_terminates.2.2.2.1 13 6 pushStoreRun,
   (C34_driver_terminates.2.2.2.2.1 13 6 pushStoreRun (by decide)).1,
   (C34_driver_terminates.2.2.2.2.1 13 6 pushStoreRun (by decide)).2,
   by decide⟩

/-- The v8 opcode 0x76 with a sub-opcode byte that has no case in its inner `switch`: the
byte is read and nothing else happens. -/
theorem next_line_V8_switch_0x76_unlisted (s : State) (h14 : byteAt s s.cur_pos ≠ 0x14)
    (h15 : byteAt s s.cur_pos ≠ 0x15) (h16 : byteAt s s.cur_pos ≠ 0x16) :
    next_line_V8_switch 0x76 s = .ok { s with cur_pos := s.cur_pos + 1 } := by
  unfold next_line_V8_switch
  dsimp only
  simp only [get_byte]

set_option maxRecDepth 8192 in
/-- C35: the v8 opcode 0x76 followed by a sub-opcode byte other than 0x14, 0x15 and 0x16
returns: it does not end in `invalidop`, the cursor moves behind the two bytes, and every
other global is as before, so the line buffer is not written and the evaluation stack and
the block stack are unchanged; a pass of the driver over the two bytes prints no statement
line.  In every `x` menu of `next_line_V8`, in contrast, a sub-opcode byte that leads no
entry ends the run through `invalidop` with exit status 1. -/
theorem C35_silent_unknown_subopcode :
    (∀ s : State, byteAt s s.cur_pos = 0x76 →
      byteAt s (s.cur_pos + 1) ∉ [0x14, 0x15, 0x16] →
      next_line_V8 s = .ok { s with cur_pos := s.cur_pos + 2 }
      ∧ (s.scriptVersion = 8 →
          mainStep s = .ok (closeBlocks (num_block_stack s + 1)
            { s with output := "", cur_pos := s.cur_pos + 2 })))
    ∧ (∀ row ∈ xMenus8, ∀ s : State, byteAt s s.cur_pos = row.1 →
      byteAt s (s.cur_pos + 1) ∉ row.2.2 →
      next_line_V8 s = .error (.exit 1 (s.stdout ++ ["invalid opcode " ++ row.2.1 ++ ":0x"
        ++ fmt_x (byteAt s (s.cur_pos + 1)) ++ " (stack count " ++ fmt_d (num_stack s)
        ++ ")"]))) := by
  have key : ∀ s : State, byteAt s s.cur_pos = 0x76 →
      byteAt s (s.cur_pos + 1) ∉ [0x14, 0x15, 0x16] →
      next_line_V8 s = .ok { s with cur_pos := s.cur_pos + 2 } := by
    intro s hop hb
    simp only [List.mem_cons, List.mem_singleton, List.not_mem_nil, or_false, not_or] at hb
    rw [next_line_V8_eq, hop]
    exact next_line_V8_switch_0x76_unlisted { s with cur_pos := s.cur_pos + 1 }
      hb.1 hb.2.1 hb.2.2
  refine ⟨fun s hop hb => ⟨key s hop hb, fun hv => ?_⟩, ?_⟩
  · rw [mainStep_eq]
    have hd : dispatch { s with output := "" }
        = .ok { s with output := "", cur_pos := s.cur_pos + 2 } := by
      unfold dispatch
      rw [if_pos (show ({ s with output := "" } : State).scriptVersion = 8 from hv)]
      exact key { s with output := "" } hop hb
    rw [hd]
    simp only
    rw [emitLine_silent _ _ _ rfl]
    rfl
  · exact xMenus8_invalidop

set_option maxRecDepth 100000 in
/-- C35, instances: the v8 bytes 76 00 are passed over with the cursor moved by two and no
other change; the v8 body 76 00 01 07 00 00 00 6D 00 00 00 00 (the two bytes, push 7, store
into variable 0) prints the assignment only; the v8 bytes 70 2C (menu `dim`, no entry 0x2C)
end the run with the diagnostic of the menu. -/
theorem C35_silent_unknown_subopcode_witness :
    next_line_V8 { mem := [0x76, 0x00], scriptVersion := 8, stack := [.seInt 7] }
      = .ok { mem := [0x76, 0x00], scriptVersion := 8, stack := [.seInt 7], cur_pos := 2 }
    ∧ ((decompile (scrpFile [0x76, 0x00, 0x01, 0x07, 0x00, 0x00, 0x00, 0x6D, 0x00, 0x00,
          0x00, 0x00]) [] plainFlags8).toOption.map (fun s => s.stdout))
      = some ["var0 = 7", "END", "Stack count: 0"]
    ∧ next_line_V8 { mem := [0x70, 0x2C], scriptVersion := 8 }
      = .error (.exit 1 ["invalid opcode dim:0x2c (stack count 0)"]) :=
  ⟨(C35_silent_unknown_subopcode.1
      { mem := [0x76, 0x00], scriptVersion := 8, stack := [.seInt 7] } rfl (by decide)).1,
   by decide,
   (C35_silent_unknown_subopcode.2 (0x70, "dim", [0x0A, 0x0B, 0xCA]) (by decide)
      { mem := [0x70, 0x2C], scriptVersion := 8 } rfl (by decide)).trans rfl⟩

/-! The driver between its passes -/

/-- What `outputLine` prints for a text that is not empty, with the defaults that `-1`
selects for the offset and the indentation. -/
theorem outputLine_gen (buf : String) (curoffs opcode indent : Int) (s : State)
    (hbuf : buf ≠ "") :
    outputLine buf curoffs opcode indent s =
      printLine (linePrefix s (if curoffs = -1 then get_curoffs s else curoffs) opcode
        ++ getIndentString (if indent = -1 then (num_block_stack s : Int) else indent)
        ++ buf) s := by
  unfold outputLine linePrefix
  simp only [hbuf, ne_eq, not_false_eq_true, if_true]
  cases s.dontShowOpcode <;> cases s.dontShowOffsets <;> simp [String.append_assoc]

/-- The three kinds of opcode: the conditional jumps, the unconditional jump, and all the
others, which leave the block reconstruction alone. -/
theorem dispatch_kinds (s d : State) (h : dispatch s = .ok d) :
    (byteAt s s.cur_pos ∉ condJumps s.scriptVersion
      ∧ byteAt s s.cur_pos ≠ jumpOpcodeOf s.scriptVersion
      ∧ Upd { s with cur_pos := s.cur_pos + 1 } d)
    ∨ (byteAt s s.cur_pos = jumpOpcodeOf s.scriptVersion
      ∧ jump { s with cur_pos := s.cur_pos + 1 } = .ok d)
    ∨ (byteAt s s.cur_pos ∈ condJumps s.scriptVersion
      ∧ ∃ when se s1, pop { s with cur_pos := s.cur_pos + 1 } = .ok (se, s1)
          ∧ jumpif se when s1 = .ok d) := by
  unfold dispatch at h
  by_cases hv : s.scriptVersion = 8
  · rw [if_pos hv, next_line_V8_eq] at h
    have hcj : condJumps s.scriptVersion = [0x64, 0x65] := by simp [condJumps, hv]
    have hjo : jumpOpcodeOf s.scriptVersion = 0x66 := by simp [jumpOpcodeOf, hv]
    rw [hcj, hjo]
    by_cases hop : byteAt s s.cur_pos ∈ [0x64, 0x65, 0x66]
    · simp only [List.mem_cons, List.mem_singleton, List.not_mem_nil, or_false] at hop
      rcases hop with hop | hop | hop
      · rw [hop, next_line_V8_switch_jumpif_true] at h
        cases hp : pop { s with cur_pos := s.cur_pos + 1 } with
        | error f => rw [hp] at h; cases h
        | ok r =>
          obtain ⟨se, s1⟩ := r
          rw [hp] at h
          exact Or.inr (Or.inr ⟨by rw [hop]; decide, true, se, s1, rfl, h⟩)
      · rw [hop, next_line_V8_switch_jumpif_false] at h
        cases hp : pop { s with cur_pos := s.cur_pos + 1 } with
        | error f => rw [hp] at h; cases h
        | ok r =>
          obtain ⟨se, s1⟩ := r
          rw [hp] at h
          exact Or.inr (Or.inr ⟨by rw [hop]; decide, false, se, s1, rfl, h⟩)
      · rw [hop, next_line_V8_switch_jump] at h
        exact Or.inr (Or.inl ⟨hop, h⟩)
    · have hU := next_line_V8_switch_upd _ _ d hop h
      simp only [List.mem_cons, List.mem_singleton, List.not_mem_nil, or_false, not_or] at hop
      refine Or.inl ⟨?_, hop.2.2, hU⟩
      simp only [List.mem_cons, List.mem_singleton, List.not_mem_nil, or_false, not_or]
      exact ⟨hop.1, hop.2.1⟩
  · rw [if_neg hv, next_line_eq] at h
    have hcj : condJumps s.scriptVersion = [0x5C, 0x5D] := by simp [condJumps, hv]
    have hjo : jumpOpcodeOf s.scriptVersion = 0x73 := by simp [jumpOpcodeOf, hv]
    rw [hcj, hjo]
    by_cases hop : byteAt s s.cur_pos ∈ [0x5C, 0x5D, 0x73]
    · simp only [List.mem_cons, List.mem_singleton, List.not_mem_nil, or_false] at hop
      rcases hop with hop | hop | hop
      · rw [hop, next_line_switch_jumpif_true] at h
        cases hp : pop { s with cur_pos := s.cur_pos + 1 } with
        | error f => rw [hp] at h; cases h
        | ok r =>
          obtain ⟨se, s1⟩ := r
          rw [hp] at h
          exact Or.inr (Or.inr ⟨by rw [hop]; decide, true, se, s1, rfl, h⟩)
      · rw [hop, next_line_switch_jumpif_false] at h
        cases hp : pop { s with cur_pos := s.cur_pos + 1 } with
        | error f => rw [hp] at h; cases h
        | ok r =>
          obtain ⟨se, s1⟩ := r
          rw [hp] at h
          exact Or.inr (Or.inr ⟨by rw [hop]; decide, false, se, s1, rfl, h⟩)
      · rw [hop, next_line_switch_jump] at h
        exact Or.inr (Or.inl ⟨hop, h⟩)
    · have hU := next_line_switch_upd _ _ d hop h
      simp only [List.mem_cons, List.mem_singleton, List.not_mem_nil, or_false, not_or] at hop
      refine Or.inl ⟨?_, hop.2.2, hU⟩
      simp only [List.mem_cons, List.mem_singleton, List.not_mem_nil, or_false, not_or]
      exact ⟨hop.1, hop.2.1⟩

/-- When `jump` changes the block reconstruction, the top frame ends at the offset behind
the jump, the target of the jump lies beyond that offset, and the line buffer is left as
it was. -/
theorem jump_blocks (s d : State) (h : jump s = .ok d) :
    d.blocks = s.blocks
    ∨ (d.output = s.output ∧ d.haveElse = s.haveElse ∧ d.pendingElse = true
        ∧ ∃ p rest, s.block_stack = p :: rest ∧ p.to_ = toU32 (get_curoffs d)) := by
  obtain ⟨k, hk2, hk⟩ := get_signed_word_snd s
  unfold jump at h
  cases hg : get_signed_word s with
  | mk off s1 =>
    rw [hg] at h hk
    simp only at h hk
    cases hm : (if (!s1.dontOutputElse) = true
        then maybeAddElse (toU32 (get_curoffs s1)) (toU32 (get_curoffs s1 + off)) s1
        else .ok (false, s1)) with
    | error f => rw [hm] at h; cases h
    | ok r =>
      obtain ⟨b, s2⟩ := r
      rw [hm] at h
      have hc : (b = false ∧ s2 = s1)
          ∨ (b = true ∧ ∃ p rest w, s1.block_stack = p :: rest
              ∧ p.to_ = toU32 (get_curoffs s1)
              ∧ s2 = { s1 with block_stack :=
                  { isWhile := w, from_ := toU32 (get_curoffs s1) % 65536,
                    to_ := toU32 (get_curoffs s1 + off) } :: rest }) := by
        by_cases hd : (!s1.dontOutputElse) = true
        · rw [if_pos hd] at hm
          rcases maybeAddElse_cases _ _ _ _ _ hm with h1 | ⟨hb, _, _, p, rest, w, h2, hp, _, h4⟩
          · exact Or.inl h1
          · exact Or.inr ⟨hb, p, rest, w, h2, hp, h4⟩
        · rw [if_neg hd] at hm
          simp only [Except.ok.injEq, Prod.mk.injEq] at hm
          exact Or.inl ⟨hm.1.symm, hm.2.symm⟩
      rcases hc with ⟨hb, hs2⟩ | ⟨hb, p, rest, w, h2, hp, h4⟩
      · subst hb hs2
        simp only at h
        left
        split at h
        · split at h
          · simp only [Except.ok.injEq] at h
            rw [← h, hk]; rfl
          · simp only [Except.ok.injEq] at h
            rw [← h, hk]; rfl
        · simp only [Except.ok.injEq] at h
          rw [← h, hk]; rfl
      · subst hb
        simp only [Except.ok.injEq] at h
        right
        rw [hk] at h2
        refine ⟨?_, ?_, ?_, p, rest, h2, ?_⟩
        · rw [← h, h4, hk]
        · rw [← h, h4, hk]
        · rw [← h]
        · rw [hp, ← h, h4]; rfl

/-- A frame is pushed only while fewer than 256 frames are open. -/
theorem maybeAddIf_depth (cur to_ : Nat) (s s1 : State) (b : Bool)
    (h : maybeAddIf cur to_ s = .ok (b, s1)) (hl : s.block_stack.length ≤ 256) :
    s1.block_stack.length ≤ 256 := by
  unfold maybeAddIf at h
  by_cases h1 : (to_ ||| cur) >>> 16 ≠ 0 ∨ to_ ≤ cur
  · rw [if_pos h1] at h
    simp only [Except.ok.injEq, Prod.mk.injEq] at h
    rw [← h.2]; exact hl
  · rw [if_neg h1] at h
    by_cases h2 : s.block_stack.any (fun p => decide (to_ > p.to_)) = true
    · rw [if_pos h2] at h
      simp only [Except.ok.injEq, Prod.mk.injEq] at h
      rw [← h.2]; exact hl
    · rw [if_neg h2] at h
      simp only [pushBlockStackItem] at h
      by_cases h3 : num_block_stack s ≥ 256
      · rw [if_pos h3] at h
        simp at h
      · rw [if_neg h3] at h
        simp only [Except.ok.injEq, Prod.mk.injEq] at h
        rw [← h.2]
        simp only [num_block_stack] at h3
        simp only [List.length_cons]
        omega

theorem jumpif_depth (se : StackEnt) (when : Bool) (s d : State)
    (h : jumpif se when s = .ok d) (hl : s.block_stack.length ≤ 256) :
    d.block_stack.length ≤ 256 := by
  obtain ⟨k, _, hk⟩ := get_signed_word_snd s
  unfold jumpif at h
  cases hg : get_signed_word s with
  | mk off s1 =>
    rw [hg] at h hk
    simp only at h hk
    have hl1 : s1.block_stack.length ≤ 256 := by rw [hk]; exact hl
    have htry : ∀ r, r = (if (!s1.dontOutputElseif) = true ∧ s1.pendingElse = true then
          maybeAddElseIf (toU32 (get_curoffs s1)) (toU32 s1.pendingElseTo)
            (toU32 (get_curoffs s1 + off)) s1
        else (false, s1)) → r.2.block_stack.length ≤ 256 ∧ (r.1 = false → r.2 = s1) := by
      intro r hr
      by_cases hc : (!s1.dontOutputElseif) = true ∧ s1.pendingElse = true
      · rw [if_pos hc] at hr
        rcases maybeAddElseIf_cases (toU32 (get_curoffs s1)) (toU32 s1.pendingElseTo)
            (toU32 (get_curoffs s1 + off)) s1 with he | ⟨_, p, rest, hbs, he⟩
        · rw [hr, he]; exact ⟨hl1, fun _ => rfl⟩
        · rw [hr, he]
          refine ⟨?_, fun hf => by cases hf⟩
          rw [hbs] at hl1
          exact hl1
      · rw [if_neg hc] at hr
        rw [hr]; exact ⟨hl1, fun _ => rfl⟩
    cases hr : (if (!s1.dontOutputElseif) = true ∧ s1.pendingElse = true then
          maybeAddElseIf (toU32 (get_curoffs s1)) (toU32 s1.pendingElseTo)
            (toU32 (get_curoffs s1 + off)) s1
        else (false, s1)) with
    | mk b s2 =>
      obtain ⟨hl2, hs2⟩ := htry (b, s2) hr.symm
      rw [hr] at h
      cases b with
      | true =>
        simp only [Except.ok.injEq] at h
        rw [← h]; exact hl2
      | false =>
        have hs2 : s2 = s1 := hs2 rfl
        subst hs2
        simp only at h
        cases hmi : (if (!s2.dontOutputIfs) = true then
            maybeAddIf (toU32 (get_curoffs s2)) (toU32 (get_curoffs s2 + off)) s2
          else .ok (false, s2)) with
        | error f => rw [hmi] at h; cases h
        | ok r =>
          obtain ⟨b2, s4⟩ := r
          rw [hmi] at h
          have hl4 : s4.block_stack.length ≤ 256 := by
            by_cases hd : (!s2.dontOutputIfs) = true
            · rw [if_pos hd] at hmi
              exact maybeAddIf_depth _ _ _ _ _ hmi hl1
            · rw [if_neg hd] at hmi
              simp only [Except.ok.injEq, Prod.mk.injEq] at hmi
              rw [← hmi.2]; exact hl1
          cases b2 with
          | true =>
            simp only [Except.ok.injEq] at h
            rw [← h]; exact hl4
          | false =>
            simp only [Except.ok.injEq] at h
            rw [← h]; exact hl4

/-- No call of the dispatcher leaves more than 256 frames open. -/
theorem dispatch_depth256 (s d : State) (h : dispatch s = .ok d)
    (hl : s.block_stack.length ≤ 256) : d.block_stack.length ≤ 256 := by
  rcases dispatch_kinds s d h with ⟨_, _, hU⟩ | ⟨_, hj⟩ | ⟨_, when, se, s1, hp, hj⟩
  · obtain ⟨b1, _⟩ := blocks_eq _ d hU.2
    rw [b1]; exact hl
  · obtain ⟨k, _, hc⟩ := jump_cases _ d hj
    rcases hc with ⟨out, hd⟩ | ⟨p, rest, new, T, hbs, _, _, hd⟩
    · rw [hd]; exact hl
    · have hbs : s.block_stack = p :: rest := hbs
      rw [hd]
      rw [hbs] at hl
      exact hl
  · have hU : Upd { s with cur_pos := s.cur_pos + 1 } s1 := Upd_pop hp (Upd_refl _)
    obtain ⟨b1, _⟩ := blocks_eq _ s1 hU.2
    exact jumpif_depth se when s1 d hj (by rw [b1]; exact hl)

/-- A call of the dispatcher that leaves the line buffer empty does not set the else-if
flag. -/
theorem dispatch_haveElse (s d : State) (h : dispatch s = .ok d)
    (hout : d.output = "") : d.haveElse = s.haveElse := by
  rcases dispatch_kinds s d h with ⟨_, _, hU⟩ | ⟨_, hj⟩ | ⟨_, when, se, s1, hp, hj⟩
  · obtain ⟨_, _, b3, _⟩ := blocks_eq _ d hU.2
    exact b3
  · rcases jump_blocks _ d hj with hb | ⟨_, hh, _⟩
    · obtain ⟨_, _, b3, _⟩ := blocks_eq _ d hb
      exact b3
    · exact hh
  · exact absurd hout (jumpif_change se when s1 d hj).2.2.2.1

/-- A pass of the driver keeps the offsets of the line start and of a pending else in
order. -/
theorem mainStep_offsets (s s1 : State) (hinv : OffsetsOrdered s) (h : mainStep s = .ok s1) :
    OffsetsOrdered s1 := by
  obtain ⟨hi0, hi1, hi2⟩ := hinv
  obtain ⟨d, k, closers, hd, hs1, _, _, hcl, _⟩ := mainStep_parts s s1 h
  obtain ⟨hfix, hcur, ⟨diag, hdiag⟩, hbc⟩ := dispatch_change _ d hd
  simp only [State.fixed, Prod.mk.injEq] at hfix
  obtain ⟨_, _, horg, hol, _⟩ := hfix
  have horg : d.org_pos = s.org_pos := horg
  have hol : d.offs_of_line = s.offs_of_line := hol
  have hcur : s.cur_pos < d.cur_pos := hcur
  have hcd : get_curoffs s < get_curoffs d := by
    simp only [get_curoffs, horg]; omega
  by_cases hne : d.output ≠ ""
  · obtain ⟨lines, hE⟩ := emitLine_shape d (byteAt s s.cur_pos) (num_block_stack s)
    rw [hE] at hs1
    have hc1 : get_curoffs s1 = get_curoffs d := by rw [hs1]; rfl
    have ho1 : s1.offs_of_line = get_curoffs d := by rw [hs1]; simp [hne]
    have hp1 : s1.pendingElse = false := by rw [hs1]; simp [hne]
    exact ⟨by omega, by omega, fun hp => by rw [hp1] at hp; cases hp⟩
  · have he : d.output = "" := by simpa using hne
    rw [emitLine_silent d _ _ he] at hs1
    have hc1 : get_curoffs s1 = get_curoffs d := by rw [hs1]; rfl
    have ho1 : s1.offs_of_line = s.offs_of_line := by rw [hs1]; exact hol
    refine ⟨by omega, by omega, ?_⟩
    intro hp
    have hp : d.pendingElse = true := by rw [hs1] at hp; exact hp
    have hpo : s1.pendingElseOffs = d.pendingElseOffs := by rw [hs1]
    rw [hpo, ho1, hc1]
    rcases hbc with hb | ⟨_, _, c3, c4, _⟩ | ⟨c, _⟩ | ⟨c, _⟩
    · obtain ⟨_, b2, _, _, b5, _, _⟩ := blocks_eq _ d hb
      have b2 : d.pendingElse = s.pendingElse := b2
      have b5 : d.pendingElseOffs = s.pendingElseOffs := b5
      have := hi2 (by rw [← b2]; exact hp)
      omega
    · have c4 : s.cur_pos + 1 + 2 ≤ d.cur_pos := c4
      simp only [get_curoffs, horg] at c3 hi1 ⊢
      omega
    · exact absurd he c
    · exact absurd he c

/-- A pass of the driver leaves the configuration as it is and moves the cursor forward. -/
theorem mainStep_config (s s1 : State) (h : mainStep s = .ok s1) :
    s1.config = s.config ∧ s.cur_pos < s1.cur_pos := by
  obtain ⟨d, k, closers, hd, hs1, _⟩ := mainStep_parts s s1 h
  obtain ⟨hfix, hcur, _, _⟩ := dispatch_change _ d hd
  obtain ⟨lines, hE⟩ := emitLine_shape d (byteAt s s.cur_pos) (num_block_stack s)
  rw [hE] at hs1
  simp only [State.fixed, Prod.mk.injEq] at hfix
  obtain ⟨f1, f2, f3, f4, f5, f6, f7, f8, f9, f10, f11, f12, f13⟩ := hfix
  have hcur : s.cur_pos < d.cur_pos := hcur
  refine ⟨?_, by rw [hs1]; exact hcur⟩
  rw [hs1]
  simp only [State.config, Prod.mk.injEq]
  exact ⟨f1, f2, f3, f5, f6, f7, f8, f9, f10, f11, f12, f13⟩

theorem config_eq (s s1 : State) (h : s1.config = s.config) :
    s1.g_jump_opcode = s.g_jump_opcode ∧ s1.mem = s.mem ∧ s1.org_pos = s.org_pos
    ∧ s1.alwaysShowOffs = s.alwaysShowOffs ∧ s1.dontOutputIfs = s.dontOutputIfs
    ∧ s1.dontOutputElse = s.dontOutputElse ∧ s1.dontOutputElseif = s.dontOutputElseif
    ∧ s1.dontOutputWhile = s.dontOutputWhile ∧ s1.dontShowOpcode = s.dontShowOpcode
    ∧ s1.dontShowOffsets = s.dontShowOffsets ∧ s1.haltOnError = s.haltOnError
    ∧ s1.scriptVersion = s.scriptVersion := by
  simp only [State.config, Prod.mk.injEq] at h
  exact h

theorem linePrefix_config (s d : State) (h : d.config = s.config) :
    linePrefix d = linePrefix s := by
  obtain ⟨_, _, _, _, _, _, _, _, h9, h10, _, _⟩ := config_eq s d h
  funext c o
  unfold linePrefix
  rw [h9, h10]

theorem dispatch_config (s d : State) (h : dispatch s = .ok d) : d.config = s.config := by
  obtain ⟨hfix, _⟩ := dispatch_change s d h
  simp only [State.fixed, Prod.mk.injEq] at hfix
  obtain ⟨f1, f2, f3, f4, f5, f6, f7, f8, f9, f10, f11, f12, f13⟩ := hfix
  simp only [State.config, Prod.mk.injEq]
  exact ⟨f1, f2, f3, f5, f6, f7, f8, f9, f10, f11, f12, f13⟩

theorem passes_config (a b : State) (h : Passes a b) :
    b.config = a.config ∧ a.cur_pos ≤ b.cur_pos := by
  induction h with
  | refl s => exact ⟨rfl, Nat.le_refl _⟩
  | step s s1 t hstep _ ih =>
    obtain ⟨h1, h2⟩ := mainStep_config s s1 hstep
    exact ⟨ih.1.trans h1, by omega⟩

theorem quietPasses_passes (a b : State) (h : QuietPasses a b) : Passes a b := by
  induction h with
  | refl s => exact Passes.refl s
  | step s d s1 t _ _ hstep _ ih => exact Passes.step s s1 t hstep ih

theorem passes_driverState (a b : State) (h : Passes a b) (ha : DriverState a) :
    DriverState b := by
  induction h with
  | refl s => exact ha
  | step s s1 t hstep _ ih => exact ih (DriverState.pass s s1 ha hstep)

/-- What holds of every state at the head of the loop of `main`: the else-if flag is not
set, the offsets are in order, at most 256 frames are open and the frames are nested. -/
theorem driverState_inv (s : State) (h : DriverState s) :
    s.haveElse = false ∧ OffsetsOrdered s ∧ s.block_stack.length ≤ 256 ∧ BlocksNested s := by
  induction h with
  | start s h1 h2 h3 h4 h5 =>
    refine ⟨h5, ⟨by omega, ?_, fun hp => ?_⟩, by rw [h3]; simp, ?_, fun hp => ?_⟩
    · simp only [get_curoffs, h1, h2]; omega
    · rw [h4] at hp; cases hp
    · rw [h3]; exact List.Pairwise.nil
    · rw [h4] at hp; cases hp
  | pass s s1 _ hstep ih =>
    obtain ⟨ih1, ih2, ih3, ih4⟩ := ih
    refine ⟨?_, mainStep_offsets s s1 ih2 hstep, ?_, (mainStep_nested s s1 ih4 hstep).1⟩
    · obtain ⟨d, k, closers, hd, hs1, _⟩ := mainStep_parts s s1 hstep
      obtain ⟨lines, hE⟩ := emitLine_shape d (byteAt s s.cur_pos) (num_block_stack s)
      rw [hE] at hs1
      by_cases hne : d.output ≠ ""
      · rw [hs1]; simp [hne]
      · have he : d.output = "" := by simpa using hne
        have := dispatch_haveElse _ d hd he
        rw [hs1]
        simp only [he, ne_eq, not_true_eq_false, if_false]
        exact this.trans ih1
    · obtain ⟨d, k, closers, hd, hs1, _⟩ := mainStep_parts s s1 hstep
      obtain ⟨lines, hE⟩ := emitLine_shape d (byteAt s s.cur_pos) (num_block_stack s)
      rw [hE] at hs1
      have hdl := dispatch_depth256 _ d hd ih3
      rw [hs1]
      simp only [List.length_drop]
      omega

theorem toInt16_toU32_toInt16 (n : Nat) : toInt16 (toU32 (toInt16 n)) = toInt16 n := by
  unfold toU32 toInt16
  split <;> split <;> omega

theorem byteAtInt_natCast (s : State) (n : Nat) : byteAtInt s (n : Int) = byteAt s n := by
  unfold byteAtInt byteAt
  rw [if_neg (by omega)]
  rfl

/-- The displacement that `get_signed_word` reads is the word at the offset of the cursor. -/
theorem get_signed_word_at (s : State) :
    (get_signed_word s).1
      = (if s.scriptVersion = 8 then int32At s (get_curoffs s) else int16At s (get_curoffs s)) := by
  have e0 : (s.org_pos : Int) + get_curoffs s = (s.cur_pos : Nat) := by
    simp only [get_curoffs]; omega
  have e1 : (s.org_pos : Int) + get_curoffs s + 1 = ((s.cur_pos + 1 : Nat) : Int) := by
    simp only [get_curoffs]; omega
  have e2 : (s.org_pos : Int) + get_curoffs s + 2 = ((s.cur_pos + 2 : Nat) : Int) := by
    simp only [get_curoffs]; omega
  have e3 : (s.org_pos : Int) + get_curoffs s + 3 = ((s.cur_pos + 3 : Nat) : Int) := by
    simp only [get_curoffs]; omega
  by_cases hv : s.scriptVersion = 8
  · rw [if_pos hv]
    unfold get_signed_word get_word int32At
    rw [e3, e2, e1, e0]
    simp only [byteAtInt_natCast, hv, if_true]
  · rw [if_neg hv]
    unfold get_signed_word get_word int16At
    rw [e1, e0]
    simp only [byteAtInt_natCast, hv, if_false, toInt16_toU32_toInt16]

theorem get_signed_word_output (s : State) (o : String) :
    get_signed_word { s with output := o }
      = ((get_signed_word s).1, { (get_signed_word s).2 with output := o }) := by
  unfold get_signed_word get_word
  by_cases hv : s.scriptVersion = 8
  · simp only [hv, if_true]; rfl
  · simp only [hv, if_false]; rfl

theorem get_signed_word_stack (s : State) (st : List StackEnt) :
    get_signed_word { s with stack := st }
      = ((get_signed_word s).1, { (get_signed_word s).2 with stack := st }) := by
  unfold get_signed_word get_word
  by_cases hv : s.scriptVersion = 8
  · simp only [hv, if_true]; rfl
  · simp only [hv, if_false]; rfl

/-- The state behind the displacement of the jump instruction at the cursor. -/
theorem get_signed_word_jump (s : State) :
    (get_signed_word { s with cur_pos := s.cur_pos + 1 }).2
      = { s with cur_pos := s.cur_pos + jumpLength s.scriptVersion } := by
  unfold get_signed_word get_word jumpLength
  by_cases hv : s.scriptVersion = 8
  · simp only [hv, if_true]
  · simp only [hv, if_false]

theorem jumpEnd_eq (s : State) : jumpEnd s = get_curoffs s + jumpLength s.scriptVersion := by
  unfold jumpEnd
  rw [get_signed_word_jump]
  simp only [get_curoffs]
  omega

/-- What `get_signed_word` returns for the jump instruction at the cursor, in the state in
which the dispatcher calls `jump`. -/
theorem get_signed_word_dispatch (s : State) :
    get_signed_word { s with output := "", cur_pos := s.cur_pos + 1 }
      = (jumpDisplacement s,
          { s with output := "", cur_pos := s.cur_pos + jumpLength s.scriptVersion }) := by
  have h := get_signed_word_output { s with cur_pos := s.cur_pos + 1 } ""
  rw [get_signed_word_jump] at h
  exact h

theorem jumpOpcodeOf_cases (s : State)
    (hop : byteAt s s.cur_pos = jumpOpcodeOf s.scriptVersion) :
    (s.scriptVersion = 8 ∧ byteAt s s.cur_pos = 0x66)
      ∨ (s.scriptVersion ≠ 8 ∧ byteAt s s.cur_pos = 0x73) := by
  by_cases hv : s.scriptVersion = 8
  · left; refine ⟨hv, ?_⟩; rw [hop]; simp [jumpOpcodeOf, hv]
  · right; refine ⟨hv, ?_⟩; rw [hop]; simp [jumpOpcodeOf, hv]

/-- The pass of the driver over an unconditional jump that ends at the end of the top frame
and leads forward to a target inside the enclosing frames: nothing is printed, the top
frame is replaced by one that ends at the target, and the else is left pending. -/
theorem jumpPass_else (s : State) (p : BlockStack) (rest : List BlockStack) (c T : Nat)
    (hop : byteAt s s.cur_pos = jumpOpcodeOf s.scriptVersion)
    (htop : s.block_stack = p :: rest) (hc : jumpEnd s = c) (hp : p.to_ = c)
    (hT : jumpTarget s = T) (hlt : c < T) (h16 : T < 65536)
    (hnest : ∀ f ∈ rest, T ≤ f.to_) (hdepth : rest.length < 256)
    (helse : s.dontOutputElse = false) :
    ∃ w, mainStep s = .ok { s with
        output := "", cur_pos := s.cur_pos + jumpLength s.scriptVersion,
        block_stack := { isWhile := w, from_ := c, to_ := T } :: rest,
        pendingElse := true, pendingElseTo := T, pendingElseOffs := (c : Int) - 1,
        pendingElseOpcode := s.g_jump_opcode, pendingElseIndent := (rest.length + 1 : Nat) } := by
  have hgs := get_signed_word_dispatch s
  have hc1 : get_curoffs
      ({ s with
          output := "", cur_pos := s.cur_pos + jumpLength s.scriptVersion } : State)
      = (c : Int) := by
    rw [← hc, jumpEnd_eq]
    simp only [get_curoffs]
    omega
  have hT1 : (c : Int) + jumpDisplacement s = (T : Int) := by
    rw [← hT, ← hc]; rfl
  have hj := jump_else _ _ (jumpDisplacement s) c T p rest hgs hc1 hT1 hlt h16 htop hp hnest
    hdepth helse
  refine ⟨whileShape
    { s with
      output := "", cur_pos := s.cur_pos + jumpLength s.scriptVersion, block_stack := rest }
    T, ?_⟩
  unfold mainStep
  simp only [dispatch_jump s (jumpOpcodeOf_cases s hop), hj, ne_eq, not_true_eq_false, if_false]
  have hcu : toU32 (c : Int) = c := toU32_natCast_of_lt (by omega)
  rw [closeBlocks_stop _ _ c (by rw [← hcu, ← hc1]; rfl)
    (by intro q hq; simp only [List.head?_cons, Option.some.injEq] at hq; rw [← hq]; exact hlt)]

theorem elseText_ne (s : State) : elseText s ≠ "" := by
  unfold elseText
  split
  · simp only [String.append_assoc]
    exact str_append_ne_empty_left _ _ (by decide)
  · decide

theorem writePendingElse_gen (d : State) (hp : d.pendingElse = true) :
    writePendingElse d = { d with
      pendingElse := false,
      stdout := d.stdout ++ [linePrefix d
          (if d.pendingElseOffs = -1 then get_curoffs d else d.pendingElseOffs)
          d.pendingElseOpcode
        ++ getIndentString (if d.pendingElseIndent - 1 = -1 then (num_block_stack d : Int)
            else d.pendingElseIndent - 1)
        ++ elseText d] } := by
  have hne := elseText_ne d
  unfold elseText at hne
  unfold writePendingElse
  rw [if_pos hp]
  simp only
  rw [outputLine_gen _ _ _ _ _ hne]
  rfl

/-- The lines of a pass whose opcode left text in the line buffer and did not take an
else-if: the else line when an else is pending, and the statement line at the depth the
pass started with. -/
theorem emitLine_stmt (d : State) (opcode : Nat) (j : Int) (hne : d.output ≠ "")
    (hh : d.haveElse = false) (hol : d.offs_of_line ≠ -1) (hj : j ≠ -1) :
    emitLine opcode j d = { d with
      pendingElse := false, haveElse := false, offs_of_line := get_curoffs d,
      stdout := d.stdout
        ++ (if d.pendingElse then
            [linePrefix d (if d.pendingElseOffs = -1 then get_curoffs d else d.pendingElseOffs)
                d.pendingElseOpcode
              ++ getIndentString (if d.pendingElseIndent - 1 = -1 then (num_block_stack d : Int)
                  else d.pendingElseIndent - 1)
              ++ elseText d]
          else [])
        ++ [linePrefix d d.offs_of_line opcode ++ getIndentString j ++ d.output] } := by
  unfold emitLine
  rw [if_pos hne]
  by_cases hp : d.pendingElse = true
  · rw [writePendingElse_gen d hp]
    simp only [hh, Bool.false_eq_true, if_false, hp, if_true]
    rw [outputLine_gen _ _ _ _ _ hne]
    simp only [hol, hj, if_false, printLine]
    rfl
  · have hp : d.pendingElse = false := by simpa using hp
    unfold writePendingElse
    simp only [hh, Bool.false_eq_true, if_false, hp]
    rw [outputLine_gen _ _ _ _ _ hne]
    simp only [hol, hj, if_false, printLine, List.append_nil]
    rfl

/-- The line of a pass whose opcode took an else-if: the header alone, one level less
deep than the pass started. -/
theorem emitLine_elseIf (d : State) (opcode : Nat) (j : Int) (hne : d.output ≠ "")
    (hp : d.pendingElse = false) (hh : d.haveElse = true) (hol : d.offs_of_line ≠ -1)
    (hj : j - 1 ≠ -1) :
    emitLine opcode j d = { d with
      haveElse := false, offs_of_line := get_curoffs d,
      stdout := d.stdout
        ++ [linePrefix d d.offs_of_line opcode ++ getIndentString (j - 1) ++ d.output] } := by
  unfold emitLine
  rw [if_pos hne]
  unfold writePendingElse
  simp only [hh, if_true, hp, Bool.false_eq_true, if_false]
  rw [outputLine_gen _ _ _ _ _ hne]
  simp only [hol, hj, if_false, printLine]
  rfl

theorem toU32_le_of_nonneg {x : Int} (h : 0 ≤ x) : (toU32 x : Int) ≤ x := by
  unfold toU32
  omega

/-- The closing loop at a cursor that has reached the end of the top frame: the frame is
removed and its brace is printed at the depth of the frames beneath; further braces follow
only for frames beneath that end at or in front of the cursor as well. -/
theorem closeBlocks_top (e : State) (E : BlockStack) (rest : List BlockStack)
    (hbs : e.block_stack = E :: rest) (hE : E.to_ ≤ toU32 (get_curoffs e)) :
    ∃ more, closeBlocks (num_block_stack e + 1) e = { e with
        block_stack := rest.drop more.length,
        stdout := e.stdout
          ++ [linePrefix e (get_curoffs e) (-1) ++ getIndentString (rest.length : Nat) ++ "\x7d"]
          ++ more }
      ∧ (∀ l ∈ more, ∃ ind, l = linePrefix e (get_curoffs e) (-1) ++ ind ++ "\x7d")
      ∧ ((∀ q, rest.head? = some q → toU32 (get_curoffs e) < q.to_) → more = []) := by
  have hn : num_block_stack e + 1 = (rest.length + 1) + 1 := by
    simp [num_block_stack, hbs]
  rw [hn, closeBlocks_pop (rest.length + 1) e E rest hbs hE, outputLine_brace]
  obtain ⟨k, closers, hcl, hlen, hk, hform, hhead⟩ := closeBlocks_spec (rest.length + 1)
    (printLine (linePrefix { e with block_stack := rest }
        (get_curoffs { e with block_stack := rest }) (-1)
      ++ getIndentString (num_block_stack { e with block_stack := rest }) ++ "\x7d")
      { e with block_stack := rest }) (by simp [printLine])
  refine ⟨closers, ?_, ?_, ?_⟩
  · rw [hcl, hlen]
    rfl
  · intro l hl
    exact hform l hl
  · intro hq
    have hstop := closeBlocks_stop rest.length
      (printLine (linePrefix { e with block_stack := rest }
          (get_curoffs { e with block_stack := rest }) (-1)
        ++ getIndentString (num_block_stack { e with block_stack := rest }) ++ "\x7d")
        { e with block_stack := rest }) (toU32 (get_curoffs e)) rfl hq
    rw [hstop] at hcl
    have h2 := congrArg State.stdout hcl
    simp only [printLine] at h2
    have h3 : (e.stdout ++ [linePrefix { e with block_stack := rest }
          (get_curoffs { e with block_stack := rest }) (-1)
        ++ getIndentString (num_block_stack { e with block_stack := rest }) ++ "\x7d"]) ++ []
        = (e.stdout ++ [linePrefix { e with block_stack := rest }
          (get_curoffs { e with block_stack := rest }) (-1)
        ++ getIndentString (num_block_stack { e with block_stack := rest }) ++ "\x7d"])
          ++ closers := by
      rw [List.append_nil]; exact h2
    exact (List.append_cancel_left h3).symm

/-- What a call of the dispatcher that leaves text in the line buffer does to the block
reconstruction: nothing; or a conditional jump pushes a frame; or a conditional jump takes
the pending else for an else-if. -/
theorem dispatch_line (s d : State) (h : dispatch s = .ok d) (hq : s.output = "")
    (hne : d.output ≠ "") :
    d.blocks = s.blocks
    ∨ (byteAt s s.cur_pos ∈ condJumps s.scriptVersion
        ∧ d.haveElse = s.haveElse ∧ d.pendingElse = s.pendingElse
        ∧ d.pendingElseTo = s.pendingElseTo ∧ d.pendingElseOffs = s.pendingElseOffs
        ∧ d.pendingElseOpcode = s.pendingElseOpcode
        ∧ d.pendingElseIndent = s.pendingElseIndent
        ∧ ∃ new, d.block_stack = new :: s.block_stack)
    ∨ (byteAt s s.cur_pos ∈ condJumps s.scriptVersion
        ∧ s.pendingElse = true ∧ d.pendingElse = false ∧ d.haveElse = true
        ∧ (∃ text, d.output = "\x7d else if (" ++ text)
        ∧ ∃ p rest t, s.block_stack = p :: rest ∧ d.block_stack = t :: rest) := by
  rcases dispatch_kinds s d h with ⟨_, _, hU⟩ | ⟨_, hj⟩ | ⟨hop, when, se, s1, hp, hj⟩
  · exact Or.inl hU.2
  · rcases jump_blocks _ d hj with hb | ⟨ho, _⟩
    · exact Or.inl hb
    · have ho : d.output = s.output := ho
      rw [ho, hq] at hne
      exact absurd rfl hne
  · have hU : Upd { s with cur_pos := s.cur_pos + 1 } s1 := Upd_pop hp (Upd_refl _)
    have hb1 : s1.blocks = s.blocks := hU.2
    obtain ⟨b1, b2, b3, b4, b5, b6, b7⟩ := blocks_eq _ s1 hb1
    obtain ⟨k, T, _, hc⟩ := jumpif_cases se when s1 d hj
    rcases hc with hd | ⟨new, opener, _, _, hd⟩ | ⟨p, rest, t, hpe, hbs, _, hd⟩
    · left
      rw [hd]
      exact hb1
    · right; left
      rw [hd]
      exact ⟨hop, b3, b2, b4, b5, b6, b7, new, by rw [b1]⟩
    · right; right
      rw [hd]
      refine ⟨hop, by rw [← b2]; exact hpe, rfl, rfl,
        ⟨se_astext s1.scriptVersion (if when = true then se_neg se else se) false
          ++ headerTail s1 T, by simp only [String.append_assoc]⟩,
        p, rest, t, by rw [← b1]; exact hbs, rfl⟩

/-- A pass that leaves the line buffer empty and ends in front of the end of the top frame
changes nothing but the cursor, the stack of expressions and the diagnostics printed. -/
theorem quietPass_kept (a d a1 : State) (E : BlockStack) (rest : List BlockStack)
    (hbs : a.block_stack = E :: rest)
    (hd : dispatch { a with output := "" } = .ok d) (hq : d.output = "")
    (h : mainStep a = .ok a1) (hlt : toU32 (get_curoffs a1) < E.to_) :
    a1 = d ∧ d.blocks = a.blocks ∧ d.offs_of_line = a.offs_of_line
    ∧ ∃ diag, d.stdout = a.stdout ++ diag := by
  rw [mainStep_eq, hd] at h
  simp only [Except.ok.injEq] at h
  rw [emitLine_silent _ _ _ hq] at h
  obtain ⟨bs, cl, hcl⟩ := closeBlocks_eq (num_block_stack d + 1) d
  have hcur : get_curoffs a1 = get_curoffs d := by rw [← h, hcl]; rfl
  rw [hcur] at hlt
  obtain ⟨hfix, _, hdiag, _⟩ := dispatch_change _ d hd
  simp only [State.fixed, Prod.mk.injEq] at hfix
  have hol : d.offs_of_line = a.offs_of_line := hfix.2.2.2.1
  have hblocks : d.blocks = a.blocks := by
    rcases dispatch_kinds _ d hd with ⟨_, _, hU⟩ | ⟨_, hj⟩ | ⟨_, when, se, s1, hp, hj⟩
    · exact hU.2
    · rcases jump_blocks _ d hj with hb | ⟨_, _, _, p, rest2, hbs2, hp2⟩
      · exact hb
      · have hbs2 : a.block_stack = p :: rest2 := hbs2
        rw [hbs] at hbs2
        simp only [List.cons.injEq] at hbs2
        rw [← hbs2.1] at hp2
        omega
    · exact absurd hq (jumpif_change se when s1 d hj).2.2.2.1
  obtain ⟨b1, _⟩ := blocks_eq _ d hblocks
  have hstop := closeBlocks_stop (num_block_stack d) d (toU32 (get_curoffs d)) rfl
    (by
      intro q hq2
      rw [b1, hbs] at hq2
      simp only [List.head?_cons, Option.some.injEq] at hq2
      rw [← hq2]; exact hlt)
  rw [hstop] at h
  exact ⟨h.symm, hblocks, hol, hdiag⟩

/-- Passes that leave the line buffer empty and end in front of the end of the top frame
keep the block reconstruction and the offset of the line start. -/
theorem quietPasses_kept (a b : State) (h : QuietPasses a b) :
    ∀ (E : BlockStack) (rest : List BlockStack), a.block_stack = E :: rest →
      a.org_pos ≤ a.cur_pos → get_curoffs b < (E.to_ : Int) →
      b.blocks = a.blocks ∧ b.offs_of_line = a.offs_of_line
      ∧ ∃ diag, b.stdout = a.stdout ++ diag := by
  induction h with
  | refl s => intro E rest _ _ _; exact ⟨rfl, rfl, [], by simp⟩
  | step s d s1 t hd hq hstep hrest ih =>
    intro E rest hbs horg hlt
    obtain ⟨hc1, hcur1⟩ := mainStep_config s s1 hstep
    obtain ⟨hc2, hcur2⟩ := passes_config s1 t (quietPasses_passes s1 t hrest)
    obtain ⟨_, _, ho1, _⟩ := config_eq s s1 hc1
    obtain ⟨_, _, ho2, _⟩ := config_eq s1 t hc2
    have hlt1 : toU32 (get_curoffs s1) < E.to_ := by
      have h0 : 0 ≤ get_curoffs s1 := by simp only [get_curoffs]; omega
      have h1 := toU32_le_of_nonneg h0
      have h2 : get_curoffs s1 ≤ get_curoffs t := by simp only [get_curoffs]; omega
      omega
    obtain ⟨e1, hb, hol, diag, hdiag⟩ := quietPass_kept s d s1 E rest hbs hd hq hstep hlt1
    subst e1
    obtain ⟨b1, _⟩ := blocks_eq _ s1 hb
    obtain ⟨hb2, hol2, diag2, hdiag2⟩ := ih E rest (by rw [b1]; exact hbs) (by omega) hlt
    exact ⟨hb2.trans hb, hol2.trans hol, diag ++ diag2, by rw [hdiag2, hdiag]; simp⟩

/-- The lines a pass writes in front of the closing braces: none when the opcode left the
line buffer empty, otherwise the statement line and in front of it the else line when an
else is pending. -/
theorem emitLine_count (d : State) (opcode : Nat) (j : Int) :
    ∃ lines, lines.length ≤ 2 ∧ (d.output = "" → lines = [])
      ∧ emitLine opcode j d
        = { d with pendingElse := (if d.output ≠ "" then false else d.pendingElse),
                   haveElse := (if d.output ≠ "" then false else d.haveElse),
                   stdout := d.stdout ++ lines,
                   offs_of_line := (if d.output ≠ "" then get_curoffs d else d.offs_of_line) } := by
  by_cases hne : d.output ≠ ""
  · unfold emitLine
    rw [if_pos hne, if_pos hne, if_pos hne, if_pos hne]
    by_cases hp : d.pendingElse = true
    · rw [writePendingElse_gen d hp]
      simp only
      rw [outputLine_gen _ _ _ _ _ hne]
      refine ⟨[linePrefix d (if d.pendingElseOffs = -1 then get_curoffs d
            else d.pendingElseOffs) d.pendingElseOpcode
          ++ getIndentString (if d.pendingElseIndent - 1 = -1 then (num_block_stack d : Int)
              else d.pendingElseIndent - 1)
          ++ elseText d,
        linePrefix d (if d.offs_of_line = -1 then get_curoffs d else d.offs_of_line) opcode
          ++ getIndentString
            (if (if d.haveElse = true then j - 1 else j) = -1 then (num_block_stack d : Int)
              else if d.haveElse = true then j - 1 else j)
          ++ d.output], Nat.le_refl 2, fun h => absurd h hne, ?_⟩
      simp only [printLine, List.append_assoc, List.cons_append, List.nil_append]
      rfl
    · have hp : d.pendingElse = false := by simpa using hp
      unfold writePendingElse
      simp only [hp, Bool.false_eq_true, if_false]
      rw [outputLine_gen _ _ _ _ _ hne]
      refine ⟨[linePrefix d (if d.offs_of_line = -1 then get_curoffs d else d.offs_of_line)
          opcode
          ++ getIndentString
            (if (if d.haveElse = true then j - 1 else j) = -1 then (num_block_stack d : Int)
              else if d.haveElse = true then j - 1 else j)
          ++ d.output], Nat.le_succ 1, fun h => absurd h hne, ?_⟩
      simp only [printLine]
      rw [← hp]
      rfl
  · have he : d.output = "" := by simpa using hne
    rw [emitLine_silent d _ _ he, if_neg hne, if_neg hne, if_neg hne]
    exact ⟨[], Nat.zero_le 2, fun _ => rfl, by rw [List.append_nil]⟩

/-- The pass that writes the first line behind a jump that left an else pending: the else
line goes in front of the line, at the depth of the frames beneath the else frame, unless
the opcode is a conditional jump that takes the else for an else-if. -/
theorem elsePass_lines (sn d t : State) (E : BlockStack) (rest : List BlockStack) (c T : Nat)
    (hbs : sn.block_stack = E :: rest) (hpe : sn.pendingElse = true)
    (hhe : sn.haveElse = false) (hto : sn.pendingElseTo = (T : Int))
    (hoffs : sn.pendingElseOffs = (c : Int) - 1) (hc0 : 0 < c)
    (hind : sn.pendingElseIndent = ((rest.length + 1 : Nat) : Int))
    (hol : 0 ≤ sn.offs_of_line) (h16 : T < 65536)
    (hd : dispatch { sn with output := "" } = .ok d) (hne : d.output ≠ "")
    (h : mainStep sn = .ok t) :
    ∃ closers,
      (∀ l ∈ closers, ∃ ind, l = linePrefix sn (get_curoffs t) (-1) ++ ind ++ "\x7d")
      ∧ (byteAt sn sn.cur_pos ∉ condJumps sn.scriptVersion → d.haveElse = false)
      ∧ (d.haveElse = false →
          t.stdout = d.stdout
            ++ [linePrefix sn ((c : Int) - 1) sn.pendingElseOpcode
                  ++ getIndentString (rest.length : Nat)
                  ++ (if sn.alwaysShowOffs then "\x7d else /*" ++ fmt_X 4 T ++ "*/ \x7b"
                      else "\x7d else \x7b"),
                linePrefix sn sn.offs_of_line (byteAt sn sn.cur_pos)
                  ++ getIndentString ((rest.length + 1 : Nat) : Int) ++ d.output]
            ++ closers)
      ∧ (d.haveElse = true →
          byteAt sn sn.cur_pos ∈ condJumps sn.scriptVersion
          ∧ (∃ text, d.output = "\x7d else if (" ++ text)
          ∧ t.stdout = d.stdout
            ++ [linePrefix sn sn.offs_of_line (byteAt sn sn.cur_pos)
                  ++ getIndentString (rest.length : Nat) ++ d.output]
            ++ closers) := by
  obtain ⟨d2, k, closers, hd2, ht, _, _, hform, _⟩ := mainStep_parts sn t h
  rw [hd] at hd2
  simp only [Except.ok.injEq] at hd2
  subst hd2
  have hcfg := dispatch_config _ d hd
  have hlp : linePrefix d = linePrefix sn :=
    linePrefix_config { sn with output := "" } d hcfg
  obtain ⟨_, _, _, hshow, _⟩ := config_eq _ d hcfg
  have hshow : d.alwaysShowOffs = sn.alwaysShowOffs := hshow
  obtain ⟨hfix, _⟩ := dispatch_change _ d hd
  simp only [State.fixed, Prod.mk.injEq] at hfix
  have hold : d.offs_of_line = sn.offs_of_line := hfix.2.2.2.1
  have hnum : (num_block_stack sn : Int) = ((rest.length + 1 : Nat) : Int) := by
    simp [num_block_stack, hbs]
  have hTu : toU32 (T : Int) = T := toU32_natCast_of_lt (by omega)
  have hcur : get_curoffs t
      = get_curoffs (emitLine (byteAt sn sn.cur_pos) (num_block_stack sn) d) := by
    rw [ht]; rfl
  have hstd : t.stdout
      = (emitLine (byteAt sn sn.cur_pos) (num_block_stack sn) d).stdout ++ closers := by
    rw [ht]
  refine ⟨closers, ?_, ?_⟩
  · intro l hl
    rw [hcur]
    exact hform l hl
  have hkinds : (d.haveElse = false ∧ d.pendingElse = true ∧ d.pendingElseTo = (T : Int)
        ∧ d.pendingElseOffs = (c : Int) - 1 ∧ d.pendingElseOpcode = sn.pendingElseOpcode
        ∧ d.pendingElseIndent = ((rest.length + 1 : Nat) : Int))
      ∨ (byteAt sn sn.cur_pos ∈ condJumps sn.scriptVersion ∧ d.pendingElse = false
        ∧ d.haveElse = true ∧ ∃ text, d.output = "\x7d else if (" ++ text) := by
    rcases dispatch_line _ d hd rfl hne with hb | ⟨_, b3, b2, b4, b5, b6, b7, _⟩
        | ⟨hop, _, c1, c2, c3, _⟩
    · obtain ⟨_, b2, b3, b4, b5, b6, b7⟩ := blocks_eq _ d hb
      exact Or.inl ⟨b3.trans hhe, b2.trans hpe, b4.trans hto, b5.trans hoffs, b6,
        b7.trans hind⟩
    · exact Or.inl ⟨b3.trans hhe, b2.trans hpe, b4.trans hto, b5.trans hoffs, b6,
        b7.trans hind⟩
    · exact Or.inr ⟨hop, c1, c2, c3⟩
  rcases hkinds with ⟨k1, k2, k3, k4, k5, k6⟩ | ⟨hop, k1, k2, k3⟩
  · refine ⟨fun _ => k1, fun _ => ?_, fun hh => ?_⟩
    · rw [hstd, emitLine_stmt d _ _ hne k1 (by omega) (by omega)]
      simp only [k2, if_true, k4, k6, k5, hlp, hold, elseText, k3, hTu, hshow, hnum]
      have e1 : ((c : Int) - 1 = -1) = False := by
        apply eq_false; omega
      have e2 : (((rest.length + 1 : Nat) : Int) - 1 = -1) = False := by
        apply eq_false; omega
      have e3 : ((rest.length + 1 : Nat) : Int) - 1 = ((rest.length : Nat) : Int) := by
        omega
      have e4 : (((rest.length : Nat) : Int) = -1) = False := by
        apply eq_false; omega
      simp only [e1, e2, if_false, e3, e4, List.append_assoc, List.cons_append,
        List.nil_append]
    · rw [k1] at hh; cases hh
  · refine ⟨fun hnot => absurd hop hnot, fun hh => ?_, fun _ => ⟨hop, k3, ?_⟩⟩
    · rw [k2] at hh; cases hh
    · rw [hstd, emitLine_elseIf d _ _ hne k1 k2 (by omega) (by omega)]
      have e3 : ((rest.length + 1 : Nat) : Int) - 1 = ((rest.length : Nat) : Int) := by
        omega
      simp only [hlp, hold, hnum, e3]

/-- A pass whose dispatcher call ends at or behind the end of the top frame closes that
frame: behind the lines of the pass itself comes the brace of the frame, at the depth of
the frames beneath it. -/
theorem closingPass (u d u1 : State) (E : BlockStack) (rest : List BlockStack)
    (hd : dispatch { u with output := "" } = .ok d) (hbs : d.block_stack = E :: rest)
    (hE : E.to_ ≤ toU32 (get_curoffs d)) (h : mainStep u = .ok u1) :
    ∃ lines more, lines.length ≤ 2 ∧ (d.output = "" → lines = [])
      ∧ u1.stdout = d.stdout ++ lines
          ++ [linePrefix u (get_curoffs d) (-1) ++ getIndentString (rest.length : Nat) ++ "\x7d"]
          ++ more
      ∧ u1.block_stack = rest.drop more.length
      ∧ (∀ l ∈ more, ∃ ind, l = linePrefix u (get_curoffs d) (-1) ++ ind ++ "\x7d")
      ∧ ((∀ q, rest.head? = some q → toU32 (get_curoffs d) < q.to_) → more = []) := by
  rw [mainStep_eq, hd] at h
  simp only [Except.ok.injEq] at h
  obtain ⟨lines, hlen, hsil, hE2⟩ := emitLine_count d (byteAt u u.cur_pos) (num_block_stack u)
  have hlp : linePrefix d = linePrefix u :=
    linePrefix_config { u with output := "" } d (dispatch_config _ d hd)
  rw [hE2] at h
  obtain ⟨more, hcl, hform, hnone⟩ := closeBlocks_top _ E rest
    (show ({ d with
        pendingElse := (if d.output ≠ "" then false else d.pendingElse),
        haveElse := (if d.output ≠ "" then false else d.haveElse),
        stdout := d.stdout ++ lines,
        offs_of_line := (if d.output ≠ "" then get_curoffs d else d.offs_of_line) }
          : State).block_stack = E :: rest from hbs) hE
  rw [hcl] at h
  have hlp2 : ∀ a b, linePrefix ({ d with
        pendingElse := (if d.output ≠ "" then false else d.pendingElse),
        haveElse := (if d.output ≠ "" then false else d.haveElse),
        stdout := d.stdout ++ lines,
        offs_of_line := (if d.output ≠ "" then get_curoffs d else d.offs_of_line) }
          : State) a b = linePrefix u a b := by
    intro a b
    rw [← hlp]
    rfl
  refine ⟨lines, more, hlen, hsil, ?_, ?_, ?_, hnone⟩
  · rw [← h]
    simp only [hlp2]
    rfl
  · rw [← h]
  · intro l hl
    obtain ⟨ind, hind⟩ := hform l hl
    rw [hlp2] at hind
    exact ⟨ind, hind⟩

/-- C4 (amended): let the loop of `main` stand in front of the unconditional jump of the
dialect, the jump ending exactly at the end c of the top frame (the if-frame) and leading
forward to a target T below 65536 that is not beyond the end of any enclosing frame, with
else output not suppressed.  Then (1) the pass over the jump prints nothing (no `jump`
line), replaces the top frame by one from c to T and leaves the enclosing frames.
(2) After any passes that leave the line buffer empty and stay in front of T, the first
pass whose opcode leaves a line prints, behind the diagnostics of the opcodes, `} else {`
(with the flag for offsets `} else /*T*/ {`) at the depth of the enclosing frames, which
is the indentation of the opening `if`, and directly behind it the line one level deeper;
only a conditional jump that takes the else for an else-if prints the single line
`} else if (…` at the depth of the enclosing frames instead.  (3) A later pass that ends
at or behind T with the else frame on top prints, behind its own lines, the closing brace
of that frame at the depth of the enclosing frames, and no further brace when the next
enclosing frame ends beyond the cursor.  (4) The v6 body 00 01 5D 08 00 00 09 43 00 00 73
05 00 00 0A 43 00 00 yields `if (1) {`, `  var0 = 9`, `} else {`, `  var0 = 10`, `}`. -/
theorem C4_if_else :
    (∀ (s : State) (p : BlockStack) (rest : List BlockStack) (c T : Nat),
    DriverState s →
    byteAt s s.cur_pos = jumpOpcodeOf s.scriptVersion →
    s.block_stack = p :: rest → jumpEnd s = (c : Int) → p.to_ = c →
    jumpTarget s = (T : Int) → c < T → T < 65536 →
    (∀ f ∈ rest, T ≤ f.to_) → s.dontOutputElse = false →
    ∃ s1 E, mainStep s = .ok s1 ∧ s1.stdout = s.stdout
      ∧ s1.block_stack = E :: rest ∧ E.from_ = c ∧ E.to_ = T
      ∧ (∀ sn d t, QuietPasses s1 sn → get_curoffs sn < (T : Int) →
          dispatch { sn with output := "" } = .ok d → d.output ≠ "" → mainStep sn = .ok t →
          ∃ diag closers, d.stdout = s.stdout ++ diag
            ∧ (∀ l ∈ closers, ∃ ind, l = linePrefix s (get_curoffs t) (-1) ++ ind ++ "\x7d")
            ∧ (byteAt sn sn.cur_pos ∉ condJumps s.scriptVersion → d.haveElse = false)
            ∧ (d.haveElse = false →
                t.stdout = d.stdout
                  ++ [linePrefix s ((c : Int) - 1) s.g_jump_opcode
                        ++ getIndentString (rest.length : Nat)
                        ++ (if s.alwaysShowOffs then "\x7d else /*" ++ fmt_X 4 T ++ "*/ \x7b"
                            else "\x7d else \x7b"),
                      linePrefix s s.offs_of_line (byteAt sn sn.cur_pos)
                        ++ getIndentString ((rest.length + 1 : Nat) : Int) ++ d.output]
                  ++ closers)
            ∧ (d.haveElse = true →
                byteAt sn sn.cur_pos ∈ condJumps s.scriptVersion
                ∧ (∃ text, d.output = "\x7d else if (" ++ text)
                ∧ t.stdout = d.stdout
                  ++ [linePrefix s s.offs_of_line (byteAt sn sn.cur_pos)
                        ++ getIndentString (rest.length : Nat) ++ d.output]
                  ++ closers))
      ∧ (∀ u d u1, Passes s1 u → dispatch { u with output := "" } = .ok d →
          d.block_stack = E :: rest → T ≤ toU32 (get_curoffs d) → mainStep u = .ok u1 →
          ∃ lines more, lines.length ≤ 2 ∧ (d.output = "" → lines = [])
            ∧ u1.stdout = d.stdout ++ lines
                ++ [linePrefix s (get_curoffs d) (-1) ++ getIndentString (rest.length : Nat)
                      ++ "\x7d"]
                ++ more
            ∧ u1.block_stack = rest.drop more.length
            ∧ (∀ l ∈ more, ∃ ind, l = linePrefix s (get_curoffs d) (-1) ++ ind ++ "\x7d")
            ∧ ((∀ q, rest.head? = some q → toU32 (get_curoffs d) < q.to_) → more = [])))
    ∧ (decompile (scrpFile ifElseBody) [] plainFlags).toOption.map (fun s => s.stdout)
        = some ["if (1) \x7b", "  var0 = 9", "\x7d else \x7b", "  var0 = 10", "\x7d",
                "END", "Stack count: 0"] := by
  refine ⟨?_, by decide⟩
  intro s p rest c T hD hop htop hc hp hT hlt h16 hnest helse
  obtain ⟨hhe, ⟨hol0, hol1, _⟩, hdepth, _⟩ := driverState_inv s hD
  have hdepth : rest.length < 256 := by
    rw [htop] at hdepth
    simp only [List.length_cons] at hdepth
    omega
  obtain ⟨w, hstep⟩ := jumpPass_else s p rest c T hop htop hc hp hT hlt h16 hnest hdepth helse
  have hc0 : 0 < c := by
    have h1 := jumpEnd_eq s
    have h2 : 3 ≤ jumpLength s.scriptVersion := by
      unfold jumpLength; split <;> decide
    have h3 : (0 : Int) ≤ get_curoffs s := by omega
    omega
  have hcfg1 := (mainStep_config s _ hstep).1
  refine ⟨_, { isWhile := w, from_ := c, to_ := T }, hstep, rfl, rfl, rfl, rfl, ?_, ?_⟩
  · intro sn d t hquiet hcur hd hne ht
    have horg : s.org_pos ≤ s.cur_pos := by
      simp only [get_curoffs] at hol1; omega
    obtain ⟨hb, hol, diag, hdiag⟩ := quietPasses_kept _ sn hquiet
      { isWhile := w, from_ := c, to_ := T } rest rfl
      (show s.org_pos ≤ s.cur_pos + jumpLength s.scriptVersion by omega) hcur
    obtain ⟨b1, b2, b3, b4, b5, b6, b7⟩ := blocks_eq _ sn hb
    have hcfg := ((passes_config _ sn (quietPasses_passes _ sn hquiet)).1).trans hcfg1
    have hlp : linePrefix sn = linePrefix s := linePrefix_config s sn hcfg
    obtain ⟨hg, _, _, hshow, _, _, _, _, _, _, _, hv⟩ := config_eq s sn hcfg
    obtain ⟨_, _, hdd, _⟩ := dispatch_change _ d hd
    obtain ⟨diag2, hdiag2⟩ := hdd
    have hdiag2 : d.stdout = sn.stdout ++ diag2 := hdiag2
    obtain ⟨closers, hform, hnot, hplain, helif⟩ := elsePass_lines sn d t
      { isWhile := w, from_ := c, to_ := T } rest c T b1 b2 (b3.trans hhe) b4 b5 hc0 b7
      (by rw [hol]; exact hol0) h16 hd hne ht
    rw [hlp, b6, hol, hshow] at hplain
    rw [hlp, hol, hv] at helif
    rw [hlp] at hform
    rw [hv] at hnot
    refine ⟨diag ++ diag2, closers, ?_, hform, hnot, hplain, helif⟩
    rw [hdiag2, hdiag]
    simp
  · intro u d u1 hpass hd hbs hreach hu1
    have hcfg := ((passes_config _ u hpass).1).trans hcfg1
    have hlp : linePrefix u = linePrefix s := linePrefix_config s u hcfg
    obtain ⟨lines, more, h1, h2, h3, h4, h5, h6⟩ := closingPass u d u1
      { isWhile := w, from_ := c, to_ := T } rest hd hbs hreach hu1
    rw [hlp] at h3 h5
    exact ⟨lines, more, h1, h2, h3, h4, h5, h6⟩

theorem passesFrom_passes (n : Nat) : ∀ (s t : State), passesFrom n s = some t → Passes s t := by
  induction n with
  | zero =>
    intro s t h
    simp only [passesFrom, Option.some.injEq] at h
    rw [← h]; exact Passes.refl s
  | succ n ih =>
    intro s t h
    simp only [passesFrom] at h
    cases hm : mainStep s with
    | error f => rw [hm] at h; cases h
    | ok s1 =>
      rw [hm] at h
      exact Passes.step s s1 t hm (ih s1 t h)

/-- C4, instance on scenario D (the v6 body 00 01 5D 08 00 00 09 43 00 00 73 05 00 00 0A 43
00 00, flags `c` and `x`): the state in front of the jump at body offset 10 is reached by
four passes from the start; the jump ends at 13, the end of the if-frame, and leads to 18.
The pass over the jump prints nothing and arms the else; the push of 10 leaves the line
buffer empty; the pass over the store at offset 15 prints `} else {` at depth 0 and
`  var0 = 10` behind it, and, ending at 18, the closing brace at depth 0. -/
theorem C4_if_else_witness :
    DriverState ifElseAtJump
    ∧ jumpEnd ifElseAtJump = 13 ∧ jumpTarget ifElseAtJump = 18
    ∧ mainStep ifElseAtJump = .ok ifElseArmed
    ∧ ifElseArmed.stdout = ifElseAtJump.stdout
    ∧ QuietPasses ifElseArmed ifElseAtStore
    ∧ dispatch { ifElseAtStore with output := "" } = .ok ifElseStored
    ∧ (∃ t closers, mainStep ifElseAtStore = .ok t
        ∧ t.stdout = ["if (1) \x7b", "  var0 = 9"] ++ ["\x7d else \x7b", "  var0 = 10"]
            ++ closers)
    ∧ (∃ t lines, mainStep ifElseAtStore = .ok t
        ∧ t.stdout = ["if (1) \x7b", "  var0 = 9"] ++ lines ++ ["\x7d"]
        ∧ t.block_stack = []) := by
  have hD : DriverState ifElseAtJump :=
    passes_driverState ifElseStart ifElseAtJump (passesFrom_passes 4 _ _ rfl)
      (DriverState.start _ rfl rfl rfl rfl rfl)
  have hQ : QuietPasses ifElseArmed ifElseAtStore :=
    QuietPasses.step ifElseArmed ifElseAtStore ifElseAtStore ifElseAtStore rfl rfl rfl
      (QuietPasses.refl _)
  obtain ⟨s1, E, h1, h2, hbs, hf, ht, hline, hclose⟩ := C4_if_else.1 ifElseAtJump
    { isWhile := false, from_ := 5, to_ := 13 } [] 13 18 hD rfl rfl rfl rfl rfl
    (by decide) (by decide) (by simp) rfl
  have e1 : ifElseArmed = s1 := Except.ok.inj ((rfl : mainStep ifElseAtJump = .ok ifElseArmed).symm.trans h1)
  subst e1
  have hE : E = { isWhile := false, from_ := 13, to_ := 18 } := by
    have := hbs
    simp only [ifElseArmed, List.cons.injEq, and_true] at this
    exact this.symm
  subst hE
  have hm : mainStep ifElseAtStore = .ok ifElseDone := rfl
  obtain ⟨diag, closers, _, _, hnot, hplain, _⟩ := hline ifElseAtStore ifElseStored ifElseDone
    hQ (by decide) rfl (by decide) hm
  obtain ⟨lines, more, _, _, h3, h4, _, h6⟩ := hclose ifElseAtStore ifElseStored ifElseDone
    (quietPasses_passes _ _ hQ) rfl rfl (by decide) hm
  have hmore : more = [] := h6 (by intro q hq; cases hq)
  subst hmore
  refine ⟨hD, rfl, rfl, rfl, rfl, hQ, rfl, ⟨ifElseDone, closers, rfl, ?_⟩,
    ⟨ifElseDone, lines, rfl, ?_, h4⟩⟩
  · exact hplain (hnot (by decide))
  · rw [h3, List.append_nil]
    rfl

/-- The test of `maybeAddIf` for a `while`, from its two parts: the unconditional jump of
the dialect stands directly in front of the target, and its displacement leads from the
target to the start of the current line. -/
theorem whileShape_of_back (s : State) (T : Nat) (h16 : T < 65536)
    (hop : byteAtInt s ((s.org_pos : Int) + T - jumpLength s.scriptVersion)
      = jumpOpcodeOf s.scriptVersion)
    (hdisp : (T : Int) + jumpDisplacementBefore s T = s.offs_of_line) :
    whileShape s T = true := by
  have hT32 : toInt32 T = (T : Int) := toInt32_of_lt (by omega)
  unfold whileShape
  unfold jumpLength jumpOpcodeOf at hop
  unfold jumpDisplacementBefore at hdisp
  by_cases hv : s.scriptVersion = 8
  · simp only [hv, if_true] at hop hdisp ⊢
    simp only [Nat.cast_ofNat] at hop
    simp [hop, hdisp, hT32]
  · simp only [hv, if_false] at hop hdisp ⊢
    simp only [Nat.cast_ofNat] at hop
    simp [hop, hdisp, hT32]

/-- A conditional jump whose target has the shape of a `while` is not taken for an else-if:
the jump in front of its target leads back, not to the target of the pending else. -/
theorem maybeAddElseIf_back (cur elseto T : Nat) (s : State)
    (hdisp : (T : Int) + jumpDisplacementBefore s T = s.offs_of_line)
    (h0 : 0 ≤ s.offs_of_line) (hlt : s.offs_of_line < (T : Int)) (h16 : T < 65536) :
    maybeAddElseIf cur elseto T s = (false, s) := by
  rcases maybeAddElseIf_char cur elseto T s with ⟨h, _⟩ | ⟨hchk, p, rest, _, _, _, hk, _⟩
  · exact h
  · exfalso
    have hle : T ≤ elseto := by
      by_contra hc
      exact hchk (Or.inr (Or.inl (by omega)))
    unfold jumpDisplacementBefore at hdisp
    have e5 : (T : Int) - 5 + 1 = (T : Int) - 4 := by omega
    have e3 : (T : Int) - 3 + 1 = (T : Int) - 2 := by omega
    by_cases hv : s.scriptVersion = 8
    · simp only [hv, if_true, e5] at hk hdisp
      rw [hdisp, toU32_of_nonneg_lt h0 (by omega)] at hk
      omega
    · simp only [hv, if_false, e3] at hk hdisp
      rw [hdisp, toU32_of_nonneg_lt h0 (by omega)] at hk
      omega

/-- The conditional jump whose target is ahead, inside every open block, and has the shape
of a `while` opens a `while` frame and writes the `while` header, whether or not an else is
pending. -/
theorem jumpif_while_any (s s1 : State) (se : StackEnt) (when : Bool) (d : Int) (c T : Nat)
    (hgs : get_signed_word s = (d, s1)) (hc : get_curoffs s1 = (c : Int))
    (hT : (c : Int) + d = (T : Int)) (hlt : c < T) (h16 : T < 65536)
    (hnest : ∀ f ∈ s1.block_stack, T ≤ f.to_) (hdepth : s1.block_stack.length < 256)
    (hifs : s1.dontOutputIfs = false) (hwhile : s1.dontOutputWhile = false)
    (hdisp : (T : Int) + jumpDisplacementBefore s1 T = s1.offs_of_line)
    (h0 : 0 ≤ s1.offs_of_line) (hol : s1.offs_of_line < (T : Int))
    (hshape : whileShape s1 T = true) :
    jumpif se when s = .ok { s1 with
      block_stack := { isWhile := true, from_ := c, to_ := T } :: s1.block_stack,
      output := "while (" ++ se_astext s1.scriptVersion (if when then se_neg se else se) false
        ++ headerTail s1 T } := by
  unfold jumpif
  rw [hgs]
  have hcu : toU32 (c : Int) = c := toU32_natCast_of_lt (by omega)
  have hTu : toU32 (T : Int) = T := toU32_natCast_of_lt (by omega)
  simp only [hc, hT, hcu, hTu]
  have htry : (if (!s1.dontOutputElseif) = true ∧ s1.pendingElse = true then
        maybeAddElseIf c (toU32 s1.pendingElseTo) T s1
      else (false, s1)) = (false, s1) := by
    split
    · exact maybeAddElseIf_back c _ T s1 hdisp h0 hol h16
    · rfl
  rw [htry]
  simp only [hifs, Bool.not_false, if_true]
  rw [maybeAddIf_accept c T s1 hlt h16 hnest hdepth, hshape]
  simp [hwhile, headerTail, hifs]

theorem jumpDisplacementBefore_config (s t : State) (T : Nat) (h : t.config = s.config) :
    jumpDisplacementBefore t T = jumpDisplacementBefore s T := by
  obtain ⟨_, hm, ho, _, _, _, _, _, _, _, _, hv⟩ := config_eq s t h
  unfold jumpDisplacementBefore int32At int16At byteAtInt
  rw [hm, ho, hv]

/-- The displacement of the jump instruction at the cursor, as the word in front of the
offset at which the instruction ends. -/
theorem jumpDisplacement_before (s : State) (T : Nat) (hend : jumpEnd s = (T : Int)) :
    jumpDisplacement s = jumpDisplacementBefore s T := by
  have hL := jumpEnd_eq s
  unfold jumpDisplacement
  rw [get_signed_word_at]
  unfold jumpDisplacementBefore
  have e : ∀ k, int32At { s with cur_pos := s.cur_pos + 1 } k = int32At s k := fun _ => rfl
  have e2 : ∀ k, int16At { s with cur_pos := s.cur_pos + 1 } k = int16At s k := fun _ => rfl
  have hv : ({ s with cur_pos := s.cur_pos + 1 } : State).scriptVersion = s.scriptVersion := rfl
  rw [hv, e, e2]
  unfold jumpLength at hL
  by_cases h8 : s.scriptVersion = 8
  · simp only [h8, if_true] at hL ⊢
    congr 1
    simp only [get_curoffs] at hL ⊢
    omega
  · simp only [h8, if_false] at hL ⊢
    congr 1
    simp only [get_curoffs] at hL ⊢
    omega

/-- The pass of the driver over a conditional jump that has the shape of a `while`: the
header is printed at the depth the pass starts with, behind the else line when an else is
pending, and the `while` frame is pushed. -/
theorem whilePass (s : State) (se : StackEnt) (stk : List StackEnt) (when : Bool) (c T : Nat)
    (hop : (s.scriptVersion = 8 ∧ ((byteAt s s.cur_pos = 0x64 ∧ when = true)
              ∨ (byteAt s s.cur_pos = 0x65 ∧ when = false)))
      ∨ (s.scriptVersion ≠ 8 ∧ ((byteAt s s.cur_pos = 0x5C ∧ when = true)
              ∨ (byteAt s s.cur_pos = 0x5D ∧ when = false))))
    (hstack : s.stack = se :: stk)
    (hc : jumpEnd s = (c : Int)) (hT : jumpTarget s = (T : Int)) (hlt : c < T)
    (h16 : T < 65536) (hnest : ∀ f ∈ s.block_stack, T ≤ f.to_)
    (hdepth : s.block_stack.length < 256)
    (hback : byteAtInt s ((s.org_pos : Int) + T - jumpLength s.scriptVersion)
      = jumpOpcodeOf s.scriptVersion)
    (hdisp : (T : Int) + jumpDisplacementBefore s T = s.offs_of_line)
    (hifs : s.dontOutputIfs = false) (hwhile : s.dontOutputWhile = false)
    (hhe : s.haveElse = false) (h0 : 0 ≤ s.offs_of_line) (hol : s.offs_of_line < (T : Int)) :
    ∃ elseLines, elseLines.length ≤ 1 ∧ (s.pendingElse = false → elseLines = [])
      ∧ mainStep s = .ok { s with
        cur_pos := s.cur_pos + jumpLength s.scriptVersion, stack := stk,
        block_stack := { isWhile := true, from_ := c, to_ := T } :: s.block_stack,
        output := "while (" ++ se_astext s.scriptVersion (if when then se_neg se else se) false
          ++ headerTail s T,
        pendingElse := false, haveElse := false, offs_of_line := (c : Int),
        stdout := s.stdout ++ elseLines
          ++ [linePrefix s s.offs_of_line (byteAt s s.cur_pos)
            ++ getIndentString (num_block_stack s)
            ++ ("while (" ++ se_astext s.scriptVersion (if when then se_neg se else se) false
              ++ headerTail s T)] } := by
  have hgs : get_signed_word { s with output := "", cur_pos := s.cur_pos + 1, stack := stk }
      = (jumpDisplacement s,
          { s with
            output := "", cur_pos := s.cur_pos + jumpLength s.scriptVersion,
            stack := stk }) := by
    have h := get_signed_word_stack { s with output := "", cur_pos := s.cur_pos + 1 } stk
    rw [get_signed_word_dispatch] at h
    exact h
  have hc1 : get_curoffs
      ({ s with
          output := "", cur_pos := s.cur_pos + jumpLength s.scriptVersion,
          stack := stk } : State)
      = (c : Int) := by
    rw [← hc, jumpEnd_eq]
    simp only [get_curoffs]
    omega
  have hT1 : (c : Int) + jumpDisplacement s = (T : Int) := by
    rw [← hT, ← hc]; rfl
  have hshape : whileShape
      ({ s with
          output := "", cur_pos := s.cur_pos + jumpLength s.scriptVersion,
          stack := stk } : State) T = true :=
    whileShape_of_back s T h16 hback hdisp
  have hj := jumpif_while_any _ _ se when (jumpDisplacement s) c T hgs hc1 hT1 hlt h16 hnest
    hdepth hifs hwhile hdisp h0 hol hshape
  have hd : dispatch { s with output := "" }
      = jumpif se when { s with output := "", cur_pos := s.cur_pos + 1, stack := stk } :=
    dispatch_jumpif s se stk when hstack hop
  rw [hj] at hd
  have hd2 : dispatch { s with output := "" } = .ok { s with
      cur_pos := s.cur_pos + jumpLength s.scriptVersion, stack := stk,
      block_stack := { isWhile := true, from_ := c, to_ := T } :: s.block_stack,
      output := "while (" ++ se_astext s.scriptVersion (if when then se_neg se else se) false
        ++ headerTail s T } := hd.trans rfl
  have hne : "while (" ++ se_astext s.scriptVersion (if when then se_neg se else se) false
      ++ headerTail s T ≠ "" := by
    simp only [String.append_assoc]
    exact str_append_ne_empty_left _ _ (by decide)
  refine ⟨if s.pendingElse then
      [linePrefix s (if s.pendingElseOffs = -1 then (c : Int) else s.pendingElseOffs)
          s.pendingElseOpcode
        ++ getIndentString (if s.pendingElseIndent - 1 = -1
            then ((s.block_stack.length + 1 : Nat) : Int) else s.pendingElseIndent - 1)
        ++ elseText s]
    else [], ?_, ?_, ?_⟩
  · split <;> simp
  · intro hp; simp [hp]
  rw [mainStep_eq, hd2]
  simp only
  rw [emitLine_stmt { s with
      cur_pos := s.cur_pos + jumpLength s.scriptVersion, stack := stk,
      block_stack := { isWhile := true, from_ := c, to_ := T } :: s.block_stack,
      output := "while (" ++ se_astext s.scriptVersion (if when then se_neg se else se) false
        ++ headerTail s T } _ _ hne hhe (by show s.offs_of_line ≠ -1; omega)
    (by show ((num_block_stack s : Nat) : Int) ≠ -1; omega)]
  have hcu : toU32 (c : Int) = c := toU32_natCast_of_lt (by omega)
  have hc2 : (s.cur_pos + jumpLength s.scriptVersion : Nat) - (s.org_pos : Int) = (c : Int) := by
    rw [← hc1]; rfl
  rw [closeBlocks_stop _ _ c (by simp only [get_curoffs, hc2, hcu])
    (by intro q hq; simp only [List.head?_cons, Option.some.injEq] at hq; rw [← hq]; exact hlt)]
  simp only [get_curoffs, hc2, num_block_stack, List.length_cons]
  rfl

/-- The pass of the driver over the unconditional jump that ends at the end of the `while`
frame on top of the block stack and does not lead forward: the jump writes nothing and
leaves the block stack alone, and the closing loop removes the frame and prints its brace
at the depth of the frames beneath. -/
theorem backEdgePass (s : State) (W : BlockStack) (rest : List BlockStack) (T : Nat)
    (hop : byteAt s s.cur_pos = jumpOpcodeOf s.scriptVersion)
    (hend : jumpEnd s = (T : Int)) (hback : jumpDisplacement s ≤ 0) (h16 : T < 65536)
    (hbs : s.block_stack = W :: rest) (hw : W.isWhile = true) (hto : W.to_ = T)
    (hwhile : s.dontOutputWhile = false) :
    ∃ more,
      dispatch { s with output := "" }
        = .ok { s with output := "", cur_pos := s.cur_pos + jumpLength s.scriptVersion }
      ∧ mainStep s = .ok { s with
          output := "", cur_pos := s.cur_pos + jumpLength s.scriptVersion,
          block_stack := rest.drop more.length,
          stdout := s.stdout
            ++ [linePrefix s (T : Int) (-1) ++ getIndentString (rest.length : Nat) ++ "\x7d"]
            ++ more }
      ∧ (∀ l ∈ more, ∃ ind, l = linePrefix s (T : Int) (-1) ++ ind ++ "\x7d")
      ∧ ((∀ q, rest.head? = some q → T < q.to_) → more = []) := by
  have hgs := get_signed_word_dispatch s
  have hc1 : get_curoffs
      ({ s with
          output := "", cur_pos := s.cur_pos + jumpLength s.scriptVersion } : State)
      = (T : Int) := by
    rw [← hend, jumpEnd_eq]
    simp only [get_curoffs]
    omega
  have hj := jump_while_end _ _ (jumpDisplacement s) T W rest hgs hc1 hback h16 hbs hw hto
    hwhile
  have hd : dispatch { s with output := "" }
      = .ok { s with output := "", cur_pos := s.cur_pos + jumpLength s.scriptVersion } :=
    (dispatch_jump s (jumpOpcodeOf_cases s hop)).trans hj
  have hTu : toU32 (T : Int) = T := toU32_natCast_of_lt (by omega)
  obtain ⟨more, hcl, hform, hnone⟩ := closeBlocks_top
    ({ s with output := "", cur_pos := s.cur_pos + jumpLength s.scriptVersion } : State)
    W rest hbs (by rw [hc1, hTu, hto])
  rw [hc1] at hform hcl
  rw [hc1, hTu] at hnone
  refine ⟨more, hd, ?_, hform, hnone⟩
  rw [mainStep_eq, hd]
  simp only
  rw [emitLine_silent _ _ _ rfl, hcl]
  rfl

/-- C5 (amended): let the loop of `main` stand in front of a conditional jump with its
predicate on the stack, the jump leading forward to a target T below 65536 that is not
beyond the end of any open frame, with fewer than 256 frames open and `if` and `while`
output not suppressed; let the unconditional jump of the dialect stand directly in front
of T, and let its displacement lead from T to the offset at which the current line starts
(`offs_of_line`: the offset behind the last instruction that left a line, 0 at the start).
Then (1) the pass prints the predicate as `while (PRED) {` at the depth of the open frames
(behind the else line when an else is pending) and pushes a `while` frame that ends at T.
(2) When later passes have led to the jump in front of T with that frame on top of the
block stack again, the pass over the jump leaves the line buffer empty, prints nothing of
its own and leaves the block stack to the closing loop, which removes the frame and prints
its `}` at the depth of the `while` line; no further brace follows when the next enclosing
frame ends beyond T.  (3) The v6 body 00 01 5D 08 00 00 09 43 00 00 73 F3 FF yields exactly
`while (1) {`, `  var0 = 9`, `}`. -/
theorem C5_while :
    (∀ (s : State) (se : StackEnt) (stk : List StackEnt) (when : Bool) (c T : Nat),
    DriverState s →
    ((s.scriptVersion = 8 ∧ ((byteAt s s.cur_pos = 0x64 ∧ when = true)
              ∨ (byteAt s s.cur_pos = 0x65 ∧ when = false)))
      ∨ (s.scriptVersion ≠ 8 ∧ ((byteAt s s.cur_pos = 0x5C ∧ when = true)
              ∨ (byteAt s s.cur_pos = 0x5D ∧ when = false)))) →
    s.stack = se :: stk →
    jumpEnd s = (c : Int) → jumpTarget s = (T : Int) → c < T →
    T < 65536 → (∀ f ∈ s.block_stack, T ≤ f.to_) →
    s.block_stack.length < 256 →
    byteAtInt s ((s.org_pos : Int) + T - jumpLength s.scriptVersion)
      = jumpOpcodeOf s.scriptVersion →
    (T : Int) + jumpDisplacementBefore s T = s.offs_of_line →
    s.dontOutputIfs = false → s.dontOutputWhile = false →
    ∃ s1 elseLines, mainStep s = .ok s1
      ∧ elseLines.length ≤ 1 ∧ (s.pendingElse = false → elseLines = [])
      ∧ s1.stdout = s.stdout ++ elseLines
          ++ [linePrefix s s.offs_of_line (byteAt s s.cur_pos)
            ++ getIndentString (num_block_stack s)
            ++ ("while (" ++ se_astext s.scriptVersion (if when then se_neg se else se) false
              ++ headerTail s T)]
      ∧ s1.block_stack = { isWhile := true, from_ := c, to_ := T } :: s.block_stack
      ∧ ∀ sj, Passes s1 sj →
          get_curoffs sj + (jumpLength s.scriptVersion : Int) = (T : Int) →
          sj.block_stack = s1.block_stack →
          ∃ d s2 more, dispatch { sj with output := "" } = .ok d ∧ d.output = ""
            ∧ d.block_stack = sj.block_stack ∧ d.stdout = sj.stdout
            ∧ mainStep sj = .ok s2
            ∧ s2.stdout = sj.stdout
                ++ [linePrefix s (T : Int) (-1) ++ getIndentString (num_block_stack s) ++ "\x7d"]
                ++ more
            ∧ s2.block_stack = s.block_stack.drop more.length
            ∧ (∀ l ∈ more, ∃ ind, l = linePrefix s (T : Int) (-1) ++ ind ++ "\x7d")
            ∧ ((∀ q, s.block_stack.head? = some q → T < q.to_) → more = []))
    ∧ (decompile (scrpFile whileBody) [] plainFlags).toOption.map (fun s => s.stdout)
        = some ["while (1) \x7b", "  var0 = 9", "\x7d", "END", "Stack count: 0"] := by
  refine ⟨?_, by decide⟩
  intro s se stk when c T hD hop hstack hc hT hlt h16 hnest hdepth hback hdisp hifs hwhile
  obtain ⟨hhe, ⟨hol0, hol1, _⟩, _, _⟩ := driverState_inv s hD
  have hL := jumpEnd_eq s
  have hL3 : 3 ≤ jumpLength s.scriptVersion := by
    unfold jumpLength; split <;> decide
  have hol : s.offs_of_line < (T : Int) := by omega
  obtain ⟨elseLines, hlen, hnone, hstep⟩ := whilePass s se stk when c T hop hstack hc hT hlt
    h16 hnest hdepth hback hdisp hifs hwhile hhe hol0 hol
  have hcfg1 := (mainStep_config s _ hstep).1
  refine ⟨_, elseLines, hstep, hlen, hnone, rfl, rfl, ?_⟩
  intro sj hpass hat hbs
  have hcfg := ((passes_config _ sj hpass).1).trans hcfg1
  have hlp : linePrefix sj = linePrefix s := linePrefix_config s sj hcfg
  obtain ⟨_, hm, ho, _, _, _, _, hw, _, _, _, hv⟩ := config_eq s sj hcfg
  have hend : jumpEnd sj = (T : Int) := by
    rw [jumpEnd_eq, hv]; exact hat
  have hbyte : byteAt sj sj.cur_pos = jumpOpcodeOf sj.scriptVersion := by
    rw [hv, ← hback]
    have e : (s.org_pos : Int) + T - jumpLength s.scriptVersion = ((sj.cur_pos : Nat) : Int) := by
      simp only [get_curoffs, ho] at hat
      omega
    rw [e, byteAtInt_natCast]
    unfold byteAt
    rw [hm]
  have hbackj : jumpDisplacement sj ≤ 0 := by
    rw [jumpDisplacement_before sj T hend, jumpDisplacementBefore_config s sj T hcfg]
    omega
  obtain ⟨more, hd, hmain, hform, hnone2⟩ := backEdgePass sj
    { isWhile := true, from_ := c, to_ := T } s.block_stack T hbyte hend hbackj h16 hbs rfl rfl
    (hw.trans hwhile)
  rw [hlp] at hmain hform
  exact ⟨_, _, more, hd, rfl, rfl, rfl, hmain, rfl, rfl, hform, hnone2⟩

/-- C5, instance on scenario E (the v6 body 00 01 5D 08 00 00 09 43 00 00 73 F3 FF, flags
`c` and `x`): the state in front of the conditional jump at body offset 2 is reached by one
pass from the start; the jump ends at 5 and leads to 13, the jump `73 F3 FF` in front of 13
leads back to 0, where the line starts.  The pass prints `while (1) {` and opens the
frame; two passes later the loop stands in front of the jump at offset 10 with the frame
on top, and the pass over it prints nothing but the closing brace. -/
theorem C5_while_witness :
    DriverState whileAtJumpif
    ∧ jumpEnd whileAtJumpif = 5 ∧ jumpTarget whileAtJumpif = 13
    ∧ (13 : Int) + jumpDisplacementBefore whileAtJumpif 13 = whileAtJumpif.offs_of_line
    ∧ mainStep whileAtJumpif = .ok whileOpened
    ∧ whileOpened.stdout = ["while (1) \x7b"]
    ∧ whileOpened.block_stack = [{ isWhile := true, from_ := 5, to_ := 13 }]
    ∧ Passes whileOpened whileAtJump
    ∧ (∃ d, dispatch { whileAtJump with output := "" } = .ok d ∧ d.output = ""
        ∧ d.block_stack = whileAtJump.block_stack ∧ d.stdout = whileAtJump.stdout)
    ∧ mainStep whileAtJump = .ok whileClosed
    ∧ whileClosed.stdout = ["while (1) \x7b", "  var0 = 9", "\x7d"]
    ∧ whileClosed.block_stack = [] := by
  have hD : DriverState whileAtJumpif :=
    passes_driverState whileStart whileAtJumpif (passesFrom_passes 1 _ _ rfl)
      (DriverState.start _ rfl rfl rfl rfl rfl)
  have hP : Passes whileOpened whileAtJump := passesFrom_passes 2 _ _ rfl
  obtain ⟨s1, elseLines, h1, _, hnone, hout, hbs, hjump⟩ := C5_while.1 whileAtJumpif (.seInt 1) []
    false 5 13 hD (Or.inr ⟨by decide, Or.inr ⟨by decide, rfl⟩⟩) rfl rfl rfl (by decide)
    (by decide) (by simp [whileAtJumpif, plainFlags]) (by decide) (by decide) (by decide)
    rfl rfl
  have e1 : whileOpened = s1 :=
    Except.ok.inj ((rfl : mainStep whileAtJumpif = .ok whileOpened).symm.trans h1)
  subst e1
  obtain ⟨d, s2, more, hd, hq, hdb, hds, hm, hs2, hb2, _, hno⟩ := hjump whileAtJump hP
    (by decide) rfl
  have e2 : whileClosed = s2 :=
    Except.ok.inj ((rfl : mainStep whileAtJump = .ok whileClosed).symm.trans hm)
  subst e2
  have hmore : more = [] := hno (by intro q hq; cases hq)
  subst hmore
  exact ⟨hD, rfl, rfl, by decide, h1, rfl, hbs, hP, ⟨d, hd, hq, hdb, hds⟩, hm, hs2, hb2⟩

/-! The run with 256 frames open -/

theorem flatMap_range_length (f : Nat → List Nat) (h : ∀ i, (f i).length = 5) (n : Nat) :
    ((List.range n).flatMap f).length = 5 * n := by
  induction n with
  | zero => rfl
  | succ n ih =>
    rw [List.range_succ, List.flatMap_append, List.length_append, ih, List.flatMap_singleton, h]
    omega

theorem flatMap_range_getD (f : Nat → List Nat) (h : ∀ i, (f i).length = 5) (n : Nat) :
    ∀ (rest : List Nat) (k j : Nat), k < n → j < 5 →
      ((List.range n).flatMap f ++ rest).getD (5 * k + j) 0 = (f k).getD j 0 := by
  induction n with
  | zero => intro rest k j hk; omega
  | succ n ih =>
    intro rest k j hk hj
    rw [List.range_succ, List.flatMap_append, List.flatMap_singleton, List.append_assoc]
    by_cases hkn : k < n
    · exact ih (f n ++ rest) k j hkn hj
    · have hk2 : k = n := by omega
      subst hk2
      rw [List.getD_append_right _ _ _ _ (by rw [flatMap_range_length f h]; omega),
        flatMap_range_length f h, show 5 * k + j - 5 * k = j by omega,
        List.getD_append _ _ _ _ (by rw [h]; exact hj)]

theorem flatMap_range_tail (f : Nat → List Nat) (h : ∀ i, (f i).length = 5) (n : Nat)
    (rest : List Nat) (j : Nat) :
    ((List.range n).flatMap f ++ rest).getD (5 * n + j) 0 = rest.getD j 0 := by
  rw [List.getD_append_right _ _ _ _ (by rw [flatMap_range_length f h]; omega),
    flatMap_range_length f h, show 5 * n + j - 5 * n = j by omega]

/-- The bytes of the `i`-th nested conditional jump of `whileDeepBody`. -/
theorem whileDeepBody_nest (k j : Nat) (hk : k < 256) (hj : j < 5) :
    (scrpFile whileDeepBody).getD (8 + (5 * k + j)) 0
      = [0x00, 0x01, 0x5D, (1288 - 5 * k) % 256, (1288 - 5 * k) / 256].getD j 0 := by
  unfold scrpFile whileDeepBody
  rw [List.getD_append_right _ _ _ _ (by simp)]
  simp only [List.length_cons, List.length_nil, Nat.zero_add, Nat.reduceAdd, Nat.add_sub_cancel_left]
  exact flatMap_range_getD
    (fun i => [0x00, 0x01, 0x5D, (1288 - 5 * i) % 256, (1288 - 5 * i) / 256])
    (fun _ => rfl) 256 whileBody k j hk hj

/-- The bytes of scenario E at the end of `whileDeepBody`. -/
theorem whileDeepBody_tail (j : Nat) :
    (scrpFile whileDeepBody).getD (8 + (1280 + j)) 0 = whileBody.getD j 0 := by
  unfold scrpFile whileDeepBody
  rw [List.getD_append_right _ _ _ _ (by simp)]
  simp only [List.length_cons, List.length_nil, Nat.zero_add, Nat.reduceAdd, Nat.add_sub_cancel_left]
  exact flatMap_range_tail
    (fun i => [0x00, 0x01, 0x5D, (1288 - 5 * i) % 256, (1288 - 5 * i) / 256])
    (fun _ => rfl) 256 whileBody j

/-- The pass of the driver over the v6 push of a byte (opcode 0x00) in front of the end of
the top frame: the value is pushed, nothing is printed and no frame is closed. -/
theorem pushPass (s : State) (hv : s.scriptVersion ≠ 8) (hop : byteAt s s.cur_pos = 0x0)
    (hnest : ∀ q, s.block_stack.head? = some q → toU32 (get_curoffs s + 2) < q.to_) :
    mainStep s = .ok { s with
      output := "", cur_pos := s.cur_pos + 2,
      stack := se_int (byteAt s (s.cur_pos + 1)) :: s.stack } := by
  have hd : dispatch { s with output := "" } = .ok { s with
      output := "", cur_pos := s.cur_pos + 2,
      stack := se_int (byteAt s (s.cur_pos + 1)) :: s.stack } := by
    unfold dispatch
    have hv2 : ¬ ({ s with output := "" } : State).scriptVersion = 8 := hv
    rw [if_neg hv2, next_line_eq]
    have hb : byteAt { s with output := "" } ({ s with output := "" } : State).cur_pos = 0x0 := hop
    rw [hb, next_line_switch_00]
    rfl
  rw [mainStep_eq, hd]
  simp only
  rw [emitLine_silent _ _ _ rfl]
  have hcl : ∀ d : State, d.block_stack = s.block_stack →
      get_curoffs d = get_curoffs s + 2 → closeBlocks (num_block_stack d + 1) d = d := by
    intro d h1 h2
    exact closeBlocks_stop _ d (toU32 (get_curoffs s + 2)) (by rw [h2])
      (by rw [h1]; exact hnest)
  exact congrArg Except.ok (hcl _ rfl (by simp only [get_curoffs]; push_cast; omega))

/-- With 256 frames open `maybeAddIf` ends the run on a forward jump that stays inside
every open block. -/
theorem maybeAddIf_full (cur to_ : Nat) (s : State) (hlt : cur < to_) (h16 : to_ < 65536)
    (hnest : ∀ f ∈ s.block_stack, to_ ≤ f.to_) (hdepth : 256 ≤ s.block_stack.length) :
    maybeAddIf cur to_ s = .error (.exit 0 (s.stdout ++ ["BlockStack full!"])) := by
  unfold maybeAddIf
  have hchk : ¬ ((to_ ||| cur) >>> 16 ≠ 0 ∨ to_ ≤ cur) := by
    rw [or_shiftRight16]
    intro h
    rcases h with h | h
    · exact h ⟨h16, by omega⟩
    · omega
  have hany : s.block_stack.any (fun p => decide (to_ > p.to_)) = false := by
    rw [List.any_eq_false]
    intro f hf
    have := hnest f hf
    simp only [gt_iff_lt, decide_eq_true_eq, not_lt]
    exact this
  rw [if_neg hchk, hany]
  simp only [Bool.false_eq_true, if_false, pushBlockStackItem, num_block_stack]
  rw [if_pos (by omega)]

/-- The pass of the driver over a conditional jump of the shape of an `if` with no else
pending: the header is printed at the depth of the open frames and the frame is pushed. -/
theorem ifPass (s : State) (se : StackEnt) (stk : List StackEnt) (when : Bool) (c T : Nat)
    (hop : (s.scriptVersion = 8 ∧ ((byteAt s s.cur_pos = 0x64 ∧ when = true)
              ∨ (byteAt s s.cur_pos = 0x65 ∧ when = false)))
      ∨ (s.scriptVersion ≠ 8 ∧ ((byteAt s s.cur_pos = 0x5C ∧ when = true)
              ∨ (byteAt s s.cur_pos = 0x5D ∧ when = false))))
    (hstack : s.stack = se :: stk)
    (hc : jumpEnd s = (c : Int)) (hT : jumpTarget s = (T : Int)) (hlt : c < T)
    (h16 : T < 65536) (hnest : ∀ f ∈ s.block_stack, T ≤ f.to_)
    (hdepth : s.block_stack.length < 256)
    (hshape : whileShape s T = false) (hpend : s.pendingElse = false)
    (hifs : s.dontOutputIfs = false)
    (hhe : s.haveElse = false) (h0 : 0 ≤ s.offs_of_line) :
    mainStep s = .ok { s with
        cur_pos := s.cur_pos + jumpLength s.scriptVersion, stack := stk,
        block_stack := { isWhile := false, from_ := c, to_ := T } :: s.block_stack,
        output := "if (" ++ se_astext s.scriptVersion (if when then se_neg se else se) false
          ++ headerTail s T,
        pendingElse := false, haveElse := false, offs_of_line := (c : Int),
        stdout := s.stdout
          ++ [linePrefix s s.offs_of_line (byteAt s s.cur_pos)
            ++ getIndentString (num_block_stack s)
            ++ ("if (" ++ se_astext s.scriptVersion (if when then se_neg se else se) false
              ++ headerTail s T)] } := by
  have hgs : get_signed_word { s with output := "", cur_pos := s.cur_pos + 1, stack := stk }
      = (jumpDisplacement s,
          { s with
            output := "", cur_pos := s.cur_pos + jumpLength s.scriptVersion,
            stack := stk }) := by
    have h := get_signed_word_stack { s with output := "", cur_pos := s.cur_pos + 1 } stk
    rw [get_signed_word_dispatch] at h
    exact h
  have hc1 : get_curoffs
      ({ s with
          output := "", cur_pos := s.cur_pos + jumpLength s.scriptVersion,
          stack := stk } : State)
      = (c : Int) := by
    rw [← hc, jumpEnd_eq]
    simp only [get_curoffs]
    omega
  have hT1 : (c : Int) + jumpDisplacement s = (T : Int) := by
    rw [← hT, ← hc]; rfl
  have hj := jumpif_if _ _ se when (jumpDisplacement s) c T hgs hc1 hT1 hlt h16 hnest
    hdepth hpend hifs hshape
  have hd : dispatch { s with output := "" }
      = jumpif se when { s with output := "", cur_pos := s.cur_pos + 1, stack := stk } :=
    dispatch_jumpif s se stk when hstack hop
  rw [hj] at hd
  have hd2 : dispatch { s with output := "" } = .ok { s with
      cur_pos := s.cur_pos + jumpLength s.scriptVersion, stack := stk,
      block_stack := { isWhile := false, from_ := c, to_ := T } :: s.block_stack,
      output := "if (" ++ se_astext s.scriptVersion (if when then se_neg se else se) false
        ++ headerTail s T } := hd.trans rfl
  have hne : "if (" ++ se_astext s.scriptVersion (if when then se_neg se else se) false
      ++ headerTail s T ≠ "" := by
    simp only [String.append_assoc]
    exact str_append_ne_empty_left _ _ (by decide)
  rw [mainStep_eq, hd2]
  simp only
  rw [emitLine_stmt { s with
      cur_pos := s.cur_pos + jumpLength s.scriptVersion, stack := stk,
      block_stack := { isWhile := false, from_ := c, to_ := T } :: s.block_stack,
      output := "if (" ++ se_astext s.scriptVersion (if when then se_neg se else se) false
        ++ headerTail s T } _ _ hne hhe (by show s.offs_of_line ≠ -1; omega)
    (by show ((num_block_stack s : Nat) : Int) ≠ -1; omega)]
  have hcu : toU32 (c : Int) = c := toU32_natCast_of_lt (by omega)
  have hc2 : (s.cur_pos + jumpLength s.scriptVersion : Nat) - (s.org_pos : Int) = (c : Int) := by
    rw [← hc1]; rfl
  rw [closeBlocks_stop _ _ c (by simp only [get_curoffs, hc2, hcu])
    (by intro q hq; simp only [List.head?_cons, Option.some.injEq] at hq; rw [← hq]; exact hlt)]
  simp only [get_curoffs, hc2, num_block_stack, hpend, Bool.false_eq_true, if_false,
    List.append_nil]
  rfl

/-- The conditional jump of that shape with 256 frames open ends the run. -/
theorem jumpif_full (s s1 : State) (se : StackEnt) (when : Bool) (d : Int) (c T : Nat)
    (hgs : get_signed_word s = (d, s1)) (hc : get_curoffs s1 = (c : Int))
    (hT : (c : Int) + d = (T : Int)) (hlt : c < T) (h16 : T < 65536)
    (hnest : ∀ f ∈ s1.block_stack, T ≤ f.to_) (hdepth : 256 ≤ s1.block_stack.length)
    (hpend : s1.pendingElse = false) (hifs : s1.dontOutputIfs = false) :
    jumpif se when s = .error (.exit 0 (s1.stdout ++ ["BlockStack full!"])) := by
  unfold jumpif
  rw [hgs]
  simp only [hpend, Bool.false_eq_true, and_false, if_false, hifs, Bool.not_false, if_true, hc, hT]
  have hcu : toU32 (c : Int) = c := toU32_natCast_of_lt (by omega)
  have hTu : toU32 (T : Int) = T := toU32_natCast_of_lt (by omega)
  rw [hcu, hTu, maybeAddIf_full c T s1 hlt h16 hnest hdepth]

/-- The pass of the driver over a conditional jump with 256 frames open and no else pending,
when the jump leads forward and stays inside every open frame: the run ends with the
diagnostic of `pushBlockStackItem`. -/
theorem fullPass (s : State) (se : StackEnt) (stk : List StackEnt) (when : Bool) (c T : Nat)
    (hop : (s.scriptVersion = 8 ∧ ((byteAt s s.cur_pos = 0x64 ∧ when = true)
              ∨ (byteAt s s.cur_pos = 0x65 ∧ when = false)))
      ∨ (s.scriptVersion ≠ 8 ∧ ((byteAt s s.cur_pos = 0x5C ∧ when = true)
              ∨ (byteAt s s.cur_pos = 0x5D ∧ when = false))))
    (hstack : s.stack = se :: stk)
    (hc : jumpEnd s = (c : Int)) (hT : jumpTarget s = (T : Int)) (hlt : c < T)
    (h16 : T < 65536) (hnest : ∀ f ∈ s.block_stack, T ≤ f.to_)
    (hdepth : 256 ≤ s.block_stack.length) (hpend : s.pendingElse = false)
    (hifs : s.dontOutputIfs = false) :
    mainStep s = .error (.exit 0 (s.stdout ++ ["BlockStack full!"])) := by
  have hgs : get_signed_word { s with output := "", cur_pos := s.cur_pos + 1, stack := stk }
      = (jumpDisplacement s,
          { s with
            output := "", cur_pos := s.cur_pos + jumpLength s.scriptVersion,
            stack := stk }) := by
    have h := get_signed_word_stack { s with output := "", cur_pos := s.cur_pos + 1 } stk
    rw [get_signed_word_dispatch] at h
    exact h
  have hc1 : get_curoffs
      ({ s with
          output := "", cur_pos := s.cur_pos + jumpLength s.scriptVersion,
          stack := stk } : State)
      = (c : Int) := by
    rw [← hc, jumpEnd_eq]
    simp only [get_curoffs]
    omega
  have hT1 : (c : Int) + jumpDisplacement s = (T : Int) := by
    rw [← hT, ← hc]; rfl
  have hj := jumpif_full _ _ se when (jumpDisplacement s) c T hgs hc1 hT1 hlt h16 hnest
    hdepth hpend hifs
  have hd : dispatch { s with output := "" }
      = jumpif se when { s with output := "", cur_pos := s.cur_pos + 1, stack := stk } :=
    dispatch_jumpif s se stk when hstack hop
  rw [mainStep_eq, hd, hj]

theorem passes_snoc (a s s1 : State) (h : Passes a s) (hs : mainStep s = .ok s1) :
    Passes a s1 := by
  induction h with
  | refl s => exact Passes.step s s1 s1 hs (Passes.refl s1)
  | step s s2 t hstep _ ih => exact Passes.step s s2 s1 hstep (ih hs)

/-- The displacement of a v6 or v7 jump instruction at the cursor, by its two bytes. -/
theorem jumpDisplacement_word (s : State) (hv : s.scriptVersion ≠ 8) :
    jumpDisplacement s = toInt16 (byteAt s (s.cur_pos + 1) + 256 * byteAt s (s.cur_pos + 2)) := by
  unfold jumpDisplacement
  have hv2 : ¬ ({ s with cur_pos := s.cur_pos + 1 } : State).scriptVersion = 8 := hv
  rw [get_signed_word_at, if_neg hv2]
  unfold int16At
  have e0 : ((({ s with cur_pos := s.cur_pos + 1 } : State).org_pos : Nat) : Int)
      + get_curoffs { s with cur_pos := s.cur_pos + 1 } = ((s.cur_pos + 1 : Nat) : Int) := by
    simp only [get_curoffs]; omega
  have e1 : ((({ s with cur_pos := s.cur_pos + 1 } : State).org_pos : Nat) : Int)
      + get_curoffs { s with cur_pos := s.cur_pos + 1 } + 1 = ((s.cur_pos + 2 : Nat) : Int) := by
    simp only [get_curoffs]; push_cast; omega
  rw [e1, e0, byteAtInt_natCast, byteAtInt_natCast]
  rfl

/-- The displacement of the v6 or v7 jump instruction that ends at `T`, by its two bytes. -/
theorem jumpDisplacementBefore_word (s : State) (T : Nat) (hv : s.scriptVersion ≠ 8)
    (hT : 2 ≤ T) :
    jumpDisplacementBefore s T
      = toInt16 (byteAt s (s.org_pos + T - 2) + 256 * byteAt s (s.org_pos + T - 1)) := by
  unfold jumpDisplacementBefore
  rw [if_neg hv]
  unfold int16At
  have e0 : (s.org_pos : Int) + ((T : Int) - 2) = ((s.org_pos + T - 2 : Nat) : Int) := by omega
  have e1 : (s.org_pos : Int) + ((T : Int) - 2) + 1 = ((s.org_pos + T - 1 : Nat) : Int) := by
    omega
  rw [e1, e0, byteAtInt_natCast, byteAtInt_natCast]

/-- The five bytes of the `k`-th nested conditional jump, read through a state. -/
theorem whileDeep_bytes (s : State) (hm : s.mem = scrpFile whileDeepBody) (k : Nat)
    (hk : k < 256) (p : Nat) (hp : p = 8 + 5 * k) :
    byteAt s p = 0x00 ∧ byteAt s (p + 1) = 0x01 ∧ byteAt s (p + 2) = 0x5D
    ∧ byteAt s (p + 3) + 256 * byteAt s (p + 4) = 1288 - 5 * k := by
  subst hp
  unfold byteAt
  rw [hm]
  have h0 : (scrpFile whileDeepBody).getD (8 + (5 * k + 0)) 0 = 0x00 :=
    whileDeepBody_nest k 0 hk (by omega)
  have h1 : (scrpFile whileDeepBody).getD (8 + (5 * k + 1)) 0 = 0x01 :=
    whileDeepBody_nest k 1 hk (by omega)
  have h2 : (scrpFile whileDeepBody).getD (8 + (5 * k + 2)) 0 = 0x5D :=
    whileDeepBody_nest k 2 hk (by omega)
  have h3 : (scrpFile whileDeepBody).getD (8 + (5 * k + 3)) 0 = (1288 - 5 * k) % 256 :=
    whileDeepBody_nest k 3 hk (by omega)
  have h4 : (scrpFile whileDeepBody).getD (8 + (5 * k + 4)) 0 = (1288 - 5 * k) / 256 :=
    whileDeepBody_nest k 4 hk (by omega)
  have e1 : 8 + 5 * k + 1 = 8 + (5 * k + 1) := by omega
  have e2 : 8 + 5 * k + 2 = 8 + (5 * k + 2) := by omega
  have e3 : 8 + 5 * k + 3 = 8 + (5 * k + 3) := by omega
  have e4 : 8 + 5 * k + 4 = 8 + (5 * k + 4) := by omega
  rw [e1, e2, e3, e4, h1, h2, h3, h4]
  exact ⟨h0, rfl, rfl, Nat.mod_add_div _ _⟩

/-- The bytes of scenario E at the end of `whileDeepBody`, read through a state. -/
theorem whileDeep_tail (s : State) (hm : s.mem = scrpFile whileDeepBody) :
    byteAt s 1288 = 0x00 ∧ byteAt s 1289 = 0x01 ∧ byteAt s 1290 = 0x5D
    ∧ byteAt s 1291 = 0x08 ∧ byteAt s 1292 = 0x00 ∧ byteAt s 1298 = 0x73
    ∧ byteAt s 1299 = 0xF3 ∧ byteAt s 1300 = 0xFF := by
  unfold byteAt
  rw [hm]
  exact ⟨whileDeepBody_tail 0, whileDeepBody_tail 1, whileDeepBody_tail 2, whileDeepBody_tail 3,
    whileDeepBody_tail 4, whileDeepBody_tail 10, whileDeepBody_tail 11, whileDeepBody_tail 12⟩

theorem whileDeepStart_driverState : DriverState whileDeepStart :=
  DriverState.start whileDeepStart rfl rfl rfl rfl rfl

/-- The pass over one of the pushes of `whileDeepBody`: the one at offset 5 k in front of
the k-th nested conditional jump, or, for k = 256, the one of scenario E at offset 1280. -/
theorem whileDeep_push (s : State) (k : Nat) (hk : k ≤ 256)
    (hmem : s.mem = scrpFile whileDeepBody) (horg : s.org_pos = 8)
    (hver : s.scriptVersion = 6) (hcur : s.cur_pos = 8 + 5 * k)
    (hto : ∀ f ∈ s.block_stack, f.to_ = 1293) :
    mainStep s = .ok { s with
      output := "", cur_pos := s.cur_pos + 2, stack := se_int ((1 : Nat) : Int) :: s.stack } := by
  have hv : s.scriptVersion ≠ 8 := by rw [hver]; decide
  have hb : byteAt s s.cur_pos = 0x00 ∧ byteAt s (s.cur_pos + 1) = 0x01 := by
    by_cases hk2 : k < 256
    · obtain ⟨b0, b1, _, _⟩ := whileDeep_bytes s hmem k hk2 s.cur_pos hcur
      exact ⟨b0, b1⟩
    · have hk3 : k = 256 := by omega
      obtain ⟨t0, t1, _⟩ := whileDeep_tail s hmem
      rw [hcur, hk3]
      exact ⟨t0, t1⟩
  have hoffs : get_curoffs s = ((5 * k : Nat) : Int) := by
    simp only [get_curoffs, hcur, horg]; push_cast; omega
  have hpush := pushPass s hv hb.1 (by
    intro q hq
    have hq2 : q ∈ s.block_stack := List.mem_of_mem_head? hq
    rw [hto q hq2, hoffs]
    have h1 : toU32 (((5 * k : Nat) : Int) + 2) = 5 * k + 2 := by
      have h2 := toU32_natCast_of_lt (show 5 * k + 2 < 4294967296 by omega)
      rw [← h2]; congr 1
    rw [h1]; omega)
  rw [hb.2] at hpush
  exact hpush

/-- The pass over the k-th nested conditional jump of `whileDeepBody`. -/
theorem whileDeep_if (t : State) (k : Nat) (hk : k < 256) (se : StackEnt)
    (hmem : t.mem = scrpFile whileDeepBody) (horg : t.org_pos = 8)
    (hver : t.scriptVersion = 6) (hifs : t.dontOutputIfs = false)
    (hcur : t.cur_pos = 8 + 5 * k + 2) (hstack : t.stack = [se])
    (hlen : t.block_stack.length = k) (hto : ∀ f ∈ t.block_stack, f.to_ = 1293)
    (hpend : t.pendingElse = false) (hhe : t.haveElse = false)
    (hol : t.offs_of_line = ((5 * k : Nat) : Int)) :
    ∃ t1, mainStep t = .ok t1 ∧ t1.cur_pos = 8 + 5 * (k + 1) ∧ t1.stack = []
      ∧ t1.block_stack.length = k + 1 ∧ (∀ f ∈ t1.block_stack, f.to_ = 1293)
      ∧ t1.pendingElse = false ∧ t1.offs_of_line = ((5 * (k + 1) : Nat) : Int) := by
  have hv : t.scriptVersion ≠ 8 := by rw [hver]; decide
  have hjl : jumpLength t.scriptVersion = 3 := by rw [hver]; rfl
  obtain ⟨_, _, b2, b34⟩ := whileDeep_bytes t hmem k hk (8 + 5 * k) rfl
  rw [← hcur] at b2
  have hjd : jumpDisplacement t = ((1288 - 5 * k : Nat) : Int) := by
    rw [jumpDisplacement_word t hv, hcur,
      show 8 + 5 * k + 2 + 1 = 8 + 5 * k + 3 by omega,
      show 8 + 5 * k + 2 + 2 = 8 + 5 * k + 4 by omega, b34]
    exact toInt16_of_lt (by omega)
  have hje : jumpEnd t = ((5 * k + 5 : Nat) : Int) := by
    rw [jumpEnd_eq, hjl]
    simp only [get_curoffs, hcur, horg]
    push_cast
    omega
  obtain ⟨_, _, _, _, _, _, t6, t7⟩ := whileDeep_tail t hmem
  have hdb : jumpDisplacementBefore t 1293 = -13 := by
    rw [jumpDisplacementBefore_word t 1293 hv (by omega), horg]
    show toInt16 (byteAt t 1299 + 256 * byteAt t 1300) = _
    rw [t6, t7]
    decide
  have hshape : whileShape t 1293 = false := by
    unfold whileShape
    have hx : ¬ (t.offs_of_line = toInt32 1293 + int16At t (((1293 : Nat) : Int) - 2)) := by
      have h2 := hdb
      unfold jumpDisplacementBefore at h2
      rw [if_neg hv] at h2
      rw [h2, hol, toInt32_of_lt (by decide)]
      push_cast
      omega
    simp only [hv, if_false, decide_eq_false hx, Bool.and_false]
  have hif := ifPass t se [] false (5 * k + 5) 1293
    (Or.inr ⟨hv, Or.inr ⟨b2, rfl⟩⟩) hstack hje
    (by unfold jumpTarget; rw [hje, hjd]; push_cast; omega)
    (by omega) (by omega)
    (by intro f hf; rw [hto f hf])
    (by omega) hshape hpend hifs hhe (by rw [hol]; omega)
  refine ⟨_, hif, ?_, rfl, ?_, ?_, rfl, ?_⟩
  · show t.cur_pos + jumpLength t.scriptVersion = 8 + 5 * (k + 1)
    rw [hjl, hcur]
    omega
  · show (t.block_stack.length + 1) = k + 1
    rw [hlen]
  · intro f hf
    rcases List.mem_cons.mp hf with h | h
    · rw [h]
    · exact hto f h
  · show ((5 * k + 5 : Nat) : Int) = ((5 * (k + 1) : Nat) : Int)
    congr 1

/-- The run on `whileDeepBody` reaches, for every k up to 256, the state in front of the
k-th push with k frames open that all end at 1293. -/
theorem whileDeep_nested (k : Nat) (hk : k ≤ 256) :
    ∃ s, Passes whileDeepStart s ∧ s.cur_pos = 8 + 5 * k ∧ s.stack = []
      ∧ s.block_stack.length = k ∧ (∀ f ∈ s.block_stack, f.to_ = 1293)
      ∧ s.pendingElse = false ∧ s.offs_of_line = ((5 * k : Nat) : Int) := by
  induction k with
  | zero =>
    refine ⟨whileDeepStart, Passes.refl _, rfl, rfl, rfl, ?_, rfl, rfl⟩
    intro f hf
    cases hf
  | succ k ih =>
    obtain ⟨s, hP, hcur, hstk, hlen, hto, hpend, hol⟩ := ih (by omega)
    have hk2 : k < 256 := by omega
    obtain ⟨hcfg, _⟩ := passes_config _ _ hP
    obtain ⟨_, hmem, horg, _, hifs, _, _, _, _, _, _, hver⟩ := config_eq _ _ hcfg
    have hmem : s.mem = scrpFile whileDeepBody := hmem
    have horg : s.org_pos = 8 := horg
    have hifs : s.dontOutputIfs = false := hifs
    have hver : s.scriptVersion = 6 := hver
    have hpush := whileDeep_push s k (by omega) hmem horg hver hcur hto
    have hP1 := passes_snoc _ _ _ hP hpush
    have hD1 := passes_driverState _ _ hP1 whileDeepStart_driverState
    obtain ⟨hhe1, _⟩ := driverState_inv _ hD1
    obtain ⟨t1, hstep, h1, h2, h3, h4, h5, h6⟩ := whileDeep_if
      { s with
        output := "", cur_pos := s.cur_pos + 2, stack := se_int ((1 : Nat) : Int) :: s.stack }
      k hk2 (se_int ((1 : Nat) : Int))
      hmem horg hver hifs (by show s.cur_pos + 2 = 8 + 5 * k + 2; rw [hcur])
      (by show se_int ((1 : Nat) : Int) :: s.stack = [se_int ((1 : Nat) : Int)]; rw [hstk])
      hlen hto hpend hhe1 hol
    exact ⟨t1, passes_snoc _ _ _ hP1 hstep, h1, h2, h3, h4, h5, h6⟩

/-- The run on `whileDeepBody` reaches the conditional jump of scenario E at offset 1282
with 256 frames open; the state meets what scenario E asks for, and the pass over the
conditional jump ends the run with the diagnostic of `pushBlockStackItem`. -/
theorem whileDeep_full :
    ∃ s, Passes whileDeepStart s ∧ DriverState s ∧ get_curoffs s = 1282
      ∧ s.scriptVersion = 6 ∧ byteAt s s.cur_pos = 0x5D ∧ s.stack = [.seInt 1]
      ∧ jumpEnd s = 1285 ∧ jumpTarget s = 1293
      ∧ (∀ f ∈ s.block_stack, 1293 ≤ f.to_)
      ∧ byteAtInt s ((s.org_pos : Int) + 1293 - jumpLength s.scriptVersion)
          = jumpOpcodeOf s.scriptVersion
      ∧ (1293 : Int) + jumpDisplacementBefore s 1293 = s.offs_of_line
      ∧ s.dontOutputIfs = false ∧ s.dontOutputWhile = false
      ∧ s.block_stack.length = 256
      ∧ mainStep s = .error (.exit 0 (s.stdout ++ ["BlockStack full!"])) := by
  obtain ⟨s, hP, hcur, hstk, hlen, hto, hpend, hol⟩ := whileDeep_nested 256 (Nat.le_refl _)
  obtain ⟨hcfg, _⟩ := passes_config _ _ hP
  obtain ⟨_, hmem, horg, _, hifs, _, _, hwhile, _, _, _, hver⟩ := config_eq _ _ hcfg
  have hmem : s.mem = scrpFile whileDeepBody := hmem
  have horg : s.org_pos = 8 := horg
  have hifs : s.dontOutputIfs = false := hifs
  have hwhile : s.dontOutputWhile = false := hwhile
  have hver : s.scriptVersion = 6 := hver
  have hv : s.scriptVersion ≠ 8 := by rw [hver]; decide
  have hpush := whileDeep_push s 256 (Nat.le_refl _) hmem horg hver hcur hto
  have hP1 := passes_snoc _ _ _ hP hpush
  have hD1 := passes_driverState _ _ hP1 whileDeepStart_driverState
  obtain ⟨t, ht⟩ : ∃ t : State, t = { s with
      output := "", cur_pos := s.cur_pos + 2, stack := se_int ((1 : Nat) : Int) :: s.stack } :=
    ⟨_, rfl⟩
  rw [← ht] at hP1 hD1
  have tmem : t.mem = scrpFile whileDeepBody := by rw [ht]; exact hmem
  have torg : t.org_pos = 8 := by rw [ht]; exact horg
  have tver : t.scriptVersion = 6 := by rw [ht]; exact hver
  have tv : t.scriptVersion ≠ 8 := by rw [tver]; decide
  have tcur : t.cur_pos = 1290 := by rw [ht]; show s.cur_pos + 2 = 1290; rw [hcur]
  have tstk : t.stack = [.seInt 1] := by rw [ht]; show _ :: s.stack = _; rw [hstk]; rfl
  have tbs : t.block_stack = s.block_stack := by rw [ht]
  have tpend : t.pendingElse = false := by rw [ht]; exact hpend
  have tifs : t.dontOutputIfs = false := by rw [ht]; exact hifs
  have twhile : t.dontOutputWhile = false := by rw [ht]; exact hwhile
  have tol : t.offs_of_line = 1280 := by rw [ht]; exact hol
  have hjl : jumpLength t.scriptVersion = 3 := by rw [tver]; rfl
  obtain ⟨_, _, t2, t3, t4, t5, t6, t7⟩ := whileDeep_tail t tmem
  have hjd : jumpDisplacement t = 8 := by
    rw [jumpDisplacement_word t tv, tcur]
    show toInt16 (byteAt t 1291 + 256 * byteAt t 1292) = _
    rw [t3, t4]
    decide
  have hje : jumpEnd t = 1285 := by
    rw [jumpEnd_eq, hjl]
    simp only [get_curoffs, tcur, torg]
    decide
  have hjt : jumpTarget t = 1293 := by
    unfold jumpTarget; rw [hje, hjd]; decide
  have hdb : jumpDisplacementBefore t 1293 = -13 := by
    rw [jumpDisplacementBefore_word t 1293 tv (by omega), torg]
    show toInt16 (byteAt t 1299 + 256 * byteAt t 1300) = _
    rw [t6, t7]
    decide
  have hnest : ∀ f ∈ t.block_stack, 1293 ≤ f.to_ := by
    intro f hf
    rw [tbs] at hf
    rw [hto f hf]
  have hop : byteAt t t.cur_pos = 0x5D := by rw [tcur]; exact t2
  refine ⟨t, hP1, hD1, ?_, tver, hop, tstk, hje, hjt, hnest, ?_, ?_, tifs, twhile, ?_, ?_⟩
  · simp only [get_curoffs, tcur, torg]
    decide
  · rw [hjl, torg, tver]
    show byteAtInt t (((1298 : Nat) : Int)) = 0x73
    rw [byteAtInt_natCast]
    exact t5
  · rw [hdb, tol]; decide
  · rw [tbs]; exact hlen
  · exact fullPass t (.seInt 1) [] false 1285 1293 (Or.inr ⟨tv, Or.inr ⟨hop, rfl⟩⟩) tstk hje hjt
      (by omega) (by omega) hnest (by rw [tbs, hlen]) tpend tifs

/-- A pass that aborts behind passes that stay in front of the end of the script aborts the
loop of `main`. -/
theorem mainLoop_abort (endPos : Nat) (f : Fault) (a s : State) (h : Passes a s) :
    ∀ fuel, s.cur_pos < endPos → mainStep s = .error f → s.cur_pos - a.cur_pos < fuel →
      mainLoop endPos fuel a = .error f := by
  induction h with
  | refl s =>
    intro fuel _ herr hfuel
    cases fuel with
    | zero => omega
    | succ n => rw [mainLoop, herr]
  | step a a1 s hstep hrest ih =>
    intro fuel hend herr hfuel
    obtain ⟨_, hlt⟩ := mainStep_config a a1 hstep
    obtain ⟨_, hle⟩ := passes_config a1 s hrest
    cases fuel with
    | zero => omega
    | succ n =>
      rw [mainLoop, hstep]
      simp only
      rw [if_pos (by omega)]
      exact ih n hend herr (by omega)

/-- The part of `main` behind `fclose` on a file of type `SCRP` that fits the buffer, when
the loop aborts. -/
theorem decompile_scrp_abort (file : List Nat) (s : State) (f : Fault)
    (hlen : file.length ≤ 65536) (htag : tagOf file = [83, 67, 82, 80])
    (hloop : mainLoop file.length (file.length - 8 + 1)
      { s with mem := file, cur_pos := 8, org_pos := 8, offs_of_line := 0 } = .error f) :
    decompile file [] s = .error f := by
  unfold decompile
  have htake : file.take 65536 = file := List.take_of_length_le hlen
  simp only [htake, List.append_nil, htag]
  rw [if_pos trivial]
  show ((match mainLoop file.length (file.length - 8 + 1)
      { s with mem := file, cur_pos := 8, org_pos := 8, offs_of_line := 0 } with
    | .error f => .error f
    | .ok s => .ok (printEnd s)) : Result State) = .error f
  rw [hloop]

theorem whileDeepBody_length : (scrpFile whileDeepBody).length = 1301 := by
  unfold scrpFile whileDeepBody
  rw [List.length_append, List.length_append,
    flatMap_range_length
      (fun i => [0x00, 0x01, 0x5D, (1288 - 5 * i) % 256, (1288 - 5 * i) / 256])
      (fun _ => rfl) 256]
  rfl

/-- The run of the program on `whileDeepBody` with the flags `c` and `x` ends with the
diagnostic of `pushBlockStackItem`. -/
theorem whileDeep_main :
    ∃ out, main ["-cx", "script.bin"] (fun _ => some (scrpFile whileDeepBody)) []
      = .error (.exit 0 (out ++ ["BlockStack full!"])) := by
  obtain ⟨s, hP, _, hoffs, _, _, _, _, _, _, _, _, _, _, _, herr⟩ := whileDeep_full
  obtain ⟨hcfg, _⟩ := passes_config _ _ hP
  obtain ⟨_, _, horg, _⟩ := config_eq _ _ hcfg
  have horg : s.org_pos = 8 := horg
  have hcur : s.cur_pos = 1290 := by
    simp only [get_curoffs, horg] at hoffs
    omega
  have hstart : whileDeepStart.cur_pos = 8 := rfl
  have hloop := mainLoop_abort 1301 _ _ _ hP (1301 - 8 + 1) (by rw [hcur]; decide) herr
    (by rw [hcur, hstart]; decide)
  have hdec : decompile (scrpFile whileDeepBody) [] plainFlags
      = .error (.exit 0 (s.stdout ++ ["BlockStack full!"])) :=
    decompile_scrp_abort (scrpFile whileDeepBody) plainFlags _
      (by rw [whileDeepBody_length]; decide) rfl
      (by rw [whileDeepBody_length]; exact hloop)
  refine ⟨s.stdout, ?_⟩
  have hmain : ∀ file, main ["-cx", "script.bin"] (fun _ => some file) []
      = (match decompile file [] plainFlags with
        | .error f => .error f
        | .ok s => .ok (0, s.stdout)) := fun _ => rfl
  rw [hmain, hdec]

set_option maxRecDepth 100000 in
/-- C4, counterexamples: v6 and v8 bodies in which an if-body ends with an unconditional
forward jump that ends exactly at the end of the if-frame, and the output is not what the
claim says.  (1) With the flag 6 the second block of `elseIfBody` starts with an `if` whose
body ends with a jump to the same target: `} else if (1) {` is printed, not `} else {`.
(2) The target of the jump lies beyond the end of the enclosing `if`: a `jump` line is
printed and no else.  (3) The second block holds a push only: the frame is closed by `}`
before `} else {` is printed, and no brace follows the else.  (4) With the flag e a `jump`
line is printed.  (5) With the flag o the else line reads `} else /*0012*/ {`.  (6) On v8
the target 65561 is not below 65536: a `jump` line is printed. -/
theorem C4_counterexample :
    main ["-6cx", "script.bin"] (fun _ => some (scrpFile elseIfBody)) []
      = .ok (0, ["if (1) \x7b", "  var0 = 9", "\x7d else if (1) \x7b", "  var0 = 10",
                 "\x7d else \x7b", "  var0 = 11", "\x7d", "END", "Stack count: 0"])
    ∧ main ["-cx", "script.bin"] (fun _ => some (scrpFile elseBeyondBody)) []
      = .ok (0, ["if (1) \x7b", "  if (1) \x7b", "    var0 = 9", "    jump 19", "  \x7d", "\x7d",
                 "var0 = 10", "var0 = 11", "END", "Stack count: 0"])
    ∧ main ["-cx", "script.bin"] (fun _ => some (scrpFile elseOverPushBody)) []
      = .ok (0, ["if (1) \x7b", "  var0 = 9", "\x7d", "\x7d else \x7b", "var0 = 10", "END",
                 "Stack count: 0"])
    ∧ main ["-ecx", "script.bin"] (fun _ => some (scrpFile ifElseBody)) []
      = .ok (0, ["if (1) \x7b", "  var0 = 9", "  jump 12", "\x7d", "var0 = 10", "END",
                 "Stack count: 0"])
    ∧ main ["-ocx", "script.bin"] (fun _ => some (scrpFile ifElseBody)) []
      = .ok (0, ["if (1) /*000D*/ \x7b", "  var0 = 9", "\x7d else /*0012*/ \x7b",
                 "  var0 = 10", "\x7d", "END", "Stack count: 0"])
    ∧ main ["-8cx", "script.bin"] (fun _ => some (scrpFile elseFarBody8)) []
      = .ok (0, ["if (1) \x7b", "  var0 = 9", "  jump 10019", "\x7d", "var0 = 10", "END",
                 "Stack count: 0"]) := by
  refine ⟨rfl, rfl, rfl, rfl, rfl, rfl⟩

set_option maxRecDepth 100000 in
/-- C5, counterexamples: v6 bodies in which a conditional forward jump to T is followed by
a body whose last instruction is an unconditional jump that ends at T and leads back to the
start of the predicate, and the output is not what the claim says.  (1) Scenario E twice in
a row: the back-edge of the second loop leads to offset 13, where its predicate starts, but
the line start the program keeps is still 10, since the back-edge of the first loop left no
line: the second loop is printed as an `if` with a `jump` line.  (2) The loop begins inside
an `if` that ends in front of T: the predicate is printed as `if (!1) goto 12` and the
back-edge as `jump 5`.  (3) The body holds a conditional jump to T, whose frame is on top
when the back-edge is reached: a `jump` line is printed.  (4) With the flag w the loop is
printed as an `if` with a `jump` line, with the flag i as `goto` and `jump` lines.  (5) With
the flag o the header reads `while (1) /*000D*/ {`.  (6) Scenario E inside 256 nested
conditional jumps that lead to its end (`whileDeepBody`): the run of the program ends with
`BlockStack full!`; the state in front of the conditional jump of scenario E is reached by
passes of the loop, has the predicate on the stack, 256 frames open that all end at T = 1293,
the back-edge in front of T leading to the line start kept by the program, and the pass over
the conditional jump ends the run.  (7) Scenario E without the push of the predicate, with
the flag h: the run ends with `No items on stack to pop!` and the exit status 1. -/
theorem C5_counterexample :
    main ["-cx", "script.bin"] (fun _ => some (scrpFile (whileBody ++ whileBody))) []
      = .ok (0, ["while (1) \x7b", "  var0 = 9", "\x7d", "if (1) \x7b", "  var0 = 9",
                 "  jump d", "\x7d", "END", "Stack count: 0"])
    ∧ main ["-cx", "script.bin"] (fun _ => some (scrpFile whileAcrossIfBody)) []
      = .ok (0, ["if (1) \x7b", "  if (!1) goto 12", "  var0 = 9", "\x7d", "jump 5", "END",
                 "Stack count: 0"])
    ∧ main ["-cx", "script.bin"] (fun _ => some (scrpFile whileWithBreakBody)) []
      = .ok (0, ["while (1) \x7b", "  if (1) \x7b", "    var0 = 9", "    jump 0", "  \x7d",
                 "\x7d", "END", "Stack count: 0"])
    ∧ main ["-wcx", "script.bin"] (fun _ => some (scrpFile whileBody)) []
      = .ok (0, ["if (1) \x7b", "  var0 = 9", "  jump 0", "\x7d", "END", "Stack count: 0"])
    ∧ main ["-icx", "script.bin"] (fun _ => some (scrpFile whileBody)) []
      = .ok (0, ["if (!1) goto d", "var0 = 9", "jump 0", "END", "Stack count: 0"])
    ∧ main ["-ocx", "script.bin"] (fun _ => some (scrpFile whileBody)) []
      = .ok (0, ["while (1) /*000D*/ \x7b", "  var0 = 9", "\x7d", "END", "Stack count: 0"])
    ∧ (∃ out, main ["-cx", "script.bin"] (fun _ => some (scrpFile whileDeepBody)) []
        = .error (.exit 0 (out ++ ["BlockStack full!"])))
    ∧ (∃ s, Passes whileDeepStart s ∧ DriverState s ∧ get_curoffs s = 1282
        ∧ s.scriptVersion = 6 ∧ byteAt s s.cur_pos = 0x5D ∧ s.stack = [.seInt 1]
        ∧ jumpEnd s = 1285 ∧ jumpTarget s = 1293
        ∧ (∀ f ∈ s.block_stack, 1293 ≤ f.to_)
        ∧ byteAtInt s ((s.org_pos : Int) + 1293 - jumpLength s.scriptVersion)
            = jumpOpcodeOf s.scriptVersion
        ∧ (1293 : Int) + jumpDisplacementBefore s 1293 = s.offs_of_line
        ∧ s.dontOutputIfs = false ∧ s.dontOutputWhile = false
        ∧ s.block_stack.length = 256
        ∧ mainStep s = .error (.exit 0 (s.stdout ++ ["BlockStack full!"])))
    ∧ main ["-chx", "script.bin"] (fun _ => some (scrpFile whileNoPredicateBody)) []
      = .error (.exit 1 ["No items on stack to pop!"]) := by
  refine ⟨rfl, rfl, rfl, rfl, rfl, rfl, whileDeep_main, whileDeep_full, rfl⟩

end Descumm6
